import Mathlib

/-!
# delta-test: the state-synchronisation engine

A shallow embedding of

* `backend/src/data/patientSimulator.js` (the entity store and its two mutation passes),
* `backend/src/websocket/wsHandler.js` (the per-connection mode scheduler),
* `frontend/src/hooks/useWebSocket.js` (`applyDeltaUpdates`, `setNestedValue`),

followed by the theorems about them.

Modelling conventions.

* JavaScript numbers are exact rationals (`ℚ`); `Math.round x` is `⌊x + 1/2⌋`,
  `Math.floor x` is `⌊x⌋`.
* `Math.random()` and the clock are an explicit oracle: the k-th draw and the k-th
  clock reading are `random k` and `now k`, consumed in program order.
  `Date.prototype.toISOString` is a parameter of the oracle.
* Objects are records of own properties, keys kept in insertion order (the order
  JavaScript uses for keys that are not array indices).  The prototype chain is not
  modelled: a lookup finds own properties only, and the key `__proto__` is a key like
  any other.  In-place mutation of a tree without sharing is a functional update.
* Arrays are lists; they are read and written at the canonical decimal indices below
  their length.  Any other write to an array (at `length`, at an index past the end, at
  a named key), which JavaScript completes by resizing the array or by giving it a named
  property, is reported as `JsError.outsideModel`: the run stops there and is no account
  of what the code does next.
-/

namespace DeltaTest

/-! ## JSON values -/

/-- JSON value trees: what `JSON.parse` returns. -/
inductive JVal where
  | null : JVal
  | bool (b : Bool) : JVal
  | num (q : ℚ) : JVal
  | str (s : String) : JVal
  | arr (xs : List JVal) : JVal
  | obj (kvs : List (String × JVal)) : JVal
deriving Inhabited

mutual
/-- Decidable equality of JSON values. -/
def JVal.decEq : (a b : JVal) → Decidable (a = b)
  | .null, .null => isTrue rfl
  | .bool a, .bool b =>
    if h : a = b then isTrue (by rw [h]) else isFalse (fun e => h (JVal.bool.inj e))
  | .num a, .num b =>
    if h : a = b then isTrue (by rw [h]) else isFalse (fun e => h (JVal.num.inj e))
  | .str a, .str b =>
    if h : a = b then isTrue (by rw [h]) else isFalse (fun e => h (JVal.str.inj e))
  | .arr a, .arr b =>
    match JVal.decEqList a b with
    | isTrue h => isTrue (by rw [h])
    | isFalse h => isFalse (fun e => h (JVal.arr.inj e))
  | .obj a, .obj b =>
    match JVal.decEqFields a b with
    | isTrue h => isTrue (by rw [h])
    | isFalse h => isFalse (fun e => h (JVal.obj.inj e))
  | .null, .bool _ | .null, .num _ | .null, .str _ | .null, .arr _ | .null, .obj _ =>
    isFalse nofun
  | .bool _, .null | .bool _, .num _ | .bool _, .str _ | .bool _, .arr _ | .bool _, .obj _ =>
    isFalse nofun
  | .num _, .null | .num _, .bool _ | .num _, .str _ | .num _, .arr _ | .num _, .obj _ =>
    isFalse nofun
  | .str _, .null | .str _, .bool _ | .str _, .num _ | .str _, .arr _ | .str _, .obj _ =>
    isFalse nofun
  | .arr _, .null | .arr _, .bool _ | .arr _, .num _ | .arr _, .str _ | .arr _, .obj _ =>
    isFalse nofun
  | .obj _, .null | .obj _, .bool _ | .obj _, .num _ | .obj _, .str _ | .obj _, .arr _ =>
    isFalse nofun
/-- Decidable equality of lists of JSON values. -/
def JVal.decEqList : (a b : List JVal) → Decidable (a = b)
  | [], [] => isTrue rfl
  | [], _ :: _ => isFalse nofun
  | _ :: _, [] => isFalse nofun
  | x :: xs, y :: ys =>
    match JVal.decEq x y, JVal.decEqList xs ys with
    | isTrue h, isTrue t => isTrue (by rw [h, t])
    | isFalse h, _ => isFalse (fun e => h (List.cons.inj e).1)
    | _, isFalse t => isFalse (fun e => t (List.cons.inj e).2)
/-- Decidable equality of property lists. -/
def JVal.decEqFields : (a b : List (String × JVal)) → Decidable (a = b)
  | [], [] => isTrue rfl
  | [], _ :: _ => isFalse nofun
  | _ :: _, [] => isFalse nofun
  | (k, x) :: xs, (l, y) :: ys =>
    if hk : k = l then
      match JVal.decEq x y, JVal.decEqFields xs ys with
      | isTrue h, isTrue t => isTrue (by rw [hk, h, t])
      | isFalse h, _ => isFalse (fun e => h (Prod.mk.inj (List.cons.inj e).1).2)
      | _, isFalse t => isFalse (fun e => t (List.cons.inj e).2)
    else isFalse (fun e => hk (Prod.mk.inj (List.cons.inj e).1).1)
end

instance : DecidableEq JVal := JVal.decEq

/-- How a run of the model stops short: `typeError` is the TypeError JavaScript raises;
`outsideModel` marks an assignment the model does not follow, which JavaScript
completes. -/
inductive JsError where
  | typeError : JsError
  | outsideModel : JsError
deriving DecidableEq, Repr, Inhabited

instance instDecidableEqExcept {ε α : Type} [DecidableEq ε] [DecidableEq α] :
    DecidableEq (Except ε α)
  | .ok a, .ok b =>
    if h : a = b then isTrue (by rw [h]) else isFalse (fun e => h (Except.ok.inj e))
  | .error a, .error b =>
    if h : a = b then isTrue (by rw [h]) else isFalse (fun e => h (Except.error.inj e))
  | .ok _, .error _ => isFalse nofun
  | .error _, .ok _ => isFalse nofun

/-- Own property lookup `o[k]` in a record; `none` is `undefined`. -/
def propGet {α : Type} : List (String × α) → String → Option α
  | [], _ => none
  | (k, v) :: rest, key => if k = key then some v else propGet rest key

/-- Own property assignment `o[k] = v` in a record: an existing key keeps its place,
a new key goes last. -/
def propSet {α : Type} : List (String × α) → String → α → List (String × α)
  | [], key, v => [(key, v)]
  | (k, w) :: rest, key, v =>
    if k = key then (k, v) :: rest else (k, w) :: propSet rest key v

/-- The position named by `key` in an array of length `n`: `key` is the canonical decimal
form of an index below `n`. -/
def arrayIndex (n : Nat) (key : String) : Option Nat :=
  (List.range n).find? (fun i => decide (toString i = key))

/-- The test `typeof x === 'object'`: true of objects, arrays and `null`. -/
def JVal.isObjectType : JVal → Bool
  | .null => true
  | .arr _ => true
  | .obj _ => true
  | _ => false

/-- JavaScript truthiness of a JSON value. -/
def JVal.truthy : JVal → Bool
  | .null => false
  | .bool b => b
  | .num q => decide (q ≠ 0)
  | .str s => decide (s ≠ "")
  | .arr _ => true
  | .obj _ => true

/-- The read `x[key]` on a value that is not `null`; `none` is `undefined`. -/
def JVal.getProp : JVal → String → Option JVal
  | .obj kvs, key => propGet kvs key
  | .arr xs, key =>
    match arrayIndex xs.length key with
    | some i => xs.get? i
    | none => if key = "length" then some (.num xs.length) else none
  | .str s, key =>
    match arrayIndex s.length key with
    | some i => (s.data.get? i).map (fun c => .str (String.singleton c))
    | none => if key = "length" then some (.num s.length) else none
  | _, _ => none

/-- The read `x[key]`, which raises a TypeError on `null`. -/
def JVal.readProp : JVal → String → Except JsError (Option JVal)
  | .null, _ => .error .typeError
  | x, key => .ok (x.getProp key)

/-- The test `key in x`, which raises a TypeError unless `x` is an object or an array. -/
def JVal.hasProp : JVal → String → Except JsError Bool
  | .obj kvs, key => .ok (propGet kvs key).isSome
  | .arr xs, key => .ok ((arrayIndex xs.length key).isSome || decide (key = "length"))
  | _, _ => .error .typeError

/-- The assignment `x[key] = v` in strict mode (the hook is an ES module): a TypeError on
`null` and on primitives.  On an array the model follows the assignment at one of its
indices only; at `length`, at an index past the end and at a named key, where JavaScript
truncates or grows the array or gives it a named property, the result is
`.error .outsideModel`. -/
def JVal.setProp : JVal → String → JVal → Except JsError JVal
  | .obj kvs, key, v => .ok (.obj (propSet kvs key v))
  | .arr xs, key, v =>
    match arrayIndex xs.length key with
    | some i => .ok (.arr (xs.set i v))
    | none => .error .outsideModel
  | _, _, _ => .error .typeError

/-- The container `x` after the value it holds at `key` was mutated in place to `v`. -/
def JVal.writeBack : JVal → String → JVal → JVal
  | .obj kvs, key, v => .obj (propSet kvs key v)
  | .arr xs, key, v =>
    match arrayIndex xs.length key with
    | some i => .arr (xs.set i v)
    | none => .arr xs
  | x, _, _ => x

/-- The value a container holds under `key`: a property of an object, an element of an
array; `none` for every other value. -/
def JVal.child : JVal → String → Option JVal
  | .obj kvs, key => propGet kvs key
  | .arr xs, key => (arrayIndex xs.length key).bind (fun i => xs.get? i)
  | _, _ => none

/-- Reading a value along a list of keys; `none` when a key is missing on the way. -/
def getPath : JVal → List String → Option JVal
  | x, [] => some x
  | x, key :: rest => (x.child key).bind (fun c => getPath c rest)

/-- What a value is, its children apart: a scalar with its value, an array with its
length, or an object. -/
inductive Shape where
  | null : Shape
  | bool (b : Bool) : Shape
  | num (q : ℚ) : Shape
  | str (s : String) : Shape
  | arr (length : Nat) : Shape
  | obj : Shape
deriving DecidableEq

/-- The shape of a value. -/
def JVal.shape : JVal → Shape
  | .null => Shape.null
  | .bool b => Shape.bool b
  | .num q => Shape.num q
  | .str s => Shape.str s
  | .arr xs => Shape.arr xs.length
  | .obj _ => Shape.obj

/-- Equality field by field: along every list of keys the two values hold the same
shape.  It is equality of JSON values up to the order of the keys of objects. -/
def JVal.sameFields (x y : JVal) : Prop :=
  ∀ r : List String, (getPath x r).map JVal.shape = (getPath y r).map JVal.shape

/-- Two runs of the model agree: both stop short, or both return and the values are equal
field by field.  What a raising call has written before it raises is not part of an
outcome. -/
def sameOutcome : Except JsError JVal → Except JsError JVal → Prop
  | .ok x, .ok y => x.sameFields y
  | .error _, .error _ => True
  | _, _ => False

/-- The run is an account of the code to its end: it returned or raised a TypeError, and
did not stop at an assignment to an array outside its indices. -/
def insideModel : Except JsError JVal → Bool
  | .error .outsideModel => false
  | _ => true

/-- Two outcomes of the code agree: both raise a TypeError, or both return and the values
are equal field by field.  A run that stopped at `.error .outsideModel` is no outcome of
the code and agrees with nothing. -/
def sameResult : Except JsError JVal → Except JsError JVal → Prop
  | .ok x, .ok y => x.sameFields y
  | .error .typeError, .error .typeError => True
  | _, _ => False

/-- Two key lists part ways: at some position both have a key and the keys differ, the
keys before being the same.  It holds exactly when neither list is a prefix of the
other. -/
def diverge : List String → List String → Bool
  | a :: p, b :: q => if a = b then diverge p q else true
  | _, _ => false

/-- The assignment `x[key] = …` succeeds: `x` is an object, or an array and `key` one of
its indices. -/
def JVal.writable : JVal → String → Bool
  | .obj _, _ => true
  | .arr xs, key => (arrayIndex xs.length key).isSome
  | _, _ => false

/-- The value `setNestedValue` descends into at `key`: the one held there when its type
is `object`, a new empty object otherwise. -/
def JVal.sub (x : JVal) (key : String) : JVal :=
  match x.getProp key with
  | some c => if c.isObjectType then c else .obj []
  | none => .obj []

/-! ## `frontend/src/hooks/useWebSocket.js` -/

/-- Worker of `String.prototype.split('.')`: `acc` holds the current piece reversed. -/
def splitAux : List Char → List Char → List String
  | acc, [] => [String.mk acc.reverse]
  | acc, c :: cs =>
    if c = '.' then String.mk acc.reverse :: splitAux [] cs else splitAux (c :: acc) cs

/-- The keys `path.split('.')`. -/
def splitPath (path : String) : List String := splitAux [] path.data

/-- No key of the field path is `__proto__`, under which an object gives its prototype
and not a property of its own. -/
def plainPath (path : String) : Bool := decide ("__proto__" ∉ splitPath path)

/-- The body of `setNestedValue` on the key list: the loop over all keys but the last,
then the assignment at the last key. -/
def setNestedKeys (current : JVal) : List String → JVal → Except JsError JVal
  | [], value => current.setProp "undefined" value
  | [last], value => current.setProp last value
  | key :: k :: rest, value => do
    let present ← current.hasProp key
    let existing := if present then current.getProp key else none
    match existing with
    | some child =>
      if child.isObjectType then do
        let child' ← setNestedKeys child (k :: rest) value
        pure (current.writeBack key child')
      else do
        let current' ← current.setProp key (.obj [])
        let child' ← setNestedKeys (.obj []) (k :: rest) value
        pure (current'.writeBack key child')
    | none => do
      let current' ← current.setProp key (.obj [])
      let child' ← setNestedKeys (.obj []) (k :: rest) value
      pure (current'.writeBack key child')

/-- Embedding of `setNestedValue(obj, path, value)`. -/
def setNestedValue (obj : JVal) (path : String) (value : JVal) : Except JsError JVal :=
  setNestedKeys obj (splitPath path) value

/-- What `setNestedValue` makes of the value held at a key, given the keys left: the new
value itself when none is left, else the held value written at the keys left. -/
def writeAt (c : JVal) : List String → JVal → Except JsError JVal
  | [], value => .ok value
  | k :: rest, value => setNestedKeys c (k :: rest) value

/-- A Patch: collection, then entity id, then field path, then the new value. -/
abbrev Patch := List (String × List (String × List (String × JVal)))

/-- The innermost loop of `applyDeltaUpdates`: every path of one entity's changes. -/
def applyPaths (entity : JVal) : List (String × JVal) → Except JsError JVal
  | [] => .ok entity
  | (path, value) :: rest => do
    let entity' ← setNestedValue entity path value
    applyPaths entity' rest

/-- The middle loop of `applyDeltaUpdates`: every entity id of one collection's changes;
an id whose entity is falsy in the mirror is skipped. -/
def applyEntities (coll : JVal) : List (String × List (String × JVal)) → Except JsError JVal
  | [] => .ok coll
  | (entityId, paths) :: rest =>
    match coll.getProp entityId with
    | some entity =>
      if entity.truthy then do
        let entity' ← applyPaths entity paths
        applyEntities (coll.writeBack entityId entity') rest
      else applyEntities coll rest
    | none => applyEntities coll rest

/-- The outer loop of `applyDeltaUpdates`: every collection of the changes; a collection
that is falsy in the mirror is skipped. -/
def applyCollections (data : JVal) : Patch → Except JsError JVal
  | [] => .ok data
  | (entityType, entities) :: rest => do
    match (← data.readProp entityType) with
    | some coll =>
      if coll.truthy then do
        let coll' ← applyEntities coll entities
        applyCollections (data.writeBack entityType coll') rest
      else applyCollections data rest
    | none => applyCollections data rest

/-- Embedding of `applyDeltaUpdates(currentData, changes)`; `stamp` is the ISO string of
the clock reading.  The deep clone `JSON.parse(JSON.stringify(currentData))` is the
identity on JSON trees. -/
def applyDeltaUpdates (currentData : JVal) (changes : Patch) (stamp : String) :
    Except JsError JVal := do
  let updatedData ← applyCollections currentData changes
  updatedData.setProp "timestamp" (.str stamp)

/-- No field path of an entity's changes is a prefix, key by key, of another field path
of the same entity. -/
def Patch.pathsApart (p : Patch) : Prop :=
  ∀ coll ents, (coll, ents) ∈ p → ∀ id paths, (id, paths) ∈ ents →
    paths.Pairwise (fun a b => diverge (splitPath a.1) (splitPath b.1) = true)

/-- Every field path of the Patch is free of the key `__proto__`. -/
def Patch.plainPaths (p : Patch) : Bool :=
  p.all (fun ce => ce.2.all (fun e => e.2.all (fun pv => plainPath pv.1)))

/-- Two Patches with the same collections and the same entities in the same order, the
field paths of each entity being the same up to their order. -/
def Patch.sameUpToPathOrder (p p2 : Patch) : Prop :=
  List.Forall₂
    (fun c c2 => c.1 = c2.1
      ∧ List.Forall₂ (fun e e2 => e.1 = e2.1 ∧ List.Perm e.2 e2.2) c.2 c2.2)
    p p2

/-! ## The oracle: `Math.random()` and the clock -/

/-- The outcomes of the random draws and of the clock, with the number of each consumed so
far. -/
structure Oracle where
  /-- `random k` is what the k-th call of `Math.random()` returns. -/
  random : Nat → ℚ
  /-- `now k` is the k-th clock reading, in milliseconds since the epoch. -/
  now : Nat → Int
  /-- `Date.prototype.toISOString`, on milliseconds since the epoch. -/
  toISOString : Int → String
  draws : Nat
  reads : Nat

/-- One call of `Math.random()`. -/
def Oracle.nextRandom (o : Oracle) : ℚ × Oracle :=
  (o.random o.draws, { o with draws := o.draws + 1 })

/-- One call of `Date.now()`. -/
def Oracle.nextNow (o : Oracle) : Int × Oracle :=
  (o.now o.reads, { o with reads := o.reads + 1 })

/-- One evaluation of `new Date().toISOString()`. -/
def Oracle.nextISO (o : Oracle) : String × Oracle :=
  (o.toISOString (o.now o.reads), { o with reads := o.reads + 1 })

/-- `Math.round`, which rounds halves up. -/
def mathRound (x : ℚ) : ℤ := ⌊x + 1 / 2⌋

/-- The integer part kept by `new Date(x)`: truncation towards zero. -/
def truncate (x : ℚ) : ℤ := if 0 ≤ x then ⌊x⌋ else ⌈x⌉

/-! ## `backend/src/data/patientSimulator.js`: the data model -/

/-- The object `vitals.bloodPressure`. -/
structure BloodPressure where
  systolic : ℚ
  diastolic : ℚ
  meanArterialPressure : ℚ
deriving DecidableEq

/-- The object `vitals.pulmonaryArterialPressure`. -/
structure PulmonaryArterialPressure where
  systolic : ℚ
  diastolic : ℚ
deriving DecidableEq

/-- The object `vitals.glasgowComaScale`. -/
structure GlasgowComaScale where
  eye : ℚ
  verbal : ℚ
  motor : ℚ
  total : ℚ
deriving DecidableEq

/-- The object `patient.vitals`, keys in declaration order. -/
structure Vitals where
  heartRate : ℚ
  bloodPressure : BloodPressure
  spo2 : ℚ
  temperature : ℚ
  respiratoryRate : ℚ
  centralVenousPressure : ℚ
  pulmonaryArterialPressure : PulmonaryArterialPressure
  cardiacOutput : ℚ
  intracranialPressure : ℚ
  bloodGlucose : ℚ
  urinOutput : ℚ
  painScore : ℚ
  glasgowComaScale : GlasgowComaScale
deriving DecidableEq

/-- One entry of `patient.medications`.  `descr` holds the properties before `lastGiven`
(id, name, dosage, route, frequency) and `notes` those after `nextDue` (prescribedBy,
indication, sideEffects, contraindications); no pass writes them. -/
structure Medication where
  descr : List (String × JVal)
  lastGiven : String
  nextDue : String
  notes : List (String × JVal)
deriving DecidableEq

/-- One patient.  `profile` holds the properties before `vitals` (name … bloodType),
`chart` those between `medications` and `status` (labResults … orders) and `admission`
those after `status` (room … insurance); no pass writes them. -/
structure Patient where
  profile : List (String × JVal)
  vitals : Vitals
  medications : List Medication
  chart : List (String × JVal)
  status : String
  admission : List (String × JVal)
deriving DecidableEq

/-- One piece of equipment. -/
structure Equipment where
  type : String
  status : String
  patient : String
  lastMaintenance : String
  batteryLevel : ℚ
deriving DecidableEq

/-- The object `data.metrics`. -/
structure Metrics where
  totalPatients : Nat
  criticalPatients : Nat
  activeEquipment : Nat
deriving DecidableEq

/-- The store `this.data` of the simulator. -/
structure Store where
  ward : String
  patients : List (String × Patient)
  equipment : List (String × Equipment)
  timestamp : String
  metrics : Metrics
deriving DecidableEq

/-- A change record `{ patientId | equipmentId, path, oldValue, newValue }`; an absent id
is `none`. -/
structure Change where
  patientId : Option String
  equipmentId : Option String
  path : String
  oldValue : JVal
  newValue : JVal
deriving DecidableEq

/-- A change record of a patient. -/
def patientChange (patientId path : String) (oldValue newValue : JVal) : Change :=
  { patientId := some patientId, equipmentId := none, path := path,
    oldValue := oldValue, newValue := newValue }

/-- A change record of a piece of equipment. -/
def equipmentChange (equipmentId path : String) (oldValue newValue : JVal) : Change :=
  { patientId := none, equipmentId := some equipmentId, path := path,
    oldValue := oldValue, newValue := newValue }

/-! ## `backend/src/data/patientSimulator.js`: the mutation passes -/

/-- Embedding of `adjustValue(current, min, max, maxChange)`: one draw. -/
def adjustValue (current min max maxChange : ℚ) (o : Oracle) : ℚ × Oracle :=
  let (r, o) := o.nextRandom
  let change := (r - 0.5) * 2 * maxChange
  let newValue := current + change
  (Max.max min (Min.min max ((mathRound (newValue * 10) : ℚ) / 10)), o)

/-- The swap `[a[i], a[j]] = [a[j], a[i]]` of `shuffleArray`, on positions of the array. -/
def swapAt (a : List String) (i j : Nat) : List String :=
  match a.get? i, a.get? j with
  | some ai, some aj => (a.set i aj).set j ai
  | _, _ => a

/-- The loop of `shuffleArray` from position `i` down to 1. -/
def shuffleLoop : Nat → List String → Oracle → List String × Oracle
  | 0, shuffled, o => (shuffled, o)
  | i + 1, shuffled, o =>
    let (r, o) := o.nextRandom
    let j := ⌊r * (((i + 1 : ℕ) : ℚ) + 1)⌋.toNat
    shuffleLoop i (swapAt shuffled (i + 1) j) o

/-- Embedding of `shuffleArray(array)`. -/
def shuffleArray (array : List String) (o : Oracle) : List String × Oracle :=
  shuffleLoop (array.length - 1) array o

/-- The five guarded adjustments of `updateVitals` on one patient's vitals, in source
order. -/
def adjustVitals (v : Vitals) (o : Oracle) : Vitals × Oracle :=
  let (r, o) := o.nextRandom
  let (v, o) :=
    if r > 0.3 then
      let (x, o) := adjustValue v.heartRate 60 100 5 o
      ({ v with heartRate := x }, o)
    else (v, o)
  let (r, o) := o.nextRandom
  let (v, o) :=
    if r > 0.5 then
      let (x, o) := adjustValue v.spo2 95 100 2 o
      ({ v with spo2 := x }, o)
    else (v, o)
  let (r, o) := o.nextRandom
  let (v, o) :=
    if r > 0.7 then
      let (x, o) := adjustValue v.temperature 36.0 37.5 0.3 o
      ({ v with temperature := x }, o)
    else (v, o)
  let (r, o) := o.nextRandom
  let (v, o) :=
    if r > 0.6 then
      let (x, o) := adjustValue v.respiratoryRate 12 20 2 o
      ({ v with respiratoryRate := x }, o)
    else (v, o)
  let (r, o) := o.nextRandom
  if r > 0.4 then
    let (x, o) := adjustValue v.bloodPressure.systolic 90 140 5 o
    let (y, o) := adjustValue v.bloodPressure.diastolic 60 90 3 o
    ({ v with bloodPressure := { v.bloodPressure with systolic := x, diastolic := y } }, o)
  else (v, o)

/-- What `oldVitals = { ...patient.vitals }` reads after the adjustments.  The spread copies
one level: a number is kept as it was at the copy, while `bloodPressure`,
`pulmonaryArterialPressure` and `glasgowComaScale` are copied as references to the
patient's own objects, so they read the current contents. -/
def oldVitalsView (copied current : Vitals) : Vitals :=
  { copied with
    bloodPressure := current.bloodPressure
    pulmonaryArterialPressure := current.pulmonaryArterialPressure
    glasgowComaScale := current.glasgowComaScale }

/-- The guarded `changes.push` on a numeric field: a record when `old !== new`. -/
def pushIfChanged (patientId path : String) (old new : ℚ) : List Change :=
  if old ≠ new then [patientChange patientId path (.num old) (.num new)] else []

/-- The loop `Object.keys(patient.vitals).forEach` of `updateVitals`, in key order.  The
keys `pulmonaryArterialPressure` and `glasgowComaScale` hold objects, compared by
reference with themselves: they never push. -/
def vitalsChanges (patientId : String) (oldVitals vitals : Vitals) : List Change :=
  pushIfChanged patientId "vitals.heartRate" oldVitals.heartRate vitals.heartRate
  ++ (pushIfChanged patientId "vitals.bloodPressure.systolic"
        oldVitals.bloodPressure.systolic vitals.bloodPressure.systolic
      ++ pushIfChanged patientId "vitals.bloodPressure.diastolic"
        oldVitals.bloodPressure.diastolic vitals.bloodPressure.diastolic
      ++ pushIfChanged patientId "vitals.bloodPressure.meanArterialPressure"
        oldVitals.bloodPressure.meanArterialPressure vitals.bloodPressure.meanArterialPressure)
  ++ pushIfChanged patientId "vitals.spo2" oldVitals.spo2 vitals.spo2
  ++ pushIfChanged patientId "vitals.temperature" oldVitals.temperature vitals.temperature
  ++ pushIfChanged patientId "vitals.respiratoryRate"
      oldVitals.respiratoryRate vitals.respiratoryRate
  ++ pushIfChanged patientId "vitals.centralVenousPressure"
      oldVitals.centralVenousPressure vitals.centralVenousPressure
  ++ pushIfChanged patientId "vitals.cardiacOutput" oldVitals.cardiacOutput vitals.cardiacOutput
  ++ pushIfChanged patientId "vitals.intracranialPressure"
      oldVitals.intracranialPressure vitals.intracranialPressure
  ++ pushIfChanged patientId "vitals.bloodGlucose" oldVitals.bloodGlucose vitals.bloodGlucose
  ++ pushIfChanged patientId "vitals.urinOutput" oldVitals.urinOutput vitals.urinOutput
  ++ pushIfChanged patientId "vitals.painScore" oldVitals.painScore vitals.painScore

/-- The body of `patient.medications.forEach((medication, index) => …)` for one
medication. -/
def updateMedication (patientId : String) (index : Nat) (medication : Medication)
    (o : Oracle) : Medication × List Change × Oracle :=
  let oldLastGiven := medication.lastGiven
  let oldNextDue := medication.nextDue
  let (r, o) := o.nextRandom
  if r > 0.5 then
    let (lastGiven, o) := o.nextISO
    let (t, o) := o.nextNow
    let (r, o) := o.nextRandom
    let nextDue := o.toISOString (truncate ((t : ℚ) + (r * 6 + 4) * 3600000))
    ({ medication with lastGiven := lastGiven, nextDue := nextDue },
      [patientChange patientId ("medications." ++ toString index ++ ".lastGiven")
        (.str oldLastGiven) (.str lastGiven),
       patientChange patientId ("medications." ++ toString index ++ ".nextDue")
        (.str oldNextDue) (.str nextDue)],
      o)
  else (medication, [], o)

/-- The loop `patient.medications.forEach` from position `index` on. -/
def updateMedications (patientId : String) :
    Nat → List Medication → Oracle → List Medication × List Change × Oracle
  | _, [], o => ([], [], o)
  | index, medication :: rest, o =>
    let (medication', changes, o) := updateMedication patientId index medication o
    let (rest', changes', o) := updateMedications patientId (index + 1) rest o
    (medication' :: rest', changes ++ changes', o)

/-- The body of `patientsToUpdate.forEach(patientId => …)` on the patient it selects. -/
def updatePatientVitals (patientId : String) (patient : Patient) (o : Oracle) :
    Patient × List Change × Oracle :=
  let copied := patient.vitals
  let (vitals, o) := adjustVitals patient.vitals o
  let changes := vitalsChanges patientId (oldVitalsView copied vitals) vitals
  let patient := { patient with vitals := vitals }
  let (r, o) := o.nextRandom
  if r > 0.7 then
    let (medications, changes', o) := updateMedications patientId 0 patient.medications o
    ({ patient with medications := medications }, changes ++ changes', o)
  else (patient, changes, o)

/-- The loop `patientsToUpdate.forEach` of `updateVitals` over the selected ids; each id
is a key of `data.patients`. -/
def updateSelected :
    List String → List (String × Patient) → Oracle →
      List (String × Patient) × List Change × Oracle
  | [], patients, o => (patients, [], o)
  | patientId :: rest, patients, o =>
    match propGet patients patientId with
    | some patient =>
      let (patient', changes, o) := updatePatientVitals patientId patient o
      let (patients', changes', o) := updateSelected rest (propSet patients patientId patient') o
      (patients', changes ++ changes', o)
    | none => updateSelected rest patients o

/-- The ids `patientsToUpdate` chosen by `updateVitals`: a prefix of the shuffled keys. -/
def patientsToUpdate (patients : List (String × Patient)) (o : Oracle) : List String × Oracle :=
  let patientIds := patients.map Prod.fst
  let (r, o) := o.nextRandom
  let changeCount := ⌊(patientIds.length : ℚ) * (0.3 + r * 0.2)⌋
  let (shuffled, o) := shuffleArray patientIds o
  (shuffled.take changeCount.toNat, o)

/-- Embedding of `updateVitals()`: the returned change list, the store and the oracle
afterwards. -/
def updateVitals (s : Store) (o : Oracle) : List Change × Store × Oracle :=
  let (selected, o) := patientsToUpdate s.patients o
  let (patients, changes, o) := updateSelected selected s.patients o
  let (timestamp, o) := o.nextISO
  (changes, { s with patients := patients, timestamp := timestamp }, o)

/-- The loop of `getRandomStatus` over the statuses and weights left, `cumulativeWeight`
being the sum so far. -/
def getRandomStatusLoop (random : ℚ) : List (String × ℚ) → ℚ → String
  | [], _ => "stable"
  | (status, weight) :: rest, cumulativeWeight =>
    if random ≤ cumulativeWeight + weight then status
    else getRandomStatusLoop random rest (cumulativeWeight + weight)

/-- Embedding of `getRandomStatus()`: one draw. -/
def getRandomStatus (o : Oracle) : String × Oracle :=
  let (random, o) := o.nextRandom
  (getRandomStatusLoop random
    [("stable", 0.6), ("critical", 0.1), ("recovering", 0.2), ("observation", 0.1)] 0, o)

/-- The body of the equipment loop of `updateNonCriticalData` on one piece of equipment. -/
def updateEquipmentStatus (equipmentId : String) (equipment : Equipment) (o : Oracle) :
    Equipment × List Change × Oracle :=
  let (r, o) := o.nextRandom
  if r > 0.9 then
    let oldStatus := equipment.status
    let (r, o) := o.nextRandom
    let status := if r > 0.8 then "maintenance" else "active"
    let (batteryLevel, o) := adjustValue equipment.batteryLevel 0 100 10 o
    ({ equipment with status := status, batteryLevel := batteryLevel },
      if oldStatus ≠ status then
        [equipmentChange equipmentId "status" (.str oldStatus) (.str status)]
      else [],
      o)
  else (equipment, [], o)

/-- The loop `Object.keys(this.data.equipment).forEach` over the ids left. -/
def updateAllEquipment :
    List String → List (String × Equipment) → Oracle →
      List (String × Equipment) × List Change × Oracle
  | [], equipment, o => (equipment, [], o)
  | equipmentId :: rest, equipment, o =>
    match propGet equipment equipmentId with
    | some e =>
      let (e', changes, o) := updateEquipmentStatus equipmentId e o
      let (equipment', changes', o) := updateAllEquipment rest (propSet equipment equipmentId e') o
      (equipment', changes ++ changes', o)
    | none => updateAllEquipment rest equipment o

/-- The body of the patient loop of `updateNonCriticalData` on one patient. -/
def updatePatientStatus (patientId : String) (patient : Patient) (o : Oracle) :
    Patient × List Change × Oracle :=
  let (r, o) := o.nextRandom
  if r > 0.95 then
    let oldStatus := patient.status
    let (status, o) := getRandomStatus o
    ({ patient with status := status },
      if oldStatus ≠ status then
        [patientChange patientId "status" (.str oldStatus) (.str status)]
      else [],
      o)
  else (patient, [], o)

/-- The loop `Object.keys(this.data.patients).forEach` over the ids left. -/
def updateAllPatients :
    List String → List (String × Patient) → Oracle →
      List (String × Patient) × List Change × Oracle
  | [], patients, o => (patients, [], o)
  | patientId :: rest, patients, o =>
    match propGet patients patientId with
    | some patient =>
      let (patient', changes, o) := updatePatientStatus patientId patient o
      let (patients', changes', o) := updateAllPatients rest (propSet patients patientId patient') o
      (patients', changes ++ changes', o)
    | none => updateAllPatients rest patients o

/-- Embedding of `updateNonCriticalData()`: the returned change list, the store and the
oracle afterwards. -/
def updateNonCriticalData (s : Store) (o : Oracle) : List Change × Store × Oracle :=
  let (equipment, changes, o) := updateAllEquipment (s.equipment.map Prod.fst) s.equipment o
  let (patients, changes', o) := updateAllPatients (s.patients.map Prod.fst) s.patients o
  let (timestamp, o) := o.nextISO
  (changes ++ changes',
    { s with equipment := equipment, patients := patients, timestamp := timestamp }, o)

/-- Truthiness of an id property of a change record: present and not the empty string. -/
def idTruthy : Option String → Bool
  | some id => decide (id ≠ "")
  | none => false

/-- The property key an id is used as: `undefined` is the key "undefined". -/
def idKey : Option String → String
  | some id => id
  | none => "undefined"

/-- The expression `change.patientId ? 'patients' : 'equipment'`. -/
def Change.entityType (change : Change) : String :=
  if idTruthy change.patientId then "patients" else "equipment"

/-- The expression `change.patientId || change.equipmentId`, as a property key. -/
def Change.entityId (change : Change) : String :=
  if idTruthy change.patientId then idKey change.patientId else idKey change.equipmentId

/-- The body of `changes.forEach` in `changesToKeyValue`. -/
def addChange (updates : Patch) (change : Change) : Patch :=
  let entityType := change.entityType
  let entityId := change.entityId
  let updates :=
    if (propGet updates entityType).isNone then propSet updates entityType [] else updates
  let entities := (propGet updates entityType).getD []
  let entities :=
    if (propGet entities entityId).isNone then propSet entities entityId [] else entities
  let paths := (propGet entities entityId).getD []
  propSet updates entityType (propSet entities entityId (propSet paths change.path change.newValue))

/-- Embedding of `changesToKeyValue(changes)`. -/
def changesToKeyValue (changes : List Change) : Patch :=
  changes.foldl addChange []

/-! ## The store on the wire -/

/-- JSON form of `vitals.bloodPressure`. -/
def BloodPressure.toJson (b : BloodPressure) : JVal :=
  .obj [("systolic", .num b.systolic), ("diastolic", .num b.diastolic),
    ("meanArterialPressure", .num b.meanArterialPressure)]

/-- JSON form of `vitals.pulmonaryArterialPressure`. -/
def PulmonaryArterialPressure.toJson (b : PulmonaryArterialPressure) : JVal :=
  .obj [("systolic", .num b.systolic), ("diastolic", .num b.diastolic)]

/-- JSON form of `vitals.glasgowComaScale`. -/
def GlasgowComaScale.toJson (g : GlasgowComaScale) : JVal :=
  .obj [("eye", .num g.eye), ("verbal", .num g.verbal), ("motor", .num g.motor),
    ("total", .num g.total)]

/-- JSON form of `patient.vitals`. -/
def Vitals.toJson (v : Vitals) : JVal :=
  .obj [("heartRate", .num v.heartRate),
    ("bloodPressure", v.bloodPressure.toJson),
    ("spo2", .num v.spo2),
    ("temperature", .num v.temperature),
    ("respiratoryRate", .num v.respiratoryRate),
    ("centralVenousPressure", .num v.centralVenousPressure),
    ("pulmonaryArterialPressure", v.pulmonaryArterialPressure.toJson),
    ("cardiacOutput", .num v.cardiacOutput),
    ("intracranialPressure", .num v.intracranialPressure),
    ("bloodGlucose", .num v.bloodGlucose),
    ("urinOutput", .num v.urinOutput),
    ("painScore", .num v.painScore),
    ("glasgowComaScale", v.glasgowComaScale.toJson)]

/-- JSON form of a medication. -/
def Medication.toJson (m : Medication) : JVal :=
  .obj (m.descr ++ [("lastGiven", .str m.lastGiven), ("nextDue", .str m.nextDue)] ++ m.notes)

/-- JSON form of a patient. -/
def Patient.toJson (p : Patient) : JVal :=
  .obj (p.profile
    ++ [("vitals", p.vitals.toJson), ("medications", .arr (p.medications.map Medication.toJson))]
    ++ p.chart ++ [("status", .str p.status)] ++ p.admission)

/-- JSON form of a piece of equipment. -/
def Equipment.toJson (e : Equipment) : JVal :=
  .obj [("type", .str e.type), ("status", .str e.status), ("patient", .str e.patient),
    ("lastMaintenance", .str e.lastMaintenance), ("batteryLevel", .num e.batteryLevel)]

/-- JSON form of `data.metrics`. -/
def Metrics.toJson (m : Metrics) : JVal :=
  .obj [("totalPatients", .num m.totalPatients), ("criticalPatients", .num m.criticalPatients),
    ("activeEquipment", .num m.activeEquipment)]

/-- JSON form of `data.patients`. -/
def patientsJson (patients : List (String × Patient)) : JVal :=
  .obj (patients.map (fun kv => (kv.1, kv.2.toJson)))

/-- JSON form of `data.equipment`. -/
def equipmentJson (equipment : List (String × Equipment)) : JVal :=
  .obj (equipment.map (fun kv => (kv.1, kv.2.toJson)))

/-- The object `{ ...this.data, timestamp }` with a given timestamp. -/
def Store.toJson (s : Store) (timestamp : String) : JVal :=
  .obj [("ward", .str s.ward), ("patients", patientsJson s.patients),
    ("equipment", equipmentJson s.equipment), ("timestamp", .str timestamp),
    ("metrics", s.metrics.toJson)]

/-- Embedding of `getFullData()`: one clock reading. -/
def getFullData (s : Store) (o : Oracle) : JVal × Oracle :=
  let (timestamp, o) := o.nextISO
  (s.toJson timestamp, o)

/-- The properties of `keys` that `fields` has, in the order of `keys`: what an object
literal reading them keeps once serialised (an `undefined` property is dropped). -/
def pick (fields : List (String × JVal)) (keys : List String) : List (String × JVal) :=
  keys.filterMap (fun k => (propGet fields k).map (fun v => (k, v)))

/-- The real-time view of a medication in `getRealTimeData()`. -/
def Medication.realTimeJson (m : Medication) : JVal :=
  .obj (pick m.descr ["id", "name", "dosage"]
    ++ [("lastGiven", .str m.lastGiven), ("nextDue", .str m.nextDue)])

/-- The real-time view of a patient in `getRealTimeData()`. -/
def Patient.realTimeJson (p : Patient) : JVal :=
  .obj [("status", .str p.status), ("vitals", p.vitals.toJson),
    ("medications", .arr (p.medications.map Medication.realTimeJson))]

/-- The real-time view of a piece of equipment in `getRealTimeData()`. -/
def Equipment.realTimeJson (e : Equipment) : JVal :=
  .obj [("type", .str e.type), ("status", .str e.status), ("patient", .str e.patient),
    ("batteryLevel", .num e.batteryLevel)]

/-- Embedding of `getRealTimeData()`: one clock reading. -/
def getRealTimeData (s : Store) (o : Oracle) : JVal × Oracle :=
  let (timestamp, o) := o.nextISO
  (.obj [("ward", .str s.ward),
     ("patients", .obj (s.patients.map (fun kv => (kv.1, kv.2.realTimeJson)))),
     ("equipment", .obj (s.equipment.map (fun kv => (kv.1, kv.2.realTimeJson)))),
     ("timestamp", .str timestamp),
     ("metrics", s.metrics.toJson)], o)

/-! ## `backend/src/websocket/wsHandler.js`: the per-connection scheduler -/

/-- The server-to-client messages handed to `sendMessage`. -/
inductive Message where
  | initial_data (data : JVal) (timestamp : String) : Message
  | full_data (data : JVal) (timestamp : String) : Message
  | full_data_update (data : JVal) (timestamp : String) : Message
  | delta_update (updateType : String) (changes : Patch) (timestamp : String) : Message
  | hybrid_update (updateType : String) (changes : Patch) (timestamp : String)
      (cycle : String) (dataReduction : Bool) : Message
  | mode_changed (mode : String) (timestamp : String) : Message
  | performance_metrics (data : JVal) (timestamp : String) : Message
deriving DecidableEq

/-- The object `client.metrics`. -/
structure ClientMetrics where
  dataSent : Nat
  messagesSent : Nat
  connectionTime : Int
deriving DecidableEq

/-- The per-client record kept in `this.clients` (the socket itself apart). -/
structure Client where
  updateMode : String
  isActive : Bool
  hybridCycle : Nat
  metrics : ClientMetrics
deriving DecidableEq

/-- The callback a `setInterval` of `startUpdates` holds, named by the case that made
it; each has a period of 5000 ms. -/
inductive Timer where
  | full : Timer
  | delta : Timer
  | hybrid : Timer
deriving DecidableEq, Repr

/-- A connection: its record in `this.clients` and its timers in `this.intervals`. -/
structure Connection where
  client : Client
  intervals : List Timer
deriving DecidableEq

/-- The record and timers of a newly accepted connection (`setupWebSocket`): mode `full`,
cycle 0, and the timers `startUpdates` makes for it. -/
def newConnection (connectionTime : Int) : Connection :=
  { client := { updateMode := "full", isActive := true, hybridCycle := 0,
                metrics := { dataSent := 0, messagesSent := 0,
                             connectionTime := connectionTime } },
    intervals := [Timer.full] }

/-- The timers `startUpdates` creates: the `switch` on `client.updateMode`. -/
def startUpdates (client : Client) : List Timer :=
  if client.updateMode = "full" then [Timer.full]
  else if client.updateMode = "delta" then [Timer.delta]
  else if client.updateMode = "hybrid" then [Timer.hybrid]
  else []

/-- Embedding of `setUpdateMode(clientId, mode)` on a known client: the old timers are
cleared, the mode stored, new timers started, and `mode_changed` handed to
`sendMessage`. -/
def setUpdateMode (c : Connection) (mode : String) (o : Oracle) :
    Connection × Message × Oracle :=
  let client := { c.client with updateMode := mode }
  let (timestamp, o) := o.nextISO
  ({ client := client, intervals := startUpdates client },
    Message.mode_changed mode timestamp, o)

/-- The `full` callback: the message handed to `sendMessage`. -/
def fullTick (s : Store) (o : Oracle) : Message × Oracle :=
  let (data, o) := getRealTimeData s o
  let (timestamp, o) := o.nextISO
  (Message.full_data_update data timestamp, o)

/-- The `delta` callback: the message handed to `sendMessage`, if any, and the store
afterwards. -/
def deltaTick (s : Store) (o : Oracle) : Option Message × Store × Oracle :=
  let (vitalChanges, s, o) := updateVitals s o
  let (nonCriticalChanges, s, o) := updateNonCriticalData s o
  let allChanges := vitalChanges ++ nonCriticalChanges
  if allChanges.length > 0 then
    let (timestamp, o) := o.nextISO
    (some (Message.delta_update "all" (changesToKeyValue allChanges) timestamp), s, o)
  else (none, s, o)

/-- The filter of the critical cycle: the path is `vitals.heartRate` or `vitals.spo2`. -/
def isCritical (change : Change) : Bool :=
  let isHeartRate := decide (change.path = "vitals.heartRate")
  let isSpo2 := decide (change.path = "vitals.spo2")
  isHeartRate || isSpo2

/-- The change list and tag a hybrid callback chooses in the phase `hybridCycle`. -/
def hybridSelect (hybridCycle : Nat) (vitalChanges nonCriticalChanges : List Change) :
    List Change × String :=
  if hybridCycle = 0 then (vitalChanges ++ nonCriticalChanges, "full_cycle")
  else (vitalChanges.filter isCritical, "critical_only")

/-- The `hybrid` callback: the message handed to `sendMessage`, if any, the client record
and the store afterwards. -/
def hybridTick (client : Client) (s : Store) (o : Oracle) :
    Option Message × Client × Store × Oracle :=
  let (vitalChanges, s, o) := updateVitals s o
  let (nonCriticalChanges, s, o) := updateNonCriticalData s o
  let (hybridChanges, updateType) := hybridSelect client.hybridCycle vitalChanges nonCriticalChanges
  let client := { client with hybridCycle := (client.hybridCycle + 1) % 2 }
  if hybridChanges.length > 0 then
    let (timestamp, o) := o.nextISO
    (some (Message.hybrid_update updateType (changesToKeyValue hybridChanges) timestamp
        (if client.hybridCycle = 0 then "next_full" else "next_critical")
        (if updateType = "critical_only" then true else false)),
      client, s, o)
  else (none, client, s, o)

/-- One firing of a timer of a connection. -/
def runTimer (t : Timer) (client : Client) (s : Store) (o : Oracle) :
    Option Message × Client × Store × Oracle :=
  match t with
  | Timer.full =>
    let (m, o) := fullTick s o
    (some m, client, s, o)
  | Timer.delta =>
    let (m, s, o) := deltaTick s o
    (m, client, s, o)
  | Timer.hybrid => hybridTick client s o

/-! ## The mirror of `usePatientData` -/

/-- What the handlers of `usePatientData` leave in the query cache on a message: the
snapshots replace it, the updates patch it when there is one (`if (currentData)`), the
other messages have no handler there. -/
def receive (mirror : Option JVal) (msg : Message) (stamp : String) :
    Except JsError (Option JVal) :=
  match msg with
  | Message.initial_data data _ => .ok (some data)
  | Message.full_data_update data _ => .ok (some data)
  | Message.delta_update _ changes _ =>
    match mirror with
    | some currentData =>
      if currentData.truthy then (applyDeltaUpdates currentData changes stamp).map some
      else .ok mirror
    | none => .ok mirror
  | Message.hybrid_update _ changes _ _ _ =>
    match mirror with
    | some currentData =>
      if currentData.truthy then (applyDeltaUpdates currentData changes stamp).map some
      else .ok mirror
    | none => .ok mirror
  | _ => .ok mirror

/-- The list `vitalChanges` of a delta or hybrid callback run on store `s`. -/
def tickVitalChanges (s : Store) (o : Oracle) : List Change :=
  (updateVitals s o).1

/-- The list `nonCriticalChanges` of a delta or hybrid callback run on store `s`. -/
def tickNonCriticalChanges (s : Store) (o : Oracle) : List Change :=
  (updateNonCriticalData (updateVitals s o).2.1 (updateVitals s o).2.2).1

/-- Every collection of the Patch has an entity and every entity a path. -/
def Patch.filled (p : Patch) : Prop :=
  ∀ coll ents, (coll, ents) ∈ p →
    ents ≠ [] ∧ ∀ id paths, (id, paths) ∈ ents → paths ≠ []

/-- Every entry of the Patch comes from a change record of the list. -/
def Patch.from (changes : List Change) (p : Patch) : Prop :=
  ∀ coll ents id paths path v, (coll, ents) ∈ p → (id, paths) ∈ ents → (path, v) ∈ paths →
    ∃ c ∈ changes, c.entityType = coll ∧ c.entityId = id ∧ c.path = path ∧ c.newValue = v

/-! ## Runs of one connection -/

/-- The client record, store and oracle after `n` consecutive firings of the hybrid timer
of one connection. -/
def hybridTicks : Nat → Client → Store → Oracle → Client × Store × Oracle
  | 0, client, s, o => (client, s, o)
  | n + 1, client, s, o =>
    hybridTicks n (hybridTick client s o).2.1 (hybridTick client s o).2.2.1
      (hybridTick client s o).2.2.2

/-- The tag `updateType` of a delta or hybrid update. -/
def Message.updateType? : Message → Option String
  | Message.delta_update updateType _ _ => some updateType
  | Message.hybrid_update updateType _ _ _ _ => some updateType
  | _ => none

/-- The Patch a delta or hybrid update carries. -/
def Message.changes? : Message → Option Patch
  | Message.delta_update _ changes _ => some changes
  | Message.hybrid_update _ changes _ _ _ => some changes
  | _ => none

/-- A Patch with at least one collection, every collection with at least one entity, and
every entity with at least one field path. -/
def Patch.populated (p : Patch) : Prop :=
  p ≠ [] ∧ Patch.filled p

/-- What happens to one connection: a `set_update_mode` request, or one period of its
timers elapsing. -/
inductive Event where
  | setMode (mode : String) : Event
  | tick : Event
deriving DecidableEq

/-- Every timer of the list fires once, in order. -/
def fireTimers : List Timer → Client → Store → Oracle → List Message × Client × Store × Oracle
  | [], client, s, o => ([], client, s, o)
  | t :: rest, client, s, o =>
    let (m, client, s, o) := runTimer t client s o
    let (ms, client, s, o) := fireTimers rest client s o
    (m.toList ++ ms, client, s, o)

/-- One event on a connection: the messages handed to `sendMessage`, the connection, the
store and the oracle afterwards. -/
def step (c : Connection) (s : Store) (o : Oracle) :
    Event → List Message × Connection × Store × Oracle
  | Event.setMode mode =>
    let (c, m, o) := setUpdateMode c mode o
    ([m], c, s, o)
  | Event.tick =>
    let (ms, client, s, o) := fireTimers c.intervals c.client s o
    (ms, { c with client := client }, s, o)

/-- A sequence of events on a connection. -/
def run : List Event → Connection → Store → Oracle → Connection × Store × Oracle
  | [], c, s, o => (c, s, o)
  | e :: rest, c, s, o =>
    run rest (step c s o e).2.1 (step c s o e).2.2.1 (step c s o e).2.2.2

/-- The number of ticks of an event sequence that fire a hybrid timer, for a connection
whose mode is `mode` when the sequence starts. -/
def countHybridTicks : String → List Event → Nat
  | _, [] => 0
  | _, Event.setMode mode :: rest => countHybridTicks mode rest
  | mode, Event.tick :: rest =>
    (if mode = "hybrid" then 1 else 0) + countHybridTicks mode rest

/-! ## Several connections on one store -/

/-- A connection together with the mirror its client holds (`undefined` before the first
snapshot). -/
structure Session where
  connection : Connection
  mirror : Option JVal
deriving DecidableEq

/-- The client receives the messages in arrival order and applies each at the next clock
reading; an error is a handler that raised. -/
def deliver : List Message → Option JVal → Oracle → Except JsError (Option JVal × Oracle)
  | [], mirror, o => .ok (mirror, o)
  | msg :: rest, mirror, o =>
    (receive mirror msg o.nextISO.1).bind (fun mirror' => deliver rest mirror' o.nextISO.2)

/-- One period of a session: its timers fire on the shared store and its client applies
what was sent. -/
def tickSession (sess : Session) (s : Store) (o : Oracle) :
    Except JsError (Session × Store × Oracle) :=
  (deliver (step sess.connection s o Event.tick).1 sess.mirror
      (step sess.connection s o Event.tick).2.2.2).map
    (fun r => ({ connection := (step sess.connection s o Event.tick).2.1, mirror := r.1 },
      (step sess.connection s o Event.tick).2.2.1, r.2))

/-- One period of the connection `clientId` among several sessions on one store. -/
def tickOf (clientId : String) (sessions : List (String × Session)) (s : Store)
    (o : Oracle) : Except JsError (List (String × Session) × Store × Oracle) :=
  match propGet sessions clientId with
  | some sess =>
    (tickSession sess s o).map (fun r => (propSet sessions clientId r.1, r.2.1, r.2.2))
  | none => .ok (sessions, s, o)

/-- An interleaving of ticks: the connections named tick one after the other. -/
def runTicks :
    List String → List (String × Session) → Store → Oracle →
      Except JsError (List (String × Session) × Store × Oracle)
  | [], sessions, s, o => .ok (sessions, s, o)
  | clientId :: rest, sessions, s, o =>
    (tickOf clientId sessions s o).bind (fun r => runTicks rest r.1 r.2.1 r.2.2)

/-- The mirror holds, for every patient of the store, the store's `vitals.heartRate`. -/
def agreesOnHeartRate (mirror : Option JVal) (s : Store) : Prop :=
  ∃ m, mirror = some m ∧ ∀ id p, propGet s.patients id = some p →
    getPath m ["patients", id, "vitals", "heartRate"] = some (.num p.vitals.heartRate)

/-- A field path that is the heart rate's, or whose keys part ways with the heart
rate's. -/
def besideHeartRate (path : String) : Prop :=
  path = "vitals.heartRate" ∨ diverge (splitPath path) ["vitals", "heartRate"] = true

/-- The new value of the last record of the list filed under the given collection, entity
and path. -/
def lastValue (coll id path : String) : List Change → Option JVal
  | [] => none
  | c :: rest =>
    match lastValue coll id path rest with
    | some v => some v
    | none =>
      if c.entityType = coll ∧ c.entityId = id ∧ c.path = path then some c.newValue
      else none

/-- The value a Patch holds for a collection, an entity and a path. -/
def Patch.get? (p : Patch) (coll id path : String) : Option JVal :=
  (propGet p coll).bind (fun ents => (propGet ents id).bind (fun paths => propGet paths path))

/-- No key occurs twice, at any of the three levels of the Patch. -/
def Patch.nodupKeys (p : Patch) : Prop :=
  (p.map Prod.fst).Nodup ∧ ∀ coll ents, (coll, ents) ∈ p →
    (ents.map Prod.fst).Nodup ∧ ∀ id paths, (id, paths) ∈ ents → (paths.map Prod.fst).Nodup

/-! ## Worked inputs -/

/-- Vitals within the ranges of `initializeData`. -/
def sampleVitals : Vitals :=
  { heartRate := 70
    bloodPressure := { systolic := 120, diastolic := 80, meanArterialPressure := 93 }
    spo2 := 98
    temperature := 36.6
    respiratoryRate := 16
    centralVenousPressure := 5
    pulmonaryArterialPressure := { systolic := 20, diastolic := 10 }
    cardiacOutput := 5
    intracranialPressure := 10
    bloodGlucose := 100
    urinOutput := 1
    painScore := 3
    glasgowComaScale := { eye := 4, verbal := 5, motor := 6, total := 15 } }

/-- A medication as `generateMedications` makes them. -/
def sampleMedication : Medication :=
  { descr := [("id", .str "m-1"), ("name", .str "Morphine"), ("dosage", .str "10mg"),
      ("route", .str "IV"), ("frequency", .str "2회/일")]
    lastGiven := "2024-01-01T08:00:00.000Z"
    nextDue := "2024-01-01T14:00:00.000Z"
    notes := [("prescribedBy", .str "Dr. AB"), ("indication", .str "Pain management"),
      ("sideEffects", .str "Nausea"), ("contraindications", .str "Pregnancy")] }

/-- A patient as `initializeData` makes them (the static properties abridged). -/
def samplePatient (name : String) : Patient :=
  { profile := [("name", .str name), ("age", .num 40), ("gender", .str "F")]
    vitals := sampleVitals
    medications := [sampleMedication]
    chart := [("allergies", .arr [])]
    status := "stable"
    admission := [("room", .str "1A")] }

/-- A store of three patients and their equipment, keyed as `initializeData` keys them. -/
def sampleStore : Store :=
  { ward := "ICU-A"
    patients := [("P001", samplePatient "환자1"), ("P002", samplePatient "환자2"),
      ("P003", samplePatient "환자3")]
    equipment :=
      [("EQ001", { type := "monitor", status := "active", patient := "P001",
                   lastMaintenance := "2023-12-30T00:00:00.000Z", batteryLevel := 50 }),
       ("EQ002", { type := "pump", status := "active", patient := "P002",
                   lastMaintenance := "2023-12-30T00:00:00.000Z", batteryLevel := 50 }),
       ("EQ003", { type := "ventilator", status := "active", patient := "P003",
                   lastMaintenance := "2023-12-30T00:00:00.000Z", batteryLevel := 50 })]
    timestamp := "2024-01-01T09:00:00.000Z"
    metrics := { totalPatients := 3, criticalPatients := 0, activeEquipment := 3 } }

/-- An oracle whose draws are the given list (then 0), whose clock stands at `t`, and
whose rendering of an instant is its decimal millisecond count: a stand-in for
`toISOString`, which is one-to-one as well. -/
def scriptedOracle (draws : List ℚ) (t : Int) : Oracle :=
  { random := fun k => draws.getD k 0
    now := fun _ => t
    toISOString := fun ms => toString ms
    draws := 0
    reads := 0 }

/-- One mutation pass as a delta or hybrid tick runs it: `updateVitals()` followed by
`updateNonCriticalData()`; the change lists of both, the store and the oracle afterwards. -/
def mutationPass (s : Store) (o : Oracle) : List Change × Store × Oracle :=
  let (vitalChanges, s, o) := updateVitals s o
  let (nonCriticalChanges, s, o) := updateNonCriticalData s o
  (vitalChanges ++ nonCriticalChanges, s, o)

/-- Draws of one pass on `sampleStore`: one patient is selected and the shuffle leaves
`P001` first; its heart rate (draw 0.75) and, behind the blood-pressure gate, its systolic
and diastolic pressure (draws 0.75) are adjusted; then the gate of `EQ001` opens, its
status is drawn `active` again and its battery level adjusted (draw 0.75). -/
def passOracle : Oracle :=
  scriptedOracle
    [0.5, 0.9, 0.9, 0.9, 0.75, 0.2, 0.2, 0.2, 0.5, 0.75, 0.75, 0.2, 0.95, 0.5, 0.75]
    1704100000000

/-- Draws of two `updateVitals()` calls on `sampleStore`, the clock standing at one
millisecond: both select `P001`, adjust no vital and give its medication anew (gate 0.8,
medication gate 0.6, next-due draw 0.5). -/
def sameMillisecondOracle : Oracle :=
  scriptedOracle
    [0.5, 0.9, 0.9, 0.2, 0.2, 0.2, 0.2, 0.2, 0.8, 0.6, 0.5,
     0.5, 0.9, 0.9, 0.2, 0.2, 0.2, 0.2, 0.2, 0.8, 0.6, 0.5]
    1704100000000

/-- Draws of two ticks on `sampleStore`: the first nine are 0 (a tick that selects no
patient and opens no gate), the rest are the draws of `passOracle`. -/
def twoTickOracle : Oracle :=
  scriptedOracle
    [0, 0, 0, 0, 0, 0, 0, 0, 0,
     0.5, 0.9, 0.9, 0.9, 0.75, 0.2, 0.2, 0.2, 0.5, 0.75, 0.75, 0.2, 0.95, 0.5, 0.75]
    1704100000000

/-- A client record in the critical cycle of hybrid mode. -/
def criticalClient : Client :=
  { updateMode := "hybrid", isActive := true, hybridCycle := 1,
    metrics := { dataSent := 0, messagesSent := 0, connectionTime := 0 } }

/-- A delta-mode session whose mirror is the snapshot of `sampleStore`. -/
def deltaSession : Session :=
  { connection :=
      { client := { updateMode := "delta", isActive := true, hybridCycle := 0,
                    metrics := { dataSent := 0, messagesSent := 0, connectionTime := 0 } },
        intervals := [Timer.delta] },
    mirror := some (sampleStore.toJson "2024-01-01T09:00:00.000Z") }


/-! ## The client: `frontend/src/services/websocketService.js`

The service is a record of its fields; a method takes the service and the clock readings
it consumes (one argument for each `Date.now()` it can evaluate, in program order) and
returns the service together with the effects it had on the outside: events handed to
`emit`, frames handed to the socket, callbacks handed to `setTimeout`.  The listeners
registered in this repository set React state only, so `emit` leaves the service as it is.
The model follows the socket held in `this.ws`; socket events are those of that socket.
`JSON.parse` is not modelled: an inbound frame carries its text and the value the text
parses to. -/

/-- The field `WebSocket.readyState`. -/
inductive ReadyState where
  | CONNECTING : ReadyState
  | OPEN : ReadyState
  | CLOSING : ReadyState
  | CLOSED : ReadyState
deriving DecidableEq, Inhabited

/-- The browser socket held in `this.ws`. -/
structure Socket where
  url : String
  readyState : ReadyState
deriving DecidableEq

/-- A JavaScript number that may be `Infinity`, the quotient of a positive number by zero. -/
inductive JsNumber where
  | finite : ℚ → JsNumber
  | infinity : JsNumber
deriving DecidableEq

/-- The object `this.performanceMetrics`.  Clock readings are milliseconds since the epoch;
`none` is `null`. -/
structure PerformanceMetrics where
  dataReceived : Nat
  messagesReceived : Nat
  connectionTime : Option Int
  lastUpdateTime : Option Int
  updateFrequency : JsNumber
  averageMessageSize : ℚ
  runtimeStart : Option Int
  totalRuntime : Int
  lastPauseTime : Option Int
deriving DecidableEq

/-- An entry of `this.messageHistory`.  `type` is `data.type` (`none` is `undefined`).  The
entry's `prettyJson` is a function of `data` and is left out. -/
structure HistoryEntry where
  type : Option JVal
  size : Nat
  timestamp : Int
  data : JVal
  rawMessage : String
  isMetaData : Bool
deriving DecidableEq

/-- The fields of a `WebSocketService` other than its listeners. -/
structure WebSocketService where
  ws : Option Socket
  isConnected : Bool
  isPaused : Bool
  reconnectAttempts : Nat
  maxReconnectAttempts : Nat
  reconnectDelay : Nat
  currentMode : String
  performanceMetrics : PerformanceMetrics
  messageHistory : List HistoryEntry
deriving DecidableEq

/-- Code handed to the event loop, to run later. -/
inductive Callback where
  /-- From `attemptReconnect`: `() => this.connect(url).catch(...)`. -/
  | reconnect (url : String) : Callback
  /-- The rejection handler `attemptReconnect` attaches to that `connect`. -/
  | reconnectFailed : Callback
  /-- `wsService.resumeConnection()`: the hook runs it after a connect it awaited, and
  from its reset of a paused client. -/
  | resumeConnection : Callback
  /-- From the hook's reset of an active client: `() => wsService.requestInitialData()`. -/
  | requestInitialData : Callback
deriving DecidableEq

/-- What a method does to the outside. -/
inductive Effect where
  /-- The call `this.emit(event, data)`; `none` is a call without data. -/
  | emit (event : String) (data : Option JVal) : Effect
  /-- A frame accepted by the open socket. -/
  | send (message : JVal) : Effect
  /-- The call `setTimeout(callback, delay)`. -/
  | setTimeout (callback : Callback) (delay : Nat) : Effect
  /-- A reaction to the fulfilment of the promise the `connect` just called returned. -/
  | onFulfilled (callback : Callback) : Effect
  /-- A reaction to the rejection of the promise the `connect` just called returned. -/
  | onRejected (callback : Callback) : Effect
deriving DecidableEq

/-- The argument of `ws.onclose`. -/
structure CloseEvent where
  wasClean : Bool
  code : Nat
  reason : String
deriving DecidableEq

/-- The argument of `ws.onmessage`: the text `event.data` and the value
`JSON.parse(event.data)`, `none` when the text is not JSON and the parse throws. -/
structure MessageEvent where
  data : String
  json : Option JVal
deriving DecidableEq

/-- The test `if (t)` on a clock reading or `null`: `null` and `0` are falsy. -/
def timeTruthy : Option Int → Bool
  | some t => t != 0
  | none => false

/-- The fields set by the constructor. -/
def WebSocketService.constructor : WebSocketService :=
  { ws := none,
    isConnected := false,
    isPaused := false,
    reconnectAttempts := 0,
    maxReconnectAttempts := 5,
    reconnectDelay := 1000,
    currentMode := "full",
    performanceMetrics :=
      { dataReceived := 0, messagesReceived := 0, connectionTime := none,
        lastUpdateTime := none, updateFrequency := .finite 0, averageMessageSize := 0,
        runtimeStart := none, totalRuntime := 0, lastPauseTime := none },
    messageHistory := [] }

/-- The synchronous part of `connect(url)`: a new socket replaces `this.ws` and
`connectionTime` is set to `Date.now()`.  The URL is taken to be one that
`new WebSocket` accepts. -/
def WebSocketService.connect (s : WebSocketService) (url : String) (now : Int) :
    WebSocketService :=
  { s with
    ws := some { url := url, readyState := .CONNECTING },
    performanceMetrics := { s.performanceMetrics with connectionTime := some now } }

/-- The handler `ws.onopen`; the browser has set `readyState` to `OPEN`.  Its last
statement fulfils the promise of `connect`. -/
def WebSocketService.onopen (s : WebSocketService) : WebSocketService × List Effect :=
  ({ s with
      ws := s.ws.map (fun w => { w with readyState := .OPEN }),
      isConnected := true,
      reconnectAttempts := 0,
      isPaused := true },
   [.emit "connected" none, .emit "paused" none])

/-- The method `attemptReconnect(url)`. -/
def WebSocketService.attemptReconnect (s : WebSocketService) (url : String) :
    WebSocketService × List Effect :=
  let s1 := { s with reconnectAttempts := s.reconnectAttempts + 1 }
  let delay := s1.reconnectDelay * 2 ^ (s1.reconnectAttempts - 1)
  (s1, [.setTimeout (.reconnect url) delay])

/-- The handler `ws.onclose` of the socket `connect(url)` made; the browser has set
`readyState` to `CLOSED`. -/
def WebSocketService.onclose (s : WebSocketService) (url : String) (event : CloseEvent) :
    WebSocketService × List Effect :=
  let s1 := { s with
    ws := s.ws.map (fun w => { w with readyState := .CLOSED }),
    isConnected := false }
  let disconnected := Effect.emit "disconnected"
    (some (.obj [("code", .num event.code), ("reason", .str event.reason)]))
  if !event.wasClean && decide (s1.reconnectAttempts < s1.maxReconnectAttempts) then
    let r := s1.attemptReconnect url
    (r.1, disconnected :: r.2)
  else
    (s1, [disconnected])

/-- The handler `ws.onerror`.  Its last statement rejects the promise of `connect`. -/
def WebSocketService.onerror (s : WebSocketService) (error : JVal) :
    WebSocketService × List Effect :=
  (s, [.emit "error" (some error)])

/-- The rejection handler in `attemptReconnect`. -/
def WebSocketService.reconnectFailed (s : WebSocketService) :
    WebSocketService × List Effect :=
  if s.reconnectAttempts ≥ s.maxReconnectAttempts then
    (s, [.emit "max_reconnect_reached" none])
  else
    (s, [])

/-- The method `disconnect()`. -/
def WebSocketService.disconnect (s : WebSocketService) : WebSocketService :=
  match s.ws with
  | some _ => { s with ws := none, isConnected := false }
  | none => s

/-- The quotient `count / (timeDiff / 1000)` of `updateMetrics`, with `count` positive. -/
def perSecond (count : Nat) (timeDiff : Int) : JsNumber :=
  if timeDiff = 0 then .infinity else .finite ((count : ℚ) / ((timeDiff : ℚ) / 1000))

/-- The method `updateMetrics(messageSize)`; `now` is its `Date.now()`. -/
def WebSocketService.updateMetrics (s : WebSocketService) (messageSize : Nat) (now : Int) :
    WebSocketService :=
  let m := s.performanceMetrics
  let dataReceived := m.dataReceived + messageSize
  let messagesReceived := m.messagesReceived + 1
  let recentDataMessages := (s.messageHistory.filter (fun msg => !msg.isMetaData)).take 10
  let updateFrequency :=
    match recentDataMessages.head?, recentDataMessages.getLast? with
    | some newest, some oldest =>
      if recentDataMessages.length ≥ 2 then
        perSecond (recentDataMessages.length - 1) (newest.timestamp - oldest.timestamp)
      else m.updateFrequency
    | _, _ => m.updateFrequency
  { s with performanceMetrics :=
      { m with
        dataReceived := dataReceived,
        messagesReceived := messagesReceived,
        lastUpdateTime := some now,
        averageMessageSize := (dataReceived : ℚ) / (messagesReceived : ℚ),
        updateFrequency := updateFrequency } }

/-- The test `['performance_metrics', 'mode_changed'].includes(data.type)`. -/
def isMetaType (type : Option JVal) : Bool :=
  decide (type = some (.str "performance_metrics"))
    || decide (type = some (.str "mode_changed"))

/-- The call `this.emit(data.type, data)`.  Listeners are registered under string names
only, so with any other `data.type` the call reaches no listener and is not recorded. -/
def emitByType (type : Option JVal) (data : JVal) : List Effect :=
  match type with
  | some (.str name) => [.emit name (some data)]
  | _ => []

/-- The method `handleMessage(event)`; `t1` is the `Date.now()` of `updateMetrics`, `t2`
that of the history entry.  Whatever is thrown inside is caught and logged: the text
is not JSON, or it is `null` and reading `data.type` fails. -/
def WebSocketService.handleMessage (s : WebSocketService) (event : MessageEvent)
    (t1 t2 : Int) : WebSocketService × List Effect :=
  match event.json with
  | none => (s, [])
  | some data =>
    let messageSize := event.data.utf8ByteSize
    if s.isPaused then
      (s, [])
    else
      match data.readProp "type" with
      | .error _ => (s, [])
      | .ok type =>
        let isMetaMessage := isMetaType type
        let s1 := if isMetaMessage then s else s.updateMetrics messageSize t1
        let entry : HistoryEntry :=
          { type := type, size := messageSize, timestamp := t2, data := data,
            rawMessage := event.data, isMetaData := isMetaMessage }
        let history := entry :: s1.messageHistory
        let history := if history.length > 100 then history.take 100 else history
        ({ s1 with messageHistory := history },
         emitByType type data ++ [.emit "message" (some data)])

/-- The method `send(message)`: whether the frame was handed over, and the frame if the
socket took it.  `ws.send` throws while the socket is connecting and drops the frame
silently once it is closing or closed. -/
def WebSocketService.send (s : WebSocketService) (message : JVal) : Bool × List Effect :=
  match s.ws with
  | none => (false, [])
  | some w =>
    if !s.isConnected then (false, [])
    else
      match w.readyState with
      | .CONNECTING => (false, [])
      | .OPEN => (true, [.send message])
      | _ => (true, [])

/-- The method `setUpdateMode(mode)`. -/
def WebSocketService.setUpdateMode (s : WebSocketService) (mode : String) :
    WebSocketService × List Effect :=
  if !s.isConnected then (s, [])
  else
    let s1 := { s with currentMode := mode }
    (s1, (s1.send (.obj [("type", .str "set_update_mode"), ("mode", .str mode)])).2)

/-- The method `requestInitialData()`. -/
def WebSocketService.requestInitialData (s : WebSocketService) : List Effect :=
  (s.send (.obj [("type", .str "request_initial_data")])).2

/-- The method `getMessageHistory(limit, dataOnly)`. -/
def WebSocketService.getMessageHistory (s : WebSocketService) (limit : Nat)
    (dataOnly : Bool) : List HistoryEntry :=
  let messages :=
    if dataOnly then s.messageHistory.filter (fun msg => !msg.isMetaData)
    else s.messageHistory
  messages.take limit

/-- The object `getPerformanceMetrics()` returns: the fields of `performanceMetrics`
and the ones computed on the spot. -/
structure MetricsReport where
  performanceMetrics : PerformanceMetrics
  uptime : Int
  runtime : Int
  currentMode : String
  isConnected : Bool
  isPaused : Bool
  reconnectAttempts : Nat
  messageHistory : List HistoryEntry
  averageDataPerSecond : ℚ
  averageDataPerSecondUptime : ℚ
deriving DecidableEq

/-- The method `getPerformanceMetrics()`; `t1` is the `Date.now()` of the uptime, `t2`
that of the runtime. -/
def WebSocketService.getPerformanceMetrics (s : WebSocketService) (t1 t2 : Int) :
    MetricsReport :=
  let connectionTime := s.performanceMetrics.connectionTime
  let uptime : Int :=
    match connectionTime with
    | some c => if timeTruthy connectionTime then t1 - c else 0
    | none => 0
  let runtime : Int :=
    match s.performanceMetrics.runtimeStart with
    | some r =>
      if !s.isPaused && timeTruthy s.performanceMetrics.runtimeStart then
        s.performanceMetrics.totalRuntime + (t2 - r)
      else s.performanceMetrics.totalRuntime
    | none => s.performanceMetrics.totalRuntime
  { performanceMetrics := s.performanceMetrics,
    uptime := uptime,
    runtime := runtime,
    currentMode := s.currentMode,
    isConnected := s.isConnected,
    isPaused := s.isPaused,
    reconnectAttempts := s.reconnectAttempts,
    messageHistory := s.getMessageHistory 10 true,
    averageDataPerSecond :=
      if runtime > 0 then (s.performanceMetrics.dataReceived : ℚ) / ((runtime : ℚ) / 1000)
      else 0,
    averageDataPerSecondUptime :=
      if uptime > 0 then (s.performanceMetrics.dataReceived : ℚ) / ((uptime : ℚ) / 1000)
      else 0 }

/-- The method `isWebSocketConnected()`. -/
def WebSocketService.isWebSocketConnected (s : WebSocketService) : Bool :=
  s.isConnected &&
    (match s.ws with
     | some w => decide (w.readyState = .OPEN)
     | none => false)

/-- The method `pauseConnection()`; `t1` and `t2` are its two `Date.now()`. -/
def WebSocketService.pauseConnection (s : WebSocketService) (t1 t2 : Int) :
    WebSocketService × List Effect :=
  if s.isPaused then (s, [])
  else
    let m := s.performanceMetrics
    let m1 :=
      match m.runtimeStart with
      | some r =>
        if timeTruthy m.runtimeStart then
          { m with totalRuntime := m.totalRuntime + (t1 - r), lastPauseTime := some t2 }
        else m
      | none => m
    ({ s with isPaused := true, performanceMetrics := m1 }, [.emit "paused" none])

/-- The method `resumeConnection()`. -/
def WebSocketService.resumeConnection (s : WebSocketService) (now : Int) :
    WebSocketService × List Effect :=
  if !s.isPaused then (s, [])
  else
    ({ s with
        isPaused := false,
        performanceMetrics := { s.performanceMetrics with runtimeStart := some now } },
     [.emit "resumed" none])

/-- The method `isPausedConnection()`. -/
def WebSocketService.isPausedConnection (s : WebSocketService) : Bool :=
  s.isPaused

/-- The method `resetAllData()`; `now` is its `Date.now()`, read when the client is
active. -/
def WebSocketService.resetAllData (s : WebSocketService) (now : Int) :
    WebSocketService × List Effect :=
  let connectionTime := s.performanceMetrics.connectionTime
  let s1 := { s with
    performanceMetrics :=
      { dataReceived := 0, messagesReceived := 0, connectionTime := connectionTime,
        lastUpdateTime := none, updateFrequency := .finite 0, averageMessageSize := 0,
        runtimeStart := if s.isPaused then none else some now,
        totalRuntime := 0, lastPauseTime := none },
    messageHistory := [] }
  let requested := if s1.isConnected && !s1.isPaused then s1.requestInitialData else []
  (s1, Effect.emit "data_reset" none :: requested)

/-! ### The hook `useWebSocket` -/

/-- The hook's `startConnection()` up to its `await`: the connect, and what follows the
`await` once the promise is fulfilled, as far as the service is concerned. -/
def startConnection (s : WebSocketService) (url : String) (now : Int) :
    WebSocketService × List Effect :=
  (s.connect url now, [.onFulfilled .resumeConnection])

/-- The hook's `resetAllData()`; `t1` is the clock reading of the service's reset, `t2`
that of the connect on the first branch. -/
def resetAllData (s : WebSocketService) (url : String) (t1 t2 : Int) :
    WebSocketService × List Effect :=
  let r := s.resetAllData t1
  if !r.1.isWebSocketConnected then
    let c := startConnection r.1 url t2
    (c.1, r.2 ++ c.2)
  else if r.1.isPausedConnection then
    (r.1, r.2 ++ [.setTimeout .resumeConnection 100])
  else
    (r.1, r.2 ++ [.setTimeout .requestInitialData 100])

/-- A callback runs; `now` is the clock reading it takes. -/
def Callback.run (callback : Callback) (s : WebSocketService) (now : Int) :
    WebSocketService × List Effect :=
  match callback with
  | .reconnect url => (s.connect url now, [.onRejected .reconnectFailed])
  | .reconnectFailed => s.reconnectFailed
  | .resumeConnection => s.resumeConnection now
  | .requestInitialData => (s, s.requestInitialData)

/-! ### Runs of the service -/

/-- What can happen to the service: a call of one of its methods or an event of its
socket. -/
inductive ServiceEvent where
  | connect (url : String) (now : Int) : ServiceEvent
  | onopen : ServiceEvent
  | onclose (url : String) (event : CloseEvent) : ServiceEvent
  | onerror (error : JVal) : ServiceEvent
  | onmessage (event : MessageEvent) (t1 t2 : Int) : ServiceEvent
  | pauseConnection (t1 t2 : Int) : ServiceEvent
  | resumeConnection (now : Int) : ServiceEvent
  | resetAllData (now : Int) : ServiceEvent
  | setUpdateMode (mode : String) : ServiceEvent
  | disconnect : ServiceEvent
deriving DecidableEq

/-- Whether the event is a call of `resumeConnection`. -/
def ServiceEvent.isResume : ServiceEvent → Bool
  | .resumeConnection _ => true
  | _ => false

/-- The service after an event, and the effects of the event. -/
def WebSocketService.step (s : WebSocketService) :
    ServiceEvent → WebSocketService × List Effect
  | .connect url now => (s.connect url now, [])
  | .onopen => s.onopen
  | .onclose url event => s.onclose url event
  | .onerror error => s.onerror error
  | .onmessage event t1 t2 => s.handleMessage event t1 t2
  | .pauseConnection t1 t2 => s.pauseConnection t1 t2
  | .resumeConnection now => s.resumeConnection now
  | .resetAllData now => s.resetAllData now
  | .setUpdateMode mode => s.setUpdateMode mode
  | .disconnect => (s.disconnect, [])

/-- The service after a list of events, with all their effects in order. -/
def WebSocketService.runEvents (s : WebSocketService) :
    List ServiceEvent → WebSocketService × List Effect
  | [] => (s, [])
  | e :: rest =>
    let r := s.step e
    let q := r.1.runEvents rest
    (q.1, r.2 ++ q.2)

/-- The client after periods of activity: for each `(r, p)` in turn, `resumeConnection`
at clock reading `r`, then `pauseConnection` at clock reading `p`. -/
def WebSocketService.activePeriods (s : WebSocketService) :
    List (Int × Int) → WebSocketService
  | [] => s
  | (r, p) :: rest => ((s.resumeConnection r).1.pauseConnection p p).1.activePeriods rest

/-- The total length of the periods `(r, p)`: the sum of `p - r`. -/
def activeTime (periods : List (Int × Int)) : Int :=
  (periods.map (fun x => x.2 - x.1)).sum

/-- A service constructed, connected once at clock reading `t0`, whose socket has
opened. -/
def connectedOnce (url : String) (t0 : Int) : WebSocketService :=
  ((WebSocketService.constructor.connect url t0).onopen).1

/-- The page the service runs in: the service, the `setTimeout` callbacks not yet run,
the reactions attached to the promise of the last `connect` while it is pending, and
every effect so far. -/
structure Page where
  service : WebSocketService
  timers : List (Callback × Nat)
  onFulfilled : List Callback
  onRejected : List Callback
  log : List Effect
deriving DecidableEq

/-- The callbacks a list of effects hands to `setTimeout`, with their delays. -/
def scheduled : List Effect → List (Callback × Nat)
  | [] => []
  | .setTimeout callback delay :: rest => (callback, delay) :: scheduled rest
  | _ :: rest => scheduled rest

/-- The fulfilment reactions a list of effects attaches. -/
def fulfilmentReactions : List Effect → List Callback
  | [] => []
  | .onFulfilled callback :: rest => callback :: fulfilmentReactions rest
  | _ :: rest => fulfilmentReactions rest

/-- The rejection reactions a list of effects attaches. -/
def rejectionReactions : List Effect → List Callback
  | [] => []
  | .onRejected callback :: rest => callback :: rejectionReactions rest
  | _ :: rest => rejectionReactions rest

/-- The page once a piece of code has run with result `r`. -/
def Page.after (p : Page) (r : WebSocketService × List Effect) : Page :=
  { service := r.1,
    timers := p.timers ++ scheduled r.2,
    onFulfilled := p.onFulfilled ++ fulfilmentReactions r.2,
    onRejected := p.onRejected ++ rejectionReactions r.2,
    log := p.log ++ r.2 }

/-- A page with nothing pending. -/
def Page.load (s : WebSocketService) : Page :=
  { service := s, timers := [], onFulfilled := [], onRejected := [], log := [] }

/-- Runs callbacks one after the other. -/
def Page.runAll (p : Page) (now : Int) : List Callback → Page
  | [] => p
  | callback :: rest => (p.after (callback.run p.service now)).runAll now rest

/-- The oldest pending timer fires. -/
def Page.fire (p : Page) (now : Int) : Page :=
  match p.timers with
  | [] => p
  | (callback, _) :: rest =>
    match callback with
    | .reconnect _ =>
      -- a new connect: its promise replaces the settled one
      ({ p with timers := rest, onFulfilled := [], onRejected := [] }).after
        (callback.run p.service now)
    | _ => ({ p with timers := rest }).after (callback.run p.service now)

/-- The socket opens: `onopen` runs, then the reactions to the fulfilled promise. -/
def Page.socketOpen (p : Page) (now : Int) : Page :=
  let q := p.after p.service.onopen
  ({ q with onFulfilled := [], onRejected := [] }).runAll now q.onFulfilled

/-- The socket reports an error: `onerror` runs, then the reactions to the rejected
promise, before any later event of the socket. -/
def Page.socketError (p : Page) (error : JVal) (now : Int) : Page :=
  let q := p.after (p.service.onerror error)
  ({ q with onFulfilled := [], onRejected := [] }).runAll now q.onRejected

/-- The socket made by `connect(url)` closes. -/
def Page.socketClose (p : Page) (url : String) (event : CloseEvent) : Page :=
  p.after (p.service.onclose url event)

/-- The page when the connection of service `s` is lost: the socket made by
`connect(url)` closes uncleanly. -/
def Page.connectionLost (s : WebSocketService) (url : String) (code : Nat)
    (reason : String) : Page :=
  (Page.load s).socketClose url { wasClean := false, code := code, reason := reason }

/-- A reconnection attempt that fails: the timer fires, the socket reports an error and
then closes uncleanly. -/
def Page.failedAttempt (p : Page) (url : String) (error : JVal) (code : Nat)
    (reason : String) (now : Int) : Page :=
  ((p.fire now).socketError error now).socketClose url
    { wasClean := false, code := code, reason := reason }

/-- Reconnection attempts fail one after the other for as long as one is scheduled, at
most `fuel` times; `clock k` is the clock reading of the k-th attempt from the end. -/
def Page.failedAttempts (url : String) (error : JVal) (code : Nat) (reason : String)
    (clock : Nat → Int) : Nat → Page → Page
  | 0, p => p
  | fuel + 1, p =>
    match p.timers with
    | [] => p
    | _ :: _ =>
      Page.failedAttempts url error code reason clock fuel
        (p.failedAttempt url error code reason (clock fuel))

/-- The events a list of effects emits, by name. -/
def emitted : List Effect → List String
  | [] => []
  | .emit event _ :: rest => event :: emitted rest
  | _ :: rest => emitted rest

/-- The frames a list of effects sends. -/
def sent : List Effect → List JVal
  | [] => []
  | .send message :: rest => message :: sent rest
  | _ :: rest => sent rest

/-! ### Worked inputs for the client -/

/-- The address the hook connects to. -/
def localUrl : String := "ws://localhost:8080"

/-- A client connected at 1000 ms whose socket has opened: it is paused. -/
def openedService : WebSocketService :=
  (WebSocketService.constructor.connect localUrl 1000).onopen.1

/-- A connected client resumed at 1200 ms. -/
def activeService : WebSocketService :=
  (openedService.resumeConnection 1200).1

/-- A `delta_update` frame. -/
def deltaFrame : MessageEvent :=
  { data := "\x7b\"type\":\"delta_update\"\x7d",
    json := some (.obj [("type", .str "delta_update")]) }

/-- A `mode_changed` frame. -/
def metaFrame : MessageEvent :=
  { data := "\x7b\"type\":\"mode_changed\"\x7d",
    json := some (.obj [("type", .str "mode_changed")]) }

/-- A frame that is not JSON. -/
def malformedFrame : MessageEvent :=
  { data := "not json", json := none }

/-- Frames of every kind and two `pauseConnection` calls, and no `resumeConnection`. -/
def quietEvents : List ServiceEvent :=
  [.onmessage deltaFrame 2000 2000, .pauseConnection 2500 2500,
   .onmessage deltaFrame 3000 3000, .onmessage metaFrame 4000 4000,
   .onmessage malformedFrame 5000 5000, .pauseConnection 5500 5500,
   .onmessage deltaFrame 6000 6000]

/-- An unclean close, as after a dropped connection. -/
def uncleanClose : CloseEvent :=
  { wasClean := false, code := 1006, reason := "" }

/-- A client connects at 1000, is active from 1200 to 5200, loses its connection, and the
first scheduled reconnection connects at 7000 and opens. -/
def reconnectTrace : List ServiceEvent :=
  [.connect localUrl 1000, .onopen, .resumeConnection 1200, .pauseConnection 5200 5200,
   .onclose localUrl uncleanClose, .connect localUrl 7000, .onopen]

/-! ## `backend/src/websocket/wsHandler.js`: the handler and its maps -/

/-- The field `type` of a message handed to `sendMessage`. -/
def Message.type : Message → String
  | .initial_data _ _ => "initial_data"
  | .full_data _ _ => "full_data"
  | .full_data_update _ _ => "full_data_update"
  | .delta_update _ _ _ => "delta_update"
  | .hybrid_update _ _ _ _ _ => "hybrid_update"
  | .mode_changed _ _ => "mode_changed"
  | .performance_metrics _ _ => "performance_metrics"

/-- The test `['performance_metrics', 'mode_changed'].includes(data.type)` of
`sendMessage`. -/
def Message.isMetaMessage (data : Message) : Bool :=
  decide (data.type = "performance_metrics") || decide (data.type = "mode_changed")

/-- The call `Map.prototype.delete(key)`. -/
def mapDelete {α : Type} (m : List (String × α)) (key : String) : List (String × α) :=
  m.filter (fun kv => decide (kv.1 ≠ key))

/-- The object `this.performanceMetrics` of the handler. -/
structure ServerMetrics where
  connections : Nat
  totalDataSent : Nat
  messagesSent : Nat
  startTime : Int
deriving DecidableEq

/-- The state of a `WebSocketHandler`: the simulator's store, the map `clients` of the
per-client records and the map `intervals` of the per-client timers, both keyed by
client id, and the server counters. -/
structure WebSocketHandler where
  simulator : Store
  clients : List (String × Client)
  intervals : List (String × List Timer)
  performanceMetrics : ServerMetrics
deriving DecidableEq

/-- A frame that went out: the id of the client whose socket took it, and the text. -/
abbrev Frame := String × String

/-- The handler as its constructor leaves it, on the store `initializeData` made;
`startTime` is the clock reading. -/
def WebSocketHandler.constructor (simulator : Store) (startTime : Int) : WebSocketHandler :=
  { simulator := simulator, clients := [], intervals := [],
    performanceMetrics :=
      { connections := 0, totalDataSent := 0, messagesSent := 0, startTime := startTime } }

/-- The method `stopUpdates(clientId)`: the timers of the entry are cleared and the entry
deleted. -/
def WebSocketHandler.stopUpdates (h : WebSocketHandler) (clientId : String) :
    WebSocketHandler :=
  match propGet h.intervals clientId with
  | some _ => { h with intervals := mapDelete h.intervals clientId }
  | none => h

/-- The method `cleanup(clientId)`. -/
def WebSocketHandler.cleanup (h : WebSocketHandler) (clientId : String) : WebSocketHandler :=
  let h := h.stopUpdates clientId
  match propGet h.clients clientId with
  | some _ => { h with clients := mapDelete h.clients clientId }
  | none => h

/-- The method `startUpdates(clientId)`: the timers of the client's mode, stored under its
id. -/
def WebSocketHandler.startUpdates (h : WebSocketHandler) (clientId : String) :
    WebSocketHandler :=
  match propGet h.clients clientId with
  | none => h
  | some client =>
    { h with intervals := propSet h.intervals clientId (DeltaTest.startUpdates client) }

/-- The method `sendMessage(clientId, data)`.  `stringify` stands for `JSON.stringify`;
`delivered` tells whether `client.ws.send(message)` returns, `false` meaning that it
raises.  The frames that went out are returned with the state. -/
def WebSocketHandler.sendMessage (h : WebSocketHandler) (stringify : Message → String)
    (clientId : String) (data : Message) (delivered : Bool) :
    WebSocketHandler × List Frame :=
  match propGet h.clients clientId with
  | none => (h, [])
  | some client =>
    if !client.isActive then (h, [])
    else
      let message := stringify data
      let messageSize := message.utf8ByteSize
      if !delivered then (h.cleanup clientId, [])
      else if !data.isMetaMessage then
        let client :=
          { client with
            metrics :=
              { client.metrics with
                dataSent := client.metrics.dataSent + messageSize,
                messagesSent := client.metrics.messagesSent + 1 } }
        ({ h with
            clients := propSet h.clients clientId client,
            performanceMetrics :=
              { h.performanceMetrics with
                totalDataSent := h.performanceMetrics.totalDataSent + messageSize,
                messagesSent := h.performanceMetrics.messagesSent + 1 } },
          [(clientId, message)])
      else (h, [(clientId, message)])

/-- The method `setUpdateMode(clientId, mode)`. -/
def WebSocketHandler.setUpdateMode (h : WebSocketHandler) (stringify : Message → String)
    (clientId mode : String) (o : Oracle) (delivered : Bool) :
    WebSocketHandler × List Frame × Oracle :=
  match propGet h.clients clientId with
  | none => (h, [], o)
  | some client =>
    let h := h.stopUpdates clientId
    let h := { h with clients := propSet h.clients clientId { client with updateMode := mode } }
    let h := h.startUpdates clientId
    let (timestamp, o) := o.nextISO
    let (h, out) := h.sendMessage stringify clientId (.mode_changed mode timestamp) delivered
    (h, out, o)

/-- The quotient `amount / (ms / 1000)` of `sendPerformanceMetrics` as it is written on
the wire: `null` when `ms` is 0, the quotient being `Infinity` or `NaN` then. -/
def perSecondJson (amount : Nat) (ms : Int) : JVal :=
  if ms = 0 then .null else .num ((amount : ℚ) / ((ms : ℚ) / 1000))

/-- The method `sendPerformanceMetrics(clientId)`. -/
def WebSocketHandler.sendPerformanceMetrics (h : WebSocketHandler)
    (stringify : Message → String) (clientId : String) (o : Oracle) (delivered : Bool) :
    WebSocketHandler × List Frame × Oracle :=
  match propGet h.clients clientId with
  | none => (h, [], o)
  | some client =>
    let (t1, o) := o.nextNow
    let uptime := t1 - h.performanceMetrics.startTime
    let (t2, o) := o.nextNow
    let clientUptime := t2 - client.metrics.connectionTime
    let (timestamp, o) := o.nextISO
    let data : JVal :=
      .obj [("server", .obj
              [("totalConnections", .num h.performanceMetrics.connections),
               ("activeConnections", .num h.clients.length),
               ("totalDataSent", .num h.performanceMetrics.totalDataSent),
               ("totalMessagesSent", .num h.performanceMetrics.messagesSent),
               ("uptime", .num uptime),
               ("averageDataPerSecond",
                 perSecondJson h.performanceMetrics.totalDataSent uptime)]),
            ("client", .obj
              [("dataSent", .num client.metrics.dataSent),
               ("messagesSent", .num client.metrics.messagesSent),
               ("connectionTime", .num clientUptime),
               ("averageDataPerSecond", perSecondJson client.metrics.dataSent clientUptime),
               ("currentMode", .str client.updateMode)])]
    let (h, out) :=
      h.sendMessage stringify clientId (.performance_metrics data timestamp) delivered
    (h, out, o)

/-- A parsed message of a client, by its `type`. -/
inductive Request where
  | set_update_mode (mode : String) : Request
  | request_full_data : Request
  | request_initial_data : Request
  | get_performance_metrics : Request
  | unknown (type : String) : Request
deriving DecidableEq

/-- The method `handleMessage(clientId, message)`.  `initializeData` stands for the
simulator's method of that name, which `regenerateAllData` calls. -/
def WebSocketHandler.handleMessage (h : WebSocketHandler) (stringify : Message → String)
    (initializeData : Oracle → Store × Oracle) (clientId : String) (message : Request)
    (o : Oracle) (delivered : Bool) : WebSocketHandler × List Frame × Oracle :=
  match propGet h.clients clientId with
  | none => (h, [], o)
  | some _ =>
    match message with
    | .set_update_mode mode => h.setUpdateMode stringify clientId mode o delivered
    | .request_full_data =>
      let (data, o) := getRealTimeData h.simulator o
      let (timestamp, o) := o.nextISO
      let (h, out) := h.sendMessage stringify clientId (.full_data data timestamp) delivered
      (h, out, o)
    | .request_initial_data =>
      let (store, o) := initializeData o
      let h := { h with simulator := store }
      let (data, o) := getFullData h.simulator o
      let (timestamp, o) := o.nextISO
      let (h, out) := h.sendMessage stringify clientId (.initial_data data timestamp) delivered
      (h, out, o)
    | .get_performance_metrics => h.sendPerformanceMetrics stringify clientId o delivered
    | .unknown _ => (h, [], o)

/-- The callback of `wss.on('connection', …)` for a connection whose generated id is
`clientId`; `generateClientId` reads the clock and draws once. -/
def WebSocketHandler.onConnection (h : WebSocketHandler) (stringify : Message → String)
    (clientId : String) (o : Oracle) (delivered : Bool) :
    WebSocketHandler × List Frame × Oracle :=
  let (_, o) := o.nextNow
  let (_, o) := o.nextRandom
  let (connectionTime, o) := o.nextNow
  let client : Client :=
    { updateMode := "full", isActive := true, hybridCycle := 0,
      metrics := { dataSent := 0, messagesSent := 0, connectionTime := connectionTime } }
  let h := { h with clients := propSet h.clients clientId client }
  let h :=
    { h with
      performanceMetrics :=
        { h.performanceMetrics with connections := h.performanceMetrics.connections + 1 } }
  let (data, o) := getFullData h.simulator o
  let (timestamp, o) := o.nextISO
  let (h, out) := h.sendMessage stringify clientId (.initial_data data timestamp) delivered
  (h.startUpdates clientId, out, o)

/-- One firing of a timer callback that `startUpdates(clientId)` made. -/
def WebSocketHandler.fire (h : WebSocketHandler) (stringify : Message → String)
    (clientId : String) (t : Timer) (o : Oracle) (delivered : Bool) :
    WebSocketHandler × List Frame × Oracle :=
  match propGet h.clients clientId with
  | none => (h, [], o)
  | some client =>
    let (m, client, s, o) := runTimer t client h.simulator o
    let h := { h with simulator := s, clients := propSet h.clients clientId client }
    match m with
    | some data =>
      let (h, out) := h.sendMessage stringify clientId data delivered
      (h, out, o)
    | none => (h, [], o)

/-- The timers of the list fire once each, in order. -/
def WebSocketHandler.fireAll (stringify : Message → String) (clientId : String)
    (delivered : Bool) : List Timer → WebSocketHandler → Oracle →
      WebSocketHandler × List Frame × Oracle
  | [], h, o => (h, [], o)
  | t :: rest, h, o =>
    let (h, out, o) := h.fire stringify clientId t o delivered
    let (h, out2, o) := WebSocketHandler.fireAll stringify clientId delivered rest h o
    (h, out ++ out2, o)

/-- One period of 5000 ms elapses for the timers held under `clientId` in `intervals`. -/
def WebSocketHandler.tick (h : WebSocketHandler) (stringify : Message → String)
    (clientId : String) (o : Oracle) (delivered : Bool) :
    WebSocketHandler × List Frame × Oracle :=
  match propGet h.intervals clientId with
  | some timers => WebSocketHandler.fireAll stringify clientId delivered timers h o
  | none => (h, [], o)

/-- The method `shutdown()`. -/
def WebSocketHandler.shutdown (h : WebSocketHandler) : WebSocketHandler :=
  let h := (h.clients.map Prod.fst).foldl WebSocketHandler.stopUpdates h
  { h with clients := [], intervals := [] }

/-- What happens to the handler: a connection is accepted, a client's message arrives, a
period of a client's timers elapses, a socket closes or fails, the server shuts down, or
one of the methods is called directly. -/
inductive HandlerEvent where
  | connection (clientId : String) (delivered : Bool) : HandlerEvent
  | message (clientId : String) (request : Request) (delivered : Bool) : HandlerEvent
  | tick (clientId : String) (delivered : Bool) : HandlerEvent
  | close (clientId : String) : HandlerEvent
  | error (clientId : String) : HandlerEvent
  | setUpdateMode (clientId mode : String) (delivered : Bool) : HandlerEvent
  | sendMessage (clientId : String) (data : Message) (delivered : Bool) : HandlerEvent
  | cleanup (clientId : String) : HandlerEvent
  | shutdown : HandlerEvent

/-- A connection with the id `clientId` is accepted by the event. -/
def HandlerEvent.accepts (clientId : String) : HandlerEvent → Bool
  | .connection id _ => decide (id = clientId)
  | _ => false

/-- One event on the handler. -/
def WebSocketHandler.step (stringify : Message → String)
    (initializeData : Oracle → Store × Oracle) (h : WebSocketHandler) (o : Oracle) :
    HandlerEvent → WebSocketHandler × List Frame × Oracle
  | .connection clientId delivered => h.onConnection stringify clientId o delivered
  | .message clientId request delivered =>
    h.handleMessage stringify initializeData clientId request o delivered
  | .tick clientId delivered => h.tick stringify clientId o delivered
  | .close clientId => (h.cleanup clientId, [], o)
  | .error clientId => (h.cleanup clientId, [], o)
  | .setUpdateMode clientId mode delivered =>
    h.setUpdateMode stringify clientId mode o delivered
  | .sendMessage clientId data delivered =>
    ((h.sendMessage stringify clientId data delivered).1,
     (h.sendMessage stringify clientId data delivered).2, o)
  | .cleanup clientId => (h.cleanup clientId, [], o)
  | .shutdown => (h.shutdown, [], o)

/-- A sequence of events on the handler: the state, every frame that went out, and the
oracle afterwards. -/
def WebSocketHandler.runEvents (stringify : Message → String)
    (initializeData : Oracle → Store × Oracle) :
    List HandlerEvent → WebSocketHandler → Oracle → WebSocketHandler × List Frame × Oracle
  | [], h, o => (h, [], o)
  | e :: rest, h, o =>
    let (h, out, o) := WebSocketHandler.step stringify initializeData h o e
    let (h, out2, o) := WebSocketHandler.runEvents stringify initializeData rest h o
    (h, out ++ out2, o)

/-- The timer invariant: every key of `intervals` is a key of `clients`, and every entry
of `intervals` holds at most one timer. -/
def WebSocketHandler.timersOwned (h : WebSocketHandler) : Prop :=
  (∀ k, (propGet h.intervals k).isSome = true → (propGet h.clients k).isSome = true)
  ∧ ∀ k timers, propGet h.intervals k = some timers → timers.length ≤ 1

/-! ### Worked inputs for the handler -/

/-- A stand-in for `JSON.stringify` that writes the `type` of the message only. -/
def typeOnly (data : Message) : String :=
  "\x7b\"type\":\"" ++ data.type ++ "\"\x7d"

/-- A stand-in for `initializeData` that makes `sampleStore` whatever the draws. -/
def sampleData (o : Oracle) : Store × Oracle := (sampleStore, o)

/-- The record of a client in full mode that was sent one message of 20 bytes. -/
def fullClient : Client :=
  { updateMode := "full", isActive := true, hybridCycle := 0,
    metrics := { dataSent := 20, messagesSent := 1, connectionTime := 2000 } }

/-- A handler started at 1000 ms with two connections: `c1` in full mode, which was sent
one message of 20 bytes, and `c2` in delta mode. -/
def sampleHandler : WebSocketHandler :=
  { simulator := sampleStore
    clients :=
      [("c1", fullClient),
       ("c2", { updateMode := "delta", isActive := true, hybridCycle := 0,
                metrics := { dataSent := 0, messagesSent := 0, connectionTime := 3000 } })]
    intervals := [("c1", [Timer.full]), ("c2", [Timer.delta])]
    performanceMetrics :=
      { connections := 2, totalDataSent := 20, messagesSent := 1, startTime := 1000 } }

/-- Two connections are accepted; the first one switches to hybrid mode and ticks, the
second one switches to delta mode, and its tick fails to send. -/
def sampleEvents : List HandlerEvent :=
  [.connection "c1" true, .setUpdateMode "c1" "hybrid" true, .tick "c1" true,
   .connection "c2" true, .message "c2" (.set_update_mode "delta") true, .tick "c2" false]

/-- What may follow the cleanup of `c1`: its timer period elapses, a message of it is
still handled, another connection is accepted and ticks. -/
def laterEvents : List HandlerEvent :=
  [.tick "c1" true, .message "c1" .request_full_data true, .connection "c3" true,
   .tick "c3" true, .sendMessage "c1" (.mode_changed "full" "t") true]

/-- Three `delta_update` frames arriving at 2000, 3000 and 5000 ms. -/
def threeFrames : List ServiceEvent :=
  [.onmessage deltaFrame 2000 2000, .onmessage deltaFrame 3000 3000,
   .onmessage deltaFrame 5000 5000]

/-! ## `backend/src/data/patientSimulator.js`: the aggregate metrics -/

/-- The object `metrics` as `initializeData` computes it from the patients and the
equipment it has made. -/
def computeMetrics (patients : List (String × Patient))
    (equipment : List (String × Equipment)) : Metrics :=
  { totalPatients := (patients.map Prod.fst).length
    criticalPatients := ((patients.map Prod.snd).filter (fun p => p.status = "critical")).length
    activeEquipment := ((equipment.map Prod.snd).filter (fun e => e.status = "active")).length }

/-- Draws of one `updateNonCriticalData()` on `sampleStore`: the gate of `EQ001` opens, its
status is drawn `maintenance` (draw 0.9) and its battery level adjusted; the gate of `P001`
opens and its status is drawn `critical` (draw 0.65); every other gate stays closed. -/
def statusOracle : Oracle :=
  scriptedOracle [0.95, 0.9, 0.5, 0, 0, 0.96, 0.65, 0, 0] 1704100000000

/-! ## `backend/src/data/patientSimulator.js`: the ranges of the adjusted vitals -/

/-- A field after `updateVitals` went over its patient: left as it was, or assigned a
result of `adjustValue` with the given bounds and step. -/
def adjustedOrKept (old new min max maxChange : ℚ) : Prop :=
  new = old ∨ ∃ (current : ℚ) (o : Oracle), new = (adjustValue current min max maxChange o).1

/-- The six fields that `updateVitals` adjusts, each with the bounds and the step the
source passes to `adjustValue`. -/
def Vitals.adjustedFrom (old new : Vitals) : Prop :=
  adjustedOrKept old.heartRate new.heartRate 60 100 5
  ∧ adjustedOrKept old.spo2 new.spo2 95 100 2
  ∧ adjustedOrKept old.temperature new.temperature 36.0 37.5 0.3
  ∧ adjustedOrKept old.respiratoryRate new.respiratoryRate 12 20 2
  ∧ adjustedOrKept old.bloodPressure.systolic new.bloodPressure.systolic 90 140 5
  ∧ adjustedOrKept old.bloodPressure.diastolic new.bloodPressure.diastolic 60 90 3

/-- A field after a pass: what it was before the pass, or within the bounds. -/
def keptOrWithin (old new min max : ℚ) : Prop :=
  new = old ∨ (min ≤ new ∧ new ≤ max)

/-- The six adjusted fields are each what they were or within their range. -/
def Vitals.keptOrInRange (old new : Vitals) : Prop :=
  keptOrWithin old.heartRate new.heartRate 60 100
  ∧ keptOrWithin old.spo2 new.spo2 95 100
  ∧ keptOrWithin old.temperature new.temperature 36.0 37.5
  ∧ keptOrWithin old.respiratoryRate new.respiratoryRate 12 20
  ∧ keptOrWithin old.bloodPressure.systolic new.bloodPressure.systolic 90 140
  ∧ keptOrWithin old.bloodPressure.diastolic new.bloodPressure.diastolic 60 90

/-- One guarded adjustment of `updateVitals`: a draw, and when it exceeds the threshold
the vitals are adjusted. -/
def gatedAdjust (threshold : ℚ) (adjust : Vitals → Oracle → Vitals × Oracle)
    (s : Vitals × Oracle) : Vitals × Oracle :=
  if s.2.nextRandom.1 > threshold then adjust s.1 s.2.nextRandom.2
  else (s.1, s.2.nextRandom.2)

/-! ## Patches that name what the mirror lacks -/

/-- The mirror holds the collection `coll`, and the collection holds something under
`id`. -/
def JVal.holdsEntity (mirror : JVal) (coll id : String) : Bool :=
  match mirror.getProp coll with
  | some c => (c.getProp id).isSome
  | none => false

/-- The mirror holds, as properties of its own, every entity the Patch names: each
lookup `updatedData[entityType][entityId]` of `applyDeltaUpdates` finds an own property
and does not reach a prototype. -/
def Patch.heldBy (p : Patch) (mirror : JVal) : Bool :=
  p.all (fun ce => ce.2.all (fun e => mirror.holdsEntity ce.1 e.1))

/-- The Patch without the entries that name a collection absent from the mirror or an
entity id absent from its collection. -/
def Patch.dropAbsent (mirror : JVal) (p : Patch) : Patch :=
  (p.filter (fun ce => (mirror.getProp ce.1).isSome)).map
    (fun ce => (ce.1, ce.2.filter (fun e => mirror.holdsEntity ce.1 e.1)))

/-- A mirror that holds the patient `P001` only. -/
def smallMirror : List (String × JVal) :=
  [("patients", .obj [("P001", .obj [("status", .str "stable")])]),
   ("timestamp", .str "2024-01-01T09:00:00.000Z")]

/-- A Patch for the patient `P009` and for a collection `beds`, which `smallMirror` does
not hold. -/
def strayPatch : Patch :=
  [("patients", [("P009", [("status", .str "critical")])]),
   ("beds", [("B1", [("free", .bool true)])])]

/-- A mirror that holds the patient `P001` with a vital sign and a list of one
medication. -/
def wardMirror : JVal :=
  .obj [("patients", .obj [("P001", .obj
          [("vitals", .obj [("heartRate", .num 70)]),
           ("medications", .arr [.obj [("dose", .num 2)]])])]),
        ("timestamp", .str "2024-01-01T09:00:00.000Z")]

/-- A Patch with three field paths for `P001`: one into `vitals`, one into the first
medication, one that creates `alerts`. -/
def wardPatch : Patch :=
  [("patients", [("P001", [("vitals.heartRate", .num 72), ("medications.0.dose", .num 5),
                           ("alerts.level", .str "high")])])]

/-- The Patch `wardPatch` with its field paths in another order. -/
def wardPatchReordered : Patch :=
  [("patients", [("P001", [("alerts.level", .str "high"), ("vitals.heartRate", .num 72),
                           ("medications.0.dose", .num 5)])])]

/-! ## The critical vitals of a hybrid connection -/

/-- The mirror holds, for every patient of the store, the store's `vitals.spo2`. -/
def agreesOnSpo2 (mirror : Option JVal) (s : Store) : Prop :=
  ∃ m, mirror = some m ∧ ∀ id p, propGet s.patients id = some p →
    getPath m ["patients", id, "vitals", "spo2"] = some (.num p.vitals.spo2)

/-- A field path that is the SpO2's, or whose keys part ways with the SpO2's. -/
def besideSpo2 (path : String) : Prop :=
  path = "vitals.spo2" ∨ diverge (splitPath path) ["vitals", "spo2"] = true

/-- A hybrid-mode session in its full cycle whose mirror is the snapshot of
`sampleStore`. -/
def hybridSession : Session :=
  { connection :=
      { client := { updateMode := "hybrid", isActive := true, hybridCycle := 0,
                    metrics := { dataSent := 0, messagesSent := 0, connectionTime := 0 } },
        intervals := [Timer.hybrid] },
    mirror := some (sampleStore.toJson "2024-01-01T09:00:00.000Z") }

/-- Draws of three ticks on `sampleStore`.  In each tick `P001` is selected; the first
tick moves its heart rate and its SpO2, the second its SpO2, the third its heart rate;
no other gate opens. -/
def hybridOracle : Oracle :=
  scriptedOracle
    [0.5, 0.9, 0.9, 0.9, 0.75, 0.9, 0.25, 0.2, 0.2, 0.2, 0.2, 0, 0, 0, 0, 0, 0,
     0.5, 0.9, 0.9, 0.2, 0.9, 0.75, 0.2, 0.2, 0.2, 0.2, 0, 0, 0, 0, 0, 0,
     0.5, 0.9, 0.9, 0.9, 0.25, 0.2, 0.2, 0.2, 0.2, 0.2, 0, 0, 0, 0, 0, 0]
    1704100000000
/-! ## Theorems -/

set_option maxRecDepth 100000 in
/-- C1 (diff correctness fails on the code).  On `sampleStore` with the draws of
`passOracle`, the pass records the heart-rate change only.  Applying its Patch to the
pre-pass snapshot succeeds and brings `P001`'s heart rate to the store's 72.5, but leaves
the systolic pressure at 120 where the store has 122.5 and the battery level of `EQ001`
at 50 where the store has 55: neither `patients` nor `equipment` of the patched snapshot
equals the post-pass store. -/
theorem C1_patch_misses_pressure_and_battery :
    (mutationPass sampleStore passOracle).1
        = [patientChange "P001" "vitals.heartRate" (.num 70) (.num 72.5)]
    ∧ (applyDeltaUpdates (sampleStore.toJson "t0")
          (changesToKeyValue (mutationPass sampleStore passOracle).1) "t1").map
        (fun m => (getPath m ["patients", "P001", "vitals", "heartRate"],
                   getPath m ["patients", "P001", "vitals", "bloodPressure", "systolic"],
                   getPath m ["equipment", "EQ001", "batteryLevel"]))
        = .ok (some (.num 72.5), some (.num 120), some (.num 50))
    ∧ (getPath ((mutationPass sampleStore passOracle).2.1.toJson "t1")
          ["patients", "P001", "vitals", "heartRate"],
       getPath ((mutationPass sampleStore passOracle).2.1.toJson "t1")
          ["patients", "P001", "vitals", "bloodPressure", "systolic"],
       getPath ((mutationPass sampleStore passOracle).2.1.toJson "t1")
          ["equipment", "EQ001", "batteryLevel"])
        = (some (.num 72.5), some (.num 122.5), some (.num 55))
    ∧ (applyDeltaUpdates (sampleStore.toJson "t0")
          (changesToKeyValue (mutationPass sampleStore passOracle).1) "t1").map
        (fun m => getPath m ["patients"])
        ≠ .ok (some (patientsJson (mutationPass sampleStore passOracle).2.1.patients))
    ∧ (applyDeltaUpdates (sampleStore.toJson "t0")
          (changesToKeyValue (mutationPass sampleStore passOracle).1) "t1").map
        (fun m => getPath m ["equipment"])
        ≠ .ok (some (equipmentJson (mutationPass sampleStore passOracle).2.1.equipment)) := by
  decide!

set_option maxRecDepth 100000 in
/-- C2 (composite flattening fails on the code).  On `sampleStore` with the draws of
`passOracle`, `updateVitals()` selects `P001` and moves its systolic pressure from 120 to
122.5 and its diastolic pressure from 80 to 81.5, yet the returned list holds the
heart-rate record alone: no record has a `vitals.bloodPressure` path. -/
theorem C2_bloodPressure_change_not_recorded :
    (propGet sampleStore.patients "P001").map (fun p => p.vitals.bloodPressure)
        = some { systolic := 120, diastolic := 80, meanArterialPressure := 93 }
    ∧ (propGet (updateVitals sampleStore passOracle).2.1.patients "P001").map
          (fun p => p.vitals.bloodPressure)
        = some { systolic := 122.5, diastolic := 81.5, meanArterialPressure := 93 }
    ∧ (updateVitals sampleStore passOracle).1
        = [patientChange "P001" "vitals.heartRate" (.num 70) (.num 72.5)] := by
  decide!

set_option maxRecDepth 100000 in
/-- C3 (change completeness fails on the code).  On `sampleStore`, when the gate of
`EQ001` opens (draw 0.95), its status is drawn `active` again (0.5) and its battery level
adjusted (0.75), `updateNonCriticalData()` moves the battery level from 50 to 55 and
returns no change record at all. -/
theorem C3_batteryLevel_change_not_recorded :
    (propGet sampleStore.equipment "EQ001").map (fun e => e.batteryLevel) = some 50
    ∧ (propGet
          (updateNonCriticalData sampleStore
            (scriptedOracle [0.95, 0.5, 0.75] 1704100000000)).2.1.equipment
          "EQ001").map (fun e => e.batteryLevel) = some 55
    ∧ (updateNonCriticalData sampleStore
          (scriptedOracle [0.95, 0.5, 0.75] 1704100000000)).1 = [] := by
  decide!

set_option maxRecDepth 100000 in
/-- C4 (no-op suppression fails on the code).  Two `updateVitals()` calls on
`sampleStore` within one millisecond, both giving `P001`'s medication anew with the same
next-due draw: the second call returns the records `medications.0.lastGiven` and
`medications.0.nextDue` with `oldValue` equal to `newValue`. -/
theorem C4_medication_records_without_change :
    (updateVitals (updateVitals sampleStore sameMillisecondOracle).2.1
        (updateVitals sampleStore sameMillisecondOracle).2.2).1
      = [patientChange "P001" "medications.0.lastGiven"
            (.str "1704100000000") (.str "1704100000000"),
         patientChange "P001" "medications.0.nextDue"
            (.str "1704125200000") (.str "1704125200000")] := by
  decide!


/-! ### Records -/

theorem propGet_mem {α : Type} {l : List (String × α)} {k : String} {v : α}
    (h : propGet l k = some v) : (k, v) ∈ l := by
  induction l with
  | nil => simp [propGet] at h
  | cons hd tl ih =>
    obtain ⟨k', v'⟩ := hd
    by_cases hk : k' = k
    · simp [propGet, hk] at h
      simp [hk, h]
    · simp [propGet, hk] at h
      exact List.mem_cons_of_mem _ (ih h)

theorem propGet_mem_keys {α : Type} {l : List (String × α)} {k : String} {v : α}
    (h : propGet l k = some v) : k ∈ l.map Prod.fst :=
  List.mem_map.mpr ⟨(k, v), propGet_mem h, rfl⟩

theorem propGet_eq_none {α : Type} {l : List (String × α)} {k : String} :
    propGet l k = none ↔ k ∉ l.map Prod.fst := by
  induction l with
  | nil => simp [propGet]
  | cons hd tl ih =>
    obtain ⟨k', v'⟩ := hd
    by_cases hk : k' = k
    · simp [propGet, hk]
    · simp only [propGet, hk, if_false, ih, List.map_cons, List.mem_cons]
      constructor
      · intro h1 h2
        rcases h2 with h2 | h2
        · exact hk h2.symm
        · exact h1 h2
      · intro h1 h2
        exact h1 (Or.inr h2)

theorem mem_propSet {α : Type} {l : List (String × α)} {key : String} {x : α}
    {k : String} {v : α} (h : (k, v) ∈ propSet l key x) :
    (k, v) ∈ l ∨ (k = key ∧ v = x) := by
  induction l with
  | nil =>
    simp [propSet] at h
    exact Or.inr h
  | cons hd tl ih =>
    obtain ⟨k', v'⟩ := hd
    by_cases hk : k' = key
    · simp only [propSet, hk, if_true, List.mem_cons, Prod.mk.injEq] at h
      rcases h with h | h
      · exact Or.inr h
      · exact Or.inl (List.mem_cons_of_mem _ h)
    · simp only [propSet, hk, if_false, List.mem_cons, Prod.mk.injEq] at h
      rcases h with h | h
      · exact Or.inl (by simp [h.1, h.2])
      · rcases ih h with h' | h'
        · exact Or.inl (List.mem_cons_of_mem _ h')
        · exact Or.inr h'

theorem propSet_ne_nil {α : Type} (l : List (String × α)) (key : String) (x : α) :
    propSet l key x ≠ [] := by
  cases l with
  | nil => simp [propSet]
  | cons hd tl =>
    obtain ⟨k', v'⟩ := hd
    by_cases hk : k' = key <;> simp [propSet, hk]

theorem propGet_propSet_same {α : Type} (l : List (String × α)) (key : String) (x : α) :
    propGet (propSet l key x) key = some x := by
  induction l with
  | nil => simp [propSet, propGet]
  | cons hd tl ih =>
    obtain ⟨k', v'⟩ := hd
    by_cases hk : k' = key
    · simp [propSet, propGet, hk]
    · simp [propSet, propGet, hk, ih]

theorem propGet_propSet_ne {α : Type} (l : List (String × α)) {key k : String} (x : α)
    (h : k ≠ key) : propGet (propSet l key x) k = propGet l k := by
  induction l with
  | nil =>
    have h' : ¬ key = k := fun e => h e.symm
    simp [propSet, propGet, h']
  | cons hd tl ih =>
    obtain ⟨k', v'⟩ := hd
    by_cases hk : k' = key
    · have h' : ¬ key = k := fun e => h e.symm
      have h'' : ¬ k' = k := fun e => h (e ▸ hk)
      simp [propSet, propGet, hk, h', h'']
    · by_cases hk2 : k' = k
      · subst hk2
        simp [propSet, propGet, hk]
      · simp [propSet, propGet, hk, hk2, ih]

theorem propSet_propSet_same {α : Type} (l : List (String × α)) (key : String) (x y : α) :
    propSet (propSet l key x) key y = propSet l key y := by
  induction l with
  | nil => simp [propSet]
  | cons hd tl ih =>
    obtain ⟨k', v'⟩ := hd
    by_cases hk : k' = key
    · simp [propSet, hk]
    · simp [propSet, hk, ih]

theorem keys_propSet_of_mem {α : Type} (l : List (String × α)) (key : String) (x : α)
    (h : key ∈ l.map Prod.fst) : (propSet l key x).map Prod.fst = l.map Prod.fst := by
  induction l with
  | nil => simp at h
  | cons hd tl ih =>
    obtain ⟨k', v'⟩ := hd
    by_cases hk : k' = key
    · simp [propSet, hk]
    · simp only [List.map_cons, List.mem_cons] at h
      rcases h with h | h
      · exact absurd h.symm hk
      · simp [propSet, hk, ih h]


theorem hybridTick_cycle (client : Client) (s : Store) (o : Oracle) :
    (hybridTick client s o).2.1.hybridCycle = (client.hybridCycle + 1) % 2 := by
  unfold hybridTick
  simp only []
  split <;> rfl

theorem hybridTicks_cycle (n : Nat) : ∀ (client : Client) (s : Store) (o : Oracle),
    client.hybridCycle = 0 ∨ client.hybridCycle = 1 →
    (hybridTicks n client s o).1.hybridCycle = (client.hybridCycle + n) % 2 := by
  induction n with
  | zero =>
    intro client s o h
    rcases h with h | h <;> simp [hybridTicks, h]
  | succ n ih =>
    intro client s o h
    rw [hybridTicks, ih]
    · rw [hybridTick_cycle]; omega
    · rw [hybridTick_cycle]; omega

/-- The hybrid callback spelled out on the results of the two passes. -/
theorem hybridTick_eq (client : Client) (s : Store) (o : Oracle) :
    hybridTick client s o =
      if (hybridSelect client.hybridCycle (updateVitals s o).1
            (updateNonCriticalData (updateVitals s o).2.1 (updateVitals s o).2.2).1).1.length > 0
      then
        (some (Message.hybrid_update
            (hybridSelect client.hybridCycle (updateVitals s o).1
              (updateNonCriticalData (updateVitals s o).2.1 (updateVitals s o).2.2).1).2
            (changesToKeyValue
              (hybridSelect client.hybridCycle (updateVitals s o).1
                (updateNonCriticalData (updateVitals s o).2.1 (updateVitals s o).2.2).1).1)
            (updateNonCriticalData (updateVitals s o).2.1 (updateVitals s o).2.2).2.2.nextISO.1
            (if (client.hybridCycle + 1) % 2 = 0 then "next_full" else "next_critical")
            (if (hybridSelect client.hybridCycle (updateVitals s o).1
                  (updateNonCriticalData (updateVitals s o).2.1 (updateVitals s o).2.2).1).2
                = "critical_only" then true else false)),
          { client with hybridCycle := (client.hybridCycle + 1) % 2 },
          (updateNonCriticalData (updateVitals s o).2.1 (updateVitals s o).2.2).2.1,
          (updateNonCriticalData (updateVitals s o).2.1 (updateVitals s o).2.2).2.2.nextISO.2)
      else
        (none, { client with hybridCycle := (client.hybridCycle + 1) % 2 },
          (updateNonCriticalData (updateVitals s o).2.1 (updateVitals s o).2.2).2.1,
          (updateNonCriticalData (updateVitals s o).2.1 (updateVitals s o).2.2).2.2) := by
  rfl

/-- The delta callback spelled out on the mutation pass. -/
theorem deltaTick_eq (s : Store) (o : Oracle) :
    deltaTick s o =
      if (mutationPass s o).1.length > 0 then
        (some (Message.delta_update "all" (changesToKeyValue (mutationPass s o).1)
            (mutationPass s o).2.2.nextISO.1),
          (mutationPass s o).2.1, (mutationPass s o).2.2.nextISO.2)
      else (none, (mutationPass s o).2.1, (mutationPass s o).2.2) := by
  rfl


/-! ### `changesToKeyValue` -/

/-- The body of `changesToKeyValue` in one assignment. -/
theorem addChange_eq (updates : Patch) (change : Change) :
    addChange updates change =
      propSet updates change.entityType
        (propSet ((propGet updates change.entityType).getD []) change.entityId
          (propSet
            ((propGet ((propGet updates change.entityType).getD []) change.entityId).getD [])
            change.path change.newValue)) := by
  unfold addChange
  simp only []
  cases h1 : propGet updates change.entityType with
  | none =>
    simp [propGet_propSet_same, propSet_propSet_same, propGet, propSet]
  | some ents =>
    simp only [Option.isNone_some, Bool.false_eq_true, if_false, h1, Option.getD_some]
    cases h2 : propGet ents change.entityId with
    | none =>
      simp [propGet_propSet_same, propSet_propSet_same]
    | some paths =>
      simp [h2]

theorem addChange_ne_nil (updates : Patch) (change : Change) :
    addChange updates change ≠ [] := by
  rw [addChange_eq]
  exact propSet_ne_nil _ _ _

theorem foldl_addChange_ne_nil (changes : List Change) :
    ∀ updates : Patch, updates ≠ [] → changes.foldl addChange updates ≠ [] := by
  induction changes with
  | nil => intro updates h; simpa using h
  | cons c cs ih =>
    intro updates _
    simp only [List.foldl_cons]
    exact ih _ (addChange_ne_nil _ _)

theorem changesToKeyValue_ne_nil {changes : List Change} (h : changes ≠ []) :
    changesToKeyValue changes ≠ [] := by
  cases changes with
  | nil => exact absurd rfl h
  | cons c cs =>
    simp only [changesToKeyValue, List.foldl_cons]
    exact foldl_addChange_ne_nil _ _ (addChange_ne_nil _ _)

theorem addChange_filled (updates : Patch) (change : Change) (h : Patch.filled updates) :
    Patch.filled (addChange updates change) := by
  rw [addChange_eq]
  intro coll ents hmem
  rcases mem_propSet hmem with hold | ⟨_, hnew⟩
  · exact h coll ents hold
  · subst hnew
    refine ⟨propSet_ne_nil _ _ _, ?_⟩
    intro id paths hid
    rcases mem_propSet hid with hold | ⟨_, hnew⟩
    · cases h1 : propGet updates change.entityType with
      | none => simp [h1] at hold
      | some ents0 =>
        simp only [h1, Option.getD_some] at hold
        exact (h _ _ (propGet_mem h1)).2 id paths hold
    · subst hnew
      exact propSet_ne_nil _ _ _

theorem foldl_addChange_filled (changes : List Change) :
    ∀ updates : Patch, Patch.filled updates →
      Patch.filled (changes.foldl addChange updates) := by
  induction changes with
  | nil => intro updates h; simpa using h
  | cons c cs ih =>
    intro updates h
    simp only [List.foldl_cons]
    exact ih _ (addChange_filled _ _ h)

theorem changesToKeyValue_populated {changes : List Change} (h : changes ≠ []) :
    Patch.populated (changesToKeyValue changes) := by
  refine ⟨changesToKeyValue_ne_nil h, ?_⟩
  have := foldl_addChange_filled changes [] (by intro _ _ hm; simp at hm)
  exact this

theorem addChange_from (done : List Change) (updates : Patch) (change : Change)
    (h : Patch.from done updates) :
    Patch.from (done ++ [change]) (addChange updates change) := by
  rw [addChange_eq]
  intro coll ents id paths path v hcoll hid hpath
  have old : ∀ {coll ents id paths path v}, (coll, ents) ∈ updates → (id, paths) ∈ ents →
      (path, v) ∈ paths →
      ∃ c ∈ done ++ [change], c.entityType = coll ∧ c.entityId = id ∧ c.path = path
        ∧ c.newValue = v := by
    intro coll ents id paths path v h1 h2 h3
    obtain ⟨c, hc, hrest⟩ := h coll ents id paths path v h1 h2 h3
    exact ⟨c, List.mem_append_left _ hc, hrest⟩
  rcases mem_propSet hcoll with hold | ⟨hc, hnew⟩
  · exact old hold hid hpath
  · subst hnew
    rcases mem_propSet hid with hold | ⟨hi, hnew⟩
    · cases h1 : propGet updates change.entityType with
      | none => simp [h1] at hold
      | some ents0 =>
        simp only [h1, Option.getD_some] at hold
        rw [hc]
        exact old (propGet_mem h1) hold hpath
    · subst hnew
      rcases mem_propSet hpath with hold | ⟨hp, hv⟩
      · cases h1 : propGet updates change.entityType with
        | none => simp [h1, propGet] at hold
        | some ents0 =>
          simp only [h1, Option.getD_some] at hold
          cases h2 : propGet ents0 change.entityId with
          | none => simp [h2] at hold
          | some paths0 =>
            simp only [h2, Option.getD_some] at hold
            rw [hc, hi]
            exact old (propGet_mem h1) (propGet_mem h2) hold
      · exact ⟨change, by simp, hc.symm, hi.symm, hp.symm, hv.symm⟩

theorem foldl_addChange_from (changes : List Change) :
    ∀ (done : List Change) (updates : Patch), Patch.from done updates →
      Patch.from (done ++ changes) (changes.foldl addChange updates) := by
  induction changes with
  | nil => intro done updates h; simpa using h
  | cons c cs ih =>
    intro done updates h
    simp only [List.foldl_cons]
    have := ih (done ++ [c]) _ (addChange_from done updates c h)
    simpa using this

theorem changesToKeyValue_from (changes : List Change) :
    Patch.from changes (changesToKeyValue changes) := by
  have := foldl_addChange_from changes [] [] (by intro _ _ _ _ _ _ hm; simp at hm)
  simpa [changesToKeyValue] using this


/-! ### The records of `updateVitals` -/

theorem pushIfChanged_patientId {patientId path : String} {old new : ℚ} {c : Change}
    (h : c ∈ pushIfChanged patientId path old new) : c.patientId = some patientId := by
  unfold pushIfChanged at h
  split at h
  · simp only [List.mem_singleton] at h
    subst h
    rfl
  · simp at h

theorem vitalsChanges_patientId {patientId : String} {oldVitals vitals : Vitals} {c : Change}
    (h : c ∈ vitalsChanges patientId oldVitals vitals) : c.patientId = some patientId := by
  unfold vitalsChanges at h
  simp only [List.mem_append, or_assoc] at h
  rcases h with h | h | h | h | h | h | h | h | h | h | h | h | h <;>
    exact pushIfChanged_patientId h

theorem updateMedication_patientId {patientId : String} {index : Nat} {m : Medication}
    {o : Oracle} {c : Change} (h : c ∈ (updateMedication patientId index m o).2.1) :
    c.patientId = some patientId := by
  unfold updateMedication at h
  simp only [] at h
  split at h
  · simp only [List.mem_cons, List.mem_singleton, List.not_mem_nil, or_false] at h
    rcases h with h | h <;> subst h <;> rfl
  · simp at h

theorem updateMedications_patientId {patientId : String} (ms : List Medication) :
    ∀ (index : Nat) (o : Oracle) (c : Change),
      c ∈ (updateMedications patientId index ms o).2.1 → c.patientId = some patientId := by
  induction ms with
  | nil => intro index o c h; simp [updateMedications] at h
  | cons m rest ih =>
    intro index o c h
    simp only [updateMedications, List.mem_append] at h
    rcases h with h | h
    · exact updateMedication_patientId h
    · exact ih _ _ _ h

theorem updatePatientVitals_patientId {patientId : String} {p : Patient} {o : Oracle}
    {c : Change} (h : c ∈ (updatePatientVitals patientId p o).2.1) :
    c.patientId = some patientId := by
  unfold updatePatientVitals at h
  simp only [] at h
  split at h
  · simp only [List.mem_append] at h
    rcases h with h | h
    · exact vitalsChanges_patientId h
    · exact updateMedications_patientId _ _ _ _ h
  · exact vitalsChanges_patientId h

theorem updateSelected_patientId (selected : List String) :
    ∀ (patients : List (String × Patient)) (o : Oracle) (c : Change),
      c ∈ (updateSelected selected patients o).2.1 →
      ∃ id ∈ patients.map Prod.fst, c.patientId = some id := by
  induction selected with
  | nil => intro patients o c h; simp [updateSelected] at h
  | cons id rest ih =>
    intro patients o c h
    rw [updateSelected] at h
    cases hp : propGet patients id with
    | none =>
      simp only [hp] at h
      exact ih _ _ _ h
    | some p =>
      simp only [hp, List.mem_append] at h
      rcases h with h | h
      · exact ⟨id, propGet_mem_keys hp, updatePatientVitals_patientId h⟩
      · obtain ⟨id', hid', hc⟩ := ih _ _ _ h
        rw [keys_propSet_of_mem _ _ _ (propGet_mem_keys hp)] at hid'
        exact ⟨id', hid', hc⟩

theorem updateVitals_patientId {s : Store} {o : Oracle} {c : Change}
    (h : c ∈ (updateVitals s o).1) :
    ∃ id ∈ s.patients.map Prod.fst, c.patientId = some id := by
  unfold updateVitals at h
  exact updateSelected_patientId _ _ _ _ h


/-! ### The scheduler -/

/-- C5 (hybrid alternation).  For a connection whose `hybridCycle` is 0 when its hybrid
timer starts, the cycle before the n-th tick is `n mod 2`, a message sent by that tick is
tagged `full_cycle` when `n` is even and `critical_only` when it is odd, and every hybrid
tick, sending or not, replaces `hybridCycle` by `(hybridCycle + 1) mod 2`. -/
theorem C5_hybrid_alternation (client : Client) (s : Store) (o : Oracle)
    (h0 : client.hybridCycle = 0) (n : Nat) :
    (hybridTicks n client s o).1.hybridCycle = n % 2
    ∧ (∀ msg, (hybridTick (hybridTicks n client s o).1 (hybridTicks n client s o).2.1
          (hybridTicks n client s o).2.2).1 = some msg →
        msg.updateType? = some (if n % 2 = 0 then "full_cycle" else "critical_only"))
    ∧ ∀ (c : Client) (s' : Store) (o' : Oracle),
        (hybridTick c s' o').2.1.hybridCycle = (c.hybridCycle + 1) % 2 := by
  have hn : (hybridTicks n client s o).1.hybridCycle = n % 2 := by
    rw [hybridTicks_cycle n client s o (Or.inl h0), h0, Nat.zero_add]
  refine ⟨hn, ?_, hybridTick_cycle⟩
  intro msg hmsg
  rw [hybridTick_eq] at hmsg
  split at hmsg
  · simp only [Prod.mk.injEq, Option.some.injEq] at hmsg
    rw [← hmsg, hn]
    simp only [Message.updateType?, hybridSelect]
    by_cases h : n % 2 = 0 <;> simp [h]
  · simp at hmsg

/-- C5, at three ticks of a new connection's client record on `sampleStore`. -/
theorem C5_hybrid_alternation_witness :
    (hybridTicks 3 (newConnection 0).client sampleStore passOracle).1.hybridCycle = 3 % 2 :=
  (C5_hybrid_alternation (newConnection 0).client sampleStore passOracle rfl 3).1

/-- C6 (phase-1 allow-list).  On a hybrid tick that starts with `hybridCycle` 1, for a
store whose patient ids are non-empty strings, a message handed to `sendMessage` is a
`hybrid_update` tagged `critical_only` with `dataReduction` true, whose Patch has no
collection but `patients` and no field path but `vitals.heartRate` and `vitals.spo2`. -/
theorem C6_phase1_allow_list (client : Client) (s : Store) (o : Oracle)
    (h1 : client.hybridCycle = 1)
    (hids : ∀ id ∈ s.patients.map Prod.fst, id ≠ "")
    (msg : Message) (hmsg : (hybridTick client s o).1 = some msg) :
    ∃ changes timestamp cycle,
      msg = Message.hybrid_update "critical_only" changes timestamp cycle true
      ∧ ∀ coll ents, (coll, ents) ∈ changes →
          coll = "patients"
          ∧ ∀ id paths, (id, paths) ∈ ents → ∀ path v, (path, v) ∈ paths →
              path = "vitals.heartRate" ∨ path = "vitals.spo2" := by
  rw [hybridTick_eq] at hmsg
  split at hmsg
  · simp only [Prod.mk.injEq, Option.some.injEq] at hmsg
    have hsel : hybridSelect client.hybridCycle (updateVitals s o).1
        (updateNonCriticalData (updateVitals s o).2.1 (updateVitals s o).2.2).1
        = ((updateVitals s o).1.filter isCritical, "critical_only") := by
      simp [hybridSelect, h1]
    rename_i hlen
    rw [hsel] at hlen
    have hne : (updateVitals s o).1.filter isCritical ≠ [] := by
      intro h0
      rw [h0] at hlen
      simp at hlen
    rw [hsel] at hmsg
    refine ⟨changesToKeyValue ((updateVitals s o).1.filter isCritical),
      (updateNonCriticalData (updateVitals s o).2.1 (updateVitals s o).2.2).2.2.nextISO.1,
      (if (client.hybridCycle + 1) % 2 = 0 then "next_full" else "next_critical"),
      hmsg.symm.trans ?_, ?_⟩
    · simp
    · have hfrom := changesToKeyValue_from ((updateVitals s o).1.filter isCritical)
      have key : ∀ coll ents id paths path v,
          (coll, ents) ∈ changesToKeyValue ((updateVitals s o).1.filter isCritical) →
          (id, paths) ∈ ents → (path, v) ∈ paths →
          coll = "patients" ∧ (path = "vitals.heartRate" ∨ path = "vitals.spo2") := by
        intro coll ents id paths path v hc hi hp
        obtain ⟨c, hcmem, hty, _, hpath, _⟩ := hfrom coll ents id paths path v hc hi hp
        rw [List.mem_filter] at hcmem
        obtain ⟨hcv, hcrit⟩ := hcmem
        obtain ⟨pid, hpid, hcpid⟩ := updateVitals_patientId hcv
        constructor
        · rw [← hty]
          simp [Change.entityType, hcpid, idTruthy, hids pid hpid]
        · rw [← hpath]
          simpa [isCritical] using hcrit
      intro coll ents hc
      have hfilled := (changesToKeyValue_populated hne).2
      obtain ⟨hne, _⟩ := hfilled coll ents hc
      constructor
      · obtain ⟨⟨id, paths⟩, hmem⟩ := List.exists_mem_of_ne_nil _ hne
        have hpne := (hfilled coll ents hc).2 id paths hmem
        obtain ⟨⟨path, v⟩, hpm⟩ := List.exists_mem_of_ne_nil _ hpne
        exact (key coll ents id paths path v hc hmem hpm).1
      · intro id paths hi path v hp
        exact (key coll ents id paths path v hc hi hp).2
  · simp at hmsg

set_option maxRecDepth 100000 in
/-- C6, at a critical-cycle tick on `sampleStore` that adjusts `P001`'s heart rate and
blood pressure: the message carries the heart rate alone. -/
theorem C6_phase1_allow_list_witness :
    ∃ changes timestamp cycle,
      Message.hybrid_update "critical_only"
          [("patients", [("P001", [("vitals.heartRate", JVal.num 72.5)])])]
          "1704100000000" "next_full" true
        = Message.hybrid_update "critical_only" changes timestamp cycle true
      ∧ ∀ coll ents, (coll, ents) ∈ changes →
          coll = "patients"
          ∧ ∀ id paths, (id, paths) ∈ ents → ∀ path v, (path, v) ∈ paths →
              path = "vitals.heartRate" ∨ path = "vitals.spo2" :=
  C6_phase1_allow_list criticalClient sampleStore passOracle rfl (by decide) _ (by decide!)

/-- C7 (empty-patch suppression).  A delta tick hands a message to `sendMessage` exactly
when the change list of its pass is non-empty, a hybrid tick exactly when the list its
phase selects is non-empty, and the message is then a `delta_update` (respectively a
`hybrid_update`) whose Patch has a collection, every collection an entity and every
entity a field path. -/
theorem C7_empty_patch_suppression (client : Client) (s : Store) (o : Oracle) :
    ((deltaTick s o).1.isSome ↔ tickVitalChanges s o ++ tickNonCriticalChanges s o ≠ [])
    ∧ ((hybridTick client s o).1.isSome ↔
        (hybridSelect client.hybridCycle (tickVitalChanges s o)
          (tickNonCriticalChanges s o)).1 ≠ [])
    ∧ (∀ msg, (deltaTick s o).1 = some msg →
        ∃ changes timestamp, msg = Message.delta_update "all" changes timestamp
          ∧ Patch.populated changes)
    ∧ (∀ msg, (hybridTick client s o).1 = some msg →
        ∃ updateType changes timestamp cycle dataReduction,
          msg = Message.hybrid_update updateType changes timestamp cycle dataReduction
          ∧ Patch.populated changes) := by
  have hpass : (mutationPass s o).1 = tickVitalChanges s o ++ tickNonCriticalChanges s o := rfl
  refine ⟨?_, ?_, ?_, ?_⟩
  · rw [deltaTick_eq, hpass]
    split
    · rename_i h
      simp only [Option.isSome_some, true_iff]
      intro h0
      rw [h0] at h
      simp at h
    · rename_i h
      simp only [Option.isSome_none, Bool.false_eq_true, false_iff, not_not]
      simpa [List.length_eq_zero] using h
  · rw [hybridTick_eq]
    unfold tickVitalChanges tickNonCriticalChanges
    split
    · rename_i h
      simp only [Option.isSome_some, true_iff]
      intro h0
      rw [h0] at h
      simp at h
    · rename_i h
      simp only [Option.isSome_none, Bool.false_eq_true, false_iff, not_not]
      simpa [List.length_eq_zero] using h
  · intro msg hmsg
    rw [deltaTick_eq] at hmsg
    split at hmsg
    · rename_i h
      simp only [Option.some.injEq] at hmsg
      refine ⟨_, _, hmsg.symm, changesToKeyValue_populated ?_⟩
      intro h0
      rw [h0] at h
      simp at h
    · simp at hmsg
  · intro msg hmsg
    rw [hybridTick_eq] at hmsg
    split at hmsg
    · rename_i h
      simp only [Option.some.injEq] at hmsg
      refine ⟨_, _, _, _, _, hmsg.symm, changesToKeyValue_populated ?_⟩
      intro h0
      rw [h0] at h
      simp at h
    · simp at hmsg


theorem hybridTick_client (client : Client) (s : Store) (o : Oracle) :
    (hybridTick client s o).2.1 = { client with hybridCycle := (client.hybridCycle + 1) % 2 } := by
  rw [hybridTick_eq]
  split <;> rfl

theorem setUpdateMode_client (c : Connection) (mode : String) (o : Oracle) :
    (setUpdateMode c mode o).1.client = { c.client with updateMode := mode } := rfl

theorem setUpdateMode_intervals (c : Connection) (mode : String) (o : Oracle) :
    (setUpdateMode c mode o).1.intervals
      = startUpdates { c.client with updateMode := mode } := rfl

theorem fireTimers_nil (client : Client) (s : Store) (o : Oracle) :
    fireTimers [] client s o = ([], client, s, o) := rfl

theorem fireTimers_single (t : Timer) (client : Client) (s : Store) (o : Oracle) :
    (fireTimers [t] client s o).2.1 = (runTimer t client s o).2.1 := rfl

theorem step_tick_client (c : Connection) (s : Store) (o : Oracle)
    (hc : c.intervals = startUpdates c.client) :
    (step c s o Event.tick).2.1.client
        = (if c.client.updateMode = "hybrid" then
            { c.client with hybridCycle := (c.client.hybridCycle + 1) % 2 }
          else c.client)
    ∧ (step c s o Event.tick).2.1.intervals = c.intervals := by
  refine ⟨?_, rfl⟩
  show (fireTimers c.intervals c.client s o).2.1 = _
  rw [hc]
  unfold startUpdates
  by_cases hf : c.client.updateMode = "full"
  · have hh : c.client.updateMode ≠ "hybrid" := by rw [hf]; decide
    rw [if_pos hf, if_neg hh, fireTimers_single]
    rfl
  · rw [if_neg hf]
    by_cases hd : c.client.updateMode = "delta"
    · have hh : c.client.updateMode ≠ "hybrid" := by rw [hd]; decide
      rw [if_pos hd, if_neg hh, fireTimers_single]
      rfl
    · rw [if_neg hd]
      by_cases hh : c.client.updateMode = "hybrid"
      · rw [if_pos hh, if_pos hh, fireTimers_single]
        exact hybridTick_client _ _ _
      · rw [if_neg hh, if_neg hh]
        rfl

theorem run_cycle (events : List Event) :
    ∀ (c : Connection) (s : Store) (o : Oracle),
      c.intervals = startUpdates c.client → c.client.hybridCycle < 2 →
      (run events c s o).1.client.hybridCycle
        = (c.client.hybridCycle + countHybridTicks c.client.updateMode events) % 2 := by
  induction events with
  | nil =>
    intro c s o _ hlt
    simp only [run, countHybridTicks, Nat.add_zero]
    exact (Nat.mod_eq_of_lt hlt).symm
  | cons e rest ih =>
    intro c s o hc hlt
    cases e with
    | setMode mode =>
      rw [run, ih _ _ _ rfl (by exact hlt)]
      rfl
    | tick =>
      obtain ⟨hcl, hint⟩ := step_tick_client c s o hc
      rw [run]
      by_cases hh : c.client.updateMode = "hybrid"
      · rw [if_pos hh] at hcl
        have hint2 : (step c s o Event.tick).2.1.intervals
            = startUpdates (step c s o Event.tick).2.1.client := by
          rw [hint, hc, hcl]; rfl
        have hlt2 : (step c s o Event.tick).2.1.client.hybridCycle < 2 := by
          rw [hcl]; exact Nat.mod_lt _ (by decide)
        rw [ih _ _ _ hint2 hlt2, hcl]
        simp only [countHybridTicks, hh, if_true]
        omega
      · rw [if_neg hh] at hcl
        have hint2 : (step c s o Event.tick).2.1.intervals
            = startUpdates (step c s o Event.tick).2.1.client := by
          rw [hint, hc, hcl]
        have hlt2 : (step c s o Event.tick).2.1.client.hybridCycle < 2 := by
          rw [hcl]; exact hlt
        rw [ih _ _ _ hint2 hlt2, hcl]
        simp only [countHybridTicks, hh, if_false, Nat.zero_add]

/-- C8, as the code has it.  `setUpdateMode` stores the mode and restarts the timers but
leaves `hybridCycle` as it is: after `setUpdateMode(clientId, 'hybrid')` the connection
holds one hybrid timer, whose first tick selects its changes by the `hybridCycle` carried
over; and after any sequence of mode changes and ticks on a new connection,
`hybridCycle` is the number of hybrid ticks so far modulo 2. -/
theorem C8_cycle_counts_hybrid_ticks (events : List Event) (t : Int) (s : Store)
    (o : Oracle) :
    (run events (newConnection t) s o).1.client.hybridCycle
        = countHybridTicks "full" events % 2
    ∧ (∀ (c : Connection) (mode : String) (o1 : Oracle),
        (setUpdateMode c mode o1).1.client.hybridCycle = c.client.hybridCycle)
    ∧ (∀ (c : Connection) (o1 : Oracle) (s2 : Store) (o2 : Oracle),
        (setUpdateMode c "hybrid" o1).1.intervals = [Timer.hybrid]
        ∧ (step (setUpdateMode c "hybrid" o1).1 s2 o2 Event.tick).1
            = (hybridTick { c.client with updateMode := "hybrid" } s2 o2).1.toList) := by
  refine ⟨?_, fun _ _ _ => rfl, fun c o1 s2 o2 => ⟨rfl, ?_⟩⟩
  · have := run_cycle events (newConnection t) s o rfl (by simp [newConnection])
    rw [this]
    simp [newConnection]
  · show (fireTimers [Timer.hybrid] _ s2 o2).1 = _
    simp [fireTimers, runTimer, setUpdateMode_client]

set_option maxRecDepth 100000 in
/-- C8 (no carry-over of cycle state fails on the code).  A new connection is switched to
hybrid, ticks once, is switched to delta and back to hybrid: `hybridCycle` is then 1, and
the first hybrid tick after the switch, which adjusts `P001`'s heart rate and blood
pressure and the battery of `EQ001`, sends a message tagged `critical_only` with the
heart rate alone. -/
theorem C8_first_tick_after_switch_is_critical :
    (run [Event.setMode "hybrid", Event.tick, Event.setMode "delta", Event.setMode "hybrid"]
        (newConnection 0) sampleStore twoTickOracle).1.client.hybridCycle = 1
    ∧ (step
        (run [Event.setMode "hybrid", Event.tick, Event.setMode "delta",
              Event.setMode "hybrid"] (newConnection 0) sampleStore twoTickOracle).1
        (run [Event.setMode "hybrid", Event.tick, Event.setMode "delta",
              Event.setMode "hybrid"] (newConnection 0) sampleStore twoTickOracle).2.1
        (run [Event.setMode "hybrid", Event.tick, Event.setMode "delta",
              Event.setMode "hybrid"] (newConnection 0) sampleStore twoTickOracle).2.2
        Event.tick).1
      = [Message.hybrid_update "critical_only"
          [("patients", [("P001", [("vitals.heartRate", JVal.num 72.5)])])]
          "1704100000000" "next_full" true] := by
  decide!


/-! ### Containers -/

theorem setNestedKeys_step (o : JVal) (k : String) (p : List String) (v : JVal) :
    setNestedKeys o (k :: p) v =
      match o.setProp k (.obj []) with
      | .error e => .error e
      | .ok _ => (writeAt (o.sub k) p v).map (o.writeBack k) := by
  cases p with
  | nil =>
    cases o with
    | obj kvs => simp [setNestedKeys, JVal.setProp, writeAt, JVal.writeBack, Except.map]
    | arr xs =>
      simp only [setNestedKeys, JVal.setProp, writeAt, JVal.writeBack, Except.map]
      cases arrayIndex xs.length k <;> rfl
    | null => rfl
    | bool b => rfl
    | num q => rfl
    | str s => rfl
  | cons k2 rest =>
    cases o with
    | obj kvs =>
      simp only [setNestedKeys, JVal.hasProp, JVal.getProp, JVal.setProp, writeAt, JVal.sub,
        bind, Except.bind, pure, Except.pure]
      cases hg : propGet kvs k with
      | none =>
        simp only [Option.isSome_none, Bool.false_eq_true, if_false]
        cases setNestedKeys (JVal.obj []) (k2 :: rest) v with
        | error e => rfl
        | ok c => simp [Except.map, JVal.writeBack, propSet_propSet_same]
      | some c =>
        simp only [Option.isSome_some, if_true]
        cases hc : c.isObjectType with
        | true =>
          simp only [if_true]
          cases setNestedKeys c (k2 :: rest) v with
          | error e => rfl
          | ok c => rfl
        | false =>
          simp only [Bool.false_eq_true, if_false]
          cases setNestedKeys (JVal.obj []) (k2 :: rest) v with
          | error e => rfl
          | ok c => simp [Except.map, JVal.writeBack, propSet_propSet_same]
    | arr xs =>
      simp only [setNestedKeys, JVal.hasProp, JVal.getProp, JVal.setProp, writeAt, JVal.sub,
        bind, Except.bind, pure, Except.pure]
      cases hi : arrayIndex xs.length k with
      | none =>
        simp only [Option.isSome_none, Bool.false_or]
        by_cases hl : k = "length"
        · simp [hl, JVal.isObjectType]
        · simp [hl]
      | some i =>
        simp only [Option.isSome_some, Bool.true_or, if_true]
        cases hg : xs.get? i with
        | none =>
          simp only []
          cases setNestedKeys (JVal.obj []) (k2 :: rest) v with
          | error e => rfl
          | ok c => simp [Except.map, JVal.writeBack, hi]
        | some c =>
          simp only []
          cases hc : c.isObjectType with
          | true =>
            simp only [if_true]
            cases setNestedKeys c (k2 :: rest) v with
            | error e => rfl
            | ok c => simp [Except.map, JVal.writeBack, hi]
          | false =>
            simp only [Bool.false_eq_true, if_false]
            cases setNestedKeys (JVal.obj []) (k2 :: rest) v with
            | error e => rfl
            | ok c => simp [Except.map, JVal.writeBack, hi]
    | null => rfl
    | bool b => rfl
    | num q => rfl
    | str s => rfl


theorem arrayIndex_spec {n : Nat} {key : String} {i : Nat} (h : arrayIndex n key = some i) :
    toString i = key ∧ i < n := by
  unfold arrayIndex at h
  have h1 := List.find?_some h
  have h2 := List.mem_of_find?_eq_some h
  exact ⟨by simpa using h1, by simpa using h2⟩

theorem arrayIndex_inj {n : Nat} {k k2 : String} {i : Nat} (h : arrayIndex n k = some i)
    (h2 : arrayIndex n k2 = some i) : k2 = k := by
  rw [← (arrayIndex_spec h).1, ← (arrayIndex_spec h2).1]

theorem setProp_of_writable {o : JVal} {k : String} (x : JVal) (h : o.writable k = true) :
    o.setProp k x = .ok (o.writeBack k x) := by
  cases o with
  | obj kvs => rfl
  | arr xs =>
    simp only [JVal.writable] at h
    obtain ⟨i, hi⟩ := Option.isSome_iff_exists.mp h
    simp [JVal.setProp, JVal.writeBack, hi]
  | null => simp [JVal.writable] at h
  | bool b => simp [JVal.writable] at h
  | num q => simp [JVal.writable] at h
  | str s => simp [JVal.writable] at h

theorem setProp_of_not_writable {o : JVal} {k : String} (x : JVal)
    (h : o.writable k = false) : ∃ e, o.setProp k x = .error e := by
  cases o with
  | obj kvs => simp [JVal.writable] at h
  | arr xs =>
    simp only [JVal.writable] at h
    have hi : arrayIndex xs.length k = none := by
      cases h2 : arrayIndex xs.length k with
      | none => rfl
      | some i => simp [h2] at h
    exact ⟨JsError.outsideModel, by simp [JVal.setProp, hi]⟩
  | null => exact ⟨_, rfl⟩
  | bool b => exact ⟨_, rfl⟩
  | num q => exact ⟨_, rfl⟩
  | str s => exact ⟨_, rfl⟩

theorem writable_writeBack (o : JVal) (k : String) (c : JVal) (k2 : String) :
    (o.writeBack k c).writable k2 = o.writable k2 := by
  cases o with
  | obj kvs => rfl
  | arr xs =>
    simp only [JVal.writeBack]
    cases arrayIndex xs.length k with
    | none => rfl
    | some i => simp [JVal.writable]
  | null => rfl
  | bool b => rfl
  | num q => rfl
  | str s => rfl

theorem shape_writeBack (o : JVal) (k : String) (c : JVal) :
    (o.writeBack k c).shape = o.shape := by
  cases o with
  | obj kvs => rfl
  | arr xs =>
    simp only [JVal.writeBack]
    cases arrayIndex xs.length k with
    | none => rfl
    | some i => simp [JVal.shape]
  | null => rfl
  | bool b => rfl
  | num q => rfl
  | str s => rfl

theorem child_writeBack_same {o : JVal} {k : String} (c : JVal) (h : o.writable k = true) :
    (o.writeBack k c).child k = some c := by
  cases o with
  | obj kvs => simp [JVal.writeBack, JVal.child, propGet_propSet_same]
  | arr xs =>
    simp only [JVal.writable] at h
    obtain ⟨i, hi⟩ := Option.isSome_iff_exists.mp h
    have hlt := (arrayIndex_spec hi).2
    simp [JVal.writeBack, JVal.child, hi, List.getElem?_set, hlt]
  | null => simp [JVal.writable] at h
  | bool b => simp [JVal.writable] at h
  | num q => simp [JVal.writable] at h
  | str s => simp [JVal.writable] at h

theorem child_writeBack_ne (o : JVal) {k k2 : String} (c : JVal) (h : k2 ≠ k) :
    (o.writeBack k c).child k2 = o.child k2 := by
  cases o with
  | obj kvs => simp [JVal.writeBack, JVal.child, propGet_propSet_ne _ _ h]
  | arr xs =>
    simp only [JVal.writeBack]
    cases hi : arrayIndex xs.length k with
    | none => rfl
    | some i =>
      simp only [JVal.child, List.length_set]
      cases hj : arrayIndex xs.length k2 with
      | none => rfl
      | some j =>
        have hij : i ≠ j := by
          intro e
          subst e
          exact h (arrayIndex_inj hi hj)
        simp [List.getElem?_set, hij]
  | null => rfl
  | bool b => rfl
  | num q => rfl
  | str s => rfl

theorem child_writeBack_not_writable (o : JVal) {k : String} (c : JVal)
    (h : o.writable k = false) : o.writeBack k c = o := by
  cases o with
  | obj kvs => simp [JVal.writable] at h
  | arr xs =>
    simp only [JVal.writable] at h
    have hi : arrayIndex xs.length k = none := by
      cases h2 : arrayIndex xs.length k with
      | none => rfl
      | some i => simp [h2] at h
    simp [JVal.writeBack, hi]
  | null => rfl
  | bool b => rfl
  | num q => rfl
  | str s => rfl

theorem writeBack_writeBack_same (o : JVal) (k : String) (c c2 : JVal) :
    (o.writeBack k c).writeBack k c2 = o.writeBack k c2 := by
  cases o with
  | obj kvs => simp [JVal.writeBack, propSet_propSet_same]
  | arr xs =>
    simp only [JVal.writeBack]
    cases hi : arrayIndex xs.length k with
    | none => simp [JVal.writeBack, hi]
    | some i => simp [JVal.writeBack, hi]
  | null => rfl
  | bool b => rfl
  | num q => rfl
  | str s => rfl

theorem getProp_eq_child_of_writable {o : JVal} {k : String} (h : o.writable k = true) :
    o.getProp k = o.child k := by
  cases o with
  | obj kvs => rfl
  | arr xs =>
    simp only [JVal.writable] at h
    obtain ⟨i, hi⟩ := Option.isSome_iff_exists.mp h
    simp [JVal.getProp, JVal.child, hi]
  | null => simp [JVal.writable] at h
  | bool b => simp [JVal.writable] at h
  | num q => simp [JVal.writable] at h
  | str s => simp [JVal.writable] at h

theorem writable_of_child {o : JVal} {k : String} {c : JVal} (h : o.child k = some c) :
    o.writable k = true := by
  cases o with
  | obj kvs => rfl
  | arr xs =>
    simp only [JVal.child] at h
    cases hi : arrayIndex xs.length k with
    | none => simp [hi] at h
    | some i => simp [JVal.writable, hi]
  | null => simp [JVal.child] at h
  | bool b => simp [JVal.child] at h
  | num q => simp [JVal.child] at h
  | str s => simp [JVal.child] at h


theorem child_writeBack (o : JVal) (k k2 : String) (c : JVal) :
    (o.writeBack k c).child k2
      = if k2 = k ∧ o.writable k = true then some c else o.child k2 := by
  by_cases hk : k2 = k
  · subst hk
    cases hw : o.writable k2 with
    | true => simp [child_writeBack_same c hw]
    | false => simp [child_writeBack_not_writable o c hw]
  · simp [hk, child_writeBack_ne o c hk]

theorem isObjectType_writeBack {o : JVal} {k : String} (c : JVal) (h : o.writable k = true) :
    (o.writeBack k c).isObjectType = true := by
  cases o with
  | obj kvs => rfl
  | arr xs =>
    simp only [JVal.writeBack]
    cases arrayIndex xs.length k <;> rfl
  | null => simp [JVal.writable] at h
  | bool b => simp [JVal.writable] at h
  | num q => simp [JVal.writable] at h
  | str s => simp [JVal.writable] at h

theorem sub_writeBack_same {o : JVal} {k : String} {c : JVal} (h : o.writable k = true)
    (hc : c.isObjectType = true) : (o.writeBack k c).sub k = c := by
  have hw : (o.writeBack k c).writable k = true := by rw [writable_writeBack]; exact h
  simp [JVal.sub, getProp_eq_child_of_writable hw, child_writeBack_same c h, hc]

theorem sub_writeBack_ne {o : JVal} {k k2 : String} (c : JVal) (hne : k2 ≠ k)
    (h : o.writable k2 = true) : (o.writeBack k c).sub k2 = o.sub k2 := by
  have hw : (o.writeBack k c).writable k2 = true := by rw [writable_writeBack]; exact h
  simp [JVal.sub, getProp_eq_child_of_writable hw, getProp_eq_child_of_writable h,
    child_writeBack_ne o c hne]

theorem setNestedKeys_isObjectType {o : JVal} {k : String} {p : List String} {v x : JVal}
    (h : setNestedKeys o (k :: p) v = .ok x) : x.isObjectType = true := by
  rw [setNestedKeys_step] at h
  cases hw : o.writable k with
  | false =>
    obtain ⟨e, he⟩ := setProp_of_not_writable (.obj []) hw
    simp [he] at h
  | true =>
    rw [setProp_of_writable _ hw] at h
    simp only [] at h
    cases hA : writeAt (o.sub k) p v with
    | error e => simp [hA, Except.map] at h
    | ok a =>
      simp only [hA, Except.map, Except.ok.injEq] at h
      rw [← h]
      exact isObjectType_writeBack a hw

/-! ### Equality field by field -/

theorem sameFields_refl (x : JVal) : x.sameFields x := fun _ => rfl

theorem sameFields_symm {x y : JVal} (h : x.sameFields y) : y.sameFields x :=
  fun r => (h r).symm

theorem sameFields_trans {x y z : JVal} (h : x.sameFields y) (h2 : y.sameFields z) :
    x.sameFields z := fun r => (h r).trans (h2 r)

theorem sameFields_writeBack_congr (o : JVal) (k : String) {a b : JVal}
    (h : a.sameFields b) : (o.writeBack k a).sameFields (o.writeBack k b) := by
  intro r
  cases r with
  | nil => simp [getPath, shape_writeBack]
  | cons k2 r =>
    simp only [getPath, child_writeBack]
    split
    · exact h r
    · rfl

theorem sameFields_writeBack_comm (o : JVal) {k k2 : String} (a b : JVal) (hne : k ≠ k2) :
    ((o.writeBack k a).writeBack k2 b).sameFields ((o.writeBack k2 b).writeBack k a) := by
  intro r
  cases r with
  | nil => simp [getPath, shape_writeBack]
  | cons k3 r =>
    simp only [getPath, child_writeBack, writable_writeBack]
    by_cases h3 : k3 = k2
    · have h4 : ¬ k3 = k := fun e => hne (e.symm.trans h3)
      simp [h3, h4, Ne.symm hne]
    · simp [h3]

theorem sameOutcome_refl (r : Except JsError JVal) : sameOutcome r r := by
  cases r with
  | error e => trivial
  | ok x => exact sameFields_refl x

theorem sameOutcome_map_writeBack (o : JVal) (k : String) {r r2 : Except JsError JVal}
    (h : sameOutcome r r2) :
    sameOutcome (r.map (o.writeBack k)) (r2.map (o.writeBack k)) := by
  cases r with
  | error e =>
    cases r2 with
    | error e2 => trivial
    | ok y => exact h
  | ok x =>
    cases r2 with
    | error e2 => exact h
    | ok y => exact sameFields_writeBack_congr o k h


/-! ### Two writes -/

theorem diverge_cons_same {k : String} {p q : List String}
    (h : diverge (k :: p) (k :: q) = true) : diverge p q = true := by
  simpa [diverge] using h

theorem diverge_ne_nil {p q : List String} (h : diverge p q = true) : p ≠ [] ∧ q ≠ [] := by
  cases p with
  | nil => simp [diverge] at h
  | cons a p =>
    cases q with
    | nil => simp [diverge] at h
    | cons b q => simp

theorem diverge_symm (p : List String) : ∀ q : List String, diverge p q = diverge q p := by
  induction p with
  | nil => intro q; cases q <;> rfl
  | cons a p ih =>
    intro q
    cases q with
    | nil => rfl
    | cons b q =>
      by_cases h : a = b
      · subst h
        simp [diverge, ih q]
      · have h2 : ¬ b = a := fun e => h e.symm
        simp [diverge, h, h2]

/-- Two writes below the same key of a container are the two writes on what it holds
there. -/
theorem setNestedKeys_nested (o : JVal) (k k1 k2 : String) (p q : List String) (v w : JVal)
    (hw : o.writable k = true) :
    (setNestedKeys o (k :: k1 :: p) v).bind (fun x => setNestedKeys x (k :: k2 :: q) w)
      = ((setNestedKeys (o.sub k) (k1 :: p) v).bind
          (fun x => setNestedKeys x (k2 :: q) w)).map (o.writeBack k) := by
  rw [setNestedKeys_step, setProp_of_writable _ hw]
  simp only [writeAt]
  cases hA : setNestedKeys (o.sub k) (k1 :: p) v with
  | error e => rfl
  | ok a =>
    have ha := setNestedKeys_isObjectType hA
    have hw2 : (o.writeBack k a).writable k = true := by rw [writable_writeBack]; exact hw
    simp only [Except.map, Except.bind]
    rw [setNestedKeys_step, setProp_of_writable _ hw2]
    simp only [writeAt, sub_writeBack_same hw ha]
    cases setNestedKeys a (k2 :: q) w with
    | error e => rfl
    | ok b => simp [Except.map, writeBack_writeBack_same]

/-- Two writes below different keys of a value: the outcome of both in this order. -/
theorem setNestedKeys_apart (o : JVal) {k k2 : String} (p q : List String) (v w : JVal)
    (hne : k ≠ k2) :
    (setNestedKeys o (k :: p) v).bind (fun x => setNestedKeys x (k2 :: q) w)
      = if o.writable k = true ∧ o.writable k2 = true then
          (writeAt (o.sub k) p v).bind (fun a =>
            (writeAt (o.sub k2) q w).map (fun b => (o.writeBack k a).writeBack k2 b))
        else
          (setNestedKeys o (k :: p) v).bind (fun x => setNestedKeys x (k2 :: q) w) := by
  split
  · rename_i h
    obtain ⟨hw, hw2⟩ := h
    rw [setNestedKeys_step, setProp_of_writable _ hw]
    simp only []
    cases hA : writeAt (o.sub k) p v with
    | error e => rfl
    | ok a =>
      have hw3 : (o.writeBack k a).writable k2 = true := by
        rw [writable_writeBack]; exact hw2
      simp only [Except.map, Except.bind]
      rw [setNestedKeys_step, setProp_of_writable _ hw3]
      simp only [sub_writeBack_ne a (Ne.symm hne) hw2]
      rfl
  · rfl

theorem setNestedKeys_apart_error (o : JVal) {k k2 : String} (p q : List String) (v w : JVal)
    (h : ¬ (o.writable k = true ∧ o.writable k2 = true)) :
    ∃ e, (setNestedKeys o (k :: p) v).bind (fun x => setNestedKeys x (k2 :: q) w)
      = .error e := by
  cases hw : o.writable k with
  | false =>
    obtain ⟨e, he⟩ := setProp_of_not_writable (.obj []) hw
    exact ⟨e, by rw [setNestedKeys_step, he]; rfl⟩
  | true =>
    have hw2 : o.writable k2 = false := by
      cases h2 : o.writable k2 with
      | false => rfl
      | true => exact absurd ⟨hw, h2⟩ h
    rw [setNestedKeys_step, setProp_of_writable _ hw]
    simp only []
    cases hA : writeAt (o.sub k) p v with
    | error e => exact ⟨e, rfl⟩
    | ok a =>
      have hw3 : (o.writeBack k a).writable k2 = false := by
        rw [writable_writeBack]; exact hw2
      obtain ⟨e, he⟩ := setProp_of_not_writable (x := .obj []) hw3
      exact ⟨e, by simp only [Except.map, Except.bind]; rw [setNestedKeys_step, he]⟩

theorem setNestedKeys_comm (p : List String) :
    ∀ (q : List String) (o v w : JVal), diverge p q = true →
      sameOutcome
        ((setNestedKeys o p v).bind (fun x => setNestedKeys x q w))
        ((setNestedKeys o q w).bind (fun y => setNestedKeys y p v)) := by
  induction p with
  | nil => intro q o v w h; simp [diverge] at h
  | cons k p ih =>
    intro q o v w h
    cases q with
    | nil => simp [diverge] at h
    | cons k2 q =>
      by_cases hk : k = k2
      · subst hk
        have hd := diverge_cons_same h
        obtain ⟨hp, hq⟩ := diverge_ne_nil hd
        obtain ⟨k1, p1, rfl⟩ := List.exists_cons_of_ne_nil hp
        obtain ⟨k3, q1, rfl⟩ := List.exists_cons_of_ne_nil hq
        cases hw : o.writable k with
        | false =>
          obtain ⟨e, he⟩ := setProp_of_not_writable (.obj []) hw
          rw [setNestedKeys_step o k (k1 :: p1), setNestedKeys_step o k (k3 :: q1), he]
          trivial
        | true =>
          rw [setNestedKeys_nested o k k1 k3 p1 q1 v w hw,
            setNestedKeys_nested o k k3 k1 q1 p1 w v hw]
          exact sameOutcome_map_writeBack o k (ih _ _ _ _ hd)
      · by_cases hw : o.writable k = true ∧ o.writable k2 = true
        · rw [setNestedKeys_apart o p q v w hk, if_pos hw,
            setNestedKeys_apart o q p w v (Ne.symm hk), if_pos ⟨hw.2, hw.1⟩]
          cases writeAt (o.sub k) p v with
          | error e =>
            cases writeAt (o.sub k2) q w with
            | error e2 => trivial
            | ok b => trivial
          | ok a =>
            cases writeAt (o.sub k2) q w with
            | error e2 => trivial
            | ok b => exact sameFields_writeBack_comm o a b hk
        · obtain ⟨e, he⟩ := setNestedKeys_apart_error o p q v w hw
          obtain ⟨e2, he2⟩ := setNestedKeys_apart_error o q p w v
            (fun hh => hw ⟨hh.2, hh.1⟩)
          rw [he, he2]
          trivial


theorem diverge_iff_neither_extends (p : List String) :
    ∀ q : List String, diverge p q = true ↔ (¬ p <+: q ∧ ¬ q <+: p) := by
  induction p with
  | nil => intro q; simp [diverge]
  | cons a p ih =>
    intro q
    cases q with
    | nil => simp [diverge]
    | cons b q =>
      by_cases h : a = b
      · subst h
        simp [diverge, List.cons_prefix_cons, ih q]
      · have h2 : ¬ b = a := fun e => h e.symm
        simp [diverge, List.cons_prefix_cons, h, h2]

theorem sameOutcome_symm {r r2 : Except JsError JVal} (h : sameOutcome r r2) :
    sameOutcome r2 r := by
  cases r with
  | error e =>
    cases r2 with
    | error e2 => trivial
    | ok y => exact h
  | ok x =>
    cases r2 with
    | error e2 => exact h
    | ok y => exact sameFields_symm h

theorem sameOutcome_trans {r r2 r3 : Except JsError JVal} (h : sameOutcome r r2)
    (h2 : sameOutcome r2 r3) : sameOutcome r r3 := by
  cases r with
  | error e =>
    cases r2 with
    | error e2 =>
      cases r3 with
      | error e3 => trivial
      | ok z => exact h2
    | ok y => exact absurd h (by simp [sameOutcome])
  | ok x =>
    cases r2 with
    | error e2 => exact absurd h (by simp [sameOutcome])
    | ok y =>
      cases r3 with
      | error e3 => exact h2
      | ok z => exact sameFields_trans h h2

theorem sameFields_shape {x y : JVal} (h : x.sameFields y) : x.shape = y.shape := by
  have := h []
  simpa [getPath] using this

theorem writable_of_shape {x y : JVal} (h : x.shape = y.shape) (k : String) :
    x.writable k = y.writable k := by
  cases x <;> cases y <;> simp [JVal.shape] at h <;> simp [JVal.writable, h]

theorem isObjectType_of_shape {x y : JVal} (h : x.shape = y.shape) :
    x.isObjectType = y.isObjectType := by
  cases x <;> cases y <;> simp [JVal.shape] at h <;> rfl

theorem truthy_of_shape {x y : JVal} (h : x.shape = y.shape) : x.truthy = y.truthy := by
  cases x <;> cases y <;> simp [JVal.shape] at h <;> simp [JVal.truthy, h]

/-- Values equal field by field hold, under each key, nothing or values equal field by
field. -/
theorem sameFields_child {x y : JVal} (h : x.sameFields y) (k : String) :
    (x.child k = none ∧ y.child k = none)
    ∨ ∃ a b, x.child k = some a ∧ y.child k = some b ∧ a.sameFields b := by
  have h0 := h [k]
  simp only [getPath] at h0
  cases hx : x.child k with
  | none =>
    cases hy : y.child k with
    | none => exact Or.inl ⟨rfl, rfl⟩
    | some b => simp [hx, hy] at h0
  | some a =>
    cases hy : y.child k with
    | none => simp [hx, hy] at h0
    | some b =>
      refine Or.inr ⟨a, b, rfl, rfl, ?_⟩
      intro r
      have := h (k :: r)
      simpa [getPath, hx, hy] using this

theorem sameFields_sub {x y : JVal} (h : x.sameFields y) {k : String}
    (hw : x.writable k = true) : (x.sub k).sameFields (y.sub k) := by
  have hw2 : y.writable k = true := by
    rw [← writable_of_shape (sameFields_shape h) k]; exact hw
  simp only [JVal.sub, getProp_eq_child_of_writable hw, getProp_eq_child_of_writable hw2]
  rcases sameFields_child h k with ⟨hx, hy⟩ | ⟨a, b, hx, hy, hab⟩
  · simp [hx, hy, sameFields_refl]
  · simp only [hx, hy]
    rw [isObjectType_of_shape (sameFields_shape hab)]
    split
    · exact hab
    · exact sameFields_refl _

theorem sameFields_writeBack {x y a b : JVal} (h : x.sameFields y) (hab : a.sameFields b)
    (k : String) : (x.writeBack k a).sameFields (y.writeBack k b) := by
  intro r
  cases r with
  | nil => simpa [getPath, shape_writeBack] using sameFields_shape h
  | cons k2 r =>
    simp only [getPath, child_writeBack]
    rw [writable_of_shape (sameFields_shape h) k]
    split
    · exact hab r
    · have := h (k2 :: r)
      simpa [getPath] using this

theorem setNestedKeys_congr_cons (p : List String) :
    ∀ (k : String) (x y v : JVal), x.sameFields y →
      sameOutcome (setNestedKeys x (k :: p) v) (setNestedKeys y (k :: p) v) := by
  induction p with
  | nil =>
    intro k x y v h
    rw [setNestedKeys_step, setNestedKeys_step]
    cases hw : x.writable k with
    | false =>
      have hw2 : y.writable k = false := by
        rw [← writable_of_shape (sameFields_shape h) k]; exact hw
      obtain ⟨e, he⟩ := setProp_of_not_writable (.obj []) hw
      obtain ⟨e2, he2⟩ := setProp_of_not_writable (.obj []) hw2
      rw [he, he2]
      trivial
    | true =>
      have hw2 : y.writable k = true := by
        rw [← writable_of_shape (sameFields_shape h) k]; exact hw
      rw [setProp_of_writable _ hw, setProp_of_writable _ hw2]
      exact sameFields_writeBack h (sameFields_refl v) k
  | cons k1 p ih =>
    intro k x y v h
    rw [setNestedKeys_step, setNestedKeys_step]
    cases hw : x.writable k with
    | false =>
      have hw2 : y.writable k = false := by
        rw [← writable_of_shape (sameFields_shape h) k]; exact hw
      obtain ⟨e, he⟩ := setProp_of_not_writable (.obj []) hw
      obtain ⟨e2, he2⟩ := setProp_of_not_writable (.obj []) hw2
      rw [he, he2]
      trivial
    | true =>
      have hw2 : y.writable k = true := by
        rw [← writable_of_shape (sameFields_shape h) k]; exact hw
      rw [setProp_of_writable _ hw, setProp_of_writable _ hw2]
      simp only [writeAt]
      have := ih k1 (x.sub k) (y.sub k) v (sameFields_sub h hw)
      cases hA : setNestedKeys (x.sub k) (k1 :: p) v with
      | error e =>
        cases hB : setNestedKeys (y.sub k) (k1 :: p) v with
        | error e2 => trivial
        | ok b => rw [hA, hB] at this; exact this
      | ok a =>
        cases hB : setNestedKeys (y.sub k) (k1 :: p) v with
        | error e2 => rw [hA, hB] at this; exact this
        | ok b =>
          rw [hA, hB] at this
          exact sameFields_writeBack h this k

theorem setNestedKeys_congr (p : List String) (x y v : JVal) (h : x.sameFields y) :
    sameOutcome (setNestedKeys x p v) (setNestedKeys y p v) := by
  cases p with
  | nil => exact setNestedKeys_congr_cons [] "undefined" x y v h
  | cons k p => exact setNestedKeys_congr_cons p k x y v h


/-! ### The order of a Patch's field paths -/

theorem sameOutcome_bind {r r2 : Except JsError JVal} {f g : JVal → Except JsError JVal}
    (h : sameOutcome r r2) (hfg : ∀ x y, x.sameFields y → sameOutcome (f x) (g y)) :
    sameOutcome (r.bind f) (r2.bind g) := by
  cases r with
  | error e =>
    cases r2 with
    | error e2 => trivial
    | ok y => exact absurd h (by simp [sameOutcome])
  | ok x =>
    cases r2 with
    | error e2 => exact absurd h (by simp [sameOutcome])
    | ok y => exact hfg x y h

theorem applyPaths_cons (entity : JVal) (path : String) (value : JVal)
    (rest : List (String × JVal)) :
    applyPaths entity ((path, value) :: rest)
      = (setNestedValue entity path value).bind (fun e => applyPaths e rest) := rfl

theorem applyPaths_congr (l : List (String × JVal)) :
    ∀ x y : JVal, x.sameFields y → sameOutcome (applyPaths x l) (applyPaths y l) := by
  induction l with
  | nil => intro x y h; exact h
  | cons a l ih =>
    intro x y h
    obtain ⟨path, value⟩ := a
    rw [applyPaths_cons, applyPaths_cons]
    exact sameOutcome_bind (setNestedKeys_congr _ x y value h) ih

theorem applyPaths_perm {l l2 : List (String × JVal)} (hperm : l.Perm l2) :
    l.Pairwise (fun a b => diverge (splitPath a.1) (splitPath b.1) = true) →
    ∀ x y : JVal, x.sameFields y → sameOutcome (applyPaths x l) (applyPaths y l2) := by
  induction hperm with
  | nil => intro _ x y h; exact h
  | cons a _ ih =>
    intro hpw x y h
    obtain ⟨path, value⟩ := a
    rw [applyPaths_cons, applyPaths_cons]
    exact sameOutcome_bind (setNestedKeys_congr _ x y value h)
      (ih (List.Pairwise.of_cons hpw))
  | swap a b l =>
    intro hpw x y h
    obtain ⟨pa, va⟩ := a
    obtain ⟨pb, vb⟩ := b
    have hd : diverge (splitPath pb) (splitPath pa) = true :=
      (List.pairwise_cons.mp hpw).1 (pa, va) (List.mem_cons_self _ _)
    simp only [applyPaths_cons]
    have h1 : sameOutcome
        ((setNestedValue x pb vb).bind (fun e => setNestedValue e pa va))
        ((setNestedValue y pa va).bind (fun e => setNestedValue e pb vb)) := by
      refine sameOutcome_trans ?_ (setNestedKeys_comm _ _ y vb va hd)
      exact sameOutcome_bind (setNestedKeys_congr _ x y vb h)
        (fun x2 y2 h2 => setNestedKeys_congr _ x2 y2 va h2)
    have h2 := sameOutcome_bind h1 (applyPaths_congr l)
    cases hx : setNestedValue x pb vb with
    | error e =>
      cases hy : setNestedValue y pa va with
      | error e2 => trivial
      | ok y1 =>
        simp only [hx, hy, Except.bind] at h2 ⊢
        exact h2
    | ok x1 =>
      cases hy : setNestedValue y pa va with
      | error e2 =>
        simp only [hx, hy, Except.bind] at h2 ⊢
        exact h2
      | ok y1 =>
        simp only [hx, hy, Except.bind] at h2 ⊢
        exact h2
  | trans hp1 _ ih1 ih2 =>
    intro hpw x y h
    have hpw2 := (hp1.pairwise_iff (fun {a b} hab => by
      rw [diverge_symm]; exact hab)).mp hpw
    exact sameOutcome_trans (ih1 hpw x x (sameFields_refl x)) (ih2 hpw2 x y h)


theorem sameFields_getProp {x y : JVal} (h : x.sameFields y) (k : String) :
    (x.getProp k = none ∧ y.getProp k = none)
    ∨ ∃ a b, x.getProp k = some a ∧ y.getProp k = some b ∧ a.sameFields b := by
  have hs := sameFields_shape h
  cases x with
  | obj kvs =>
    cases y with
    | obj kvs2 => exact sameFields_child h k
    | _ => simp [JVal.shape] at hs
  | arr xs =>
    cases y with
    | arr ys =>
      simp only [JVal.shape, Shape.arr.injEq] at hs
      cases hi : arrayIndex xs.length k with
      | some i =>
        have hw : (JVal.arr xs).writable k = true := by simp [JVal.writable, hi]
        have hw2 : (JVal.arr ys).writable k = true := by simp [JVal.writable, ← hs, hi]
        rw [getProp_eq_child_of_writable hw, getProp_eq_child_of_writable hw2]
        exact sameFields_child h k
      | none =>
        have hi2 : arrayIndex ys.length k = none := by rw [← hs]; exact hi
        by_cases hl : k = "length"
        · subst hl
          refine Or.inr ⟨JVal.num xs.length, JVal.num ys.length,
            by simp [JVal.getProp, hi], by simp [JVal.getProp, hi2], ?_⟩
          rw [hs]
          exact sameFields_refl _
        · exact Or.inl ⟨by simp [JVal.getProp, hi, hl], by simp [JVal.getProp, hi2, hl]⟩
    | _ => simp [JVal.shape] at hs
  | str s =>
    cases y with
    | str s2 =>
      simp only [JVal.shape, Shape.str.injEq] at hs
      subst hs
      cases hg : (JVal.str s).getProp k with
      | none => exact Or.inl ⟨rfl, rfl⟩
      | some a => exact Or.inr ⟨a, a, rfl, rfl, sameFields_refl a⟩
    | _ => simp [JVal.shape] at hs
  | null =>
    cases y with
    | null => exact Or.inl ⟨rfl, rfl⟩
    | _ => simp [JVal.shape] at hs
  | bool b =>
    cases y with
    | bool _ => exact Or.inl ⟨rfl, rfl⟩
    | _ => simp [JVal.shape] at hs
  | num q =>
    cases y with
    | num _ => exact Or.inl ⟨rfl, rfl⟩
    | _ => simp [JVal.shape] at hs

theorem applyEntities_perm (ents : List (String × List (String × JVal))) :
    ∀ ents2 : List (String × List (String × JVal)),
    List.Forall₂ (fun e e2 => e.1 = e2.1 ∧ List.Perm e.2 e2.2) ents ents2 →
    (∀ id paths, (id, paths) ∈ ents →
      paths.Pairwise (fun a b => diverge (splitPath a.1) (splitPath b.1) = true)) →
    ∀ x y : JVal, x.sameFields y →
      sameOutcome (applyEntities x ents) (applyEntities y ents2) := by
  induction ents with
  | nil =>
    intro ents2 hrel _ x y h
    cases hrel
    exact h
  | cons e l ih =>
    intro ents2 hrel hpw x y h
    cases hrel with
    | cons hhead htail =>
      rename_i e2 l2
      obtain ⟨eid, paths⟩ := e
      obtain ⟨eid2, paths2⟩ := e2
      obtain ⟨hid, hperm⟩ := hhead
      simp only at hid hperm
      subst hid
      have hpw2 : ∀ id paths, (id, paths) ∈ l →
          paths.Pairwise (fun a b => diverge (splitPath a.1) (splitPath b.1) = true) :=
        fun i p hm => hpw i p (List.mem_cons_of_mem _ hm)
      simp only [applyEntities]
      rcases sameFields_getProp h eid with ⟨hx, hy⟩ | ⟨a, b, hx, hy, hab⟩
      · rw [hx, hy]
        exact ih l2 htail hpw2 x y h
      · rw [hx, hy]
        simp only []
        rw [truthy_of_shape (sameFields_shape hab)]
        cases b.truthy with
        | false => exact ih l2 htail hpw2 x y h
        | true =>
          simp only [if_true]
          have hp := applyPaths_perm hperm (hpw eid paths (List.mem_cons_self _ _)) a b hab
          exact sameOutcome_bind hp
            (fun a2 b2 h2 => ih l2 htail hpw2 _ _ (sameFields_writeBack h h2 eid))

theorem sameFields_readProp {x y : JVal} (h : x.sameFields y) (k : String) :
    (∃ e e2, x.readProp k = .error e ∧ y.readProp k = .error e2)
    ∨ (x.readProp k = .ok (x.getProp k) ∧ y.readProp k = .ok (y.getProp k)) := by
  have hs := sameFields_shape h
  cases x with
  | null =>
    cases y with
    | null => exact Or.inl ⟨_, _, rfl, rfl⟩
    | _ => simp [JVal.shape] at hs
  | bool b =>
    cases y with
    | bool _ => exact Or.inr ⟨rfl, rfl⟩
    | _ => simp [JVal.shape] at hs
  | num q =>
    cases y with
    | num _ => exact Or.inr ⟨rfl, rfl⟩
    | _ => simp [JVal.shape] at hs
  | str s =>
    cases y with
    | str _ => exact Or.inr ⟨rfl, rfl⟩
    | _ => simp [JVal.shape] at hs
  | arr xs =>
    cases y with
    | arr _ => exact Or.inr ⟨rfl, rfl⟩
    | _ => simp [JVal.shape] at hs
  | obj kvs =>
    cases y with
    | obj _ => exact Or.inr ⟨rfl, rfl⟩
    | _ => simp [JVal.shape] at hs

theorem applyCollections_perm (p : Patch) :
    ∀ p2 : Patch, Patch.sameUpToPathOrder p p2 → Patch.pathsApart p →
    ∀ x y : JVal, x.sameFields y →
      sameOutcome (applyCollections x p) (applyCollections y p2) := by
  induction p with
  | nil =>
    intro p2 hrel _ x y h
    cases hrel
    exact h
  | cons c l ih =>
    intro p2 hrel hpw x y h
    cases hrel with
    | cons hhead htail =>
      rename_i c2 l2
      obtain ⟨coll, ents⟩ := c
      obtain ⟨coll2, ents2⟩ := c2
      obtain ⟨hid, hrel2⟩ := hhead
      simp only at hid hrel2
      subst hid
      have hpw2 : Patch.pathsApart l :=
        fun c e hm => hpw c e (List.mem_cons_of_mem _ hm)
      simp only [applyCollections, bind, Except.bind]
      rcases sameFields_readProp h coll with ⟨e, e2, hx, hy⟩ | ⟨hx, hy⟩
      · rw [hx, hy]
        trivial
      · rw [hx, hy]
        simp only []
        rcases sameFields_getProp h coll with ⟨gx, gy⟩ | ⟨a, b, gx, gy, hab⟩
        · rw [gx, gy]
          exact ih l2 htail hpw2 x y h
        · rw [gx, gy]
          simp only []
          rw [truthy_of_shape (sameFields_shape hab)]
          cases b.truthy with
          | false => exact ih l2 htail hpw2 x y h
          | true =>
            simp only [if_true]
            have hp := applyEntities_perm ents ents2 hrel2
              (hpw coll ents (List.mem_cons_self _ _)) a b hab
            exact sameOutcome_bind hp
              (fun a2 b2 h2 => ih l2 htail hpw2 _ _ (sameFields_writeBack h h2 coll))

theorem sameOutcome_setProp {x y : JVal} (h : x.sameFields y) (k : String) (v : JVal) :
    sameOutcome (x.setProp k v) (y.setProp k v) := by
  have := setNestedKeys_congr [k] x y v h
  simpa [setNestedKeys] using this

theorem applyDeltaUpdates_perm {p p2 : Patch} (hrel : Patch.sameUpToPathOrder p p2)
    (hapart : Patch.pathsApart p) (mirror : JVal) (stamp : String) :
    sameOutcome (applyDeltaUpdates mirror p stamp) (applyDeltaUpdates mirror p2 stamp) := by
  unfold applyDeltaUpdates
  exact sameOutcome_bind
    (applyCollections_perm p p2 hrel hapart mirror mirror (sameFields_refl mirror))
    (fun x y h => sameOutcome_setProp h _ _)

/-- The model stops at an assignment exactly when the target is an array and the key is
not one of its indices. -/
theorem setProp_outsideModel_iff (x : JVal) (k : String) (v : JVal) :
    x.setProp k v = .error .outsideModel
      ↔ ∃ xs, x = .arr xs ∧ arrayIndex xs.length k = none := by
  cases x with
  | arr xs =>
    cases hi : arrayIndex xs.length k with
    | none => simp [JVal.setProp, hi]
    | some i => simp [JVal.setProp, hi]
  | obj kvs => simp [JVal.setProp]
  | null => simp [JVal.setProp]
  | bool b => simp [JVal.setProp]
  | num q => simp [JVal.setProp]
  | str t => simp [JVal.setProp]

theorem sameResult_of_sameOutcome {r r2 : Except JsError JVal} (h : sameOutcome r r2)
    (h1 : insideModel r = true) (h2 : insideModel r2 = true) : sameResult r r2 := by
  cases r with
  | ok x =>
    cases r2 with
    | ok y => exact h
    | error e2 => exact False.elim h
  | error e =>
    cases r2 with
    | ok y => exact False.elim h
    | error e2 =>
      cases e with
      | typeError =>
        cases e2 with
        | typeError => trivial
        | outsideModel => simp [insideModel] at h2
      | outsideModel => simp [insideModel] at h1

/-- C10, as the code has it.  Take two field paths of which neither key list is a prefix
of the other and neither has the key `__proto__`, and suppose that in neither order a call
assigns to an array at a key that is not one of its indices (`length`, an index past the
end, a named key).  Then writing `v` at `p` then `w` at `q` and writing `w` at `q` then `v`
at `p` have the same outcome: both raise a TypeError, or both return and leave values
equal field by field.  Hence two Patches that differ only in the order of the field paths
of their entities give `applyDeltaUpdates` the same outcome on a mirror that holds their
entities, under the same conditions: no path of an entity is a prefix of another path of
it, no path has the key `__proto__`, and neither run assigns to an array outside its
indices. -/
theorem C10_writes_commute_when_paths_part :
    (∀ (o : JVal) (p q : String) (v w : JVal),
        ¬ splitPath p <+: splitPath q → ¬ splitPath q <+: splitPath p →
        plainPath p = true → plainPath q = true →
        insideModel ((setNestedValue o p v).bind (fun x => setNestedValue x q w)) = true →
        insideModel ((setNestedValue o q w).bind (fun y => setNestedValue y p v)) = true →
        sameResult
          ((setNestedValue o p v).bind (fun x => setNestedValue x q w))
          ((setNestedValue o q w).bind (fun y => setNestedValue y p v)))
    ∧ ∀ (patch patch2 : Patch) (mirror : JVal) (stamp : String),
        Patch.sameUpToPathOrder patch patch2 → Patch.pathsApart patch →
        patch.plainPaths = true → patch.heldBy mirror = true →
        insideModel (applyDeltaUpdates mirror patch stamp) = true →
        insideModel (applyDeltaUpdates mirror patch2 stamp) = true →
        sameResult (applyDeltaUpdates mirror patch stamp)
          (applyDeltaUpdates mirror patch2 stamp) :=
  ⟨fun o _ _ v w hpq hqp _ _ h1 h2 =>
      sameResult_of_sameOutcome
        (setNestedKeys_comm _ _ o v w ((diverge_iff_neither_extends _ _).mpr ⟨hpq, hqp⟩))
        h1 h2,
    fun _ _ mirror stamp hrel hapart _ _ h1 h2 =>
      sameResult_of_sameOutcome (applyDeltaUpdates_perm hrel hapart mirror stamp) h1 h2⟩

set_option maxRecDepth 100000 in
/-- C10 at two elements of an array, and at `wardPatch` and `wardPatchReordered` on
`wardMirror`.  On `{a: [1, 2]}` the writes of 5 at `a.0` and of 6 at `a.1` return in both
orders, and the two results are equal field by field; the two Patches, whose paths go
into an object, into an element of an array and into a new object, return in both orders
with mirrors equal field by field. -/
theorem C10_writes_commute_witness :
    ((setNestedValue (.obj [("a", .arr [.num 1, .num 2])]) "a.0" (.num 5)).bind
        (fun x => setNestedValue x "a.1" (.num 6))
      = .ok (.obj [("a", .arr [.num 5, .num 6])])
    ∧ sameResult
      ((setNestedValue (.obj [("a", .arr [.num 1, .num 2])]) "a.0" (.num 5)).bind
        (fun x => setNestedValue x "a.1" (.num 6)))
      ((setNestedValue (.obj [("a", .arr [.num 1, .num 2])]) "a.1" (.num 6)).bind
        (fun y => setNestedValue y "a.0" (.num 5))))
    ∧ applyDeltaUpdates wardMirror wardPatch "2024-01-01T09:00:05.000Z"
        = .ok (.obj [("patients", .obj [("P001", .obj
                  [("vitals", .obj [("heartRate", .num 72)]),
                   ("medications", .arr [.obj [("dose", .num 5)]]),
                   ("alerts", .obj [("level", .str "high")])])]),
                ("timestamp", .str "2024-01-01T09:00:05.000Z")])
    ∧ sameResult (applyDeltaUpdates wardMirror wardPatch "2024-01-01T09:00:05.000Z")
        (applyDeltaUpdates wardMirror wardPatchReordered "2024-01-01T09:00:05.000Z") :=
  ⟨⟨by decide,
    C10_writes_commute_when_paths_part.1 (.obj [("a", .arr [.num 1, .num 2])]) "a.0" "a.1"
      (.num 5) (.num 6) (by decide) (by decide) (by decide) (by decide) (by decide)
      (by decide)⟩,
   by decide,
   C10_writes_commute_when_paths_part.2 wardPatch wardPatchReordered wardMirror
     "2024-01-01T09:00:05.000Z"
     (List.Forall₂.cons ⟨rfl, List.Forall₂.cons ⟨rfl, by decide⟩ List.Forall₂.nil⟩
       List.Forall₂.nil)
     (by
       intro coll ents hc id paths he
       simp only [wardPatch, List.mem_singleton, Prod.mk.injEq] at hc
       obtain ⟨_, rfl⟩ := hc
       simp only [List.mem_singleton, Prod.mk.injEq] at he
       obtain ⟨_, rfl⟩ := he
       decide)
     (by decide) (by decide) (by decide) (by decide)⟩

/-- C10 (order independence fails for a path that extends another).  On the empty object,
writing 1 at `a` then 2 at `a.b` leaves `{a: {b: 2}}`, while writing 2 at `a.b` then 1 at
`a` leaves `{a: 1}`; and the two orders of these paths in a Patch give `applyDeltaUpdates`
two different mirrors. -/
theorem C10_order_matters_for_prefix_paths :
    (setNestedValue (.obj []) "a" (.num 1)).bind (fun x => setNestedValue x "a.b" (.num 2))
        = .ok (.obj [("a", .obj [("b", .num 2)])])
    ∧ (setNestedValue (.obj []) "a.b" (.num 2)).bind (fun y => setNestedValue y "a" (.num 1))
        = .ok (.obj [("a", .num 1)])
    ∧ applyDeltaUpdates (.obj [("patients", .obj [("P001", .obj [])])])
          [("patients", [("P001", [("a", .num 1), ("a.b", .num 2)])])] "t"
        = .ok (.obj [("patients", .obj [("P001", .obj [("a", .obj [("b", .num 2)])])]),
                     ("timestamp", .str "t")])
    ∧ applyDeltaUpdates (.obj [("patients", .obj [("P001", .obj [])])])
          [("patients", [("P001", [("a.b", .num 2), ("a", .num 1)])])] "t"
        = .ok (.obj [("patients", .obj [("P001", .obj [("a", .num 1)])]),
                     ("timestamp", .str "t")]) := by
  decide


set_option maxRecDepth 100000 in
/-- C9 (the shared mutation clock is not in the code).  Two delta-mode connections `A`
and `B` hold mirrors equal to `sampleStore`.  The tick of `A` runs a pass of its own that
moves `P001`'s heart rate from 70 to 72.5 and sends the change to `A` alone; the tick of
`B` that follows changes nothing and sends nothing.  After it the store holds 72.5, the
mirror of `A` 72.5 and the mirror of `B` still 70. -/
theorem C9_second_connection_misses_the_change :
    (deltaTick sampleStore passOracle).2.1 ≠ sampleStore
    ∧ (runTicks ["A", "B"] [("A", deltaSession), ("B", deltaSession)] sampleStore
          passOracle).map
        (fun r =>
          ((propGet r.2.1.patients "P001").map (fun p => p.vitals.heartRate),
           (propGet r.1 "A").bind (fun sess => sess.mirror.bind (fun m =>
              getPath m ["patients", "P001", "vitals", "heartRate"])),
           (propGet r.1 "B").bind (fun sess => sess.mirror.bind (fun m =>
              getPath m ["patients", "P001", "vitals", "heartRate"]))))
      = .ok (some 72.5, some (.num 72.5), some (.num 70)) := by
  decide!


/-! ### Reading after writing -/

theorem child_of_not_isObjectType {c : JVal} (h : c.isObjectType = false) (k : String) :
    c.child k = none := by
  cases c <;> simp [JVal.isObjectType] at h <;> rfl

theorem getPath_cons (x : JVal) (k : String) (r : List String) :
    getPath x (k :: r) = (x.child k).bind (fun c => getPath c r) := rfl

theorem getPath_sub {o : JVal} {k : String} (hw : o.writable k = true) (k2 : String)
    (r : List String) : getPath (o.sub k) (k2 :: r) = getPath o (k :: k2 :: r) := by
  rw [getPath_cons o k]
  simp only [JVal.sub, getProp_eq_child_of_writable hw]
  cases hc : o.child k with
  | none => simp [getPath, JVal.child, propGet]
  | some c =>
    cases hot : c.isObjectType with
    | true => simp [hot]
    | false =>
      simp only [hot, Bool.false_eq_true, if_false, Option.some_bind, getPath_cons,
        child_of_not_isObjectType hot]
      rfl

/-- A write that returns is read back along its keys. -/
theorem getPath_setNestedKeys_same (p : List String) :
    ∀ (k : String) (o v x : JVal), setNestedKeys o (k :: p) v = .ok x →
      getPath x (k :: p) = some v := by
  induction p with
  | nil =>
    intro k o v x h
    rw [setNestedKeys_step] at h
    cases hw : o.writable k with
    | false =>
      obtain ⟨e, he⟩ := setProp_of_not_writable (.obj []) hw
      simp [he] at h
    | true =>
      rw [setProp_of_writable _ hw] at h
      simp only [writeAt, Except.map, Except.ok.injEq] at h
      rw [← h, getPath_cons, child_writeBack_same v hw]
      rfl
  | cons k1 p ih =>
    intro k o v x h
    rw [setNestedKeys_step] at h
    cases hw : o.writable k with
    | false =>
      obtain ⟨e, he⟩ := setProp_of_not_writable (.obj []) hw
      simp [he] at h
    | true =>
      rw [setProp_of_writable _ hw] at h
      simp only [writeAt] at h
      cases hA : setNestedKeys (o.sub k) (k1 :: p) v with
      | error e => simp [hA, Except.map] at h
      | ok a =>
        simp only [hA, Except.map, Except.ok.injEq] at h
        rw [← h, getPath_cons, child_writeBack_same a hw]
        exact ih k1 _ v a hA

/-- A write that returns leaves what is read along keys that part ways with its own. -/
theorem getPath_setNestedKeys_apart (p : List String) :
    ∀ (r : List String) (o v x : JVal), setNestedKeys o p v = .ok x →
      diverge p r = true → getPath x r = getPath o r := by
  induction p with
  | nil => intro r o v x _ hd; simp [diverge] at hd
  | cons k p ih =>
    intro r o v x h hd
    cases r with
    | nil => simp [diverge] at hd
    | cons k2 r =>
      rw [setNestedKeys_step] at h
      cases hw : o.writable k with
      | false =>
        obtain ⟨e, he⟩ := setProp_of_not_writable (.obj []) hw
        simp [he] at h
      | true =>
        rw [setProp_of_writable _ hw] at h
        simp only [] at h
        cases hA : writeAt (o.sub k) p v with
        | error e => simp [hA, Except.map] at h
        | ok a =>
          simp only [hA, Except.map, Except.ok.injEq] at h
          rw [← h]
          by_cases hk : k = k2
          · subst hk
            have hd2 := diverge_cons_same hd
            obtain ⟨hp, hr⟩ := diverge_ne_nil hd2
            obtain ⟨k1, p1, rfl⟩ := List.exists_cons_of_ne_nil hp
            obtain ⟨k3, r1, rfl⟩ := List.exists_cons_of_ne_nil hr
            rw [getPath_cons, child_writeBack_same a hw]
            simp only [Option.some_bind]
            rw [ih (k3 :: r1) (o.sub k) v a hA hd2]
            exact getPath_sub hw k3 r1
          · rw [getPath_cons, child_writeBack_ne o a (Ne.symm hk)]
            rfl


/-! ### Reading after a Patch -/

theorem truthy_of_child {x : JVal} {k : String} {c : JVal} (h : x.child k = some c) :
    x.truthy = true := by
  cases x <;> simp [JVal.child] at h <;> rfl

theorem readProp_of_child {x : JVal} {k : String} {c : JVal} (h : x.child k = some c) :
    x.readProp k = .ok (some c) := by
  have hw := writable_of_child h
  have hg := getProp_eq_child_of_writable hw
  cases x with
  | null => simp [JVal.child] at h
  | _ => simp [JVal.readProp, hg, h]

theorem diverge_self (r : List String) : diverge r r = false := by
  induction r with
  | nil => rfl
  | cons a r ih => simp [diverge, ih]

theorem applyPaths_read {P : String} {r : List String} (hr : splitPath P = r)
    (hne : r ≠ []) (paths : List (String × JVal)) :
    ∀ e e2 : JVal, applyPaths e paths = .ok e2 → (paths.map Prod.fst).Nodup →
      (∀ pv ∈ paths, pv.1 = P ∨ diverge (splitPath pv.1) r = true) →
      getPath e2 r = match propGet paths P with
        | some v => some v
        | none => getPath e r := by
  induction paths with
  | nil =>
    intro e e2 h _ _
    simp only [applyPaths, Except.ok.injEq] at h
    simp [propGet, h]
  | cons pv rest ih =>
    intro e e2 h hnd hall
    obtain ⟨path, v⟩ := pv
    rw [applyPaths_cons] at h
    cases h1 : setNestedValue e path v with
    | error err => simp [h1, Except.bind] at h
    | ok e1 =>
      simp only [h1, Except.bind] at h
      simp only [List.map_cons, List.nodup_cons] at hnd
      have hrest := ih e1 e2 h hnd.2 (fun pv hm => hall pv (List.mem_cons_of_mem _ hm))
      rw [hrest]
      rcases hall (path, v) (List.mem_cons_self _ _) with hP | hd
      · simp only at hP
        subst hP
        have hnone : propGet rest path = none := propGet_eq_none.mpr hnd.1
        obtain ⟨k, p, hkp⟩ := List.exists_cons_of_ne_nil hne
        have h2 : setNestedKeys e (k :: p) v = .ok e1 := by
          rw [← hkp, ← hr]; exact h1
        simp only [hnone, propGet, if_true]
        rw [hkp]
        exact getPath_setNestedKeys_same p k e v e1 h2
      · simp only at hd
        have hPne : ¬ path = P := by
          intro e0
          subst e0
          rw [hr] at hd
          rw [diverge_self] at hd
          exact absurd hd (by simp)
        simp only [propGet, hPne, if_false]
        rw [getPath_setNestedKeys_apart _ r e v e1 h1 hd]

theorem applyEntities_cons (coll : JVal) (eid : String) (paths : List (String × JVal))
    (rest : List (String × List (String × JVal))) :
    applyEntities coll ((eid, paths) :: rest) =
      match coll.getProp eid with
      | some entity =>
        if entity.truthy then
          (applyPaths entity paths).bind
            (fun e2 => applyEntities (coll.writeBack eid e2) rest)
        else applyEntities coll rest
      | none => applyEntities coll rest := rfl

theorem applyEntities_child_other (ents : List (String × List (String × JVal))) :
    ∀ (coll coll2 : JVal) (id : String), applyEntities coll ents = .ok coll2 →
      id ∉ ents.map Prod.fst → coll2.child id = coll.child id := by
  induction ents with
  | nil =>
    intro coll coll2 id h _
    simp only [applyEntities, Except.ok.injEq] at h
    rw [h]
  | cons ent rest ih =>
    intro coll coll2 id h hid
    obtain ⟨eid, paths⟩ := ent
    simp only [List.map_cons, List.mem_cons, not_or] at hid
    rw [applyEntities_cons] at h
    cases hg : coll.getProp eid with
    | none =>
      simp only [hg] at h
      exact ih coll coll2 id h hid.2
    | some entity =>
      simp only [hg] at h
      cases ht : entity.truthy with
      | false =>
        simp only [ht, Bool.false_eq_true, if_false] at h
        exact ih coll coll2 id h hid.2
      | true =>
        simp only [ht, if_true] at h
        cases ha : applyPaths entity paths with
        | error err => simp [ha, Except.bind] at h
        | ok e2 =>
          simp only [ha, Except.bind] at h
          rw [ih _ coll2 id h hid.2, child_writeBack_ne coll e2 hid.1]

theorem applyEntities_child (ents : List (String × List (String × JVal))) :
    ∀ (coll coll2 : JVal) (id : String) (e : JVal), applyEntities coll ents = .ok coll2 →
      (ents.map Prod.fst).Nodup → coll.child id = some e → e.truthy = true →
      ∃ e2, coll2.child id = some e2 ∧
        match propGet ents id with
        | some paths => applyPaths e paths = .ok e2
        | none => e2 = e := by
  induction ents with
  | nil =>
    intro coll coll2 id e h _ hc _
    simp only [applyEntities, Except.ok.injEq] at h
    exact ⟨e, by rw [← h]; exact hc, by simp [propGet]⟩
  | cons ent rest ih =>
    intro coll coll2 id e h hnd hc ht
    obtain ⟨eid, paths⟩ := ent
    simp only [List.map_cons, List.nodup_cons] at hnd
    rw [applyEntities_cons] at h
    by_cases hk : eid = id
    · subst hk
      have hg : coll.getProp eid = some e := by
        rw [getProp_eq_child_of_writable (writable_of_child hc)]; exact hc
      simp only [hg, ht, if_true] at h
      cases ha : applyPaths e paths with
      | error err => simp [ha, Except.bind] at h
      | ok e2 =>
        simp only [ha, Except.bind] at h
        refine ⟨e2, ?_, by simp [propGet, ha]⟩
        rw [applyEntities_child_other rest _ coll2 eid h hnd.1]
        exact child_writeBack_same e2 (writable_of_child hc)
    · have hprop : propGet ((eid, paths) :: rest) id = propGet rest id := by
        simp [propGet, hk]
      rw [hprop]
      cases hg : coll.getProp eid with
      | none =>
        simp only [hg] at h
        exact ih coll coll2 id e h hnd.2 hc ht
      | some entity =>
        simp only [hg] at h
        cases hte : entity.truthy with
        | false =>
          simp only [hte, Bool.false_eq_true, if_false] at h
          exact ih coll coll2 id e h hnd.2 hc ht
        | true =>
          simp only [hte, if_true] at h
          cases ha : applyPaths entity paths with
          | error err => simp [ha, Except.bind] at h
          | ok e2 =>
            simp only [ha, Except.bind] at h
            refine ih _ coll2 id e h hnd.2 ?_ ht
            rw [child_writeBack_ne coll e2 (Ne.symm hk)]
            exact hc


theorem applyCollections_cons (data : JVal) (entityType : String)
    (entities : List (String × List (String × JVal))) (rest : Patch) :
    applyCollections data ((entityType, entities) :: rest) =
      (data.readProp entityType).bind (fun found =>
        match found with
        | some coll =>
          if coll.truthy then
            (applyEntities coll entities).bind
              (fun coll2 => applyCollections (data.writeBack entityType coll2) rest)
          else applyCollections data rest
        | none => applyCollections data rest) := by
  simp only [applyCollections, bind, Except.bind]

theorem applyCollections_child_other (p : Patch) :
    ∀ (data data2 : JVal) (key : String), applyCollections data p = .ok data2 →
      key ∉ p.map Prod.fst → data2.child key = data.child key := by
  induction p with
  | nil =>
    intro data data2 key h _
    simp only [applyCollections, Except.ok.injEq] at h
    rw [h]
  | cons c rest ih =>
    intro data data2 key h hkey
    obtain ⟨entityType, entities⟩ := c
    simp only [List.map_cons, List.mem_cons, not_or] at hkey
    rw [applyCollections_cons] at h
    cases hr : data.readProp entityType with
    | error e => simp [hr, Except.bind] at h
    | ok found =>
      simp only [hr, Except.bind] at h
      cases found with
      | none => exact ih data data2 key h hkey.2
      | some coll =>
        simp only [] at h
        cases ht : coll.truthy with
        | false =>
          simp only [ht, Bool.false_eq_true, if_false] at h
          exact ih data data2 key h hkey.2
        | true =>
          simp only [ht, if_true] at h
          cases ha : applyEntities coll entities with
          | error err => simp [ha] at h
          | ok coll2 =>
            simp only [ha] at h
            rw [ih _ data2 key h hkey.2, child_writeBack_ne data coll2 hkey.1]

theorem applyCollections_child (p : Patch) :
    ∀ (data data2 : JVal) (key : String) (coll : JVal),
      applyCollections data p = .ok data2 → (p.map Prod.fst).Nodup →
      data.child key = some coll → coll.truthy = true →
      ∃ coll2, data2.child key = some coll2 ∧
        match propGet p key with
        | some entities => applyEntities coll entities = .ok coll2
        | none => coll2 = coll := by
  induction p with
  | nil =>
    intro data data2 key coll h _ hc _
    simp only [applyCollections, Except.ok.injEq] at h
    exact ⟨coll, by rw [← h]; exact hc, by simp [propGet]⟩
  | cons c rest ih =>
    intro data data2 key coll h hnd hc ht
    obtain ⟨entityType, entities⟩ := c
    simp only [List.map_cons, List.nodup_cons] at hnd
    rw [applyCollections_cons] at h
    by_cases hk : entityType = key
    · subst hk
      rw [readProp_of_child hc] at h
      simp only [Except.bind, ht, if_true] at h
      cases ha : applyEntities coll entities with
      | error err => simp [ha] at h
      | ok coll2 =>
        simp only [ha] at h
        refine ⟨coll2, ?_, by simp [propGet, ha]⟩
        rw [applyCollections_child_other rest _ data2 entityType h hnd.1]
        exact child_writeBack_same coll2 (writable_of_child hc)
    · have hprop : propGet ((entityType, entities) :: rest) key = propGet rest key := by
        simp [propGet, hk]
      rw [hprop]
      cases hr : data.readProp entityType with
      | error e => simp [hr, Except.bind] at h
      | ok found =>
        simp only [hr, Except.bind] at h
        cases found with
        | none => exact ih data data2 key coll h hnd.2 hc ht
        | some other =>
          simp only [] at h
          cases hto : other.truthy with
          | false =>
            simp only [hto, Bool.false_eq_true, if_false] at h
            exact ih data data2 key coll h hnd.2 hc ht
          | true =>
            simp only [hto, if_true] at h
            cases ha : applyEntities other entities with
            | error err => simp [ha] at h
            | ok other2 =>
              simp only [ha] at h
              refine ih _ data2 key coll h hnd.2 ?_ ht
              rw [child_writeBack_ne data other2 (Ne.symm hk)]
              exact hc

/-- What is read under an entity of a collection after a Patch was applied: the value the
Patch holds for the path read, else what was read before, provided the other paths the
Patch holds for the entity part ways with the path read. -/
theorem applyDeltaUpdates_read {mirror mirror2 : JVal} {patch : Patch} {stamp : String}
    {key id P : String} {r : List String} {old : JVal}
    (h : applyDeltaUpdates mirror patch stamp = .ok mirror2)
    (hnd : Patch.nodupKeys patch) (hr : splitPath P = r) (hne : r ≠ [])
    (hkey : key ≠ "timestamp")
    (hall : ∀ ents paths, propGet patch key = some ents → propGet ents id = some paths →
      ∀ pv ∈ paths, pv.1 = P ∨ diverge (splitPath pv.1) r = true)
    (hold : getPath mirror (key :: id :: r) = some old) :
    getPath mirror2 (key :: id :: r) = some ((Patch.get? patch key id P).getD old) := by
  obtain ⟨k1, r1, hkr⟩ := List.exists_cons_of_ne_nil hne
  -- what the mirror holds on the way
  rw [getPath_cons] at hold
  cases hc : mirror.child key with
  | none => simp [hc] at hold
  | some coll =>
    simp only [hc, Option.some_bind] at hold
    rw [getPath_cons] at hold
    cases he : coll.child id with
    | none => simp [he] at hold
    | some e =>
      simp only [he, Option.some_bind] at hold
      have hte : e.truthy = true := by
        rw [hkr, getPath_cons] at hold
        cases hx : e.child k1 with
        | none => simp [hx] at hold
        | some x => exact truthy_of_child hx
      have htc : coll.truthy = true := truthy_of_child he
      -- the loops
      unfold applyDeltaUpdates at h
      simp only [bind, Except.bind] at h
      cases h1 : applyCollections mirror patch with
      | error err => simp [h1] at h
      | ok m1 =>
        simp only [h1] at h
        obtain ⟨coll2, hc2, hcoll⟩ := applyCollections_child patch mirror m1 key coll h1
          hnd.1 hc htc
        have hw : m1.writable "timestamp" = true := by
          cases hw0 : m1.writable "timestamp" with
          | true => rfl
          | false =>
            obtain ⟨err, herr⟩ := setProp_of_not_writable (JVal.str stamp) hw0
            rw [herr] at h
            simp at h
        rw [setProp_of_writable _ hw] at h
        simp only [Except.ok.injEq] at h
        rw [← h, getPath_cons, child_writeBack_ne m1 _ hkey, hc2]
        simp only [Option.some_bind]
        unfold Patch.get?
        cases hp : propGet patch key with
        | none =>
          simp only [hp] at hcoll
          subst hcoll
          simp [getPath_cons, he, hold]
        | some ents =>
          simp only [hp] at hcoll
          have hnd2 := (hnd.2 key ents (propGet_mem hp)).1
          obtain ⟨e2, he2, hent⟩ := applyEntities_child ents coll coll2 id e hcoll hnd2 he hte
          rw [getPath_cons, he2]
          simp only [Option.some_bind]
          cases hq : propGet ents id with
          | none =>
            simp only [hq] at hent
            subst hent
            simp [hold]
          | some paths =>
            simp only [hq] at hent
            have hnd3 := (hnd.2 key ents (propGet_mem hp)).2 id paths (propGet_mem hq)
            rw [applyPaths_read hr hne paths e e2 hent hnd3 (hall ents paths hp hq)]
            cases hv : propGet paths P with
            | none => simp [hold, hv]
            | some v => simp [hv]


/-! ### What a Patch holds -/

theorem propGet_propSet {α : Type} (l : List (String × α)) (key k : String) (x : α) :
    propGet (propSet l key x) k = if k = key then some x else propGet l k := by
  by_cases h : k = key
  · subst h
    simp [propGet_propSet_same]
  · simp [h, propGet_propSet_ne l x h]

theorem get?_addChange (updates : Patch) (c : Change) (coll id path : String) :
    Patch.get? (addChange updates c) coll id path
      = if c.entityType = coll ∧ c.entityId = id ∧ c.path = path then some c.newValue
        else Patch.get? updates coll id path := by
  rw [addChange_eq]
  unfold Patch.get?
  rw [propGet_propSet]
  by_cases h1 : coll = c.entityType
  · subst h1
    simp only [if_true, Option.some_bind, true_and]
    rw [propGet_propSet]
    by_cases h2 : id = c.entityId
    · subst h2
      simp only [if_true, Option.some_bind, true_and]
      rw [propGet_propSet]
      by_cases h3 : path = c.path
      · subst h3
        simp
      · have h3b : ¬ c.path = path := fun e => h3 e.symm
        simp only [h3, h3b, if_false]
        cases hg : propGet updates c.entityType with
        | none => simp [propGet]
        | some ents =>
          simp only [Option.getD_some, Option.some_bind]
          cases hg2 : propGet ents c.entityId with
          | none => simp [propGet]
          | some paths => simp
    · have h2b : ¬ c.entityId = id := fun e => h2 e.symm
      simp only [h2, h2b, if_false, false_and]
      cases hg : propGet updates c.entityType with
      | none => simp [propGet]
      | some ents => simp
  · have h1b : ¬ c.entityType = coll := fun e => h1 e.symm
    simp [h1, h1b]

theorem get?_foldl_addChange (coll id path : String) (changes : List Change) :
    ∀ updates : Patch,
      Patch.get? (changes.foldl addChange updates) coll id path
        = match lastValue coll id path changes with
          | some v => some v
          | none => Patch.get? updates coll id path := by
  induction changes with
  | nil => intro updates; simp [lastValue]
  | cons c cs ih =>
    intro updates
    simp only [List.foldl_cons]
    rw [ih, get?_addChange]
    simp only [lastValue]
    cases lastValue coll id path cs with
    | some v => rfl
    | none =>
      simp only []
      split <;> rfl

/-- The value a Patch of `changesToKeyValue` holds is the new value of the last record
filed under that collection, entity and path. -/
theorem get?_changesToKeyValue (changes : List Change) (coll id path : String) :
    Patch.get? (changesToKeyValue changes) coll id path = lastValue coll id path changes := by
  unfold changesToKeyValue
  rw [get?_foldl_addChange]
  cases lastValue coll id path changes with
  | some v => rfl
  | none => simp [Patch.get?, propGet]

theorem keys_propSet_of_not_mem {α : Type} (l : List (String × α)) (key : String) (x : α)
    (h : key ∉ l.map Prod.fst) : (propSet l key x).map Prod.fst = l.map Prod.fst ++ [key] := by
  induction l with
  | nil => simp [propSet]
  | cons hd tl ih =>
    obtain ⟨k, v⟩ := hd
    simp only [List.map_cons, List.mem_cons, not_or] at h
    have hk : ¬ k = key := fun e => h.1 e.symm
    simp [propSet, hk, ih h.2]

theorem nodup_keys_propSet {α : Type} (l : List (String × α)) (key : String) (x : α)
    (h : (l.map Prod.fst).Nodup) : ((propSet l key x).map Prod.fst).Nodup := by
  by_cases hm : key ∈ l.map Prod.fst
  · rw [keys_propSet_of_mem l key x hm]; exact h
  · rw [keys_propSet_of_not_mem l key x hm]
    rw [List.nodup_append]
    refine ⟨h, by simp, ?_⟩
    intro a ha hb
    simp only [List.mem_singleton] at hb
    subst hb
    exact hm ha

theorem addChange_nodupKeys (updates : Patch) (c : Change) (h : Patch.nodupKeys updates) :
    Patch.nodupKeys (addChange updates c) := by
  rw [addChange_eq]
  have hents : (((propGet updates c.entityType).getD []).map Prod.fst).Nodup
      ∧ ∀ id paths, (id, paths) ∈ (propGet updates c.entityType).getD [] →
          (paths.map Prod.fst).Nodup := by
    cases hg : propGet updates c.entityType with
    | none => simp
    | some ents => simpa using h.2 _ ents (propGet_mem hg)
  have hpaths : (((propGet ((propGet updates c.entityType).getD []) c.entityId).getD []).map
      Prod.fst).Nodup := by
    cases hg : propGet ((propGet updates c.entityType).getD []) c.entityId with
    | none => simp
    | some paths => simpa using hents.2 _ paths (propGet_mem hg)
  refine ⟨nodup_keys_propSet _ _ _ h.1, ?_⟩
  intro coll ents hmem
  rcases mem_propSet hmem with hold | ⟨_, hnew⟩
  · exact h.2 coll ents hold
  · subst hnew
    refine ⟨nodup_keys_propSet _ _ _ hents.1, ?_⟩
    intro id paths hid
    rcases mem_propSet hid with hold | ⟨_, hnew⟩
    · exact hents.2 id paths hold
    · subst hnew
      exact nodup_keys_propSet _ _ _ hpaths

theorem changesToKeyValue_nodupKeys (changes : List Change) :
    Patch.nodupKeys (changesToKeyValue changes) := by
  unfold changesToKeyValue
  have : ∀ (cs : List Change) (u : Patch), Patch.nodupKeys u →
      Patch.nodupKeys (cs.foldl addChange u) := by
    intro cs
    induction cs with
    | nil => intro u hu; exact hu
    | cons c cs ih =>
      intro u hu
      exact ih _ (addChange_nodupKeys u c hu)
  exact this changes [] ⟨by simp, by intro _ _ hm; simp at hm⟩


/-! ### The heart rate through a pass -/

theorem lastValue_append (coll id path : String) (a b : List Change) :
    lastValue coll id path (a ++ b)
      = match lastValue coll id path b with
        | some v => some v
        | none => lastValue coll id path a := by
  induction a with
  | nil =>
    simp only [List.nil_append, lastValue]
    cases lastValue coll id path b <;> rfl
  | cons c a ih =>
    show lastValue coll id path (c :: (a ++ b)) = _
    rw [lastValue, ih]
    cases lastValue coll id path b with
    | some v => rfl
    | none => rfl

theorem lastValue_eq_none {coll id path : String} {cs : List Change}
    (h : ∀ c ∈ cs, ¬ (c.entityType = coll ∧ c.entityId = id ∧ c.path = path)) :
    lastValue coll id path cs = none := by
  induction cs with
  | nil => rfl
  | cons c cs ih =>
    simp only [lastValue, ih (fun c hc => h c (List.mem_cons_of_mem _ hc))]
    simp [h c (List.mem_cons_self _ _)]

theorem splitPath_medications (x : String) :
    ∃ rest, splitPath ("medications." ++ x) = "medications" :: rest := by
  refine ⟨splitAux [] x.data, ?_⟩
  have hd : ("medications." ++ x).data
      = 'm' :: 'e' :: 'd' :: 'i' :: 'c' :: 'a' :: 't' :: 'i' :: 'o' :: 'n' :: 's' :: '.'
          :: x.data := by
    rw [String.data_append]
    rfl
  unfold splitPath
  rw [hd]
  simp [splitAux]

theorem diverge_medications (x : String) :
    diverge (splitPath ("medications." ++ x)) ["vitals", "heartRate"] = true := by
  obtain ⟨rest, h⟩ := splitPath_medications x
  rw [h]
  simp [diverge]


theorem pushIfChanged_path {patientId path : String} {old new : ℚ} {c : Change}
    (h : c ∈ pushIfChanged patientId path old new) : c.path = path := by
  unfold pushIfChanged at h
  split at h
  · simp only [List.mem_singleton] at h
    subst h
    rfl
  · simp at h

theorem lastValue_pushIfChanged_ne (coll id path : String) (patientId : String)
    {path2 : String} (old new : ℚ) (h : path2 ≠ path) :
    lastValue coll id path (pushIfChanged patientId path2 old new) = none :=
  lastValue_eq_none (fun _ hc hm => h ((pushIfChanged_path hc).symm.trans hm.2.2))

theorem lastValue_vitalsChanges (coll id : String) (patientId : String)
    (oldVitals vitals : Vitals) :
    lastValue coll id "vitals.heartRate" (vitalsChanges patientId oldVitals vitals)
      = lastValue coll id "vitals.heartRate"
          (pushIfChanged patientId "vitals.heartRate" oldVitals.heartRate vitals.heartRate) := by
  unfold vitalsChanges
  simp only [lastValue_append]
  rw [lastValue_pushIfChanged_ne _ _ _ _ _ _ (by decide : "vitals.painScore" ≠ "vitals.heartRate"),
    lastValue_pushIfChanged_ne _ _ _ _ _ _ (by decide : "vitals.urinOutput" ≠ "vitals.heartRate"),
    lastValue_pushIfChanged_ne _ _ _ _ _ _ (by decide : "vitals.bloodGlucose" ≠ "vitals.heartRate"),
    lastValue_pushIfChanged_ne _ _ _ _ _ _
      (by decide : "vitals.intracranialPressure" ≠ "vitals.heartRate"),
    lastValue_pushIfChanged_ne _ _ _ _ _ _ (by decide : "vitals.cardiacOutput" ≠ "vitals.heartRate"),
    lastValue_pushIfChanged_ne _ _ _ _ _ _
      (by decide : "vitals.centralVenousPressure" ≠ "vitals.heartRate"),
    lastValue_pushIfChanged_ne _ _ _ _ _ _
      (by decide : "vitals.respiratoryRate" ≠ "vitals.heartRate"),
    lastValue_pushIfChanged_ne _ _ _ _ _ _ (by decide : "vitals.temperature" ≠ "vitals.heartRate"),
    lastValue_pushIfChanged_ne _ _ _ _ _ _ (by decide : "vitals.spo2" ≠ "vitals.heartRate"),
    lastValue_pushIfChanged_ne _ _ _ _ _ _
      (by decide : "vitals.bloodPressure.meanArterialPressure" ≠ "vitals.heartRate"),
    lastValue_pushIfChanged_ne _ _ _ _ _ _
      (by decide : "vitals.bloodPressure.diastolic" ≠ "vitals.heartRate"),
    lastValue_pushIfChanged_ne _ _ _ _ _ _
      (by decide : "vitals.bloodPressure.systolic" ≠ "vitals.heartRate")]

theorem vitalsChanges_beside {patientId : String} {oldVitals vitals : Vitals} {c : Change}
    (h : c ∈ vitalsChanges patientId oldVitals vitals) : besideHeartRate c.path := by
  unfold vitalsChanges at h
  simp only [List.mem_append, or_assoc] at h
  unfold besideHeartRate
  rcases h with h | h | h | h | h | h | h | h | h | h | h | h | h <;>
    (rw [pushIfChanged_path h]; decide)


theorem updateMedication_beside {patientId : String} {index : Nat} {m : Medication}
    {o : Oracle} {c : Change} (h : c ∈ (updateMedication patientId index m o).2.1) :
    diverge (splitPath c.path) ["vitals", "heartRate"] = true := by
  unfold updateMedication at h
  simp only [] at h
  split at h
  · simp only [List.mem_cons, List.mem_singleton, List.not_mem_nil, or_false] at h
    rcases h with h | h <;> subst h <;>
      (simp only [patientChange, String.append_assoc]; exact diverge_medications _)
  · simp at h

theorem updateMedications_beside {patientId : String} (ms : List Medication) :
    ∀ (index : Nat) (o : Oracle) (c : Change),
      c ∈ (updateMedications patientId index ms o).2.1 →
      diverge (splitPath c.path) ["vitals", "heartRate"] = true := by
  induction ms with
  | nil => intro index o c h; simp [updateMedications] at h
  | cons m rest ih =>
    intro index o c h
    simp only [updateMedications, List.mem_append] at h
    rcases h with h | h
    · exact updateMedication_beside h
    · exact ih _ _ _ h

theorem diverge_ne_heartRate {path : String}
    (h : diverge (splitPath path) ["vitals", "heartRate"] = true) :
    path ≠ "vitals.heartRate" := by
  intro e
  subst e
  revert h
  decide

/-- The patient, the records and the oracle of `updatePatientVitals`, spelled out. -/
theorem updatePatientVitals_eq (patientId : String) (patient : Patient) (o : Oracle) :
    updatePatientVitals patientId patient o =
      if (adjustVitals patient.vitals o).2.nextRandom.1 > 0.7 then
        ({ patient with
            vitals := (adjustVitals patient.vitals o).1
            medications := (updateMedications patientId 0 patient.medications
              (adjustVitals patient.vitals o).2.nextRandom.2).1 },
          vitalsChanges patientId
              (oldVitalsView patient.vitals (adjustVitals patient.vitals o).1)
              (adjustVitals patient.vitals o).1
            ++ (updateMedications patientId 0 patient.medications
              (adjustVitals patient.vitals o).2.nextRandom.2).2.1,
          (updateMedications patientId 0 patient.medications
              (adjustVitals patient.vitals o).2.nextRandom.2).2.2)
      else
        ({ patient with vitals := (adjustVitals patient.vitals o).1 },
          vitalsChanges patientId
              (oldVitalsView patient.vitals (adjustVitals patient.vitals o).1)
              (adjustVitals patient.vitals o).1,
          (adjustVitals patient.vitals o).2.nextRandom.2) := by
  rfl

theorem updatePatientVitals_beside {patientId : String} {p : Patient} {o : Oracle}
    {c : Change} (h : c ∈ (updatePatientVitals patientId p o).2.1) :
    besideHeartRate c.path := by
  rw [updatePatientVitals_eq] at h
  split at h
  · simp only [List.mem_append] at h
    rcases h with h | h
    · exact vitalsChanges_beside h
    · exact Or.inr (updateMedications_beside _ _ _ _ h)
  · exact vitalsChanges_beside h

/-- The heart rate of the patient after `updatePatientVitals` is the new value of the last
heart-rate record filed under its id, or the heart rate before when there is none. -/
theorem updatePatientVitals_heartRate (patientId : String) (p : Patient) (o : Oracle)
    (hid : patientId ≠ "") :
    (lastValue "patients" patientId "vitals.heartRate"
        (updatePatientVitals patientId p o).2.1).getD (JVal.num p.vitals.heartRate)
      = JVal.num (updatePatientVitals patientId p o).1.vitals.heartRate := by
  have hmed : ∀ o2 : Oracle, lastValue "patients" patientId "vitals.heartRate"
      (updateMedications patientId 0 p.medications o2).2.1 = none :=
    fun o2 => lastValue_eq_none (fun c hc hm =>
      diverge_ne_heartRate (updateMedications_beside _ _ _ _ hc) hm.2.2)
  have hvit : (lastValue "patients" patientId "vitals.heartRate"
      (vitalsChanges patientId (oldVitalsView p.vitals (adjustVitals p.vitals o).1)
        (adjustVitals p.vitals o).1)).getD (JVal.num p.vitals.heartRate)
      = JVal.num (adjustVitals p.vitals o).1.heartRate := by
    rw [lastValue_vitalsChanges]
    unfold pushIfChanged
    simp only [oldVitalsView]
    split
    · simp [lastValue, patientChange, Change.entityType, Change.entityId, idTruthy, idKey, hid]
    · rename_i heq
      simp only [ne_eq, not_not] at heq
      simp [lastValue, heq]
  rw [updatePatientVitals_eq]
  split
  · simp only [lastValue_append, hmed]
    exact hvit
  · exact hvit


theorem updateSelected_cons_some {patients : List (String × Patient)} {patientId : String}
    {patient : Patient} (rest : List String) (o : Oracle)
    (h : propGet patients patientId = some patient) :
    updateSelected (patientId :: rest) patients o =
      ((updateSelected rest (propSet patients patientId (updatePatientVitals patientId patient o).1)
          (updatePatientVitals patientId patient o).2.2).1,
       (updatePatientVitals patientId patient o).2.1
         ++ (updateSelected rest
              (propSet patients patientId (updatePatientVitals patientId patient o).1)
              (updatePatientVitals patientId patient o).2.2).2.1,
       (updateSelected rest (propSet patients patientId (updatePatientVitals patientId patient o).1)
          (updatePatientVitals patientId patient o).2.2).2.2) := by
  rw [updateSelected]
  simp only [h]

theorem updateSelected_cons_none {patients : List (String × Patient)} {patientId : String}
    (rest : List String) (o : Oracle) (h : propGet patients patientId = none) :
    updateSelected (patientId :: rest) patients o = updateSelected rest patients o := by
  rw [updateSelected]
  simp only [h]

theorem not_filed_under_of_patientId {c : Change} {pid id : String}
    (hc : c.patientId = some pid) (hne : pid ≠ id) :
    ¬ (c.entityType = "patients" ∧ c.entityId = id) := by
  intro h
  by_cases hp : pid = ""
  · subst hp
    have : c.entityType = "equipment" := by simp [Change.entityType, hc, idTruthy]
    rw [this] at h
    exact absurd h.1 (by decide)
  · have : c.entityId = pid := by simp [Change.entityId, hc, idTruthy, idKey, hp]
    rw [this] at h
    exact hne h.2

theorem updateSelected_heartRate (selected : List String) :
    ∀ (patients : List (String × Patient)) (o : Oracle) (id : String), id ≠ "" →
      (updateSelected selected patients o).1.map Prod.fst = patients.map Prod.fst
      ∧ ∀ p, propGet patients id = some p →
          ∃ p2, propGet (updateSelected selected patients o).1 id = some p2
            ∧ JVal.num p2.vitals.heartRate
              = (lastValue "patients" id "vitals.heartRate"
                  (updateSelected selected patients o).2.1).getD (JVal.num p.vitals.heartRate) := by
  induction selected with
  | nil =>
    intro patients o id _
    exact ⟨rfl, fun p hp => ⟨p, hp, rfl⟩⟩
  | cons sid rest ih =>
    intro patients o id hid
    cases hq : propGet patients sid with
    | none =>
      rw [updateSelected_cons_none rest o hq]
      exact ih patients o id hid
    | some q =>
      rw [updateSelected_cons_some rest o hq]
      obtain ⟨hkeys, hrest⟩ := ih (propSet patients sid (updatePatientVitals sid q o).1)
        (updatePatientVitals sid q o).2.2 id hid
      refine ⟨?_, ?_⟩
      · rw [hkeys, keys_propSet_of_mem _ _ _ (propGet_mem_keys hq)]
      · intro p hp
        simp only [lastValue_append]
        by_cases hk : sid = id
        · subst hk
          rw [hq] at hp
          simp only [Option.some.injEq] at hp
          subst hp
          obtain ⟨p2, hp2, hval⟩ := hrest (updatePatientVitals sid q o).1
            (propGet_propSet_same _ _ _)
          refine ⟨p2, hp2, ?_⟩
          rw [hval, ← updatePatientVitals_heartRate sid q o hid]
          cases lastValue "patients" sid "vitals.heartRate"
            (updateSelected rest (propSet patients sid (updatePatientVitals sid q o).1)
              (updatePatientVitals sid q o).2.2).2.1 with
          | none => rfl
          | some v => rfl
        · obtain ⟨p2, hp2, hval⟩ := hrest p
            (by rw [propGet_propSet_ne _ _ (Ne.symm hk)]; exact hp)
          refine ⟨p2, hp2, ?_⟩
          rw [hval]
          have hnone : lastValue "patients" id "vitals.heartRate"
              (updatePatientVitals sid q o).2.1 = none :=
            lastValue_eq_none (fun c hc hm =>
              not_filed_under_of_patientId (updatePatientVitals_patientId hc) hk
                ⟨hm.1, hm.2.1⟩)
          rw [hnone]
          cases lastValue "patients" id "vitals.heartRate"
            (updateSelected rest (propSet patients sid (updatePatientVitals sid q o).1)
              (updatePatientVitals sid q o).2.2).2.1 with
          | none => rfl
          | some v => rfl

theorem updateSelected_beside (selected : List String) :
    ∀ (patients : List (String × Patient)) (o : Oracle) (c : Change),
      c ∈ (updateSelected selected patients o).2.1 → besideHeartRate c.path := by
  induction selected with
  | nil => intro patients o c h; simp [updateSelected] at h
  | cons sid rest ih =>
    intro patients o c h
    cases hq : propGet patients sid with
    | none =>
      rw [updateSelected_cons_none rest o hq] at h
      exact ih _ _ _ h
    | some q =>
      rw [updateSelected_cons_some rest o hq] at h
      simp only [List.mem_append] at h
      rcases h with h | h
      · exact updatePatientVitals_beside h
      · exact ih _ _ _ h


theorem updatePatientStatus_spec (patientId : String) (patient : Patient) (o : Oracle) :
    (updatePatientStatus patientId patient o).1.vitals = patient.vitals
    ∧ ∀ c ∈ (updatePatientStatus patientId patient o).2.1, c.path = "status" := by
  unfold updatePatientStatus
  simp only []
  split
  · refine ⟨rfl, ?_⟩
    intro c hc
    split at hc
    · simp only [List.mem_singleton] at hc
      subst hc
      rfl
    · simp at hc
  · exact ⟨rfl, by intro c hc; simp at hc⟩

theorem updateEquipmentStatus_path (equipmentId : String) (equipment : Equipment)
    (o : Oracle) :
    ∀ c ∈ (updateEquipmentStatus equipmentId equipment o).2.1, c.path = "status" := by
  unfold updateEquipmentStatus
  simp only []
  split
  · intro c hc
    have key : ∀ st : String,
        c ∈ (if equipment.status ≠ st then
              [equipmentChange equipmentId "status" (JVal.str equipment.status) (JVal.str st)]
            else []) → c.path = "status" := by
      intro st h
      split at h
      · simp only [List.mem_singleton] at h
        subst h
        rfl
      · simp at h
    exact key _ hc
  · intro c hc; simp at hc

theorem updateAllEquipment_path (ids : List String) :
    ∀ (equipment : List (String × Equipment)) (o : Oracle),
      ∀ c ∈ (updateAllEquipment ids equipment o).2.1, c.path = "status" := by
  induction ids with
  | nil => intro equipment o c hc; simp [updateAllEquipment] at hc
  | cons eid rest ih =>
    intro equipment o c hc
    rw [updateAllEquipment] at hc
    cases hq : propGet equipment eid with
    | none =>
      simp only [hq] at hc
      exact ih _ _ c hc
    | some e =>
      simp only [hq, List.mem_append] at hc
      rcases hc with hc | hc
      · exact updateEquipmentStatus_path _ _ _ c hc
      · exact ih _ _ c hc

theorem updateAllPatients_spec (ids : List String) :
    ∀ (patients : List (String × Patient)) (o : Oracle),
      (updateAllPatients ids patients o).1.map Prod.fst = patients.map Prod.fst
      ∧ (∀ id p, propGet patients id = some p →
          ∃ p2, propGet (updateAllPatients ids patients o).1 id = some p2
            ∧ p2.vitals = p.vitals)
      ∧ ∀ c ∈ (updateAllPatients ids patients o).2.1, c.path = "status" := by
  induction ids with
  | nil =>
    intro patients o
    exact ⟨rfl, fun id p hp => ⟨p, hp, rfl⟩, by intro c hc; simp [updateAllPatients] at hc⟩
  | cons pid rest ih =>
    intro patients o
    rw [updateAllPatients]
    cases hq : propGet patients pid with
    | none =>
      simp only [hq]
      exact ih patients o
    | some q =>
      simp only [hq]
      obtain ⟨hkeys, hvit, hpath⟩ := ih (propSet patients pid (updatePatientStatus pid q o).1)
        (updatePatientStatus pid q o).2.2
      obtain ⟨hv1, hp1⟩ := updatePatientStatus_spec pid q o
      refine ⟨?_, ?_, ?_⟩
      · rw [hkeys, keys_propSet_of_mem _ _ _ (propGet_mem_keys hq)]
      · intro id p hp
        by_cases hk : pid = id
        · subst hk
          rw [hq] at hp
          simp only [Option.some.injEq] at hp
          subst hp
          obtain ⟨p2, hp2, hv2⟩ := hvit pid _ (propGet_propSet_same _ _ _)
          exact ⟨p2, hp2, hv2.trans hv1⟩
        · exact hvit id p (by rw [propGet_propSet_ne _ _ (Ne.symm hk)]; exact hp)
      · intro c hc
        simp only [List.mem_append] at hc
        rcases hc with hc | hc
        · exact hp1 c hc
        · exact hpath c hc

/-- The store and the records of `updateNonCriticalData`, spelled out. -/
theorem updateNonCriticalData_eq (s : Store) (o : Oracle) :
    updateNonCriticalData s o =
      ((updateAllEquipment (s.equipment.map Prod.fst) s.equipment o).2.1
        ++ (updateAllPatients (s.patients.map Prod.fst) s.patients
            (updateAllEquipment (s.equipment.map Prod.fst) s.equipment o).2.2).2.1,
       { s with
          equipment := (updateAllEquipment (s.equipment.map Prod.fst) s.equipment o).1
          patients := (updateAllPatients (s.patients.map Prod.fst) s.patients
            (updateAllEquipment (s.equipment.map Prod.fst) s.equipment o).2.2).1
          timestamp := (updateAllPatients (s.patients.map Prod.fst) s.patients
            (updateAllEquipment (s.equipment.map Prod.fst) s.equipment o).2.2).2.2.nextISO.1 },
       (updateAllPatients (s.patients.map Prod.fst) s.patients
            (updateAllEquipment (s.equipment.map Prod.fst) s.equipment o).2.2).2.2.nextISO.2) := by
  rfl

theorem beside_status : besideHeartRate "status" := Or.inr (by decide)

/-- The heart rates through one mutation pass: the patient ids stay, every record's path
is the heart rate's or parts ways with it, and the heart rate of a patient after the pass
is the new value of the last heart-rate record filed under its id, or the heart rate
before when there is none. -/
theorem mutationPass_heartRate (s : Store) (o : Oracle) :
    (mutationPass s o).2.1.patients.map Prod.fst = s.patients.map Prod.fst
    ∧ (∀ c ∈ (mutationPass s o).1, besideHeartRate c.path)
    ∧ ∀ id p, id ≠ "" → propGet s.patients id = some p →
        ∃ p2, propGet (mutationPass s o).2.1.patients id = some p2
          ∧ JVal.num p2.vitals.heartRate
            = (lastValue "patients" id "vitals.heartRate" (mutationPass s o).1).getD
                (JVal.num p.vitals.heartRate) := by
  have hpass : mutationPass s o
      = ((updateVitals s o).1 ++ (updateNonCriticalData (updateVitals s o).2.1
            (updateVitals s o).2.2).1,
         (updateNonCriticalData (updateVitals s o).2.1 (updateVitals s o).2.2).2.1,
         (updateNonCriticalData (updateVitals s o).2.1 (updateVitals s o).2.2).2.2) := rfl
  have hv : updateVitals s o
      = ((updateSelected (patientsToUpdate s.patients o).1 s.patients
            (patientsToUpdate s.patients o).2).2.1,
         { s with
            patients := (updateSelected (patientsToUpdate s.patients o).1 s.patients
              (patientsToUpdate s.patients o).2).1
            timestamp := (updateSelected (patientsToUpdate s.patients o).1 s.patients
              (patientsToUpdate s.patients o).2).2.2.nextISO.1 },
         (updateSelected (patientsToUpdate s.patients o).1 s.patients
              (patientsToUpdate s.patients o).2).2.2.nextISO.2) := rfl
  rw [hpass]
  simp only [updateNonCriticalData_eq]
  rw [hv]
  simp only []
  obtain ⟨hk2, hvit2, hpath2⟩ := updateAllPatients_spec
    ((updateSelected (patientsToUpdate s.patients o).1 s.patients
        (patientsToUpdate s.patients o).2).1.map Prod.fst)
    (updateSelected (patientsToUpdate s.patients o).1 s.patients
        (patientsToUpdate s.patients o).2).1
    (updateAllEquipment (s.equipment.map Prod.fst) s.equipment
        (updateSelected (patientsToUpdate s.patients o).1 s.patients
          (patientsToUpdate s.patients o).2).2.2.nextISO.2).2.2
  refine ⟨?_, ?_, ?_⟩
  · rw [hk2]
    exact (updateSelected_heartRate _ s.patients _ "x" (by decide)).1
  · intro c hc
    simp only [List.mem_append] at hc
    rcases hc with hc | hc | hc
    · exact updateSelected_beside _ _ _ c hc
    · rw [updateAllEquipment_path _ _ _ c hc]; exact beside_status
    · rw [hpath2 c hc]; exact beside_status
  · intro id p hid hp
    obtain ⟨p1, hp1, hval1⟩ := (updateSelected_heartRate (patientsToUpdate s.patients o).1
      s.patients (patientsToUpdate s.patients o).2 id hid).2 p hp
    obtain ⟨p2, hp2, hv2⟩ := hvit2 id p1 hp1
    refine ⟨p2, hp2, ?_⟩
    rw [hv2, hval1]
    simp only [lastValue_append]
    have hne : ("status" : String) ≠ "vitals.heartRate" := by decide
    rw [@lastValue_eq_none _ _ _ (updateAllPatients _ _ _).2.1
        (fun c hc hm => hne ((hpath2 c hc).symm.trans hm.2.2)),
      @lastValue_eq_none _ _ _ (updateAllEquipment _ _ _).2.1
        (fun c hc hm => hne ((updateAllEquipment_path _ _ _ c hc).symm.trans hm.2.2))]


/-! ### One connection in delta mode -/

theorem tickSession_delta (sess : Session) (s : Store) (o : Oracle)
    (h : sess.connection.intervals = [Timer.delta]) :
    tickSession sess s o =
      (deliver (deltaTick s o).1.toList sess.mirror (deltaTick s o).2.2).map
        (fun r => ({ connection := sess.connection, mirror := r.1 }, (deltaTick s o).2.1, r.2)) := by
  unfold tickSession
  have hstep : step sess.connection s o Event.tick
      = ((deltaTick s o).1.toList, sess.connection, (deltaTick s o).2.1, (deltaTick s o).2.2) := by
    show (let r := fireTimers sess.connection.intervals sess.connection.client s o
          (r.1, { sess.connection with client := r.2.1 }, r.2.2.1, r.2.2.2)) = _
    rw [h]
    simp [fireTimers, runTimer]
  rw [hstep]

theorem child_none_of_not_truthy {m : JVal} (h : m.truthy = false) (k : String) :
    m.child k = none := by
  cases m <;> simp [JVal.truthy] at h <;> rfl

/-- One tick of a delta-mode session whose update, if any, is applied keeps the mirror in
agreement with the store on every heart rate. -/
theorem tickSession_delta_agrees {sess sess2 : Session} {s s2 : Store} {o o2 : Oracle}
    (hmode : sess.connection.intervals = [Timer.delta])
    (hids : ∀ id ∈ s.patients.map Prod.fst, id ≠ "")
    (hagree : agreesOnHeartRate sess.mirror s)
    (htick : tickSession sess s o = .ok (sess2, s2, o2)) :
    agreesOnHeartRate sess2.mirror s2
    ∧ sess2.connection.intervals = [Timer.delta]
    ∧ s2.patients.map Prod.fst = s.patients.map Prod.fst := by
  obtain ⟨m, hm, hreads⟩ := hagree
  obtain ⟨hkeys, hbeside, hhr⟩ := mutationPass_heartRate s o
  rw [tickSession_delta sess s o hmode, deltaTick_eq] at htick
  -- what the store holds after the pass, in terms of what it held before
  have hafter : ∀ id p2, propGet (mutationPass s o).2.1.patients id = some p2 →
      ∃ p, propGet s.patients id = some p
        ∧ JVal.num p2.vitals.heartRate
          = (lastValue "patients" id "vitals.heartRate" (mutationPass s o).1).getD
              (JVal.num p.vitals.heartRate) := by
    intro id p2 hp2
    have hmem : id ∈ s.patients.map Prod.fst := by
      rw [← hkeys]; exact propGet_mem_keys hp2
    cases hp : propGet s.patients id with
    | none => exact absurd hmem (propGet_eq_none.mp hp)
    | some p =>
      obtain ⟨p3, hp3, hval⟩ := hhr id p (hids id hmem) hp
      rw [hp2] at hp3
      simp only [Option.some.injEq] at hp3
      subst hp3
      exact ⟨p, rfl, hval⟩
  split at htick
  · -- an update is sent
    rename_i hlen
    simp only [Option.toList, deliver] at htick
    rw [hm] at htick
    simp only [receive] at htick
    cases ht : m.truthy with
    | false =>
      simp only [ht, Bool.false_eq_true, if_false, Except.bind, Except.map,
        Except.ok.injEq, Prod.mk.injEq] at htick
      obtain ⟨hs, hst, _⟩ := htick
      subst hs hst
      refine ⟨⟨m, rfl, ?_⟩, hmode, hkeys⟩
      intro id p2 hp2
      obtain ⟨p, hp, _⟩ := hafter id p2 hp2
      have := hreads id p hp
      rw [getPath_cons, child_none_of_not_truthy ht] at this
      simp at this
    | true =>
      simp only [ht, if_true] at htick
      cases happly : applyDeltaUpdates m (changesToKeyValue (mutationPass s o).1)
          (mutationPass s o).2.2.nextISO.2.nextISO.1 with
      | error e => simp [happly, Except.map, Except.bind] at htick
      | ok m2 =>
        simp only [happly, Except.map, Except.bind, Except.ok.injEq, Prod.mk.injEq] at htick
        obtain ⟨hs, hst, _⟩ := htick
        subst hs hst
        refine ⟨⟨m2, rfl, ?_⟩, hmode, hkeys⟩
        intro id p2 hp2
        obtain ⟨p, hp, hval⟩ := hafter id p2 hp2
        have hread := @applyDeltaUpdates_read _ _ _ _ "patients" id
          "vitals.heartRate" ["vitals", "heartRate"] _ happly
          (changesToKeyValue_nodupKeys _) (by decide) (by simp) (by decide)
          (by
            intro ents paths he hpth pv hpv
            obtain ⟨c, hc, _, _, hpath, _⟩ := changesToKeyValue_from (mutationPass s o).1
              "patients" ents id paths pv.1 pv.2 (propGet_mem he) (propGet_mem hpth) hpv
            rw [← hpath]
            exact hbeside c hc)
          (hreads id p hp)
        rw [hread, get?_changesToKeyValue, hval]
  · -- nothing is sent
    rename_i hlen
    have hnil : (mutationPass s o).1 = [] := by
      simpa [List.length_eq_zero] using hlen
    simp only [Option.toList, deliver, Except.map, Except.ok.injEq, Prod.mk.injEq] at htick
    obtain ⟨hs, hst, _⟩ := htick
    subst hs hst
    refine ⟨⟨m, hm, ?_⟩, hmode, hkeys⟩
    intro id p2 hp2
    obtain ⟨p, hp, hval⟩ := hafter id p2 hp2
    rw [hnil] at hval
    simp only [lastValue, Option.getD_none] at hval
    rw [hval]
    exact hreads id p hp


theorem tickOf_single (clientId : String) (sess : Session) (s : Store) (o : Oracle) :
    tickOf clientId [(clientId, sess)] s o
      = (tickSession sess s o).map (fun r => ([(clientId, r.1)], r.2.1, r.2.2)) := by
  simp [tickOf, propGet, propSet]

theorem runTicks_single_delta (n : Nat) :
    ∀ (clientId : String) (sess : Session) (s : Store) (o : Oracle)
      (sessions2 : List (String × Session)) (s2 : Store) (o2 : Oracle),
      sess.connection.intervals = [Timer.delta] →
      (∀ id ∈ s.patients.map Prod.fst, id ≠ "") →
      agreesOnHeartRate sess.mirror s →
      runTicks (List.replicate n clientId) [(clientId, sess)] s o = .ok (sessions2, s2, o2) →
      ∃ sess2, sessions2 = [(clientId, sess2)] ∧ agreesOnHeartRate sess2.mirror s2 := by
  induction n with
  | zero =>
    intro clientId sess s o sessions2 s2 o2 _ _ hagree hrun
    simp only [List.replicate, runTicks, Except.ok.injEq, Prod.mk.injEq] at hrun
    obtain ⟨h1, h2, _⟩ := hrun
    subst h1 h2
    exact ⟨sess, rfl, hagree⟩
  | succ n ih =>
    intro clientId sess s o sessions2 s2 o2 hmode hids hagree hrun
    simp only [List.replicate, runTicks] at hrun
    rw [tickOf_single] at hrun
    cases htick : tickSession sess s o with
    | error e => simp [htick, Except.map, Except.bind] at hrun
    | ok r =>
      obtain ⟨sess1, s1, o1⟩ := r
      simp only [htick, Except.map, Except.bind] at hrun
      obtain ⟨hagree1, hmode1, hkeys1⟩ := tickSession_delta_agrees hmode hids hagree htick
      exact ih clientId sess1 s1 o1 sessions2 s2 o2 hmode1
        (by rw [hkeys1]; exact hids) hagree1 hrun

/-- C9, as the code has it.  The tick of a connection in delta or hybrid mode runs a
mutation pass of its own on the shared store, `updateVitals()` then
`updateNonCriticalData()`, and the tick of a connection in full mode runs none.  As a
consequence the heart rates are kept for a connection that is alone in ticking: for one
delta-mode connection whose mirror agrees with the store on every patient's
`vitals.heartRate`, the patient ids being non-empty strings, after any number of its ticks,
each `delta_update` it was sent being applied, the mirror agrees with the store on every
patient's `vitals.heartRate`. -/
theorem C9_each_tick_mutates_and_a_lone_delta_mirror_keeps_heartRate
    (clientId : String) (sess : Session) (s : Store) (o : Oracle) (n : Nat)
    (hmode : sess.connection.intervals = [Timer.delta])
    (hids : ∀ id ∈ s.patients.map Prod.fst, id ≠ "")
    (hagree : agreesOnHeartRate sess.mirror s)
    (sessions2 : List (String × Session)) (s2 : Store) (o2 : Oracle)
    (hrun : runTicks (List.replicate n clientId) [(clientId, sess)] s o
      = .ok (sessions2, s2, o2)) :
    (∀ (client : Client) (s0 : Store) (o0 : Oracle),
        (runTimer Timer.full client s0 o0).2.2.1 = s0
        ∧ (runTimer Timer.delta client s0 o0).2.2.1 = (mutationPass s0 o0).2.1
        ∧ (runTimer Timer.hybrid client s0 o0).2.2.1 = (mutationPass s0 o0).2.1)
    ∧ ∃ sess2, sessions2 = [(clientId, sess2)] ∧ agreesOnHeartRate sess2.mirror s2 := by
  refine ⟨?_, runTicks_single_delta n clientId sess s o sessions2 s2 o2 hmode hids hagree hrun⟩
  intro client s0 o0
  refine ⟨rfl, ?_, ?_⟩
  · show (deltaTick s0 o0).2.1 = _
    rw [deltaTick_eq]
    split <;> rfl
  · show (hybridTick client s0 o0).2.2.1 = _
    rw [hybridTick_eq]
    split <;> rfl

theorem agreesOnHeartRate_sample :
    agreesOnHeartRate deltaSession.mirror sampleStore := by
  refine ⟨_, rfl, ?_⟩
  intro id p hp
  simp only [sampleStore, propGet] at hp
  split at hp
  · rename_i h
    subst h
    simp only [Option.some.injEq] at hp
    subst hp
    decide
  · split at hp
    · rename_i h
      subst h
      simp only [Option.some.injEq] at hp
      subst hp
      decide
    · split at hp
      · rename_i h
        subst h
        simp only [Option.some.injEq] at hp
        subst hp
        decide
      · simp at hp

theorem except_ok_of_isOk {ε α : Type} (r : Except ε α) (h : r.toBool = true) :
    ∃ x, r = .ok x := by
  cases r with
  | error e => simp [Except.toBool] at h
  | ok x => exact ⟨x, rfl⟩

set_option maxRecDepth 100000 in
/-- C9, at two ticks of a lone delta-mode connection on `sampleStore`, the first of which
moves `P001`'s heart rate to 72.5. -/
theorem C9_lone_delta_mirror_witness :
    ∃ sessions2 s2 o2,
      runTicks (List.replicate 2 "A") [("A", deltaSession)] sampleStore passOracle
        = .ok (sessions2, s2, o2)
      ∧ ∃ sess2, sessions2 = [("A", sess2)] ∧ agreesOnHeartRate sess2.mirror s2 :=
  match except_ok_of_isOk
      (runTicks (List.replicate 2 "A") [("A", deltaSession)] sampleStore passOracle)
      (by decide!) with
  | ⟨(sessions2, s2, o2), hrun⟩ =>
    ⟨sessions2, s2, o2, hrun,
      (C9_each_tick_mutates_and_a_lone_delta_mirror_keeps_heartRate "A" deltaSession
        sampleStore passOracle 2 rfl (by decide) agreesOnHeartRate_sample
        sessions2 s2 o2 hrun).2⟩


/-! ### The client service -/

/-- C11 (defensive merge fails on the code).  A number held under an intermediate key is
replaced by an empty container and the path is written, but `null` in the same place is
not replaced, because `typeof null` is `'object'`: the loop steps into `null` and the
write raises a TypeError. -/
theorem C11_null_intermediate_raises :
    setNestedValue (.obj [("vitals", .num 5)]) "vitals.heartRate" (.num 72)
        = .ok (.obj [("vitals", .obj [("heartRate", .num 72)])])
    ∧ setNestedValue (.obj [("vitals", .null)]) "vitals.heartRate" (.num 72)
        = .error .typeError
    ∧ setNestedValue (.obj [("vitals", .null)]) "vitals.bloodPressure.systolic" (.num 120)
        = .error .typeError := by
  decide!

theorem handleMessage_paused (s : WebSocketService) (hp : s.isPaused = true)
    (event : MessageEvent) (t1 t2 : Int) : s.handleMessage event t1 t2 = (s, []) := by
  unfold WebSocketService.handleMessage
  cases event.json with
  | none => rfl
  | some data => simp [hp]

theorem runtime_paused (s : WebSocketService) (hp : s.isPaused = true) (a b : Int) :
    (s.getPerformanceMetrics a b).runtime = s.performanceMetrics.totalRuntime := by
  unfold WebSocketService.getPerformanceMetrics
  cases s.performanceMetrics.runtimeStart with
  | none => rfl
  | some r => simp [hp]

/-- C12 (pause exclusion).  A paused client is left exactly as it is by an inbound frame,
whatever the frame's text and whether or not it parses, and the frame emits nothing; so
is it by any number of frames.  The runtime reported for a paused client is its
`totalRuntime`, whatever the clock reads. -/
theorem C12_pause_exclusion (s : WebSocketService) (hp : s.isPaused = true) :
    (∀ (event : MessageEvent) (t1 t2 : Int), s.handleMessage event t1 t2 = (s, []))
    ∧ (∀ frames : List (MessageEvent × Int × Int),
        s.runEvents (frames.map (fun f => ServiceEvent.onmessage f.1 f.2.1 f.2.2)) = (s, []))
    ∧ (∀ a b c d : Int,
        (s.getPerformanceMetrics a b).runtime = (s.getPerformanceMetrics c d).runtime) := by
  refine ⟨handleMessage_paused s hp, ?_, ?_⟩
  · intro frames
    induction frames with
    | nil => rfl
    | cons f rest ih =>
      simp only [List.map_cons, WebSocketService.runEvents, WebSocketService.step,
        handleMessage_paused s hp, ih, List.append_nil]
  · intro a b c d
    rw [runtime_paused s hp, runtime_paused s hp]

set_option maxRecDepth 100000 in
/-- C12 at a client whose socket has just opened, for a data frame, a meta frame and a
frame that is not JSON. -/
theorem C12_pause_exclusion_witness :
    openedService.isPaused = true
    ∧ openedService.handleMessage deltaFrame 2000 2001 = (openedService, [])
    ∧ openedService.handleMessage metaFrame 2000 2001 = (openedService, [])
    ∧ openedService.handleMessage malformedFrame 2000 2001 = (openedService, [])
    ∧ (openedService.getPerformanceMetrics 2000 2000).runtime
        = (openedService.getPerformanceMetrics 9000 9000).runtime :=
  ⟨by decide!,
   (C12_pause_exclusion openedService (by decide!)).1 deltaFrame 2000 2001,
   (C12_pause_exclusion openedService (by decide!)).1 metaFrame 2000 2001,
   (C12_pause_exclusion openedService (by decide!)).1 malformedFrame 2000 2001,
   (C12_pause_exclusion openedService (by decide!)).2.2 2000 2000 9000 9000⟩

theorem pauseConnection_paused (s : WebSocketService) (hp : s.isPaused = true)
    (t1 t2 : Int) : s.pauseConnection t1 t2 = (s, []) := by
  simp [WebSocketService.pauseConnection, hp]

theorem resumeConnection_active (s : WebSocketService) (ha : s.isPaused = false)
    (now : Int) : s.resumeConnection now = (s, []) := by
  simp [WebSocketService.resumeConnection, ha]

theorem isPaused_pauseConnection (s : WebSocketService) (t1 t2 : Int) :
    (s.pauseConnection t1 t2).1.isPaused = true := by
  unfold WebSocketService.pauseConnection
  cases h : s.isPaused with
  | true => simp [h]
  | false => simp

theorem isPaused_resumeConnection (s : WebSocketService) (now : Int) :
    (s.resumeConnection now).1.isPaused = false := by
  unfold WebSocketService.resumeConnection
  cases h : s.isPaused with
  | true => simp
  | false => simp [h]

/-- C16 (pause and resume are idempotent).  `pauseConnection` on a paused client and
`resumeConnection` on an active client return the client as it is and emit nothing.
Hence, from any client, a second pause right after a pause, and a second resume right
after a resume, change nothing and emit nothing, whatever the clock reads. -/
theorem C16_pause_resume_idempotent (p : WebSocketService) (hp : p.isPaused = true)
    (q : WebSocketService) (hq : q.isPaused = false) :
    (∀ t1 t2 : Int, p.pauseConnection t1 t2 = (p, []))
    ∧ (∀ now : Int, q.resumeConnection now = (q, []))
    ∧ (∀ (s : WebSocketService) (a b c d : Int),
        (s.pauseConnection a b).1.pauseConnection c d = ((s.pauseConnection a b).1, []))
    ∧ (∀ (s : WebSocketService) (a c : Int),
        (s.resumeConnection a).1.resumeConnection c = ((s.resumeConnection a).1, [])) :=
  ⟨pauseConnection_paused p hp, resumeConnection_active q hq,
   fun s a b c d => pauseConnection_paused _ (isPaused_pauseConnection s a b) c d,
   fun s a c => resumeConnection_active _ (isPaused_resumeConnection s a) c⟩

set_option maxRecDepth 100000 in
/-- C16 at a client whose socket has just opened (paused) and at the same client once
resumed (active). -/
theorem C16_pause_resume_idempotent_witness :
    openedService.isPaused = true ∧ activeService.isPaused = false
    ∧ openedService.pauseConnection 3000 3001 = (openedService, [])
    ∧ activeService.resumeConnection 3000 = (activeService, [])
    ∧ (activeService.pauseConnection 3000 3000).1.pauseConnection 4000 4000
        = ((activeService.pauseConnection 3000 3000).1, []) :=
  ⟨by decide!, by decide!,
   (C16_pause_resume_idempotent openedService (by decide!) activeService (by decide!)).1
     3000 3001,
   (C16_pause_resume_idempotent openedService (by decide!) activeService (by decide!)).2.1
     3000,
   (C16_pause_resume_idempotent openedService (by decide!) activeService (by decide!)).2.2.1
     activeService 3000 3000 4000 4000⟩

/-- C20 (reset clears metrics and history).  After the service's `resetAllData`, from any
state and at any clock reading, the byte and message counters, the average size, the
update frequency and `totalRuntime` are 0, `lastUpdateTime` is `null` and the history
is empty, while `connectionTime`, `isPaused`, `isConnected`, `currentMode` and
`reconnectAttempts` are what they were. -/
theorem C20_reset_clears_metrics_and_history (s : WebSocketService) (now : Int) :
    (s.resetAllData now).1.performanceMetrics.dataReceived = 0
    ∧ (s.resetAllData now).1.performanceMetrics.messagesReceived = 0
    ∧ (s.resetAllData now).1.performanceMetrics.averageMessageSize = 0
    ∧ (s.resetAllData now).1.performanceMetrics.updateFrequency = .finite 0
    ∧ (s.resetAllData now).1.performanceMetrics.totalRuntime = 0
    ∧ (s.resetAllData now).1.performanceMetrics.lastUpdateTime = none
    ∧ (s.resetAllData now).1.messageHistory = []
    ∧ (s.resetAllData now).1.performanceMetrics.connectionTime
        = s.performanceMetrics.connectionTime
    ∧ (s.resetAllData now).1.isPaused = s.isPaused
    ∧ (s.resetAllData now).1.isConnected = s.isConnected
    ∧ (s.resetAllData now).1.currentMode = s.currentMode
    ∧ (s.resetAllData now).1.reconnectAttempts = s.reconnectAttempts :=
  ⟨rfl, rfl, rfl, rfl, rfl, rfl, rfl, rfl, rfl, rfl, rfl, rfl⟩

theorem idle_step (s : WebSocketService)
    (h : s.isPaused = true ∧ s.performanceMetrics.messagesReceived = 0
      ∧ s.performanceMetrics.totalRuntime = 0)
    (e : ServiceEvent) (he : e.isResume = false) :
    (s.step e).1.isPaused = true ∧ (s.step e).1.performanceMetrics.messagesReceived = 0
      ∧ (s.step e).1.performanceMetrics.totalRuntime = 0 := by
  obtain ⟨hp, hm, ht⟩ := h
  cases e with
  | connect url now => exact ⟨hp, hm, ht⟩
  | onopen => exact ⟨rfl, hm, ht⟩
  | onclose url event =>
    simp only [WebSocketService.step, WebSocketService.onclose,
      WebSocketService.attemptReconnect]
    split
    · exact ⟨hp, hm, ht⟩
    · exact ⟨hp, hm, ht⟩
  | onerror error => exact ⟨hp, hm, ht⟩
  | onmessage event t1 t2 =>
    simp only [WebSocketService.step, handleMessage_paused s hp]
    exact ⟨hp, hm, ht⟩
  | pauseConnection t1 t2 =>
    simp only [WebSocketService.step, pauseConnection_paused s hp]
    exact ⟨hp, hm, ht⟩
  | resumeConnection now => simp [ServiceEvent.isResume] at he
  | resetAllData now => exact ⟨hp, rfl, rfl⟩
  | setUpdateMode mode =>
    simp only [WebSocketService.step, WebSocketService.setUpdateMode]
    split
    · exact ⟨hp, hm, ht⟩
    · exact ⟨hp, hm, ht⟩
  | disconnect =>
    simp only [WebSocketService.step, WebSocketService.disconnect]
    split
    · exact ⟨hp, hm, ht⟩
    · exact ⟨hp, hm, ht⟩

theorem idle_runEvents (events : List ServiceEvent) :
    ∀ s : WebSocketService,
      (s.isPaused = true ∧ s.performanceMetrics.messagesReceived = 0
        ∧ s.performanceMetrics.totalRuntime = 0) →
      (∀ e ∈ events, e.isResume = false) →
      (s.runEvents events).1.isPaused = true
        ∧ (s.runEvents events).1.performanceMetrics.messagesReceived = 0
        ∧ (s.runEvents events).1.performanceMetrics.totalRuntime = 0 := by
  induction events with
  | nil => intro s h _; exact h
  | cons e rest ih =>
    intro s h he
    exact ih _ (idle_step s h e (he e (List.mem_cons_self _ _)))
      (fun x hx => he x (List.mem_cons_of_mem _ hx))

/-- C13 (the client starts paused).  When the socket of a freshly constructed service
opens, `isConnected` is true, `reconnectAttempts` is 0, `isPaused` is true, and the
events emitted are `connected` then `paused`.  After any events that follow, frames and
`pauseConnection` calls among them, none of which is a `resumeConnection`, the client
has counted no message and reports a runtime of 0 whatever the clock reads. -/
theorem C13_client_starts_paused (url : String) (t0 : Int) (events : List ServiceEvent)
    (h : ∀ e ∈ events, e.isResume = false) :
    ((WebSocketService.constructor.connect url t0).onopen).1.isConnected = true
    ∧ ((WebSocketService.constructor.connect url t0).onopen).1.reconnectAttempts = 0
    ∧ ((WebSocketService.constructor.connect url t0).onopen).1.isPaused = true
    ∧ ((WebSocketService.constructor.connect url t0).onopen).2
        = [.emit "connected" none, .emit "paused" none]
    ∧ ((((WebSocketService.constructor.connect url t0).onopen).1.runEvents events).1
        ).performanceMetrics.messagesReceived = 0
    ∧ ∀ a b : Int,
        (((((WebSocketService.constructor.connect url t0).onopen).1.runEvents events).1
          ).getPerformanceMetrics a b).runtime = 0 := by
  have hi := idle_runEvents events ((WebSocketService.constructor.connect url t0).onopen).1
    ⟨rfl, rfl, rfl⟩ h
  refine ⟨rfl, rfl, rfl, rfl, hi.2.1, ?_⟩
  intro a b
  rw [runtime_paused _ hi.1, hi.2.2]

set_option maxRecDepth 100000 in
/-- C13 for the frames and `pauseConnection` calls of `quietEvents` after the socket has
opened. -/
theorem C13_client_starts_paused_witness :
    (∀ e ∈ quietEvents, e.isResume = false)
    ∧ (openedService.runEvents quietEvents).1.performanceMetrics.messagesReceived = 0
    ∧ ((openedService.runEvents quietEvents).1.getPerformanceMetrics 7000 7000).runtime = 0 :=
  ⟨by decide,
   (C13_client_starts_paused localUrl 1000 quietEvents (by decide)).2.2.2.2.1,
   (C13_client_starts_paused localUrl 1000 quietEvents (by decide)).2.2.2.2.2 7000 7000⟩

theorem resume_then_pause (s : WebSocketService) (hp : s.isPaused = true) (r p q : Int)
    (hr : r ≠ 0) :
    ((s.resumeConnection r).1.pauseConnection p q).1.isPaused = true
    ∧ ((s.resumeConnection r).1.pauseConnection p q).1.performanceMetrics.totalRuntime
        = s.performanceMetrics.totalRuntime + (p - r) := by
  simp [WebSocketService.resumeConnection, WebSocketService.pauseConnection, hp, timeTruthy,
    hr]

theorem activePeriods_spec (periods : List (Int × Int)) :
    ∀ s : WebSocketService, s.isPaused = true → (∀ x ∈ periods, x.1 ≠ 0) →
      (s.activePeriods periods).isPaused = true
      ∧ (s.activePeriods periods).performanceMetrics.totalRuntime
          = s.performanceMetrics.totalRuntime + activeTime periods := by
  induction periods with
  | nil => intro s hp _; simp [WebSocketService.activePeriods, activeTime, hp]
  | cons x rest ih =>
    intro s hp h
    obtain ⟨r, p⟩ := x
    have h1 := resume_then_pause s hp r p p (h (r, p) (List.mem_cons_self _ _))
    have h2 := ih _ h1.1 (fun y hy => h y (List.mem_cons_of_mem _ hy))
    refine ⟨h2.1, ?_⟩
    show (((s.resumeConnection r).1.pauseConnection p p).1.activePeriods
      rest).performanceMetrics.totalRuntime = _
    rw [h2.2, h1.2]
    simp only [activeTime, List.map_cons, List.sum_cons]
    ring

theorem runtime_resumed (s : WebSocketService) (hp : s.isPaused = true) (r : Int)
    (hr : r ≠ 0) (a t : Int) :
    ((s.resumeConnection r).1.getPerformanceMetrics a t).runtime
      = s.performanceMetrics.totalRuntime + (t - r) := by
  simp [WebSocketService.resumeConnection, WebSocketService.getPerformanceMetrics, hp,
    timeTruthy, hr]

/-- C15 (runtime is cumulative active time).  A client connected once goes through the
periods of activity `(r_1, p_1), ..., (r_k, p_k)`: resumed at `r_i`, paused at `p_i`, the
clock never reading 0 at a resume.  Then `totalRuntime` is the sum of the `p_i - r_i`,
which is also the runtime reported at any clock reading while the client stays paused;
and once it is resumed again at `r`, the runtime reported at clock reading `t` is that
sum plus `t - r`. -/
theorem C15_runtime_is_cumulative_active_time (url : String) (t0 : Int)
    (periods : List (Int × Int)) (h : ∀ x ∈ periods, x.1 ≠ 0) (r : Int) (hr : r ≠ 0) :
    ((connectedOnce url t0).activePeriods periods).performanceMetrics.totalRuntime
        = activeTime periods
    ∧ (∀ a t : Int,
        (((connectedOnce url t0).activePeriods periods).getPerformanceMetrics a t).runtime
          = activeTime periods)
    ∧ (∀ a t : Int,
        ((((connectedOnce url t0).activePeriods periods).resumeConnection r).1.getPerformanceMetrics
          a t).runtime = activeTime periods + (t - r)) := by
  have hs := activePeriods_spec periods (connectedOnce url t0) rfl h
  have h0 : (connectedOnce url t0).performanceMetrics.totalRuntime = 0 := rfl
  rw [h0, zero_add] at hs
  refine ⟨hs.2, ?_, ?_⟩
  · intro a t
    rw [runtime_paused _ hs.1, hs.2]
  · intro a t
    rw [runtime_resumed _ hs.1 r hr, hs.2]

set_option maxRecDepth 100000 in
/-- C15 for a client active from 1200 to 5200 and from 6000 to 6500, then resumed at
8000 and read at 8300: 4000 + 500 + 300. -/
theorem C15_runtime_is_cumulative_active_time_witness :
    (∀ x ∈ [((1200 : Int), (5200 : Int)), (6000, 6500)], x.1 ≠ 0) ∧ (8000 : Int) ≠ 0
    ∧ ((connectedOnce localUrl 1000).activePeriods
        [(1200, 5200), (6000, 6500)]).performanceMetrics.totalRuntime = 4500
    ∧ ((((connectedOnce localUrl 1000).activePeriods
        [(1200, 5200), (6000, 6500)]).resumeConnection 8000).1.getPerformanceMetrics
          8300 8300).runtime = 4800 :=
  ⟨by decide, by decide,
   (C15_runtime_is_cumulative_active_time localUrl 1000 [(1200, 5200), (6000, 6500)]
     (by decide) 8000 (by decide)).1,
   (C15_runtime_is_cumulative_active_time localUrl 1000 [(1200, 5200), (6000, 6500)]
     (by decide) 8000 (by decide)).2.2 8300 8300⟩

set_option maxRecDepth 100000 in
/-- C14 (runtime never exceeds uptime, which fails on the code).  After `reconnectTrace`
the clock readings never decrease, yet at 7500 the client reports a runtime of 4000 and
an uptime of 500: the reconnection has set `connectionTime` to 7000 and has kept the
`totalRuntime` of 4000 accumulated on the first connection. -/
theorem C14_runtime_exceeds_uptime_after_reconnect :
    (((WebSocketService.constructor.runEvents reconnectTrace).1).getPerformanceMetrics
        7500 7500).runtime = 4000
    ∧ (((WebSocketService.constructor.runEvents reconnectTrace).1).getPerformanceMetrics
        7500 7500).uptime = 500
    ∧ ¬ ((((WebSocketService.constructor.runEvents reconnectTrace).1).getPerformanceMetrics
          7500 7500).runtime
        ≤ (((WebSocketService.constructor.runEvents reconnectTrace).1).getPerformanceMetrics
          7500 7500).uptime) := by
  decide!

theorem resetAllData_connected_active (s : WebSocketService) (socketUrl : String)
    (hw : s.ws = some { url := socketUrl, readyState := .OPEN })
    (hc : s.isConnected = true) (ha : s.isPaused = false) (url : String) (t1 t2 : Int) :
    resetAllData s url t1 t2
      = ((s.resetAllData t1).1,
         [.emit "data_reset" none, .send (.obj [("type", .str "request_initial_data")]),
          .setTimeout .requestInitialData 100]) := by
  simp [resetAllData, WebSocketService.resetAllData, WebSocketService.isWebSocketConnected,
    WebSocketService.isPausedConnection, WebSocketService.requestInitialData,
    WebSocketService.send, hw, hc, ha]

theorem requestInitialData_connected (s : WebSocketService) (socketUrl : String)
    (hw : s.ws = some { url := socketUrl, readyState := .OPEN })
    (hc : s.isConnected = true) :
    s.requestInitialData = [.send (.obj [("type", .str "request_initial_data")])] := by
  simp [WebSocketService.requestInitialData, WebSocketService.send, hw, hc]

/-- C19 (one request per reset, which fails on the code).  For a connected, active client
whose socket is open, one call of the hook's `resetAllData` sends `request_initial_data`
at once, from the service's own `resetAllData`, and schedules a callback 100 ms later
that sends it again: two requests for one reset.  Two resets in a row send four. -/
theorem C19_reset_requests_initial_data_twice (s : WebSocketService) (socketUrl : String)
    (hw : s.ws = some { url := socketUrl, readyState := .OPEN })
    (hc : s.isConnected = true) (ha : s.isPaused = false) (url : String)
    (t1 t2 t3 t4 t5 t6 : Int) :
    sent (resetAllData s url t1 t2).2 = [.obj [("type", .str "request_initial_data")]]
    ∧ scheduled (resetAllData s url t1 t2).2 = [(.requestInitialData, 100)]
    ∧ sent (((Page.load s).after (resetAllData s url t1 t2)).fire t3).log
        = [.obj [("type", .str "request_initial_data")],
           .obj [("type", .str "request_initial_data")]]
    ∧ sent (((((Page.load s).after (resetAllData s url t1 t2)).after
          (resetAllData ((Page.load s).after (resetAllData s url t1 t2)).service url t3 t4)).fire
            t5).fire t6).log
        = [.obj [("type", .str "request_initial_data")],
           .obj [("type", .str "request_initial_data")],
           .obj [("type", .str "request_initial_data")],
           .obj [("type", .str "request_initial_data")]] := by
  have hw1 : (s.resetAllData t1).1.ws = some { url := socketUrl, readyState := .OPEN } := hw
  have hc1 : (s.resetAllData t1).1.isConnected = true := hc
  have ha1 : (s.resetAllData t1).1.isPaused = false := ha
  have hw2 : ((s.resetAllData t1).1.resetAllData t3).1.ws
      = some { url := socketUrl, readyState := .OPEN } := hw
  have hc2 : ((s.resetAllData t1).1.resetAllData t3).1.isConnected = true := hc
  have r1 := resetAllData_connected_active s socketUrl hw hc ha url t1 t2
  have r2 := resetAllData_connected_active _ socketUrl hw1 hc1 ha1 url t3 t4
  have q1 := requestInitialData_connected _ socketUrl hw1 hc1
  have q2 := requestInitialData_connected _ socketUrl hw2 hc2
  refine ⟨?_, ?_, ?_, ?_⟩
  · rw [r1]; rfl
  · rw [r1]; rfl
  · rw [r1]
    simp [Page.load, Page.after, Page.fire, scheduled, Callback.run, q1, sent,
      fulfilmentReactions, rejectionReactions]
  · rw [r1]
    simp only [Page.load, Page.after]
    rw [r2]
    simp [Page.fire, Page.after, scheduled, Callback.run, q2, sent,
      fulfilmentReactions, rejectionReactions]

set_option maxRecDepth 100000 in
/-- C19 at a client resumed at 1200 and reset at 2000: two requests have been sent once
the callback has run at 2100. -/
theorem C19_reset_requests_initial_data_twice_witness :
    activeService.ws = some { url := localUrl, readyState := .OPEN }
    ∧ activeService.isConnected = true ∧ activeService.isPaused = false
    ∧ sent (((Page.load activeService).after
        (resetAllData activeService localUrl 2000 2000)).fire 2100).log
        = [.obj [("type", .str "request_initial_data")],
           .obj [("type", .str "request_initial_data")]] :=
  ⟨by decide!, by decide!, by decide!,
   (C19_reset_requests_initial_data_twice activeService localUrl (by decide!) (by decide!)
     (by decide!) localUrl 2000 2000 2100 2100 2100 2100).2.2.1⟩

theorem emitted_append (a b : List Effect) : emitted (a ++ b) = emitted a ++ emitted b := by
  induction a with
  | nil => rfl
  | cons e rest ih =>
    cases e with
    | emit event data => simp [emitted, ih]
    | send message => simpa [emitted] using ih
    | setTimeout callback delay => simpa [emitted] using ih
    | onFulfilled callback => simpa [emitted] using ih
    | onRejected callback => simpa [emitted] using ih

theorem scheduled_append (a b : List Effect) :
    scheduled (a ++ b) = scheduled a ++ scheduled b := by
  induction a with
  | nil => rfl
  | cons e rest ih =>
    cases e with
    | emit event data => simpa [scheduled] using ih
    | send message => simpa [scheduled] using ih
    | setTimeout callback delay => simp [scheduled, ih]
    | onFulfilled callback => simpa [scheduled] using ih
    | onRejected callback => simpa [scheduled] using ih

theorem rejectionReactions_append (a b : List Effect) :
    rejectionReactions (a ++ b) = rejectionReactions a ++ rejectionReactions b := by
  induction a with
  | nil => rfl
  | cons e rest ih =>
    cases e with
    | emit event data => simpa [rejectionReactions] using ih
    | send message => simpa [rejectionReactions] using ih
    | setTimeout callback delay => simpa [rejectionReactions] using ih
    | onFulfilled callback => simpa [rejectionReactions] using ih
    | onRejected callback => simp [rejectionReactions, ih]

/-- One failed attempt below the ceiling: the rejection handler emits nothing and the
close schedules the next attempt, with twice the delay. -/
theorem failedAttempt_below (p : Page) (u : String) (delay : Nat)
    (hT : p.timers = [(.reconnect u, delay)])
    (hlt : p.service.reconnectAttempts < p.service.maxReconnectAttempts)
    (url : String) (error : JVal) (code : Nat) (reason : String) (now : Int) :
    (p.failedAttempt url error code reason now).timers
        = [(.reconnect url,
            p.service.reconnectDelay * 2 ^ p.service.reconnectAttempts)]
    ∧ (p.failedAttempt url error code reason now).service.reconnectAttempts
        = p.service.reconnectAttempts + 1
    ∧ (p.failedAttempt url error code reason now).service.maxReconnectAttempts
        = p.service.maxReconnectAttempts
    ∧ (p.failedAttempt url error code reason now).service.reconnectDelay
        = p.service.reconnectDelay
    ∧ emitted (p.failedAttempt url error code reason now).log
        = emitted p.log ++ ["error", "disconnected"]
    ∧ scheduled (p.failedAttempt url error code reason now).log
        = scheduled p.log
          ++ [(.reconnect url, p.service.reconnectDelay * 2 ^ p.service.reconnectAttempts)]
    ∧ rejectionReactions (p.failedAttempt url error code reason now).log
        = rejectionReactions p.log ++ [.reconnectFailed] := by
  have hn : ¬ (p.service.maxReconnectAttempts ≤ p.service.reconnectAttempts) :=
    Nat.not_le.mpr hlt
  simp [Page.failedAttempt, Page.fire, hT, Page.after, Callback.run, Page.socketError,
    Page.socketClose, Page.runAll, WebSocketService.connect, WebSocketService.onerror,
    WebSocketService.reconnectFailed, WebSocketService.onclose,
    WebSocketService.attemptReconnect, scheduled, fulfilmentReactions, rejectionReactions,
    emitted, emitted_append, scheduled_append, rejectionReactions_append, hlt, hn]

/-- One failed attempt at the ceiling: the rejection handler emits
`max_reconnect_reached` and the close schedules nothing. -/
theorem failedAttempt_at_ceiling (p : Page) (u : String) (delay : Nat)
    (hT : p.timers = [(.reconnect u, delay)])
    (hge : p.service.maxReconnectAttempts ≤ p.service.reconnectAttempts)
    (url : String) (error : JVal) (code : Nat) (reason : String) (now : Int) :
    (p.failedAttempt url error code reason now).timers = []
    ∧ (p.failedAttempt url error code reason now).service.reconnectAttempts
        = p.service.reconnectAttempts
    ∧ (p.failedAttempt url error code reason now).service.maxReconnectAttempts
        = p.service.maxReconnectAttempts
    ∧ (p.failedAttempt url error code reason now).service.reconnectDelay
        = p.service.reconnectDelay
    ∧ emitted (p.failedAttempt url error code reason now).log
        = emitted p.log ++ ["error", "max_reconnect_reached", "disconnected"]
    ∧ scheduled (p.failedAttempt url error code reason now).log = scheduled p.log
    ∧ rejectionReactions (p.failedAttempt url error code reason now).log
        = rejectionReactions p.log ++ [.reconnectFailed] := by
  have hn : ¬ (p.service.reconnectAttempts < p.service.maxReconnectAttempts) :=
    Nat.not_lt.mpr hge
  simp [Page.failedAttempt, Page.fire, hT, Page.after, Callback.run, Page.socketError,
    Page.socketClose, Page.runAll, WebSocketService.connect, WebSocketService.onerror,
    WebSocketService.reconnectFailed, WebSocketService.onclose,
    WebSocketService.attemptReconnect, scheduled, fulfilmentReactions, rejectionReactions,
    emitted, emitted_append, scheduled_append, rejectionReactions_append, hge, hn]

theorem failedAttempts_of_no_timer (url : String) (error : JVal) (code : Nat)
    (reason : String) (clock : Nat → Int) (fuel : Nat) (p : Page) (hT : p.timers = []) :
    Page.failedAttempts url error code reason clock fuel p = p := by
  cases fuel with
  | zero => rfl
  | succ n => simp [Page.failedAttempts, hT]

/-- The run of failing attempts from a page with one reconnection pending, `n` attempts
below the ceiling: it stops by itself after `n + 1` attempts. -/
theorem failedAttempts_run (url : String) (error : JVal) (code : Nat) (reason : String)
    (clock : Nat → Int) (n : Nat) :
    ∀ (p : Page) (u : String) (delay : Nat) (fuel : Nat),
      p.timers = [(.reconnect u, delay)] →
      p.service.reconnectAttempts + n = p.service.maxReconnectAttempts →
      n + 1 ≤ fuel →
      (Page.failedAttempts url error code reason clock fuel p).timers = []
      ∧ (Page.failedAttempts url error code reason clock fuel p).service.reconnectAttempts
          = p.service.maxReconnectAttempts
      ∧ (Page.failedAttempts url error code reason clock fuel p).service.maxReconnectAttempts
          = p.service.maxReconnectAttempts
      ∧ (emitted (Page.failedAttempts url error code reason clock fuel p).log).count
            "max_reconnect_reached"
          = (emitted p.log).count "max_reconnect_reached" + 1
      ∧ (emitted (Page.failedAttempts url error code reason clock fuel p).log).count "error"
          = (emitted p.log).count "error" + (n + 1)
      ∧ scheduled (Page.failedAttempts url error code reason clock fuel p).log
          = scheduled p.log
            ++ (List.range' p.service.reconnectAttempts n).map
                (fun i => (Callback.reconnect url, p.service.reconnectDelay * 2 ^ i))
      ∧ (rejectionReactions (Page.failedAttempts url error code reason clock fuel p).log).length
          = (rejectionReactions p.log).length + (n + 1) := by
  induction n with
  | zero =>
    intro p u delay fuel hT ha hf
    obtain ⟨f, rfl⟩ : ∃ f, fuel = f + 1 := ⟨fuel - 1, by omega⟩
    have hge : p.service.maxReconnectAttempts ≤ p.service.reconnectAttempts := by omega
    obtain ⟨h1, h2, h3, _, h5, h6, h7⟩ :=
      failedAttempt_at_ceiling p u delay hT hge url error code reason (clock f)
    have hrun : Page.failedAttempts url error code reason clock (f + 1) p
        = p.failedAttempt url error code reason (clock f) := by
      simp only [Page.failedAttempts, hT]
      exact failedAttempts_of_no_timer url error code reason clock f _ h1
    rw [hrun]
    refine ⟨h1, by omega, h3, ?_, ?_, ?_, ?_⟩
    · rw [h5, List.count_append]; simp
    · rw [h5, List.count_append]; simp
    · rw [h6]; simp
    · rw [h7]; simp
  | succ n ih =>
    intro p u delay fuel hT ha hf
    obtain ⟨f, rfl⟩ : ∃ f, fuel = f + 1 := ⟨fuel - 1, by omega⟩
    have hlt : p.service.reconnectAttempts < p.service.maxReconnectAttempts := by omega
    obtain ⟨h1, h2, h3, h4, h5, h6, h7⟩ :=
      failedAttempt_below p u delay hT hlt url error code reason (clock f)
    have hrun : Page.failedAttempts url error code reason clock (f + 1) p
        = Page.failedAttempts url error code reason clock f
            (p.failedAttempt url error code reason (clock f)) := by
      simp only [Page.failedAttempts, hT]
    obtain ⟨k1, k2, k3, k4, k5, k6, k7⟩ :=
      ih (p.failedAttempt url error code reason (clock f)) url _ f h1
        (by rw [h2, h3]; omega) (by omega)
    rw [hrun]
    refine ⟨k1, by rw [k2, h3], by rw [k3, h3], ?_, ?_, ?_, ?_⟩
    · rw [k4, h5, List.count_append]; simp
    · rw [k5, h5, List.count_append]; simp; omega
    · rw [k6, h6, h2, h4, List.append_assoc]
      rfl
    · rw [k7, h7]; simp; omega

theorem handleMessage_reconnect (s : WebSocketService) (event : MessageEvent) (t1 t2 : Int) :
    (s.handleMessage event t1 t2).1.reconnectAttempts = s.reconnectAttempts
    ∧ (s.handleMessage event t1 t2).1.maxReconnectAttempts = s.maxReconnectAttempts := by
  unfold WebSocketService.handleMessage
  cases event.json with
  | none => exact ⟨rfl, rfl⟩
  | some data =>
    simp only
    cases s.isPaused with
    | true => exact ⟨rfl, rfl⟩
    | false =>
      simp only [Bool.false_eq_true, if_false]
      cases data.readProp "type" with
      | error e => exact ⟨rfl, rfl⟩
      | ok type =>
        simp only
        cases isMetaType type with
        | true => exact ⟨rfl, rfl⟩
        | false => exact ⟨rfl, rfl⟩

/-- No event takes `reconnectAttempts` above `maxReconnectAttempts`, and none changes
`maxReconnectAttempts`. -/
theorem reconnectAttempts_le_step (s : WebSocketService) (e : ServiceEvent)
    (h : s.reconnectAttempts ≤ s.maxReconnectAttempts) :
    (s.step e).1.reconnectAttempts ≤ (s.step e).1.maxReconnectAttempts
    ∧ (s.step e).1.maxReconnectAttempts = s.maxReconnectAttempts := by
  cases e with
  | connect url now => exact ⟨h, rfl⟩
  | onopen => exact ⟨Nat.zero_le _, rfl⟩
  | onclose url event =>
    simp only [WebSocketService.step, WebSocketService.onclose,
      WebSocketService.attemptReconnect]
    split
    · rename_i hc
      simp only [Bool.and_eq_true, decide_eq_true_eq] at hc
      exact ⟨hc.2, rfl⟩
    · exact ⟨h, rfl⟩
  | onerror error => exact ⟨h, rfl⟩
  | onmessage event t1 t2 =>
    simp only [WebSocketService.step]
    rw [(handleMessage_reconnect s event t1 t2).1, (handleMessage_reconnect s event t1 t2).2]
    exact ⟨h, rfl⟩
  | pauseConnection t1 t2 =>
    simp only [WebSocketService.step, WebSocketService.pauseConnection]
    split
    · exact ⟨h, rfl⟩
    · exact ⟨h, rfl⟩
  | resumeConnection now =>
    simp only [WebSocketService.step, WebSocketService.resumeConnection]
    split
    · exact ⟨h, rfl⟩
    · exact ⟨h, rfl⟩
  | resetAllData now => exact ⟨h, rfl⟩
  | setUpdateMode mode =>
    simp only [WebSocketService.step, WebSocketService.setUpdateMode]
    split
    · exact ⟨h, rfl⟩
    · exact ⟨h, rfl⟩
  | disconnect =>
    simp only [WebSocketService.step, WebSocketService.disconnect]
    split
    · exact ⟨h, rfl⟩
    · exact ⟨h, rfl⟩

theorem reconnectAttempts_le_runEvents (events : List ServiceEvent) :
    ∀ s : WebSocketService, s.reconnectAttempts ≤ s.maxReconnectAttempts →
      (s.runEvents events).1.reconnectAttempts ≤ (s.runEvents events).1.maxReconnectAttempts
      ∧ (s.runEvents events).1.maxReconnectAttempts = s.maxReconnectAttempts := by
  induction events with
  | nil => intro s h; exact ⟨h, rfl⟩
  | cons e rest ih =>
    intro s h
    have h1 := reconnectAttempts_le_step s e h
    have h2 := ih _ h1.1
    exact ⟨h2.1, by rw [← h1.2]; exact h2.2⟩

/-- Along a run of failing attempts, after any number of them, `reconnectAttempts` is at
most `maxReconnectAttempts`. -/
theorem failedAttempts_le (url : String) (error : JVal) (code : Nat) (reason : String)
    (clock : Nat → Int) (fuel : Nat) :
    ∀ p : Page, (p.timers = [] ∨ ∃ u delay, p.timers = [(Callback.reconnect u, delay)]) →
      p.service.reconnectAttempts ≤ p.service.maxReconnectAttempts →
      (Page.failedAttempts url error code reason clock fuel p).service.reconnectAttempts
        ≤ p.service.maxReconnectAttempts := by
  induction fuel with
  | zero => intro p _ h; exact h
  | succ f ih =>
    intro p hT h
    rcases hT with hT | ⟨u, delay, hT⟩
    · rw [failedAttempts_of_no_timer url error code reason clock (f + 1) p hT]
      exact h
    · have hrun : Page.failedAttempts url error code reason clock (f + 1) p
          = Page.failedAttempts url error code reason clock f
              (p.failedAttempt url error code reason (clock f)) := by
        simp only [Page.failedAttempts, hT]
      rw [hrun]
      by_cases hlt : p.service.reconnectAttempts < p.service.maxReconnectAttempts
      · obtain ⟨h1, h2, h3, _⟩ :=
          failedAttempt_below p u delay hT hlt url error code reason (clock f)
        have := ih (p.failedAttempt url error code reason (clock f))
          (Or.inr ⟨url, _, h1⟩) (by rw [h2, h3]; omega)
        rw [h3] at this
        exact this
      · obtain ⟨h1, h2, h3, _⟩ :=
          failedAttempt_at_ceiling p u delay hT (Nat.not_lt.mp hlt) url error code reason
            (clock f)
        have := ih (p.failedAttempt url error code reason (clock f))
          (Or.inl h1) (by rw [h2, h3]; exact h)
        rw [h3] at this
        exact this

/-- The page after a service has lost its connection: an unclean close with no attempt
counted so far schedules the first reconnection. -/
theorem socketClose_unclean (s : WebSocketService) (h0 : s.reconnectAttempts = 0)
    (hmax : 0 < s.maxReconnectAttempts) (url : String) (code : Nat) (reason : String) :
    ((Page.load s).socketClose url { wasClean := false, code := code, reason := reason }).timers
        = [(.reconnect url, s.reconnectDelay)]
    ∧ ((Page.load s).socketClose url
        { wasClean := false, code := code, reason := reason }).service.reconnectAttempts = 1
    ∧ ((Page.load s).socketClose url
        { wasClean := false, code := code, reason := reason }).service.maxReconnectAttempts
        = s.maxReconnectAttempts
    ∧ ((Page.load s).socketClose url
        { wasClean := false, code := code, reason := reason }).service.reconnectDelay
        = s.reconnectDelay
    ∧ emitted ((Page.load s).socketClose url
        { wasClean := false, code := code, reason := reason }).log = ["disconnected"]
    ∧ scheduled ((Page.load s).socketClose url
        { wasClean := false, code := code, reason := reason }).log
        = [(.reconnect url, s.reconnectDelay)]
    ∧ rejectionReactions ((Page.load s).socketClose url
        { wasClean := false, code := code, reason := reason }).log = [] := by
  simp [Page.load, Page.socketClose, Page.after, WebSocketService.onclose,
    WebSocketService.attemptReconnect, h0, hmax, scheduled, emitted, rejectionReactions,
    fulfilmentReactions]

/-- C17 (reconnect ceiling).  A service with no attempt counted and a ceiling of 5 loses
its connection, and every reconnection attempt fails: an error, then an unclean close.
With fuel for 5 attempts or more the run stops by itself: 5 attempts have been scheduled
and 5 have been made, each of them reporting one error; `max_reconnect_reached` has been
emitted exactly once; no timer is left pending; `reconnectAttempts` is 5.  It is at most 5
after any number of the failing attempts, and after any events at all. -/
theorem C17_reconnect_ceiling (s : WebSocketService) (h0 : s.reconnectAttempts = 0)
    (hmax : s.maxReconnectAttempts = 5) (url : String) (error : JVal) (code : Nat)
    (reason : String) (clock : Nat → Int) (fuel : Nat) (hfuel : 5 ≤ fuel) :
    (scheduled (Page.failedAttempts url error code reason clock fuel
        (Page.connectionLost s url code reason)).log).length = 5
    ∧ (rejectionReactions (Page.failedAttempts url error code reason clock fuel
        (Page.connectionLost s url code reason)).log).length = 5
    ∧ (emitted (Page.failedAttempts url error code reason clock fuel
        (Page.connectionLost s url code reason)).log).count "error" = 5
    ∧ (emitted (Page.failedAttempts url error code reason clock fuel
        (Page.connectionLost s url code reason)).log).count "max_reconnect_reached" = 1
    ∧ (Page.failedAttempts url error code reason clock fuel
        (Page.connectionLost s url code reason)).timers = []
    ∧ (Page.failedAttempts url error code reason clock fuel
        (Page.connectionLost s url code reason)).service.reconnectAttempts = 5
    ∧ (∀ n : Nat, (Page.failedAttempts url error code reason clock n
        (Page.connectionLost s url code reason)).service.reconnectAttempts ≤ 5)
    ∧ (∀ events : List ServiceEvent, (s.runEvents events).1.reconnectAttempts ≤ 5) := by
  obtain ⟨c1, c2, c3, c4, c5, c6, c7⟩ :=
    socketClose_unclean s h0 (by omega) url code reason
  have hrun := failedAttempts_run url error code reason clock 4
    (Page.connectionLost s url code reason) url s.reconnectDelay fuel c1
    (by show ((Page.load s).socketClose url _).service.reconnectAttempts + 4
            = ((Page.load s).socketClose url _).service.maxReconnectAttempts
        rw [c2, c3, hmax])
    (by omega)
  obtain ⟨r1, r2, r3, r4, r5, r6, r7⟩ := hrun
  have e3 : (Page.connectionLost s url code reason).service.maxReconnectAttempts = 5 := by
    show ((Page.load s).socketClose url _).service.maxReconnectAttempts = 5
    rw [c3, hmax]
  have e5 : emitted (Page.connectionLost s url code reason).log = ["disconnected"] := c5
  have e6 : scheduled (Page.connectionLost s url code reason).log
      = [(.reconnect url, s.reconnectDelay)] := c6
  have e7 : rejectionReactions (Page.connectionLost s url code reason).log = [] := c7
  refine ⟨?_, ?_, ?_, ?_, r1, by rw [r2, e3], ?_, ?_⟩
  · rw [r6, e6]; simp
  · rw [r7, e7]; rfl
  · rw [r5, e5]; rfl
  · rw [r4, e5]; rfl
  · intro n
    have := failedAttempts_le url error code reason clock n
      (Page.connectionLost s url code reason) (Or.inr ⟨url, _, c1⟩)
      (by show ((Page.load s).socketClose url _).service.reconnectAttempts
              ≤ ((Page.load s).socketClose url _).service.maxReconnectAttempts
          rw [c2, c3, hmax]; omega)
    rw [e3] at this
    exact this
  · intro events
    have := reconnectAttempts_le_runEvents events s (by rw [h0]; exact Nat.zero_le _)
    rw [this.2, hmax] at this
    exact this.1

set_option maxRecDepth 100000 in
/-- C17 at a client that was active when its connection dropped, with fuel for 10
attempts. -/
theorem C17_reconnect_ceiling_witness :
    activeService.reconnectAttempts = 0 ∧ activeService.maxReconnectAttempts = 5
    ∧ (5 : Nat) ≤ 10
    ∧ (emitted (Page.failedAttempts localUrl (.str "error") 1006 "" (fun _ => 9000) 10
        (Page.connectionLost activeService localUrl 1006 "")).log).count
          "max_reconnect_reached" = 1
    ∧ (Page.failedAttempts localUrl (.str "error") 1006 "" (fun _ => 9000) 10
        (Page.connectionLost activeService localUrl 1006 "")).timers = [] :=
  ⟨by decide!, by decide!, by decide,
   (C17_reconnect_ceiling activeService (by decide!) (by decide!) localUrl (.str "error")
     1006 "" (fun _ => 9000) 10 (by decide)).2.2.2.1,
   (C17_reconnect_ceiling activeService (by decide!) (by decide!) localUrl (.str "error")
     1006 "" (fun _ => 9000) 10 (by decide)).2.2.2.2.1⟩

/-- C18 (exponential backoff).  `attemptReconnect` counts one more attempt and schedules a
reconnection after `reconnectDelay * 2 ^ k` ms, `k` being the attempts counted before:
the delay of the call that follows is twice as long.  When a service with the
constructor's delay of 1000 and ceiling of 5 loses its connection and every attempt
fails, the delays scheduled are 1000, 2000, 4000, 8000 and 16000.  A clean close
schedules nothing and counts no attempt. -/
theorem C18_exponential_backoff (s : WebSocketService) (h0 : s.reconnectAttempts = 0)
    (hmax : s.maxReconnectAttempts = 5) (hdelay : s.reconnectDelay = 1000) (url : String)
    (error : JVal) (code : Nat) (reason : String) (clock : Nat → Int) :
    (∀ (q : WebSocketService) (u : String),
        q.attemptReconnect u
          = ({ q with reconnectAttempts := q.reconnectAttempts + 1 },
             [.setTimeout (.reconnect u) (q.reconnectDelay * 2 ^ q.reconnectAttempts)]))
    ∧ (∀ (q : WebSocketService) (u : String),
        ((q.attemptReconnect u).1.attemptReconnect u).2
          = [.setTimeout (.reconnect u)
              (2 * (q.reconnectDelay * 2 ^ q.reconnectAttempts))])
    ∧ scheduled (Page.failedAttempts url error code reason clock 5
        (Page.connectionLost s url code reason)).log
        = [(.reconnect url, 1000), (.reconnect url, 2000), (.reconnect url, 4000),
           (.reconnect url, 8000), (.reconnect url, 16000)]
    ∧ (∀ (q : WebSocketService) (u : String) (c : Nat) (r : String),
        scheduled (q.onclose u { wasClean := true, code := c, reason := r }).2 = []
        ∧ (q.onclose u { wasClean := true, code := c, reason := r }).1.reconnectAttempts
            = q.reconnectAttempts) := by
  refine ⟨fun q u => rfl, ?_, ?_, ?_⟩
  · intro q u
    simp only [WebSocketService.attemptReconnect, Nat.add_sub_cancel, pow_succ]
    congr 2
    ring
  · obtain ⟨c1, c2, c3, c4, c5, c6, c7⟩ :=
      socketClose_unclean s h0 (by omega) url code reason
    have hrun := failedAttempts_run url error code reason clock 4
      (Page.connectionLost s url code reason) url s.reconnectDelay 5 c1
      (by show ((Page.load s).socketClose url _).service.reconnectAttempts + 4
              = ((Page.load s).socketClose url _).service.maxReconnectAttempts
          rw [c2, c3, hmax])
      (by omega)
    have e2 : (Page.connectionLost s url code reason).service.reconnectAttempts = 1 := c2
    have e4 : (Page.connectionLost s url code reason).service.reconnectDelay = 1000 := by
      show ((Page.load s).socketClose url _).service.reconnectDelay = 1000
      rw [c4, hdelay]
    have e6 : scheduled (Page.connectionLost s url code reason).log
        = [(.reconnect url, 1000)] := by
      show scheduled ((Page.load s).socketClose url _).log = _
      rw [c6, hdelay]
    rw [hrun.2.2.2.2.2.1, e2, e4, e6]
    rfl
  · intro q u c r
    exact ⟨rfl, rfl⟩

set_option maxRecDepth 100000 in
/-- C18 at a client that was active when its connection dropped. -/
theorem C18_exponential_backoff_witness :
    activeService.reconnectAttempts = 0 ∧ activeService.maxReconnectAttempts = 5
    ∧ activeService.reconnectDelay = 1000
    ∧ scheduled (Page.failedAttempts localUrl (.str "error") 1006 "" (fun _ => 9000) 5
        (Page.connectionLost activeService localUrl 1006 "")).log
        = [(.reconnect localUrl, 1000), (.reconnect localUrl, 2000),
           (.reconnect localUrl, 4000), (.reconnect localUrl, 8000),
           (.reconnect localUrl, 16000)] :=
  ⟨by decide!, by decide!, by decide!,
   (C18_exponential_backoff activeService (by decide!) (by decide!) (by decide!) localUrl
     (.str "error") 1006 "" (fun _ => 9000)).2.2.1⟩

/-! ### The server handler -/

theorem propGet_mapDelete {α : Type} (m : List (String × α)) (key k : String) :
    propGet (mapDelete m key) k = if k = key then none else propGet m k := by
  induction m with
  | nil => simp [mapDelete, propGet]
  | cons hd tl ih =>
    obtain ⟨k2, v⟩ := hd
    unfold mapDelete at ih ⊢
    by_cases h2 : k2 = key
    · subst h2
      by_cases hk : k = k2
      · subst hk
        simpa [List.filter, propGet] using ih
      · have hk2 : ¬ k2 = k := fun e => hk e.symm
        simpa [List.filter, propGet, hk, hk2] using ih
    · by_cases hk : k = key
      · subst hk
        simp only [List.filter, decide_not, h2, decide_False, Bool.not_false, propGet, if_true,
          if_false]
        simpa using ih
      · simp only [List.filter, decide_not, h2, decide_False, Bool.not_false, propGet, hk,
          if_false]
        simp only [decide_not, hk, if_false] at ih
        rw [ih]

theorem stopUpdates_clients (h : WebSocketHandler) (c : String) :
    (h.stopUpdates c).clients = h.clients := by
  unfold WebSocketHandler.stopUpdates
  cases propGet h.intervals c <;> rfl

theorem stopUpdates_simulator (h : WebSocketHandler) (c : String) :
    (h.stopUpdates c).simulator = h.simulator := by
  unfold WebSocketHandler.stopUpdates
  cases propGet h.intervals c <;> rfl

theorem stopUpdates_performanceMetrics (h : WebSocketHandler) (c : String) :
    (h.stopUpdates c).performanceMetrics = h.performanceMetrics := by
  unfold WebSocketHandler.stopUpdates
  cases propGet h.intervals c <;> rfl

theorem stopUpdates_intervals (h : WebSocketHandler) (c k : String) :
    propGet (h.stopUpdates c).intervals k = if k = c then none else propGet h.intervals k := by
  unfold WebSocketHandler.stopUpdates
  cases hq : propGet h.intervals c with
  | none =>
    by_cases hk : k = c
    · subst hk; simp [hq]
    · simp [hk]
  | some ts => simp [propGet_mapDelete]

theorem cleanup_clients (h : WebSocketHandler) (c k : String) :
    propGet (h.cleanup c).clients k = if k = c then none else propGet h.clients k := by
  unfold WebSocketHandler.cleanup
  simp only [stopUpdates_clients]
  cases hq : propGet h.clients c with
  | none =>
    by_cases hk : k = c
    · subst hk; simp [hq, stopUpdates_clients]
    · simp [hk, stopUpdates_clients]
  | some client => simp [propGet_mapDelete, stopUpdates_clients]

theorem cleanup_intervals (h : WebSocketHandler) (c k : String) :
    propGet (h.cleanup c).intervals k = if k = c then none else propGet h.intervals k := by
  unfold WebSocketHandler.cleanup
  simp only [stopUpdates_clients]
  cases hq : propGet h.clients c with
  | none => simp [stopUpdates_intervals]
  | some client => simp [stopUpdates_intervals]

theorem cleanup_simulator (h : WebSocketHandler) (c : String) :
    (h.cleanup c).simulator = h.simulator := by
  unfold WebSocketHandler.cleanup
  simp only [stopUpdates_clients]
  cases hq : propGet h.clients c <;> simp [stopUpdates_simulator]

theorem cleanup_performanceMetrics (h : WebSocketHandler) (c : String) :
    (h.cleanup c).performanceMetrics = h.performanceMetrics := by
  unfold WebSocketHandler.cleanup
  simp only [stopUpdates_clients]
  cases hq : propGet h.clients c <;> simp [stopUpdates_performanceMetrics]

theorem startUpdates_clients (h : WebSocketHandler) (c : String) :
    (h.startUpdates c).clients = h.clients := by
  unfold WebSocketHandler.startUpdates
  cases propGet h.clients c <;> rfl

theorem startUpdates_intervals (h : WebSocketHandler) (c k : String) :
    propGet (h.startUpdates c).intervals k
      = match propGet h.clients c with
        | some client => if k = c then some (startUpdates client) else propGet h.intervals k
        | none => propGet h.intervals k := by
  unfold WebSocketHandler.startUpdates
  cases propGet h.clients c with
  | none => rfl
  | some client => simp [propGet_propSet]

theorem startUpdates_length (client : Client) : (startUpdates client).length ≤ 1 := by
  unfold startUpdates
  split
  · simp
  · split
    · simp
    · split <;> simp

theorem timersOwned_stopUpdates (h : WebSocketHandler) (c : String) (hi : h.timersOwned) :
    (h.stopUpdates c).timersOwned := by
  refine ⟨fun k hk => ?_, fun k ts hk => ?_⟩
  · rw [stopUpdates_intervals] at hk
    rw [stopUpdates_clients]
    by_cases e : k = c
    · simp [e] at hk
    · simp only [e, if_false] at hk
      exact hi.1 k hk
  · rw [stopUpdates_intervals] at hk
    by_cases e : k = c
    · simp [e] at hk
    · simp only [e, if_false] at hk
      exact hi.2 k ts hk

theorem timersOwned_cleanup (h : WebSocketHandler) (c : String) (hi : h.timersOwned) :
    (h.cleanup c).timersOwned := by
  refine ⟨fun k hk => ?_, fun k ts hk => ?_⟩
  · rw [cleanup_intervals] at hk
    rw [cleanup_clients]
    by_cases e : k = c
    · simp [e] at hk
    · simp only [e, if_false] at hk ⊢
      exact hi.1 k hk
  · rw [cleanup_intervals] at hk
    by_cases e : k = c
    · simp [e] at hk
    · simp only [e, if_false] at hk
      exact hi.2 k ts hk

theorem timersOwned_startUpdates (h : WebSocketHandler) (c : String) (hi : h.timersOwned) :
    (h.startUpdates c).timersOwned := by
  refine ⟨fun k hk => ?_, fun k ts hk => ?_⟩
  · rw [startUpdates_intervals] at hk
    rw [startUpdates_clients]
    cases hq : propGet h.clients c with
    | none =>
      simp only [hq] at hk
      exact hi.1 k hk
    | some client =>
      simp only [hq] at hk
      by_cases e : k = c
      · subst e; simp [hq]
      · simp only [e, if_false] at hk
        exact hi.1 k hk
  · rw [startUpdates_intervals] at hk
    cases hq : propGet h.clients c with
    | none =>
      simp only [hq] at hk
      exact hi.2 k ts hk
    | some client =>
      simp only [hq] at hk
      by_cases e : k = c
      · simp only [e, if_true, Option.some.injEq] at hk
        rw [← hk]
        exact startUpdates_length client
      · simp only [e, if_false] at hk
        exact hi.2 k ts hk

theorem timersOwned_clients (h : WebSocketHandler) (clients : List (String × Client))
    (hc : ∀ k, (propGet h.clients k).isSome = true → (propGet clients k).isSome = true)
    (hi : h.timersOwned) : ({ h with clients := clients } : WebSocketHandler).timersOwned :=
  ⟨fun k hk => hc k (hi.1 k hk), hi.2⟩

theorem isSome_propSet {α : Type} (l : List (String × α)) (key k : String) (x : α)
    (h : (propGet l k).isSome = true) : (propGet (propSet l key x) k).isSome = true := by
  rw [propGet_propSet]
  by_cases e : k = key
  · simp [e]
  · simpa [e] using h

theorem sendMessage_cases (h : WebSocketHandler) (stringify : Message → String) (c : String)
    (data : Message) (delivered : Bool) :
    h.sendMessage stringify c data delivered = (h, [])
    ∨ h.sendMessage stringify c data delivered = (h.cleanup c, [])
    ∨ (∃ client pm, h.sendMessage stringify c data delivered
          = ({ h with clients := propSet h.clients c client, performanceMetrics := pm },
             [(c, stringify data)]))
    ∨ ((propGet h.clients c).isSome = true
        ∧ h.sendMessage stringify c data delivered = (h, [(c, stringify data)])) := by
  unfold WebSocketHandler.sendMessage
  cases hq : propGet h.clients c with
  | none => exact Or.inl rfl
  | some client =>
    simp only []
    by_cases ha : client.isActive = true
    · cases delivered with
      | false => right; left; simp [ha]
      | true =>
        by_cases hm : data.isMetaMessage = true
        · right; right; right
          simp [ha, hm]
        · right; right; left
          simp only [Bool.not_eq_true] at hm
          refine ⟨{ client with
              metrics :=
                { client.metrics with
                  dataSent := client.metrics.dataSent + (stringify data).utf8ByteSize,
                  messagesSent := client.metrics.messagesSent + 1 } },
            { h.performanceMetrics with
              totalDataSent := h.performanceMetrics.totalDataSent + (stringify data).utf8ByteSize,
              messagesSent := h.performanceMetrics.messagesSent + 1 }, ?_⟩
          simp [ha, hm]
    · left
      simp only [Bool.not_eq_true] at ha
      simp [ha]

theorem timersOwned_sendMessage (h : WebSocketHandler) (stringify : Message → String)
    (c : String) (data : Message) (delivered : Bool) (hi : h.timersOwned) :
    (h.sendMessage stringify c data delivered).1.timersOwned := by
  rcases sendMessage_cases h stringify c data delivered with e | e | ⟨client, pm, e⟩ | ⟨_, e⟩
  · rw [e]; exact hi
  · rw [e]; exact timersOwned_cleanup h c hi
  · rw [e]
    exact ⟨fun k hk => isSome_propSet _ _ _ _ (hi.1 k hk), hi.2⟩
  · rw [e]; exact hi

theorem sendMessage_absent (h : WebSocketHandler) (stringify : Message → String)
    (id : String) (data : Message) (delivered : Bool) (c : String)
    (hc : propGet h.clients c = none) :
    propGet (h.sendMessage stringify id data delivered).1.clients c = none
    ∧ ∀ f ∈ (h.sendMessage stringify id data delivered).2, f.1 ≠ c := by
  by_cases e : id = c
  · subst e
    have : h.sendMessage stringify id data delivered = (h, []) := by
      unfold WebSocketHandler.sendMessage
      rw [hc]
    rw [this]
    exact ⟨hc, by simp⟩
  · have e2 : ¬ c = id := fun x => e x.symm
    rcases sendMessage_cases h stringify id data delivered with
      q | q | ⟨client, pm, q⟩ | ⟨_, q⟩
    · rw [q]; exact ⟨hc, by simp⟩
    · rw [q]
      refine ⟨?_, by simp⟩
      show propGet (h.cleanup id).clients c = none
      rw [cleanup_clients]; simp [e2, hc]
    · rw [q]
      refine ⟨?_, by simpa using e⟩
      show propGet (propSet h.clients id client) c = none
      rw [propGet_propSet]; simp [e2, hc]
    · rw [q]
      exact ⟨hc, by simpa using e⟩

theorem setUpdateMode_eq (h : WebSocketHandler) (stringify : Message → String)
    (c mode : String) (o : Oracle) (delivered : Bool) (client : Client)
    (hq : propGet h.clients c = some client) :
    h.setUpdateMode stringify c mode o delivered
      = (((WebSocketHandler.startUpdates
            { h.stopUpdates c with
              clients := propSet (h.stopUpdates c).clients c { client with updateMode := mode } }
            c).sendMessage stringify c (.mode_changed mode o.nextISO.1) delivered).1,
         ((WebSocketHandler.startUpdates
            { h.stopUpdates c with
              clients := propSet (h.stopUpdates c).clients c { client with updateMode := mode } }
            c).sendMessage stringify c (.mode_changed mode o.nextISO.1) delivered).2,
         o.nextISO.2) := by
  unfold WebSocketHandler.setUpdateMode
  rw [hq]

theorem timersOwned_setUpdateMode (h : WebSocketHandler) (stringify : Message → String)
    (c mode : String) (o : Oracle) (delivered : Bool) (hi : h.timersOwned) :
    (h.setUpdateMode stringify c mode o delivered).1.timersOwned := by
  cases hq : propGet h.clients c with
  | none =>
    have : h.setUpdateMode stringify c mode o delivered = (h, [], o) := by
      unfold WebSocketHandler.setUpdateMode
      rw [hq]
    rw [this]; exact hi
  | some client =>
    rw [setUpdateMode_eq h stringify c mode o delivered client hq]
    apply timersOwned_sendMessage
    apply timersOwned_startUpdates
    have h1 := timersOwned_stopUpdates h c hi
    exact ⟨fun k hk => isSome_propSet _ _ _ _ (h1.1 k hk), h1.2⟩

theorem setUpdateMode_absent (h : WebSocketHandler) (stringify : Message → String)
    (id mode : String) (o : Oracle) (delivered : Bool) (c : String)
    (hc : propGet h.clients c = none) :
    propGet (h.setUpdateMode stringify id mode o delivered).1.clients c = none
    ∧ ∀ f ∈ (h.setUpdateMode stringify id mode o delivered).2.1, f.1 ≠ c := by
  cases hq : propGet h.clients id with
  | none =>
    have : h.setUpdateMode stringify id mode o delivered = (h, [], o) := by
      unfold WebSocketHandler.setUpdateMode
      rw [hq]
    rw [this]; exact ⟨hc, by simp⟩
  | some client =>
    rw [setUpdateMode_eq h stringify id mode o delivered client hq]
    apply sendMessage_absent
    rw [startUpdates_clients]
    show propGet (propSet (h.stopUpdates id).clients id _) c = none
    rw [stopUpdates_clients, propGet_propSet]
    have e : ¬ c = id := by
      intro e; subst e; rw [hc] at hq; cases hq
    simp [e, hc]

theorem sendPerformanceMetrics_eq (h : WebSocketHandler) (stringify : Message → String)
    (c : String) (o : Oracle) (delivered : Bool) :
    (h.sendPerformanceMetrics stringify c o delivered = (h, [], o))
    ∨ ∃ data o2, h.sendPerformanceMetrics stringify c o delivered
        = ((h.sendMessage stringify c data delivered).1,
           (h.sendMessage stringify c data delivered).2, o2) := by
  unfold WebSocketHandler.sendPerformanceMetrics
  cases hq : propGet h.clients c with
  | none => exact Or.inl rfl
  | some client => exact Or.inr ⟨_, _, rfl⟩

theorem handleMessage_eq (h : WebSocketHandler) (stringify : Message → String)
    (initializeData : Oracle → Store × Oracle) (c : String) (message : Request)
    (o : Oracle) (delivered : Bool) :
    (h.handleMessage stringify initializeData c message o delivered = (h, [], o))
    ∨ (∃ mode, h.handleMessage stringify initializeData c message o delivered
        = h.setUpdateMode stringify c mode o delivered)
    ∨ ∃ store data o2, h.handleMessage stringify initializeData c message o delivered
        = ((WebSocketHandler.sendMessage { h with simulator := store } stringify c data
              delivered).1,
           (WebSocketHandler.sendMessage { h with simulator := store } stringify c data
              delivered).2, o2) := by
  unfold WebSocketHandler.handleMessage
  cases hq : propGet h.clients c with
  | none => exact Or.inl rfl
  | some client =>
    cases message with
    | set_update_mode mode => exact Or.inr (Or.inl ⟨mode, rfl⟩)
    | request_full_data => exact Or.inr (Or.inr ⟨h.simulator, _, _, rfl⟩)
    | request_initial_data => exact Or.inr (Or.inr ⟨_, _, _, rfl⟩)
    | get_performance_metrics =>
      rcases sendPerformanceMetrics_eq h stringify c o delivered with e | ⟨data, o2, e⟩
      · exact Or.inl e
      · exact Or.inr (Or.inr ⟨h.simulator, data, o2, e⟩)
    | unknown type => exact Or.inl rfl

theorem timersOwned_handleMessage (h : WebSocketHandler) (stringify : Message → String)
    (initializeData : Oracle → Store × Oracle) (c : String) (message : Request)
    (o : Oracle) (delivered : Bool) (hi : h.timersOwned) :
    (h.handleMessage stringify initializeData c message o delivered).1.timersOwned := by
  rcases handleMessage_eq h stringify initializeData c message o delivered with
    e | ⟨mode, e⟩ | ⟨store, data, o2, e⟩
  · rw [e]; exact hi
  · rw [e]; exact timersOwned_setUpdateMode h stringify c mode o delivered hi
  · rw [e]
    exact timersOwned_sendMessage _ stringify c data delivered hi

theorem handleMessage_absent (h : WebSocketHandler) (stringify : Message → String)
    (initializeData : Oracle → Store × Oracle) (id : String) (message : Request)
    (o : Oracle) (delivered : Bool) (c : String) (hc : propGet h.clients c = none) :
    propGet (h.handleMessage stringify initializeData id message o delivered).1.clients c = none
    ∧ ∀ f ∈ (h.handleMessage stringify initializeData id message o delivered).2.1, f.1 ≠ c := by
  rcases handleMessage_eq h stringify initializeData id message o delivered with
    e | ⟨mode, e⟩ | ⟨store, data, o2, e⟩
  · rw [e]; exact ⟨hc, by simp⟩
  · rw [e]; exact setUpdateMode_absent h stringify id mode o delivered c hc
  · rw [e]
    exact sendMessage_absent _ stringify id data delivered c hc

theorem fire_eq (h : WebSocketHandler) (stringify : Message → String) (c : String)
    (t : Timer) (o : Oracle) (delivered : Bool) :
    (h.fire stringify c t o delivered = (h, [], o))
    ∨ (∃ client s o2, (propGet h.clients c).isSome = true ∧
        h.fire stringify c t o delivered
          = ({ h with simulator := s, clients := propSet h.clients c client }, [], o2))
    ∨ ∃ client s data o2, (propGet h.clients c).isSome = true ∧
        h.fire stringify c t o delivered
          = ((WebSocketHandler.sendMessage
                { h with simulator := s, clients := propSet h.clients c client }
                stringify c data delivered).1,
             (WebSocketHandler.sendMessage
                { h with simulator := s, clients := propSet h.clients c client }
                stringify c data delivered).2, o2) := by
  unfold WebSocketHandler.fire
  cases hq : propGet h.clients c with
  | none => exact Or.inl rfl
  | some client =>
    simp only []
    cases hm : (runTimer t client h.simulator o).1 with
    | none => exact Or.inr (Or.inl ⟨_, _, _, rfl, rfl⟩)
    | some data => exact Or.inr (Or.inr ⟨_, _, data, _, rfl, rfl⟩)

theorem timersOwned_fire (h : WebSocketHandler) (stringify : Message → String) (c : String)
    (t : Timer) (o : Oracle) (delivered : Bool) (hi : h.timersOwned) :
    (h.fire stringify c t o delivered).1.timersOwned := by
  rcases fire_eq h stringify c t o delivered with
    e | ⟨client, s, o2, _, e⟩ | ⟨client, s, data, o2, _, e⟩
  · rw [e]; exact hi
  · rw [e]
    exact ⟨fun k hk => isSome_propSet _ _ _ _ (hi.1 k hk), hi.2⟩
  · rw [e]
    apply timersOwned_sendMessage
    exact ⟨fun k hk => isSome_propSet _ _ _ _ (hi.1 k hk), hi.2⟩

theorem fire_absent (h : WebSocketHandler) (stringify : Message → String) (id : String)
    (t : Timer) (o : Oracle) (delivered : Bool) (c : String)
    (hc : propGet h.clients c = none) :
    propGet (h.fire stringify id t o delivered).1.clients c = none
    ∧ ∀ f ∈ (h.fire stringify id t o delivered).2.1, f.1 ≠ c := by
  rcases fire_eq h stringify id t o delivered with
    e | ⟨client, s, o2, hs, e⟩ | ⟨client, s, data, o2, hs, e⟩
  · rw [e]; exact ⟨hc, by simp⟩
  · rw [e]
    have e2 : ¬ c = id := by
      intro x; subst x; rw [hc] at hs; cases hs
    refine ⟨?_, by simp⟩
    show propGet (propSet h.clients id client) c = none
    rw [propGet_propSet]; simp [e2, hc]
  · rw [e]
    have e2 : ¬ c = id := by
      intro x; subst x; rw [hc] at hs; cases hs
    apply sendMessage_absent
    show propGet (propSet h.clients id client) c = none
    rw [propGet_propSet]; simp [e2, hc]

theorem fireAll_cons (stringify : Message → String) (c : String) (delivered : Bool)
    (t : Timer) (rest : List Timer) (h : WebSocketHandler) (o : Oracle) :
    WebSocketHandler.fireAll stringify c delivered (t :: rest) h o
      = ((WebSocketHandler.fireAll stringify c delivered rest
            (h.fire stringify c t o delivered).1 (h.fire stringify c t o delivered).2.2).1,
         (h.fire stringify c t o delivered).2.1
           ++ (WebSocketHandler.fireAll stringify c delivered rest
                (h.fire stringify c t o delivered).1
                (h.fire stringify c t o delivered).2.2).2.1,
         (WebSocketHandler.fireAll stringify c delivered rest
            (h.fire stringify c t o delivered).1 (h.fire stringify c t o delivered).2.2).2.2) :=
  rfl

theorem timersOwned_fireAll (stringify : Message → String) (c : String) (delivered : Bool)
    (timers : List Timer) :
    ∀ (h : WebSocketHandler) (o : Oracle), h.timersOwned →
      (WebSocketHandler.fireAll stringify c delivered timers h o).1.timersOwned := by
  induction timers with
  | nil => intro h o hi; exact hi
  | cons t rest ih =>
    intro h o hi
    rw [fireAll_cons]
    exact ih _ _ (timersOwned_fire h stringify c t o delivered hi)

theorem fireAll_absent (stringify : Message → String) (id : String) (delivered : Bool)
    (c : String) (timers : List Timer) :
    ∀ (h : WebSocketHandler) (o : Oracle), propGet h.clients c = none →
      propGet (WebSocketHandler.fireAll stringify id delivered timers h o).1.clients c = none
      ∧ ∀ f ∈ (WebSocketHandler.fireAll stringify id delivered timers h o).2.1, f.1 ≠ c := by
  induction timers with
  | nil => intro h o hc; exact ⟨hc, by simp [WebSocketHandler.fireAll]⟩
  | cons t rest ih =>
    intro h o hc
    rw [fireAll_cons]
    have h1 := fire_absent h stringify id t o delivered c hc
    have h2 := ih _ (h.fire stringify id t o delivered).2.2 h1.1
    refine ⟨h2.1, ?_⟩
    intro f hf
    simp only [List.mem_append] at hf
    rcases hf with hf | hf
    · exact h1.2 f hf
    · exact h2.2 f hf

theorem timersOwned_tick (h : WebSocketHandler) (stringify : Message → String) (c : String)
    (o : Oracle) (delivered : Bool) (hi : h.timersOwned) :
    (h.tick stringify c o delivered).1.timersOwned := by
  unfold WebSocketHandler.tick
  cases propGet h.intervals c with
  | none => exact hi
  | some timers => exact timersOwned_fireAll stringify c delivered timers h o hi

theorem tick_absent (h : WebSocketHandler) (stringify : Message → String) (id : String)
    (o : Oracle) (delivered : Bool) (c : String) (hc : propGet h.clients c = none) :
    propGet (h.tick stringify id o delivered).1.clients c = none
    ∧ ∀ f ∈ (h.tick stringify id o delivered).2.1, f.1 ≠ c := by
  unfold WebSocketHandler.tick
  cases propGet h.intervals id with
  | none => exact ⟨hc, by simp⟩
  | some timers => exact fireAll_absent stringify id delivered c timers h o hc

theorem onConnection_eq (h : WebSocketHandler) (stringify : Message → String) (c : String)
    (o : Oracle) (delivered : Bool) :
    ∃ client pm data o2,
      h.onConnection stringify c o delivered
        = (((WebSocketHandler.sendMessage
              { h with clients := propSet h.clients c client, performanceMetrics := pm }
              stringify c data delivered).1).startUpdates c,
           (WebSocketHandler.sendMessage
              { h with clients := propSet h.clients c client, performanceMetrics := pm }
              stringify c data delivered).2, o2) :=
  ⟨_, _, _, _, rfl⟩

theorem timersOwned_onConnection (h : WebSocketHandler) (stringify : Message → String)
    (c : String) (o : Oracle) (delivered : Bool) (hi : h.timersOwned) :
    (h.onConnection stringify c o delivered).1.timersOwned := by
  obtain ⟨client, pm, data, o2, e⟩ := onConnection_eq h stringify c o delivered
  rw [e]
  apply timersOwned_startUpdates
  apply timersOwned_sendMessage
  exact ⟨fun k hk => isSome_propSet _ _ _ _ (hi.1 k hk), hi.2⟩

theorem onConnection_absent (h : WebSocketHandler) (stringify : Message → String)
    (id : String) (o : Oracle) (delivered : Bool) (c : String) (hid : id ≠ c)
    (hc : propGet h.clients c = none) :
    propGet (h.onConnection stringify id o delivered).1.clients c = none
    ∧ ∀ f ∈ (h.onConnection stringify id o delivered).2.1, f.1 ≠ c := by
  obtain ⟨client, pm, data, o2, e⟩ := onConnection_eq h stringify id o delivered
  rw [e]
  have e2 : ¬ c = id := fun x => hid x.symm
  have := sendMessage_absent
    { h with clients := propSet h.clients id client, performanceMetrics := pm }
    stringify id data delivered c
    (by show propGet (propSet h.clients id client) c = none
        rw [propGet_propSet]; simp [e2, hc])
  refine ⟨?_, this.2⟩
  show propGet (WebSocketHandler.startUpdates _ id).clients c = none
  rw [startUpdates_clients]
  exact this.1

theorem shutdown_maps (h : WebSocketHandler) :
    h.shutdown.clients = [] ∧ h.shutdown.intervals = [] := ⟨rfl, rfl⟩

theorem timersOwned_step (stringify : Message → String)
    (initializeData : Oracle → Store × Oracle) (h : WebSocketHandler) (o : Oracle)
    (e : HandlerEvent) (hi : h.timersOwned) :
    (WebSocketHandler.step stringify initializeData h o e).1.timersOwned := by
  cases e with
  | connection c delivered => exact timersOwned_onConnection h stringify c o delivered hi
  | message c request delivered =>
    exact timersOwned_handleMessage h stringify initializeData c request o delivered hi
  | tick c delivered => exact timersOwned_tick h stringify c o delivered hi
  | close c => exact timersOwned_cleanup h c hi
  | error c => exact timersOwned_cleanup h c hi
  | setUpdateMode c mode delivered =>
    exact timersOwned_setUpdateMode h stringify c mode o delivered hi
  | sendMessage c data delivered => exact timersOwned_sendMessage h stringify c data delivered hi
  | cleanup c => exact timersOwned_cleanup h c hi
  | shutdown =>
    refine ⟨fun k hk => ?_, fun k ts hk => ?_⟩
    · have : propGet (WebSocketHandler.step stringify initializeData h o
          HandlerEvent.shutdown).1.intervals k = none := rfl
      rw [this] at hk; cases hk
    · have : propGet (WebSocketHandler.step stringify initializeData h o
          HandlerEvent.shutdown).1.intervals k = none := rfl
      rw [this] at hk; cases hk

theorem step_absent (stringify : Message → String)
    (initializeData : Oracle → Store × Oracle) (h : WebSocketHandler) (o : Oracle)
    (e : HandlerEvent) (c : String) (he : e.accepts c = false)
    (hc : propGet h.clients c = none) :
    propGet (WebSocketHandler.step stringify initializeData h o e).1.clients c = none
    ∧ ∀ f ∈ (WebSocketHandler.step stringify initializeData h o e).2.1, f.1 ≠ c := by
  cases e with
  | connection id delivered =>
    have hid : id ≠ c := by simpa [HandlerEvent.accepts] using he
    exact onConnection_absent h stringify id o delivered c hid hc
  | message id request delivered =>
    exact handleMessage_absent h stringify initializeData id request o delivered c hc
  | tick id delivered => exact tick_absent h stringify id o delivered c hc
  | close id =>
    refine ⟨?_, by simp [WebSocketHandler.step]⟩
    show propGet (h.cleanup id).clients c = none
    rw [cleanup_clients]; split <;> simp [hc]
  | error id =>
    refine ⟨?_, by simp [WebSocketHandler.step]⟩
    show propGet (h.cleanup id).clients c = none
    rw [cleanup_clients]; split <;> simp [hc]
  | setUpdateMode id mode delivered =>
    exact setUpdateMode_absent h stringify id mode o delivered c hc
  | sendMessage id data delivered => exact sendMessage_absent h stringify id data delivered c hc
  | cleanup id =>
    refine ⟨?_, by simp [WebSocketHandler.step]⟩
    show propGet (h.cleanup id).clients c = none
    rw [cleanup_clients]; split <;> simp [hc]
  | shutdown => exact ⟨rfl, by simp [WebSocketHandler.step]⟩

theorem runEvents_cons (stringify : Message → String)
    (initializeData : Oracle → Store × Oracle) (e : HandlerEvent) (rest : List HandlerEvent)
    (h : WebSocketHandler) (o : Oracle) :
    WebSocketHandler.runEvents stringify initializeData (e :: rest) h o
      = ((WebSocketHandler.runEvents stringify initializeData rest
            (WebSocketHandler.step stringify initializeData h o e).1
            (WebSocketHandler.step stringify initializeData h o e).2.2).1,
         (WebSocketHandler.step stringify initializeData h o e).2.1
           ++ (WebSocketHandler.runEvents stringify initializeData rest
                (WebSocketHandler.step stringify initializeData h o e).1
                (WebSocketHandler.step stringify initializeData h o e).2.2).2.1,
         (WebSocketHandler.runEvents stringify initializeData rest
            (WebSocketHandler.step stringify initializeData h o e).1
            (WebSocketHandler.step stringify initializeData h o e).2.2).2.2) :=
  rfl

theorem timersOwned_runEvents (stringify : Message → String)
    (initializeData : Oracle → Store × Oracle) (events : List HandlerEvent) :
    ∀ (h : WebSocketHandler) (o : Oracle), h.timersOwned →
      (WebSocketHandler.runEvents stringify initializeData events h o).1.timersOwned := by
  induction events with
  | nil => intro h o hi; exact hi
  | cons e rest ih =>
    intro h o hi
    rw [runEvents_cons]
    exact ih _ _ (timersOwned_step stringify initializeData h o e hi)

theorem runEvents_absent (stringify : Message → String)
    (initializeData : Oracle → Store × Oracle) (c : String) (events : List HandlerEvent) :
    ∀ (h : WebSocketHandler) (o : Oracle), (∀ e ∈ events, e.accepts c = false) →
      propGet h.clients c = none →
      propGet (WebSocketHandler.runEvents stringify initializeData events h o).1.clients c
          = none
      ∧ ∀ f ∈ (WebSocketHandler.runEvents stringify initializeData events h o).2.1,
          f.1 ≠ c := by
  induction events with
  | nil => intro h o _ hc; exact ⟨hc, by simp [WebSocketHandler.runEvents]⟩
  | cons e rest ih =>
    intro h o he hc
    rw [runEvents_cons]
    have h1 := step_absent stringify initializeData h o e c
      (he e (List.mem_cons_self _ _)) hc
    have h2 := ih _ (WebSocketHandler.step stringify initializeData h o e).2.2
      (fun x hx => he x (List.mem_cons_of_mem _ hx)) h1.1
    refine ⟨h2.1, ?_⟩
    intro f hf
    simp only [List.mem_append] at hf
    rcases hf with hf | hf
    · exact h1.2 f hf
    · exact h2.2 f hf

theorem sendMessage_delivered_meta (h : WebSocketHandler) (stringify : Message → String)
    (c : String) (client : Client) (data : Message)
    (hq : propGet h.clients c = some client) (ha : client.isActive = true)
    (hm : data.isMetaMessage = true) :
    h.sendMessage stringify c data true = (h, [(c, stringify data)]) := by
  unfold WebSocketHandler.sendMessage
  rw [hq]
  simp [ha, hm]

theorem sendMessage_delivered_data (h : WebSocketHandler) (stringify : Message → String)
    (c : String) (client : Client) (data : Message)
    (hq : propGet h.clients c = some client) (ha : client.isActive = true)
    (hm : data.isMetaMessage = false) :
    h.sendMessage stringify c data true
      = ({ h with
            clients := propSet h.clients c
              { client with
                metrics :=
                  { client.metrics with
                    dataSent := client.metrics.dataSent + (stringify data).utf8ByteSize,
                    messagesSent := client.metrics.messagesSent + 1 } },
            performanceMetrics :=
              { h.performanceMetrics with
                totalDataSent :=
                  h.performanceMetrics.totalDataSent + (stringify data).utf8ByteSize,
                messagesSent := h.performanceMetrics.messagesSent + 1 } },
          [(c, stringify data)]) := by
  unfold WebSocketHandler.sendMessage
  rw [hq]
  simp [ha, hm]

theorem sendMessage_failed (h : WebSocketHandler) (stringify : Message → String)
    (c : String) (client : Client) (data : Message)
    (hq : propGet h.clients c = some client) (ha : client.isActive = true) :
    h.sendMessage stringify c data false = (h.cleanup c, []) := by
  unfold WebSocketHandler.sendMessage
  rw [hq]
  simp [ha]

theorem sendMessage_not_sent (h : WebSocketHandler) (stringify : Message → String)
    (c : String) (data : Message) (delivered : Bool)
    (hq : propGet h.clients c = none
      ∨ ∃ client, propGet h.clients c = some client ∧ client.isActive = false) :
    h.sendMessage stringify c data delivered = (h, []) := by
  unfold WebSocketHandler.sendMessage
  rcases hq with hq | ⟨client, hq, ha⟩
  · rw [hq]
  · rw [hq]
    simp [ha]

theorem isMetaMessage_iff (data : Message) :
    data.isMetaMessage = true
      ↔ data.type = "performance_metrics" ∨ data.type = "mode_changed" := by
  simp [Message.isMetaMessage]

/-- C22 (the server's data counters leave meta messages out).  For a client of the map
that is active and a send that succeeds, `sendMessage` writes the serialized message on
the client's socket; when the type of the message is neither `performance_metrics` nor
`mode_changed` it adds the UTF-8 byte length of the text to `client.metrics.dataSent` and
to `performanceMetrics.totalDataSent` and 1 to both `messagesSent` counters, and when the
type is one of the two the state is unchanged.  The records of the other clients, the
timers and the store are as before.  For an unknown or inactive client the state is
unchanged and nothing is sent, whether the socket would take the frame or not. -/
theorem C22_data_counters_exclude_meta (h : WebSocketHandler) (stringify : Message → String)
    (clientId : String) (client : Client) (data : Message)
    (hq : propGet h.clients clientId = some client) (ha : client.isActive = true) :
    (h.sendMessage stringify clientId data true).2 = [(clientId, stringify data)]
    ∧ (data.type ≠ "performance_metrics" → data.type ≠ "mode_changed" →
        propGet (h.sendMessage stringify clientId data true).1.clients clientId
          = some { client with
                   metrics :=
                     { dataSent := client.metrics.dataSent + (stringify data).utf8ByteSize,
                       messagesSent := client.metrics.messagesSent + 1,
                       connectionTime := client.metrics.connectionTime } }
        ∧ (h.sendMessage stringify clientId data true).1.performanceMetrics
          = { connections := h.performanceMetrics.connections,
              totalDataSent :=
                h.performanceMetrics.totalDataSent + (stringify data).utf8ByteSize,
              messagesSent := h.performanceMetrics.messagesSent + 1,
              startTime := h.performanceMetrics.startTime })
    ∧ (data.type = "performance_metrics" ∨ data.type = "mode_changed" →
        (h.sendMessage stringify clientId data true).1 = h)
    ∧ (∀ other : String, other ≠ clientId →
        propGet (h.sendMessage stringify clientId data true).1.clients other
          = propGet h.clients other)
    ∧ (h.sendMessage stringify clientId data true).1.intervals = h.intervals
    ∧ (h.sendMessage stringify clientId data true).1.simulator = h.simulator
    ∧ ∀ (g : WebSocketHandler) (id : String) (m : Message) (delivered : Bool),
        (propGet g.clients id = none
          ∨ ∃ c, propGet g.clients id = some c ∧ c.isActive = false) →
        g.sendMessage stringify id m delivered = (g, []) := by
  cases hm : data.isMetaMessage with
  | true =>
    have e := sendMessage_delivered_meta h stringify clientId client data hq ha hm
    have ht := (isMetaMessage_iff data).mp hm
    rw [e]
    refine ⟨rfl, ?_, fun _ => rfl, fun _ _ => rfl, rfl, rfl, ?_⟩
    · intro h1 h2
      rcases ht with ht | ht
      · exact absurd ht h1
      · exact absurd ht h2
    · intro g id m delivered hg
      exact sendMessage_not_sent g stringify id m delivered hg
  | false =>
    have e := sendMessage_delivered_data h stringify clientId client data hq ha hm
    have ht : ¬ (data.type = "performance_metrics" ∨ data.type = "mode_changed") := by
      intro x
      rw [(isMetaMessage_iff data).mpr x] at hm
      cases hm
    rw [e]
    refine ⟨rfl, ?_, fun x => absurd x ht, ?_, rfl, rfl, ?_⟩
    · intro _ _
      refine ⟨?_, rfl⟩
      show propGet (propSet h.clients clientId _) clientId = _
      rw [propGet_propSet_same]
    · intro other ho
      show propGet (propSet h.clients clientId _) other = _
      rw [propGet_propSet_ne _ _ ho]
    · intro g id m delivered hg
      exact sendMessage_not_sent g stringify id m delivered hg

set_option maxRecDepth 100000 in
/-- C22 on `sampleHandler`: a `full_data_update` of 27 bytes to `c1` is counted, a
`mode_changed` is not. -/
theorem C22_data_counters_exclude_meta_witness :
    propGet sampleHandler.clients "c1" = some fullClient
    ∧ fullClient.isActive = true
    ∧ (sampleHandler.sendMessage typeOnly "c1" (.full_data_update .null "t") true).2
        = [("c1", "\x7b\"type\":\"full_data_update\"\x7d")]
    ∧ (sampleHandler.sendMessage typeOnly "c1"
          (.full_data_update .null "t") true).1.performanceMetrics
        = { connections := 2, totalDataSent := 47, messagesSent := 2, startTime := 1000 }
    ∧ (sampleHandler.sendMessage typeOnly "c1" (.mode_changed "full" "t") true).1
        = sampleHandler :=
  ⟨by decide!, by decide,
   (C22_data_counters_exclude_meta sampleHandler typeOnly "c1" fullClient
     (.full_data_update .null "t") (by decide!) (by decide)).1,
   ((C22_data_counters_exclude_meta sampleHandler typeOnly "c1" fullClient
     (.full_data_update .null "t") (by decide!) (by decide)).2.1
       (by decide) (by decide)).2,
   (C22_data_counters_exclude_meta sampleHandler typeOnly "c1" fullClient
     (.mode_changed "full" "t") (by decide!) (by decide)).2.2.1 (Or.inr rfl)⟩

/-- C23 (a send failure is fatal to that connection only).  When `client.ws.send` raises
for an active client of the map, `sendMessage` returns all the same; nothing went out; the
server counters are as before; the client has left `clients` and its timers have left
`intervals`; the records and the timers of every other client, and the store, are as
before. -/
theorem C23_send_failure_removes_that_client_only (h : WebSocketHandler)
    (stringify : Message → String) (clientId : String) (client : Client) (data : Message)
    (hq : propGet h.clients clientId = some client) (ha : client.isActive = true) :
    (h.sendMessage stringify clientId data false).2 = []
    ∧ (h.sendMessage stringify clientId data false).1.performanceMetrics
        = h.performanceMetrics
    ∧ propGet (h.sendMessage stringify clientId data false).1.clients clientId = none
    ∧ propGet (h.sendMessage stringify clientId data false).1.intervals clientId = none
    ∧ (∀ other : String, other ≠ clientId →
        propGet (h.sendMessage stringify clientId data false).1.clients other
            = propGet h.clients other
        ∧ propGet (h.sendMessage stringify clientId data false).1.intervals other
            = propGet h.intervals other)
    ∧ (h.sendMessage stringify clientId data false).1.simulator = h.simulator := by
  rw [sendMessage_failed h stringify clientId client data hq ha]
  refine ⟨rfl, cleanup_performanceMetrics h clientId, ?_, ?_, ?_, cleanup_simulator h clientId⟩
  · show propGet (h.cleanup clientId).clients clientId = none
    rw [cleanup_clients]; simp
  · show propGet (h.cleanup clientId).intervals clientId = none
    rw [cleanup_intervals]; simp
  · intro other ho
    refine ⟨?_, ?_⟩
    · show propGet (h.cleanup clientId).clients other = _
      rw [cleanup_clients]; simp [ho]
    · show propGet (h.cleanup clientId).intervals other = _
      rw [cleanup_intervals]; simp [ho]

set_option maxRecDepth 100000 in
/-- C23 on `sampleHandler`: the send to `c1` fails; `c2` keeps its record and its delta
timer. -/
theorem C23_send_failure_removes_that_client_only_witness :
    propGet sampleHandler.clients "c1" = some fullClient
    ∧ fullClient.isActive = true
    ∧ propGet (sampleHandler.sendMessage typeOnly "c1"
        (.full_data_update .null "t") false).1.clients "c1" = none
    ∧ propGet (sampleHandler.sendMessage typeOnly "c1"
        (.full_data_update .null "t") false).1.intervals "c2" = some [Timer.delta] :=
  ⟨by decide!, by decide,
   (C23_send_failure_removes_that_client_only sampleHandler typeOnly "c1" fullClient
     (.full_data_update .null "t") (by decide!) (by decide)).2.2.1,
   ((C23_send_failure_removes_that_client_only sampleHandler typeOnly "c1" fullClient
     (.full_data_update .null "t") (by decide!) (by decide)).2.2.2.2.1 "c2" (by decide)).2⟩

/-- C27 (timer ownership).  In the state reached from the constructor by any sequence of
events (connections accepted, messages handled, timer periods, sockets closing or failing,
`setUpdateMode`, `sendMessage` succeeding or failing, `cleanup`, `shutdown`), every key of
`intervals` is a key of `clients` and every entry of `intervals` holds at most one timer.
After `cleanup(clientId)` neither map holds `clientId`, and whatever happens later, as
long as no connection is accepted under that id again, no frame goes out for it. -/
theorem C27_timer_ownership (stringify : Message → String)
    (initializeData : Oracle → Store × Oracle) (simulator : Store) (startTime : Int)
    (events : List HandlerEvent) (o : Oracle) (clientId : String)
    (later : List HandlerEvent) (o2 : Oracle)
    (hlater : ∀ e ∈ later, e.accepts clientId = false) :
    (∀ k, (propGet (WebSocketHandler.runEvents stringify initializeData events
              (WebSocketHandler.constructor simulator startTime) o).1.intervals k).isSome = true →
          (propGet (WebSocketHandler.runEvents stringify initializeData events
              (WebSocketHandler.constructor simulator startTime) o).1.clients k).isSome = true)
    ∧ (∀ k timers, propGet (WebSocketHandler.runEvents stringify initializeData events
              (WebSocketHandler.constructor simulator startTime) o).1.intervals k = some timers →
          timers.length ≤ 1)
    ∧ propGet ((WebSocketHandler.runEvents stringify initializeData events
          (WebSocketHandler.constructor simulator startTime) o).1.cleanup clientId).clients
          clientId = none
    ∧ propGet ((WebSocketHandler.runEvents stringify initializeData events
          (WebSocketHandler.constructor simulator startTime) o).1.cleanup clientId).intervals
          clientId = none
    ∧ (∀ f ∈ (WebSocketHandler.runEvents stringify initializeData later
          ((WebSocketHandler.runEvents stringify initializeData events
            (WebSocketHandler.constructor simulator startTime) o).1.cleanup clientId) o2).2.1,
        f.1 ≠ clientId)
    ∧ propGet (WebSocketHandler.runEvents stringify initializeData later
          ((WebSocketHandler.runEvents stringify initializeData events
            (WebSocketHandler.constructor simulator startTime) o).1.cleanup clientId)
          o2).1.intervals clientId = none := by
  have h0 : (WebSocketHandler.constructor simulator startTime).timersOwned :=
    ⟨fun k hk => (by cases hk), fun k ts hk => (by cases hk)⟩
  have hi := timersOwned_runEvents stringify initializeData events _ o h0
  have hc : propGet ((WebSocketHandler.runEvents stringify initializeData events
      (WebSocketHandler.constructor simulator startTime) o).1.cleanup clientId).clients
      clientId = none := by
    rw [cleanup_clients]; simp
  have hl := runEvents_absent stringify initializeData clientId later _ o2 hlater hc
  have hi2 := timersOwned_runEvents stringify initializeData later _ o2
    (timersOwned_cleanup _ clientId hi)
  refine ⟨hi.1, hi.2, hc, ?_, hl.2, ?_⟩
  · rw [cleanup_intervals]; simp
  · cases hq : propGet (WebSocketHandler.runEvents stringify initializeData later
        ((WebSocketHandler.runEvents stringify initializeData events
          (WebSocketHandler.constructor simulator startTime) o).1.cleanup clientId)
        o2).1.intervals clientId with
    | none => rfl
    | some ts =>
      have := hi2.1 clientId (by rw [hq]; rfl)
      rw [hl.1] at this
      cases this

set_option maxRecDepth 100000 in
/-- C27 for `sampleEvents`, the cleanup of `c1` and `laterEvents`: no frame of the later
events is for `c1`. -/
theorem C27_timer_ownership_witness :
    (∀ e ∈ laterEvents, e.accepts "c1" = false)
    ∧ ∀ f ∈ (WebSocketHandler.runEvents typeOnly sampleData laterEvents
          ((WebSocketHandler.runEvents typeOnly sampleData sampleEvents
            (WebSocketHandler.constructor sampleStore 1000)
              (scriptedOracle [] 1704100000000)).1.cleanup "c1")
          (scriptedOracle [] 1704100005000)).2.1,
        f.1 ≠ "c1" :=
  ⟨by decide,
   (C27_timer_ownership typeOnly sampleData sampleStore 1000 sampleEvents
     (scriptedOracle [] 1704100000000) "c1" laterEvents (scriptedOracle [] 1704100005000)
     (by decide)).2.2.2.2.1⟩

theorem tick_of_no_timer (h : WebSocketHandler) (stringify : Message → String) (c : String)
    (o : Oracle) (delivered : Bool) (hq : propGet h.intervals c = some []) :
    h.tick stringify c o delivered = (h, [], o) := by
  unfold WebSocketHandler.tick
  rw [hq]
  rfl

theorem ticks_of_no_timer (stringify : Message → String)
    (initializeData : Oracle → Store × Oracle) (c : String) (delivered : Bool)
    (h : WebSocketHandler) (o : Oracle) (hq : propGet h.intervals c = some []) (n : Nat) :
    WebSocketHandler.runEvents stringify initializeData
        (List.replicate n (HandlerEvent.tick c delivered)) h o = (h, [], o) := by
  induction n with
  | zero => rfl
  | succ n ih =>
    rw [List.replicate_succ, runEvents_cons]
    have e : WebSocketHandler.step stringify initializeData h o (HandlerEvent.tick c delivered)
        = (h, [], o) := tick_of_no_timer h stringify c o delivered hq
    rw [e, ih]
    rfl

theorem startUpdates_of_other_mode (client : Client) (h1 : client.updateMode ≠ "full")
    (h2 : client.updateMode ≠ "delta") (h3 : client.updateMode ≠ "hybrid") :
    startUpdates client = [] := by
  simp [startUpdates, h1, h2, h3]

/-- C30 (a mode that is none of the three).  For a client of the map that is active and a
mode other than `full`, `delta` and `hybrid`, `setUpdateMode` stores the mode in the
client's record and changes nothing else in it, leaves an entry without any timer under
the client's id, and, the send succeeding, writes the `mode_changed` message that carries
the mode on the client's socket.  After that any number of timer periods of this client
send nothing and change nothing. -/
theorem C30_unvalidated_mode (h : WebSocketHandler) (stringify : Message → String)
    (initializeData : Oracle → Store × Oracle) (clientId : String) (client : Client)
    (mode : String) (o : Oracle)
    (hq : propGet h.clients clientId = some client) (ha : client.isActive = true)
    (h1 : mode ≠ "full") (h2 : mode ≠ "delta") (h3 : mode ≠ "hybrid") :
    propGet (h.setUpdateMode stringify clientId mode o true).1.clients clientId
        = some { client with updateMode := mode }
    ∧ propGet (h.setUpdateMode stringify clientId mode o true).1.intervals clientId = some []
    ∧ (h.setUpdateMode stringify clientId mode o true).2.1
        = [(clientId, stringify (.mode_changed mode o.nextISO.1))]
    ∧ ∀ (n : Nat) (o2 : Oracle) (delivered : Bool),
        WebSocketHandler.runEvents stringify initializeData
            (List.replicate n (HandlerEvent.tick clientId delivered))
            (h.setUpdateMode stringify clientId mode o true).1 o2
          = ((h.setUpdateMode stringify clientId mode o true).1, [], o2) := by
  have hc : propGet (WebSocketHandler.startUpdates
      { h.stopUpdates clientId with
        clients := propSet (h.stopUpdates clientId).clients clientId
          { client with updateMode := mode } } clientId).clients clientId
      = some { client with updateMode := mode } := by
    rw [startUpdates_clients]
    show propGet (propSet (h.stopUpdates clientId).clients clientId _) clientId = _
    rw [propGet_propSet_same]
  have hs := sendMessage_delivered_meta _ stringify clientId _
    (.mode_changed mode o.nextISO.1) hc ha rfl
  have e := setUpdateMode_eq h stringify clientId mode o true client hq
  rw [hs] at e
  rw [e]
  have hi : propGet (WebSocketHandler.startUpdates
      { h.stopUpdates clientId with
        clients := propSet (h.stopUpdates clientId).clients clientId
          { client with updateMode := mode } } clientId).intervals clientId = some [] := by
    rw [startUpdates_intervals]
    have : propGet (propSet (h.stopUpdates clientId).clients clientId
        { client with updateMode := mode }) clientId
        = some { client with updateMode := mode } := propGet_propSet_same _ _ _
    show (match propGet (propSet (h.stopUpdates clientId).clients clientId
        { client with updateMode := mode }) clientId with
      | some client => if clientId = clientId then some (startUpdates client) else _
      | none => _) = some []
    rw [this]
    simp only [if_true]
    rw [startUpdates_of_other_mode _ h1 h2 h3]
  refine ⟨hc, hi, rfl, ?_⟩
  intro n o2 delivered
  exact ticks_of_no_timer stringify initializeData clientId delivered _ o2 hi n

set_option maxRecDepth 100000 in
/-- C30 on `sampleHandler`: `c1` asks for the mode `turbo`. -/
theorem C30_unvalidated_mode_witness :
    propGet sampleHandler.clients "c1" = some fullClient
    ∧ fullClient.isActive = true
    ∧ "turbo" ≠ "full" ∧ "turbo" ≠ "delta" ∧ "turbo" ≠ "hybrid"
    ∧ propGet (sampleHandler.setUpdateMode typeOnly "c1" "turbo"
        (scriptedOracle [] 1704100000000) true).1.intervals "c1" = some []
    ∧ (sampleHandler.setUpdateMode typeOnly "c1" "turbo"
        (scriptedOracle [] 1704100000000) true).2.1
        = [("c1", "\x7b\"type\":\"mode_changed\"\x7d")] :=
  ⟨by decide!, by decide, by decide, by decide, by decide,
   (C30_unvalidated_mode sampleHandler typeOnly sampleData "c1" fullClient "turbo"
     (scriptedOracle [] 1704100000000) (by decide!) (by decide) (by decide) (by decide)
     (by decide)).2.1,
   (C30_unvalidated_mode sampleHandler typeOnly sampleData "c1" fullClient "turbo"
     (scriptedOracle [] 1704100000000) (by decide!) (by decide) (by decide) (by decide)
     (by decide)).2.2.1⟩

/-! ### The update frequency of the client -/

set_option maxRecDepth 100000 in
/-- C21 (update frequency window, which fails on the code).  An active client receives
`delta_update` frames at 2000, 3000 and 5000 ms.  After the second one, two substantive
messages are counted and `updateFrequency` is still 0, where one message per second is
claimed; after the third one it is 1, the rate between the first two, where 2 messages in
3 seconds are claimed: `updateMetrics` reads the history before the current message is
put into it. -/
theorem C21_update_frequency_lags_one_message :
    (activeService.runEvents (threeFrames.take 2)).1.performanceMetrics.messagesReceived = 2
    ∧ (activeService.runEvents (threeFrames.take 2)).1.performanceMetrics.updateFrequency
        = .finite 0
    ∧ perSecond 1 (3000 - 2000) = .finite 1
    ∧ (activeService.runEvents threeFrames).1.performanceMetrics.messagesReceived = 3
    ∧ (activeService.runEvents threeFrames).1.performanceMetrics.updateFrequency = .finite 1
    ∧ perSecond 2 (5000 - 2000) = .finite (2 / 3) := by
  decide!

/-! ### The aggregate metrics -/

set_option maxRecDepth 100000 in
/-- C24 (aggregate metrics, which are not recomputed on the code).  No pass writes
`data.metrics`: after `updateVitals()` and after `updateNonCriticalData()` it is what it
was before.  On `sampleStore`, whose metrics are the counts, with the draws of
`statusOracle`, `updateNonCriticalData()` makes `P001` critical and puts `EQ001` in
maintenance, and records both changes; the metrics still say 0 critical patients and 3
active pieces of equipment where the counts are 1 and 2. -/
theorem C24_metrics_are_not_recomputed :
    (∀ (s : Store) (o : Oracle), (updateVitals s o).2.1.metrics = s.metrics
        ∧ (updateNonCriticalData s o).2.1.metrics = s.metrics)
    ∧ sampleStore.metrics = computeMetrics sampleStore.patients sampleStore.equipment
    ∧ (updateNonCriticalData sampleStore statusOracle).1
        = [equipmentChange "EQ001" "status" (.str "active") (.str "maintenance"),
           patientChange "P001" "status" (.str "stable") (.str "critical")]
    ∧ (updateNonCriticalData sampleStore statusOracle).2.1.metrics
        = { totalPatients := 3, criticalPatients := 0, activeEquipment := 3 }
    ∧ computeMetrics (updateNonCriticalData sampleStore statusOracle).2.1.patients
          (updateNonCriticalData sampleStore statusOracle).2.1.equipment
        = { totalPatients := 3, criticalPatients := 1, activeEquipment := 2 } := by
  refine ⟨fun s o => ⟨rfl, rfl⟩, ?_, ?_, ?_, ?_⟩ <;> decide!

/-! ### The grouping of change records -/

theorem lastValue_isSome (coll id path : String) (changes : List Change) :
    (lastValue coll id path changes).isSome = true
      ↔ ∃ c ∈ changes, c.entityType = coll ∧ c.entityId = id ∧ c.path = path := by
  induction changes with
  | nil => simp [lastValue]
  | cons c rest ih =>
    rw [lastValue]
    cases hr : lastValue coll id path rest with
    | some v =>
      rw [hr] at ih
      obtain ⟨d, hd, hm⟩ := ih.mp rfl
      simp only [Option.isSome_some, true_iff]
      exact ⟨d, List.mem_cons_of_mem _ hd, hm⟩
    | none =>
      rw [hr] at ih
      have hnone : ¬ ∃ d ∈ rest, d.entityType = coll ∧ d.entityId = id ∧ d.path = path :=
        fun x => by have := ih.mpr x; cases this
      by_cases hm : c.entityType = coll ∧ c.entityId = id ∧ c.path = path
      · simp only [hm, and_self, if_true, Option.isSome_some, true_iff]
        exact ⟨c, List.mem_cons_self _ _, hm⟩
      · simp only [hm, if_false, Option.isSome_none, Bool.false_eq_true, false_iff]
        rintro ⟨d, hd, hdm⟩
        rcases List.mem_cons.mp hd with e | e
        · subst e; exact hm hdm
        · exact hnone ⟨d, e, hdm⟩

theorem lastValue_eq_some (coll id path : String) (v : JVal) (changes : List Change) :
    lastValue coll id path changes = some v
      ↔ ∃ before c after, changes = before ++ c :: after
          ∧ (c.entityType = coll ∧ c.entityId = id ∧ c.path = path) ∧ c.newValue = v
          ∧ ∀ d ∈ after, ¬ (d.entityType = coll ∧ d.entityId = id ∧ d.path = path) := by
  induction changes with
  | nil => simp [lastValue]
  | cons c rest ih =>
    rw [lastValue]
    cases hr : lastValue coll id path rest with
    | some w =>
      rw [hr] at ih
      simp only [Option.some.injEq]
      constructor
      · intro e
        obtain ⟨before, d, after, h1, h2, h3, h4⟩ := ih.mp (congrArg some e)
        exact ⟨c :: before, d, after, by rw [h1]; rfl, h2, h3, h4⟩
      · rintro ⟨before, d, after, h1, h2, h3, h4⟩
        cases before with
        | nil =>
          simp only [List.nil_append, List.cons.injEq] at h1
          obtain ⟨_, h1⟩ := h1
          subst h1
          have := lastValue_eq_none h4
          rw [this] at hr
          cases hr
        | cons b before =>
          simp only [List.cons_append, List.cons.injEq] at h1
          exact Option.some.inj (ih.mpr ⟨before, d, after, h1.2, h2, h3, h4⟩)
    | none =>
      rw [hr] at ih
      have hnone : ∀ d ∈ rest, ¬ (d.entityType = coll ∧ d.entityId = id ∧ d.path = path) := by
        intro d hd hm
        have := (lastValue_isSome coll id path rest).mpr ⟨d, hd, hm⟩
        rw [hr] at this
        cases this
      by_cases hm : c.entityType = coll ∧ c.entityId = id ∧ c.path = path
      · simp only [hm, and_self, if_true, Option.some.injEq]
        constructor
        · intro e
          exact ⟨[], c, rest, rfl, hm, e, hnone⟩
        · rintro ⟨before, d, after, h1, h2, h3, h4⟩
          cases before with
          | nil =>
            simp only [List.nil_append, List.cons.injEq] at h1
            rw [h1.1]; exact h3
          | cons b before =>
            simp only [List.cons_append, List.cons.injEq] at h1
            exact absurd h2 (hnone d (by rw [h1.2]; simp))
      · simp only [hm, if_false]
        constructor
        · intro e; cases e
        · rintro ⟨before, d, after, h1, h2, h3, h4⟩
          cases before with
          | nil =>
            simp only [List.nil_append, List.cons.injEq] at h1
            rw [h1.1] at hm
            exact absurd h2 hm
          | cons b before =>
            simp only [List.cons_append, List.cons.injEq] at h1
            exact absurd h2 (hnone d (by rw [h1.2]; simp))

/-- C26 (Patch grouping).  For every list of change records, the Patch that
`changesToKeyValue` builds holds a value for a collection, an entity id and a field path
exactly when some record of the list is filed under them (collection `patients` when its
`patientId` is truthy, else `equipment`; entity id `patientId || equipmentId`); the value
is then the `newValue` of the last such record.  No key occurs twice in the Patch, at any
of its three levels. -/
theorem C26_patch_grouping (changes : List Change) (coll id path : String) :
    ((Patch.get? (changesToKeyValue changes) coll id path).isSome = true
        ↔ ∃ c ∈ changes, c.entityType = coll ∧ c.entityId = id ∧ c.path = path)
    ∧ (∀ v : JVal, Patch.get? (changesToKeyValue changes) coll id path = some v
        ↔ ∃ before c after, changes = before ++ c :: after
            ∧ (c.entityType = coll ∧ c.entityId = id ∧ c.path = path) ∧ c.newValue = v
            ∧ ∀ d ∈ after, ¬ (d.entityType = coll ∧ d.entityId = id ∧ d.path = path))
    ∧ Patch.nodupKeys (changesToKeyValue changes) := by
  rw [get?_changesToKeyValue]
  exact ⟨lastValue_isSome coll id path changes,
    fun v => lastValue_eq_some coll id path v changes, changesToKeyValue_nodupKeys changes⟩

/-! ### The ranges of the adjusted vitals -/

theorem adjustValue_bounds (current min max maxChange : ℚ) (o : Oracle) (h : min ≤ max) :
    min ≤ (adjustValue current min max maxChange o).1
    ∧ (adjustValue current min max maxChange o).1 ≤ max := by
  unfold adjustValue
  simp only []
  exact ⟨le_max_left _ _, max_le h (min_le_left _ _)⟩

theorem adjustVitals_eq (v : Vitals) (o : Oracle) :
    adjustVitals v o
      = gatedAdjust 0.4
          (fun v o =>
            ({ v with
                bloodPressure :=
                  { v.bloodPressure with
                    systolic := (adjustValue v.bloodPressure.systolic 90 140 5 o).1,
                    diastolic := (adjustValue v.bloodPressure.diastolic 60 90 3
                      (adjustValue v.bloodPressure.systolic 90 140 5 o).2).1 } },
              (adjustValue v.bloodPressure.diastolic 60 90 3
                (adjustValue v.bloodPressure.systolic 90 140 5 o).2).2))
          (gatedAdjust 0.6
            (fun v o =>
              ({ v with respiratoryRate := (adjustValue v.respiratoryRate 12 20 2 o).1 },
                (adjustValue v.respiratoryRate 12 20 2 o).2))
            (gatedAdjust 0.7
              (fun v o =>
                ({ v with temperature := (adjustValue v.temperature 36.0 37.5 0.3 o).1 },
                  (adjustValue v.temperature 36.0 37.5 0.3 o).2))
              (gatedAdjust 0.5
                (fun v o =>
                  ({ v with spo2 := (adjustValue v.spo2 95 100 2 o).1 },
                    (adjustValue v.spo2 95 100 2 o).2))
                (gatedAdjust 0.3
                  (fun v o =>
                    ({ v with heartRate := (adjustValue v.heartRate 60 100 5 o).1 },
                      (adjustValue v.heartRate 60 100 5 o).2))
                  (v, o))))) := by
  rfl

theorem adjustedOrKept_trans {a b c min max maxChange : ℚ}
    (h1 : adjustedOrKept a b min max maxChange) (h2 : adjustedOrKept b c min max maxChange) :
    adjustedOrKept a c min max maxChange := by
  rcases h2 with e | h
  · rw [e]; exact h1
  · exact Or.inr h

theorem adjustedFrom_refl (v : Vitals) : Vitals.adjustedFrom v v :=
  ⟨Or.inl rfl, Or.inl rfl, Or.inl rfl, Or.inl rfl, Or.inl rfl, Or.inl rfl⟩

theorem adjustedFrom_trans {a b c : Vitals} (h1 : Vitals.adjustedFrom a b)
    (h2 : Vitals.adjustedFrom b c) : Vitals.adjustedFrom a c :=
  ⟨adjustedOrKept_trans h1.1 h2.1, adjustedOrKept_trans h1.2.1 h2.2.1,
   adjustedOrKept_trans h1.2.2.1 h2.2.2.1, adjustedOrKept_trans h1.2.2.2.1 h2.2.2.2.1,
   adjustedOrKept_trans h1.2.2.2.2.1 h2.2.2.2.2.1,
   adjustedOrKept_trans h1.2.2.2.2.2 h2.2.2.2.2.2⟩

theorem gatedAdjust_adjustedFrom (threshold : ℚ) (adjust : Vitals → Oracle → Vitals × Oracle)
    (s : Vitals × Oracle) (h : ∀ v o, Vitals.adjustedFrom v (adjust v o).1) :
    Vitals.adjustedFrom s.1 (gatedAdjust threshold adjust s).1 := by
  unfold gatedAdjust
  split
  · exact h _ _
  · exact adjustedFrom_refl _

theorem adjustVitals_adjustedFrom (v : Vitals) (o : Oracle) :
    Vitals.adjustedFrom v (adjustVitals v o).1 := by
  rw [adjustVitals_eq]
  refine adjustedFrom_trans (adjustedFrom_trans (adjustedFrom_trans (adjustedFrom_trans
    (gatedAdjust_adjustedFrom 0.3 _ (v, o) ?_) (gatedAdjust_adjustedFrom 0.5 _ _ ?_))
    (gatedAdjust_adjustedFrom 0.7 _ _ ?_)) (gatedAdjust_adjustedFrom 0.6 _ _ ?_))
    (gatedAdjust_adjustedFrom 0.4 _ _ ?_)
  · intro w q
    exact ⟨Or.inr ⟨_, _, rfl⟩, Or.inl rfl, Or.inl rfl, Or.inl rfl, Or.inl rfl, Or.inl rfl⟩
  · intro w q
    exact ⟨Or.inl rfl, Or.inr ⟨_, _, rfl⟩, Or.inl rfl, Or.inl rfl, Or.inl rfl, Or.inl rfl⟩
  · intro w q
    exact ⟨Or.inl rfl, Or.inl rfl, Or.inr ⟨_, _, rfl⟩, Or.inl rfl, Or.inl rfl, Or.inl rfl⟩
  · intro w q
    exact ⟨Or.inl rfl, Or.inl rfl, Or.inl rfl, Or.inr ⟨_, _, rfl⟩, Or.inl rfl, Or.inl rfl⟩
  · intro w q
    exact ⟨Or.inl rfl, Or.inl rfl, Or.inl rfl, Or.inl rfl, Or.inr ⟨_, _, rfl⟩,
      Or.inr ⟨_, _, rfl⟩⟩

theorem keptOrWithin_of_adjustedOrKept {old new min max maxChange : ℚ} (h : min ≤ max)
    (ha : adjustedOrKept old new min max maxChange) : keptOrWithin old new min max := by
  rcases ha with e | ⟨current, o, e⟩
  · exact Or.inl e
  · rw [e]
    exact Or.inr (adjustValue_bounds current min max maxChange o h)

theorem keptOrInRange_of_adjustedFrom {old new : Vitals} (h : Vitals.adjustedFrom old new) :
    Vitals.keptOrInRange old new :=
  ⟨keptOrWithin_of_adjustedOrKept (by norm_num) h.1,
   keptOrWithin_of_adjustedOrKept (by norm_num) h.2.1,
   keptOrWithin_of_adjustedOrKept (by norm_num) h.2.2.1,
   keptOrWithin_of_adjustedOrKept (by norm_num) h.2.2.2.1,
   keptOrWithin_of_adjustedOrKept (by norm_num) h.2.2.2.2.1,
   keptOrWithin_of_adjustedOrKept (by norm_num) h.2.2.2.2.2⟩

theorem updatePatientVitals_vitals (patientId : String) (patient : Patient) (o : Oracle) :
    (updatePatientVitals patientId patient o).1.vitals = (adjustVitals patient.vitals o).1 := by
  rw [updatePatientVitals_eq]
  split <;> rfl

theorem updateSelected_adjustedFrom (selected : List String) :
    ∀ (patients : List (String × Patient)) (o : Oracle) (id : String) (p : Patient),
      propGet patients id = some p →
      ∃ p2, propGet (updateSelected selected patients o).1 id = some p2
        ∧ Vitals.adjustedFrom p.vitals p2.vitals := by
  induction selected with
  | nil =>
    intro patients o id p hp
    exact ⟨p, hp, adjustedFrom_refl _⟩
  | cons sid rest ih =>
    intro patients o id p hp
    cases hq : propGet patients sid with
    | none =>
      rw [updateSelected_cons_none rest o hq]
      exact ih patients o id p hp
    | some q =>
      rw [updateSelected_cons_some rest o hq]
      by_cases hk : sid = id
      · subst hk
        rw [hq] at hp
        simp only [Option.some.injEq] at hp
        subst hp
        obtain ⟨p2, hp2, hval⟩ := ih (propSet patients sid (updatePatientVitals sid q o).1)
          (updatePatientVitals sid q o).2.2 sid (updatePatientVitals sid q o).1
          (propGet_propSet_same _ _ _)
        refine ⟨p2, hp2, adjustedFrom_trans ?_ hval⟩
        rw [updatePatientVitals_vitals]
        exact adjustVitals_adjustedFrom _ _
      · exact ih (propSet patients sid (updatePatientVitals sid q o).1)
          (updatePatientVitals sid q o).2.2 id p
          (by rw [propGet_propSet_ne _ _ (Ne.symm hk)]; exact hp)

theorem updateVitals_adjustedFrom (s : Store) (o : Oracle) (id : String) (p : Patient)
    (hp : propGet s.patients id = some p) :
    ∃ p2, propGet (updateVitals s o).2.1.patients id = some p2
      ∧ Vitals.adjustedFrom p.vitals p2.vitals :=
  updateSelected_adjustedFrom (patientsToUpdate s.patients o).1 s.patients
    (patientsToUpdate s.patients o).2 id p hp

/-- C25 (clamped adjustment).  Whatever the current value, the step and the draw,
`adjustValue(current, min, max, maxChange)` lies between `min` and `max` when
`min ≤ max`.  Each of the six fields that `updateVitals` adjusts (heart rate 60-100, SpO2
95-100, temperature 36.0-37.5, respiratory rate 12-20, systolic 90-140, diastolic 60-90)
is, after the adjustments of one patient and after the whole pass, either the value it had
before or a result of `adjustValue` with the bounds of its range, and so within its range
whatever it was before. -/
theorem C25_clamped_adjustment (current min max maxChange : ℚ) (o : Oracle)
    (h : min ≤ max) :
    (min ≤ (adjustValue current min max maxChange o).1
      ∧ (adjustValue current min max maxChange o).1 ≤ max)
    ∧ (∀ (v : Vitals) (o2 : Oracle),
        Vitals.adjustedFrom v (adjustVitals v o2).1
        ∧ Vitals.keptOrInRange v (adjustVitals v o2).1)
    ∧ ∀ (s : Store) (o3 : Oracle) (id : String) (p : Patient),
        propGet s.patients id = some p →
        ∃ p2, propGet (updateVitals s o3).2.1.patients id = some p2
          ∧ Vitals.adjustedFrom p.vitals p2.vitals
          ∧ Vitals.keptOrInRange p.vitals p2.vitals := by
  refine ⟨adjustValue_bounds current min max maxChange o h, ?_, ?_⟩
  · intro v o2
    exact ⟨adjustVitals_adjustedFrom v o2,
      keptOrInRange_of_adjustedFrom (adjustVitals_adjustedFrom v o2)⟩
  · intro s o3 id p hp
    obtain ⟨p2, hp2, ha⟩ := updateVitals_adjustedFrom s o3 id p hp
    exact ⟨p2, hp2, ha, keptOrInRange_of_adjustedFrom ha⟩

set_option maxRecDepth 100000 in
/-- C25 for a heart rate of 150 and the draw 0.75: the adjusted value is 100. -/
theorem C25_clamped_adjustment_witness :
    (60 : ℚ) ≤ 100
    ∧ (adjustValue 150 60 100 5 (scriptedOracle [0.75] 0)).1 = 100
    ∧ (60 : ℚ) ≤ (adjustValue 150 60 100 5 (scriptedOracle [0.75] 0)).1
    ∧ (adjustValue 150 60 100 5 (scriptedOracle [0.75] 0)).1 ≤ 100 :=
  ⟨by decide!, by decide!,
   (C25_clamped_adjustment 150 60 100 5 (scriptedOracle [0.75] 0) (by decide!)).1.1,
   (C25_clamped_adjustment 150 60 100 5 (scriptedOracle [0.75] 0) (by decide!)).1.2⟩

/-! ### Patches for absent entities -/

theorem getProp_isSome_writeBack (x : JVal) (id k : String) (v : JVal)
    (h : (x.getProp id).isSome = true) :
    ((x.writeBack id v).getProp k).isSome = (x.getProp k).isSome := by
  cases x with
  | obj kvs =>
    show (propGet (propSet kvs id v) k).isSome = (propGet kvs k).isSome
    rw [propGet_propSet]
    by_cases e : k = id
    · subst e
      simp only [if_true, Option.isSome_some]
      exact h.symm
    · simp [e]
  | arr xs =>
    simp only [JVal.writeBack]
    cases hi : arrayIndex xs.length id with
    | none => rfl
    | some i =>
      simp only [JVal.getProp, List.length_set]
      cases hj : arrayIndex xs.length k with
      | none => rfl
      | some j =>
        have hlt := (arrayIndex_spec hj).2
        simp [List.getElem?_set, hlt]
  | null => rfl
  | bool b => rfl
  | num q => rfl
  | str s => rfl

theorem applyEntities_isSome (ents : List (String × List (String × JVal))) :
    ∀ (coll coll2 : JVal), applyEntities coll ents = .ok coll2 →
      ∀ k, (coll2.getProp k).isSome = (coll.getProp k).isSome := by
  induction ents with
  | nil =>
    intro coll coll2 h k
    simp only [applyEntities, Except.ok.injEq] at h
    rw [h]
  | cons ent rest ih =>
    intro coll coll2 h k
    obtain ⟨eid, paths⟩ := ent
    rw [applyEntities_cons] at h
    cases hq : coll.getProp eid with
    | none =>
      simp only [hq] at h
      exact ih coll coll2 h k
    | some entity =>
      simp only [hq] at h
      by_cases ht : entity.truthy = true
      · simp only [ht, if_true] at h
        cases ha : applyPaths entity paths with
        | error e => rw [ha] at h; cases h
        | ok e2 =>
          rw [ha] at h
          have := ih _ coll2 h k
          rw [this]
          exact getProp_isSome_writeBack coll eid k e2 (by rw [hq]; rfl)
      · simp only [ht] at h
        exact ih coll coll2 h k

theorem filter_congr_fun {α : Type} (l : List α) (f g : α → Bool) (h : ∀ x, f x = g x) :
    l.filter f = l.filter g := by
  have : f = g := funext h
  rw [this]

theorem applyEntities_filter (ents : List (String × List (String × JVal))) :
    ∀ coll : JVal,
      applyEntities coll (ents.filter (fun e => (coll.getProp e.1).isSome))
        = applyEntities coll ents := by
  induction ents with
  | nil => intro coll; rfl
  | cons ent rest ih =>
    intro coll
    obtain ⟨eid, paths⟩ := ent
    cases hq : coll.getProp eid with
    | none =>
      have : ((eid, paths) :: rest).filter (fun e => (coll.getProp e.1).isSome)
          = rest.filter (fun e => (coll.getProp e.1).isSome) := by
        simp [List.filter, hq]
      rw [this, ih coll, applyEntities_cons, hq]
    | some entity =>
      have : ((eid, paths) :: rest).filter (fun e => (coll.getProp e.1).isSome)
          = (eid, paths) :: rest.filter (fun e => (coll.getProp e.1).isSome) := by
        simp [List.filter, hq]
      rw [this, applyEntities_cons, applyEntities_cons, hq]
      simp only []
      by_cases ht : entity.truthy = true
      · simp only [ht, if_true]
        cases ha : applyPaths entity paths with
        | error e => rfl
        | ok e2 =>
          show applyEntities (coll.writeBack eid e2)
              (rest.filter (fun e => (coll.getProp e.1).isSome))
            = applyEntities (coll.writeBack eid e2) rest
          rw [← ih (coll.writeBack eid e2)]
          rw [filter_congr_fun rest _ _
            (fun e => getProp_isSome_writeBack coll eid e.1 e2 (by rw [hq]; rfl))]
      · simp only [ht]
        exact ih coll

theorem dropAbsent_cons_none (fields : List (String × JVal)) (c : String)
    (ents : List (String × List (String × JVal))) (rest : Patch)
    (hq : propGet fields c = none) :
    Patch.dropAbsent (.obj fields) ((c, ents) :: rest) = Patch.dropAbsent (.obj fields) rest := by
  simp [Patch.dropAbsent, List.filter, JVal.getProp, hq]

theorem dropAbsent_cons_some (fields : List (String × JVal)) (c : String)
    (ents : List (String × List (String × JVal))) (rest : Patch) (coll : JVal)
    (hq : propGet fields c = some coll) :
    Patch.dropAbsent (.obj fields) ((c, ents) :: rest)
      = (c, ents.filter (fun e => (coll.getProp e.1).isSome))
          :: Patch.dropAbsent (.obj fields) rest := by
  simp [Patch.dropAbsent, List.filter, JVal.getProp, JVal.holdsEntity, hq]

theorem dropAbsent_propSet (fields : List (String × JVal)) (c : String) (coll coll2 : JVal)
    (hq : propGet fields c = some coll)
    (hs : ∀ k, (coll2.getProp k).isSome = (coll.getProp k).isSome) (p : Patch) :
    Patch.dropAbsent (.obj (propSet fields c coll2)) p = Patch.dropAbsent (.obj fields) p := by
  have h1 : ∀ k : String, ((JVal.obj (propSet fields c coll2)).getProp k).isSome
      = ((JVal.obj fields).getProp k).isSome := by
    intro k
    show (propGet (propSet fields c coll2) k).isSome = (propGet fields k).isSome
    rw [propGet_propSet]
    by_cases e : k = c
    · subst e; simp [hq]
    · simp [e]
  have h2 : ∀ k id : String, (JVal.obj (propSet fields c coll2)).holdsEntity k id
      = (JVal.obj fields).holdsEntity k id := by
    intro k id
    show (match propGet (propSet fields c coll2) k with
        | some x => (x.getProp id).isSome
        | none => false)
      = (match propGet fields k with
        | some x => (x.getProp id).isSome
        | none => false)
    rw [propGet_propSet]
    by_cases e : k = c
    · subst e; simp [hq, hs]
    · simp [e]
  unfold Patch.dropAbsent
  rw [filter_congr_fun p _ _ (fun ce => h1 ce.1)]
  congr 1
  funext ce
  rw [filter_congr_fun ce.2 _ _ (fun e => h2 ce.1 e.1)]

theorem applyCollections_dropAbsent (p : Patch) :
    ∀ fields : List (String × JVal),
      applyCollections (.obj fields) (Patch.dropAbsent (.obj fields) p)
        = applyCollections (.obj fields) p := by
  induction p with
  | nil => intro fields; rfl
  | cons ce rest ih =>
    intro fields
    obtain ⟨c, ents⟩ := ce
    have hread : (JVal.obj fields).readProp c = .ok (propGet fields c) := rfl
    cases hq : propGet fields c with
    | none =>
      rw [dropAbsent_cons_none fields c ents rest hq, ih fields, applyCollections_cons,
        hread, hq]
      rfl
    | some coll =>
      rw [dropAbsent_cons_some fields c ents rest coll hq, applyCollections_cons,
        applyCollections_cons, hread, hq]
      show (if coll.truthy = true then
          (applyEntities coll (ents.filter (fun e => (coll.getProp e.1).isSome))).bind
            (fun coll2 =>
              applyCollections ((JVal.obj fields).writeBack c coll2)
                (Patch.dropAbsent (.obj fields) rest))
          else applyCollections (.obj fields) (Patch.dropAbsent (.obj fields) rest))
        = (if coll.truthy = true then
          (applyEntities coll ents).bind (fun coll2 =>
            applyCollections ((JVal.obj fields).writeBack c coll2) rest)
          else applyCollections (.obj fields) rest)
      rw [applyEntities_filter ents coll]
      by_cases ht : coll.truthy = true
      · simp only [ht, if_true]
        cases ha : applyEntities coll ents with
        | error e => rfl
        | ok coll2 =>
          show applyCollections (.obj (propSet fields c coll2))
              (Patch.dropAbsent (.obj fields) rest)
            = applyCollections (.obj (propSet fields c coll2)) rest
          rw [← ih (propSet fields c coll2),
            dropAbsent_propSet fields c coll coll2 hq (applyEntities_isSome ents coll coll2 ha)]
      · simp only [ht]
        exact ih fields

theorem propSet_of_propGet {α : Type} (l : List (String × α)) (k : String) (v : α)
    (h : propGet l k = some v) : propSet l k v = l := by
  induction l with
  | nil => simp [propGet] at h
  | cons hd tl ih =>
    obtain ⟨k2, w⟩ := hd
    by_cases e : k2 = k
    · simp only [propGet, e, if_true, Option.some.injEq] at h
      simp [propSet, e, h]
    · simp only [propGet, e, if_false] at h
      simp [propSet, e, ih h]

theorem applyCollections_of_no_entity (p : Patch) (fields : List (String × JVal))
    (h : ∀ ce ∈ p, ce.2 = []) : applyCollections (.obj fields) p = .ok (.obj fields) := by
  induction p with
  | nil => rfl
  | cons ce rest ih =>
    obtain ⟨c, ents⟩ := ce
    have he : ents = [] := h (c, ents) (List.mem_cons_self _ _)
    subst he
    have hrest := ih (fun x hx => h x (List.mem_cons_of_mem _ hx))
    have hread : (JVal.obj fields).readProp c = .ok (propGet fields c) := rfl
    rw [applyCollections_cons, hread]
    cases hq : propGet fields c with
    | none => exact hrest
    | some coll =>
      show (if coll.truthy = true then
          (applyEntities coll []).bind (fun coll2 =>
            applyCollections ((JVal.obj fields).writeBack c coll2) rest)
          else applyCollections (.obj fields) rest) = _
      by_cases ht : coll.truthy = true
      · simp only [ht, if_true]
        show applyCollections (.obj (propSet fields c coll)) rest = _
        rw [propSet_of_propGet fields c coll hq]
        exact hrest
      · simp only [ht]
        exact hrest

theorem dropAbsent_of_absent (fields : List (String × JVal)) (p : Patch)
    (h : ∀ ce ∈ p, ∀ e ∈ ce.2, (JVal.obj fields).holdsEntity ce.1 e.1 = false) :
    ∀ ce ∈ Patch.dropAbsent (.obj fields) p, ce.2 = [] := by
  intro ce hce
  unfold Patch.dropAbsent at hce
  simp only [List.mem_map, List.mem_filter] at hce
  obtain ⟨⟨c, ents⟩, ⟨hm, _⟩, e⟩ := hce
  rw [← e]
  show ents.filter (fun e => (JVal.obj fields).holdsEntity c e.1) = []
  rw [List.filter_eq_nil_iff]
  intro x hx
  have := h (c, ents) hm x hx
  simp [this]

/-- C29 (a Patch for an absent entity is skipped).  On a mirror that is an object,
`applyDeltaUpdates` gives the same outcome for a Patch and for the Patch without its
entries that name a collection absent from the mirror or an entity id absent from its
collection: such entries raise nothing, create nothing and change nothing.  When every
entity the Patch names is absent, the call returns the mirror with the timestamp set and
nothing else changed. -/
theorem C29_absent_entity_is_skipped (fields : List (String × JVal)) (p : Patch)
    (stamp : String) :
    applyDeltaUpdates (.obj fields) p stamp
        = applyDeltaUpdates (.obj fields) (Patch.dropAbsent (.obj fields) p) stamp
    ∧ ((∀ ce ∈ p, ∀ e ∈ ce.2, (JVal.obj fields).holdsEntity ce.1 e.1 = false) →
        applyDeltaUpdates (.obj fields) p stamp
            = .ok (.obj (propSet fields "timestamp" (.str stamp)))
        ∧ ∀ k : String, k ≠ "timestamp" →
            propGet (propSet fields "timestamp" (JVal.str stamp)) k = propGet fields k) := by
  have h1 : applyDeltaUpdates (.obj fields) p stamp
      = applyDeltaUpdates (.obj fields) (Patch.dropAbsent (.obj fields) p) stamp := by
    unfold applyDeltaUpdates
    rw [applyCollections_dropAbsent p fields]
  refine ⟨h1, fun h => ⟨?_, fun k hk => propGet_propSet_ne _ _ hk⟩⟩
  rw [h1]
  unfold applyDeltaUpdates
  rw [applyCollections_of_no_entity _ fields (dropAbsent_of_absent fields p h)]
  rfl

set_option maxRecDepth 100000 in
/-- C29 on `smallMirror` and `strayPatch`: neither `P009` nor `beds` is created, `P001`
is as before, and the timestamp is set. -/
theorem C29_absent_entity_is_skipped_witness :
    (∀ ce ∈ strayPatch, ∀ e ∈ ce.2, (JVal.obj smallMirror).holdsEntity ce.1 e.1 = false)
    ∧ applyDeltaUpdates (.obj smallMirror) strayPatch "2024-01-01T09:00:05.000Z"
        = .ok (.obj [("patients", .obj [("P001", .obj [("status", .str "stable")])]),
                     ("timestamp", .str "2024-01-01T09:00:05.000Z")]) :=
  ⟨by decide!,
   ((C29_absent_entity_is_skipped smallMirror strayPatch "2024-01-01T09:00:05.000Z").2
     (by decide!)).1⟩

/-! ### The SpO2 through a pass -/

theorem diverge_medications_spo2 (x : String) :
    diverge (splitPath ("medications." ++ x)) ["vitals", "spo2"] = true := by
  obtain ⟨rest, h⟩ := splitPath_medications x
  rw [h]
  simp [diverge]

theorem lastValue_vitalsChanges_spo2 (coll id : String) (patientId : String)
    (oldVitals vitals : Vitals) :
    lastValue coll id "vitals.spo2" (vitalsChanges patientId oldVitals vitals)
      = lastValue coll id "vitals.spo2"
          (pushIfChanged patientId "vitals.spo2" oldVitals.spo2 vitals.spo2) := by
  unfold vitalsChanges
  simp only [lastValue_append]
  rw [lastValue_pushIfChanged_ne _ _ _ _ _ _ (by decide : "vitals.painScore" ≠ "vitals.spo2"),
    lastValue_pushIfChanged_ne _ _ _ _ _ _ (by decide : "vitals.urinOutput" ≠ "vitals.spo2"),
    lastValue_pushIfChanged_ne _ _ _ _ _ _ (by decide : "vitals.bloodGlucose" ≠ "vitals.spo2"),
    lastValue_pushIfChanged_ne _ _ _ _ _ _
      (by decide : "vitals.intracranialPressure" ≠ "vitals.spo2"),
    lastValue_pushIfChanged_ne _ _ _ _ _ _ (by decide : "vitals.cardiacOutput" ≠ "vitals.spo2"),
    lastValue_pushIfChanged_ne _ _ _ _ _ _
      (by decide : "vitals.centralVenousPressure" ≠ "vitals.spo2"),
    lastValue_pushIfChanged_ne _ _ _ _ _ _
      (by decide : "vitals.respiratoryRate" ≠ "vitals.spo2"),
    lastValue_pushIfChanged_ne _ _ _ _ _ _ (by decide : "vitals.temperature" ≠ "vitals.spo2"),
    lastValue_pushIfChanged_ne _ _ _ _ _ _
      (by decide : "vitals.bloodPressure.meanArterialPressure" ≠ "vitals.spo2"),
    lastValue_pushIfChanged_ne _ _ _ _ _ _
      (by decide : "vitals.bloodPressure.diastolic" ≠ "vitals.spo2"),
    lastValue_pushIfChanged_ne _ _ _ _ _ _
      (by decide : "vitals.bloodPressure.systolic" ≠ "vitals.spo2"),
    lastValue_pushIfChanged_ne _ _ _ _ _ _ (by decide : "vitals.heartRate" ≠ "vitals.spo2")]
  cases lastValue coll id "vitals.spo2"
    (pushIfChanged patientId "vitals.spo2" oldVitals.spo2 vitals.spo2) <;> rfl


theorem vitalsChanges_besideSpo2 {patientId : String} {oldVitals vitals : Vitals} {c : Change}
    (h : c ∈ vitalsChanges patientId oldVitals vitals) : besideSpo2 c.path := by
  unfold vitalsChanges at h
  simp only [List.mem_append, or_assoc] at h
  unfold besideSpo2
  rcases h with h | h | h | h | h | h | h | h | h | h | h | h | h <;>
    (rw [pushIfChanged_path h]; decide)

theorem updateMedication_besideSpo2 {patientId : String} {index : Nat} {m : Medication}
    {o : Oracle} {c : Change} (h : c ∈ (updateMedication patientId index m o).2.1) :
    diverge (splitPath c.path) ["vitals", "spo2"] = true := by
  unfold updateMedication at h
  simp only [] at h
  split at h
  · simp only [List.mem_cons, List.mem_singleton, List.not_mem_nil, or_false] at h
    rcases h with h | h <;> subst h <;>
      (simp only [patientChange, String.append_assoc]; exact diverge_medications_spo2 _)
  · simp at h

theorem updateMedications_besideSpo2 {patientId : String} (ms : List Medication) :
    ∀ (index : Nat) (o : Oracle) (c : Change),
      c ∈ (updateMedications patientId index ms o).2.1 →
      diverge (splitPath c.path) ["vitals", "spo2"] = true := by
  induction ms with
  | nil => intro index o c h; simp [updateMedications] at h
  | cons m rest ih =>
    intro index o c h
    simp only [updateMedications, List.mem_append] at h
    rcases h with h | h
    · exact updateMedication_besideSpo2 h
    · exact ih _ _ _ h

theorem diverge_ne_spo2 {path : String}
    (h : diverge (splitPath path) ["vitals", "spo2"] = true) :
    path ≠ "vitals.spo2" := by
  intro e
  subst e
  revert h
  decide

theorem updatePatientVitals_besideSpo2 {patientId : String} {p : Patient} {o : Oracle}
    {c : Change} (h : c ∈ (updatePatientVitals patientId p o).2.1) :
    besideSpo2 c.path := by
  rw [updatePatientVitals_eq] at h
  split at h
  · simp only [List.mem_append] at h
    rcases h with h | h
    · exact vitalsChanges_besideSpo2 h
    · exact Or.inr (updateMedications_besideSpo2 _ _ _ _ h)
  · exact vitalsChanges_besideSpo2 h

/-- The SpO2 of the patient after `updatePatientVitals` is the new value of the last
SpO2 record filed under its id, or the SpO2 before when there is none. -/
theorem updatePatientVitals_spo2 (patientId : String) (p : Patient) (o : Oracle)
    (hid : patientId ≠ "") :
    (lastValue "patients" patientId "vitals.spo2"
        (updatePatientVitals patientId p o).2.1).getD (JVal.num p.vitals.spo2)
      = JVal.num (updatePatientVitals patientId p o).1.vitals.spo2 := by
  have hmed : ∀ o2 : Oracle, lastValue "patients" patientId "vitals.spo2"
      (updateMedications patientId 0 p.medications o2).2.1 = none :=
    fun o2 => lastValue_eq_none (fun c hc hm =>
      diverge_ne_spo2 (updateMedications_besideSpo2 _ _ _ _ hc) hm.2.2)
  have hvit : (lastValue "patients" patientId "vitals.spo2"
      (vitalsChanges patientId (oldVitalsView p.vitals (adjustVitals p.vitals o).1)
        (adjustVitals p.vitals o).1)).getD (JVal.num p.vitals.spo2)
      = JVal.num (adjustVitals p.vitals o).1.spo2 := by
    rw [lastValue_vitalsChanges_spo2]
    unfold pushIfChanged
    simp only [oldVitalsView]
    split
    · simp [lastValue, patientChange, Change.entityType, Change.entityId, idTruthy, idKey, hid]
    · rename_i heq
      simp only [ne_eq, not_not] at heq
      simp [lastValue, heq]
  rw [updatePatientVitals_eq]
  split
  · simp only [lastValue_append, hmed]
    exact hvit
  · exact hvit

theorem updateSelected_spo2 (selected : List String) :
    ∀ (patients : List (String × Patient)) (o : Oracle) (id : String), id ≠ "" →
      (updateSelected selected patients o).1.map Prod.fst = patients.map Prod.fst
      ∧ ∀ p, propGet patients id = some p →
          ∃ p2, propGet (updateSelected selected patients o).1 id = some p2
            ∧ JVal.num p2.vitals.spo2
              = (lastValue "patients" id "vitals.spo2"
                  (updateSelected selected patients o).2.1).getD (JVal.num p.vitals.spo2) := by
  induction selected with
  | nil =>
    intro patients o id _
    exact ⟨rfl, fun p hp => ⟨p, hp, rfl⟩⟩
  | cons sid rest ih =>
    intro patients o id hid
    cases hq : propGet patients sid with
    | none =>
      rw [updateSelected_cons_none rest o hq]
      exact ih patients o id hid
    | some q =>
      rw [updateSelected_cons_some rest o hq]
      obtain ⟨hkeys, hrest⟩ := ih (propSet patients sid (updatePatientVitals sid q o).1)
        (updatePatientVitals sid q o).2.2 id hid
      refine ⟨?_, ?_⟩
      · rw [hkeys, keys_propSet_of_mem _ _ _ (propGet_mem_keys hq)]
      · intro p hp
        simp only [lastValue_append]
        by_cases hk : sid = id
        · subst hk
          rw [hq] at hp
          simp only [Option.some.injEq] at hp
          subst hp
          obtain ⟨p2, hp2, hval⟩ := hrest (updatePatientVitals sid q o).1
            (propGet_propSet_same _ _ _)
          refine ⟨p2, hp2, ?_⟩
          rw [hval, ← updatePatientVitals_spo2 sid q o hid]
          cases lastValue "patients" sid "vitals.spo2"
            (updateSelected rest (propSet patients sid (updatePatientVitals sid q o).1)
              (updatePatientVitals sid q o).2.2).2.1 with
          | none => rfl
          | some v => rfl
        · obtain ⟨p2, hp2, hval⟩ := hrest p
            (by rw [propGet_propSet_ne _ _ (Ne.symm hk)]; exact hp)
          refine ⟨p2, hp2, ?_⟩
          rw [hval]
          have hnone : lastValue "patients" id "vitals.spo2"
              (updatePatientVitals sid q o).2.1 = none :=
            lastValue_eq_none (fun c hc hm =>
              not_filed_under_of_patientId (updatePatientVitals_patientId hc) hk
                ⟨hm.1, hm.2.1⟩)
          rw [hnone]
          cases lastValue "patients" id "vitals.spo2"
            (updateSelected rest (propSet patients sid (updatePatientVitals sid q o).1)
              (updatePatientVitals sid q o).2.2).2.1 with
          | none => rfl
          | some v => rfl

theorem updateSelected_besideSpo2 (selected : List String) :
    ∀ (patients : List (String × Patient)) (o : Oracle) (c : Change),
      c ∈ (updateSelected selected patients o).2.1 → besideSpo2 c.path := by
  induction selected with
  | nil => intro patients o c h; simp [updateSelected] at h
  | cons sid rest ih =>
    intro patients o c h
    cases hq : propGet patients sid with
    | none =>
      rw [updateSelected_cons_none rest o hq] at h
      exact ih _ _ _ h
    | some q =>
      rw [updateSelected_cons_some rest o hq] at h
      simp only [List.mem_append] at h
      rcases h with h | h
      · exact updatePatientVitals_besideSpo2 h
      · exact ih _ _ _ h

theorem besideSpo2_status : besideSpo2 "status" := Or.inr (by decide)

/-- The SpO2 values through one mutation pass: the patient ids stay, every record's path
is the SpO2's or parts ways with it, and the SpO2 of a patient after the pass
is the new value of the last SpO2 record filed under its id, or the SpO2
before when there is none. -/
theorem mutationPass_spo2 (s : Store) (o : Oracle) :
    (mutationPass s o).2.1.patients.map Prod.fst = s.patients.map Prod.fst
    ∧ (∀ c ∈ (mutationPass s o).1, besideSpo2 c.path)
    ∧ ∀ id p, id ≠ "" → propGet s.patients id = some p →
        ∃ p2, propGet (mutationPass s o).2.1.patients id = some p2
          ∧ JVal.num p2.vitals.spo2
            = (lastValue "patients" id "vitals.spo2" (mutationPass s o).1).getD
                (JVal.num p.vitals.spo2) := by
  have hpass : mutationPass s o
      = ((updateVitals s o).1 ++ (updateNonCriticalData (updateVitals s o).2.1
            (updateVitals s o).2.2).1,
         (updateNonCriticalData (updateVitals s o).2.1 (updateVitals s o).2.2).2.1,
         (updateNonCriticalData (updateVitals s o).2.1 (updateVitals s o).2.2).2.2) := rfl
  have hv : updateVitals s o
      = ((updateSelected (patientsToUpdate s.patients o).1 s.patients
            (patientsToUpdate s.patients o).2).2.1,
         { s with
            patients := (updateSelected (patientsToUpdate s.patients o).1 s.patients
              (patientsToUpdate s.patients o).2).1
            timestamp := (updateSelected (patientsToUpdate s.patients o).1 s.patients
              (patientsToUpdate s.patients o).2).2.2.nextISO.1 },
         (updateSelected (patientsToUpdate s.patients o).1 s.patients
              (patientsToUpdate s.patients o).2).2.2.nextISO.2) := rfl
  rw [hpass]
  simp only [updateNonCriticalData_eq]
  rw [hv]
  simp only []
  obtain ⟨hk2, hvit2, hpath2⟩ := updateAllPatients_spec
    ((updateSelected (patientsToUpdate s.patients o).1 s.patients
        (patientsToUpdate s.patients o).2).1.map Prod.fst)
    (updateSelected (patientsToUpdate s.patients o).1 s.patients
        (patientsToUpdate s.patients o).2).1
    (updateAllEquipment (s.equipment.map Prod.fst) s.equipment
        (updateSelected (patientsToUpdate s.patients o).1 s.patients
          (patientsToUpdate s.patients o).2).2.2.nextISO.2).2.2
  refine ⟨?_, ?_, ?_⟩
  · rw [hk2]
    exact (updateSelected_spo2 _ s.patients _ "x" (by decide)).1
  · intro c hc
    simp only [List.mem_append] at hc
    rcases hc with hc | hc | hc
    · exact updateSelected_besideSpo2 _ _ _ c hc
    · rw [updateAllEquipment_path _ _ _ c hc]; exact besideSpo2_status
    · rw [hpath2 c hc]; exact besideSpo2_status
  · intro id p hid hp
    obtain ⟨p1, hp1, hval1⟩ := (updateSelected_spo2 (patientsToUpdate s.patients o).1
      s.patients (patientsToUpdate s.patients o).2 id hid).2 p hp
    obtain ⟨p2, hp2, hv2⟩ := hvit2 id p1 hp1
    refine ⟨p2, hp2, ?_⟩
    rw [hv2, hval1]
    simp only [lastValue_append]
    have hne : ("status" : String) ≠ "vitals.spo2" := by decide
    rw [@lastValue_eq_none _ _ _ (updateAllPatients _ _ _).2.1
        (fun c hc hm => hne ((hpath2 c hc).symm.trans hm.2.2)),
      @lastValue_eq_none _ _ _ (updateAllEquipment _ _ _).2.1
        (fun c hc hm => hne ((updateAllEquipment_path _ _ _ c hc).symm.trans hm.2.2))]

/-! ### One connection in hybrid mode -/

theorem lastValue_filter (coll id path : String) (q : Change → Bool)
    (hq : ∀ c : Change, c.path = path → q c = true) (cs : List Change) :
    lastValue coll id path (cs.filter q) = lastValue coll id path cs := by
  induction cs with
  | nil => rfl
  | cons c rest ih =>
    cases hc : q c with
    | true =>
      rw [List.filter_cons_of_pos hc, lastValue, lastValue, ih]
    | false =>
      have hp : ¬ c.path = path := fun e => by rw [hq c e] at hc; cases hc
      rw [List.filter_cons_of_neg (by simp [hc]), lastValue, ih]
      cases lastValue coll id path rest with
      | some v => rfl
      | none => simp [hp]

theorem updateNonCriticalData_path (s : Store) (o : Oracle) :
    ∀ c ∈ (updateNonCriticalData s o).1, c.path = "status" := by
  intro c hc
  rw [updateNonCriticalData_eq] at hc
  simp only [List.mem_append] at hc
  rcases hc with hc | hc
  · exact updateAllEquipment_path _ _ _ c hc
  · exact (updateAllPatients_spec _ _ _).2.2 c hc

theorem mutationPass_changes (s : Store) (o : Oracle) :
    (mutationPass s o).1
      = (updateVitals s o).1
          ++ (updateNonCriticalData (updateVitals s o).2.1 (updateVitals s o).2.2).1 := rfl

theorem hybridSelect_mem (cycle : Nat) (vitalChanges nonCriticalChanges : List Change)
    (c : Change) (h : c ∈ (hybridSelect cycle vitalChanges nonCriticalChanges).1) :
    c ∈ vitalChanges ++ nonCriticalChanges := by
  unfold hybridSelect at h
  split at h
  · exact h
  · exact List.mem_append_left _ (List.mem_of_mem_filter h)

theorem lastValue_hybridSelect (coll id path : String) (cycle : Nat)
    (vitalChanges nonCriticalChanges : List Change)
    (hcrit : ∀ c : Change, c.path = path → isCritical c = true)
    (hnon : ∀ c ∈ nonCriticalChanges, c.path ≠ path) :
    lastValue coll id path (hybridSelect cycle vitalChanges nonCriticalChanges).1
      = lastValue coll id path (vitalChanges ++ nonCriticalChanges) := by
  unfold hybridSelect
  split
  · rfl
  · show lastValue coll id path (vitalChanges.filter isCritical) = _
    rw [lastValue_filter coll id path isCritical hcrit, lastValue_append,
      lastValue_eq_none (fun c hc hm => hnon c hc hm.2.2)]

theorem tickSession_hybrid (sess : Session) (s : Store) (o : Oracle)
    (h : sess.connection.intervals = [Timer.hybrid]) :
    tickSession sess s o =
      (deliver (hybridTick sess.connection.client s o).1.toList sess.mirror
          (hybridTick sess.connection.client s o).2.2.2).map
        (fun r =>
          ({ connection :=
               { sess.connection with client := (hybridTick sess.connection.client s o).2.1 },
             mirror := r.1 },
           (hybridTick sess.connection.client s o).2.2.1, r.2)) := by
  unfold tickSession
  have hstep : step sess.connection s o Event.tick
      = ((hybridTick sess.connection.client s o).1.toList,
         { sess.connection with client := (hybridTick sess.connection.client s o).2.1 },
         (hybridTick sess.connection.client s o).2.2.1,
         (hybridTick sess.connection.client s o).2.2.2) := by
    show (let r := fireTimers sess.connection.intervals sess.connection.client s o
          (r.1, { sess.connection with client := r.2.1 }, r.2.2.1, r.2.2.2)) = _
    rw [h]
    simp [fireTimers, runTimer]
  rw [hstep]

/-- One tick of a hybrid-mode session whose update, if any, is applied keeps the mirror in
agreement with the store on a vital `f`, held at `vitals.k`, that the critical cycle
sends. -/
theorem tickSession_hybrid_keeps (P k : String) (f : Vitals → ℚ)
    (hsplit : splitPath P = ["vitals", k])
    (hcrit : ∀ c : Change, c.path = P → isCritical c = true)
    (hstatus : "status" ≠ P)
    (hpass : ∀ (s : Store) (o : Oracle),
      (mutationPass s o).2.1.patients.map Prod.fst = s.patients.map Prod.fst
      ∧ (∀ c ∈ (mutationPass s o).1,
          c.path = P ∨ diverge (splitPath c.path) ["vitals", k] = true)
      ∧ ∀ id p, id ≠ "" → propGet s.patients id = some p →
          ∃ p2, propGet (mutationPass s o).2.1.patients id = some p2
            ∧ JVal.num (f p2.vitals)
              = (lastValue "patients" id P (mutationPass s o).1).getD (JVal.num (f p.vitals)))
    {sess sess2 : Session} {s s2 : Store} {o o2 : Oracle}
    (hmode : sess.connection.intervals = [Timer.hybrid])
    (hids : ∀ id ∈ s.patients.map Prod.fst, id ≠ "")
    (hagree : ∃ m, sess.mirror = some m ∧ ∀ id p, propGet s.patients id = some p →
      getPath m ["patients", id, "vitals", k] = some (.num (f p.vitals)))
    (htick : tickSession sess s o = .ok (sess2, s2, o2)) :
    (∃ m, sess2.mirror = some m ∧ ∀ id p, propGet s2.patients id = some p →
      getPath m ["patients", id, "vitals", k] = some (.num (f p.vitals)))
    ∧ sess2.connection.intervals = [Timer.hybrid]
    ∧ s2.patients.map Prod.fst = s.patients.map Prod.fst := by
  obtain ⟨m, hm, hreads⟩ := hagree
  obtain ⟨hkeys, hbeside, hval0⟩ := hpass s o
  have hnon : ∀ c ∈ (updateNonCriticalData (updateVitals s o).2.1 (updateVitals s o).2.2).1,
      c.path ≠ P := fun c hc e => hstatus ((updateNonCriticalData_path _ _ c hc).symm.trans e)
  have hlast : ∀ id, lastValue "patients" id P
      (hybridSelect sess.connection.client.hybridCycle (updateVitals s o).1
        (updateNonCriticalData (updateVitals s o).2.1 (updateVitals s o).2.2).1).1
      = lastValue "patients" id P (mutationPass s o).1 := fun id =>
    lastValue_hybridSelect "patients" id P _ _ _ hcrit hnon
  have hafter : ∀ id p2, propGet (mutationPass s o).2.1.patients id = some p2 →
      ∃ p, propGet s.patients id = some p
        ∧ JVal.num (f p2.vitals)
          = (lastValue "patients" id P (mutationPass s o).1).getD (JVal.num (f p.vitals)) := by
    intro id p2 hp2
    have hmem : id ∈ s.patients.map Prod.fst := by
      rw [← hkeys]; exact propGet_mem_keys hp2
    cases hp : propGet s.patients id with
    | none => exact absurd hmem (propGet_eq_none.mp hp)
    | some p =>
      obtain ⟨p3, hp3, hval⟩ := hval0 id p (hids id hmem) hp
      rw [hp2] at hp3
      simp only [Option.some.injEq] at hp3
      subst hp3
      exact ⟨p, rfl, hval⟩
  rw [tickSession_hybrid sess s o hmode, hybridTick_eq] at htick
  split at htick
  · -- an update is sent
    simp only [Option.toList, deliver] at htick
    rw [hm] at htick
    simp only [receive] at htick
    cases ht : m.truthy with
    | false =>
      simp only [ht, Bool.false_eq_true, if_false, Except.bind, Except.map,
        Except.ok.injEq, Prod.mk.injEq] at htick
      obtain ⟨hs, hst, _⟩ := htick
      subst hs hst
      refine ⟨⟨m, rfl, ?_⟩, hmode, hkeys⟩
      intro id p2 hp2
      obtain ⟨p, hp, _⟩ := hafter id p2 hp2
      have := hreads id p hp
      rw [getPath_cons, child_none_of_not_truthy ht] at this
      simp at this
    | true =>
      simp only [ht, if_true] at htick
      cases happly : applyDeltaUpdates m
          (changesToKeyValue
            (hybridSelect sess.connection.client.hybridCycle (updateVitals s o).1
              (updateNonCriticalData (updateVitals s o).2.1 (updateVitals s o).2.2).1).1)
          (updateNonCriticalData (updateVitals s o).2.1
            (updateVitals s o).2.2).2.2.nextISO.2.nextISO.1 with
      | error e => simp [happly, Except.map, Except.bind] at htick
      | ok m2 =>
        simp only [happly, Except.map, Except.bind, Except.ok.injEq, Prod.mk.injEq] at htick
        obtain ⟨hs, hst, _⟩ := htick
        subst hs hst
        refine ⟨⟨m2, rfl, ?_⟩, hmode, hkeys⟩
        intro id p2 hp2
        obtain ⟨p, hp, hval⟩ := hafter id p2 hp2
        have hread := @applyDeltaUpdates_read _ _ _ _ "patients" id
          P ["vitals", k] _ happly
          (changesToKeyValue_nodupKeys _) hsplit (by simp) (by decide)
          (by
            intro ents paths he hpth pv hpv
            obtain ⟨c, hc, _, _, hpath, _⟩ := changesToKeyValue_from
              (hybridSelect sess.connection.client.hybridCycle (updateVitals s o).1
                (updateNonCriticalData (updateVitals s o).2.1 (updateVitals s o).2.2).1).1
              "patients" ents id paths pv.1 pv.2 (propGet_mem he) (propGet_mem hpth) hpv
            rw [← hpath]
            exact hbeside c (hybridSelect_mem _ _ _ c hc))
          (hreads id p hp)
        rw [hread, get?_changesToKeyValue, hlast id, hval]
  · -- nothing is sent
    rename_i hlen
    have hnil : (hybridSelect sess.connection.client.hybridCycle (updateVitals s o).1
        (updateNonCriticalData (updateVitals s o).2.1 (updateVitals s o).2.2).1).1 = [] := by
      simpa [List.length_eq_zero] using hlen
    simp only [Option.toList, deliver, Except.map, Except.ok.injEq, Prod.mk.injEq] at htick
    obtain ⟨hs, hst, _⟩ := htick
    subst hs hst
    refine ⟨⟨m, hm, ?_⟩, hmode, hkeys⟩
    intro id p2 hp2
    obtain ⟨p, hp, hval⟩ := hafter id p2 hp2
    have h0 := hlast id
    rw [hnil] at h0
    rw [← h0] at hval
    simp only [lastValue, Option.getD_none] at hval
    rw [hval]
    exact hreads id p hp

theorem tickSession_hybrid_agrees {sess sess2 : Session} {s s2 : Store} {o o2 : Oracle}
    (hmode : sess.connection.intervals = [Timer.hybrid])
    (hids : ∀ id ∈ s.patients.map Prod.fst, id ≠ "")
    (hhr : agreesOnHeartRate sess.mirror s) (hsp : agreesOnSpo2 sess.mirror s)
    (htick : tickSession sess s o = .ok (sess2, s2, o2)) :
    agreesOnHeartRate sess2.mirror s2 ∧ agreesOnSpo2 sess2.mirror s2
    ∧ sess2.connection.intervals = [Timer.hybrid]
    ∧ s2.patients.map Prod.fst = s.patients.map Prod.fst := by
  have h1 := tickSession_hybrid_keeps "vitals.heartRate" "heartRate" (fun v => v.heartRate)
    (by decide) (fun c e => by simp [isCritical, e]) (by decide) mutationPass_heartRate
    hmode hids hhr htick
  have h2 := tickSession_hybrid_keeps "vitals.spo2" "spo2" (fun v => v.spo2)
    (by decide) (fun c e => by simp [isCritical, e]) (by decide) mutationPass_spo2
    hmode hids hsp htick
  exact ⟨h1.1, h2.1, h1.2.1, h1.2.2⟩

theorem runTicks_single_hybrid (n : Nat) :
    ∀ (clientId : String) (sess : Session) (s : Store) (o : Oracle)
      (sessions2 : List (String × Session)) (s2 : Store) (o2 : Oracle),
      sess.connection.intervals = [Timer.hybrid] →
      (∀ id ∈ s.patients.map Prod.fst, id ≠ "") →
      agreesOnHeartRate sess.mirror s → agreesOnSpo2 sess.mirror s →
      runTicks (List.replicate n clientId) [(clientId, sess)] s o = .ok (sessions2, s2, o2) →
      ∃ sess2, sessions2 = [(clientId, sess2)]
        ∧ agreesOnHeartRate sess2.mirror s2 ∧ agreesOnSpo2 sess2.mirror s2 := by
  induction n with
  | zero =>
    intro clientId sess s o sessions2 s2 o2 _ _ hhr hsp hrun
    simp only [List.replicate, runTicks, Except.ok.injEq, Prod.mk.injEq] at hrun
    obtain ⟨h1, h2, _⟩ := hrun
    subst h1 h2
    exact ⟨sess, rfl, hhr, hsp⟩
  | succ n ih =>
    intro clientId sess s o sessions2 s2 o2 hmode hids hhr hsp hrun
    simp only [List.replicate, runTicks] at hrun
    rw [tickOf_single] at hrun
    cases htick : tickSession sess s o with
    | error e => simp [htick, Except.map, Except.bind] at hrun
    | ok r =>
      obtain ⟨sess1, s1, o1⟩ := r
      simp only [htick, Except.map, Except.bind] at hrun
      obtain ⟨hhr1, hsp1, hmode1, hkeys1⟩ :=
        tickSession_hybrid_agrees hmode hids hhr hsp htick
      exact ih clientId sess1 s1 o1 sessions2 s2 o2 hmode1
        (by rw [hkeys1]; exact hids) hhr1 hsp1 hrun

/-- C28 (the critical vitals stay in sync in hybrid mode).  One connection whose timer is
the hybrid one ticks any number of times, whatever the phase it starts in, and its client
applies every `hybrid_update` it is sent, in arrival order, without an error.  If the
mirror agreed with the store on every patient's `vitals.heartRate` and `vitals.spo2`
before, the patient ids being non-empty strings, it agrees with the store on both after
the ticks. -/
theorem C28_critical_vitals_in_sync_in_hybrid_mode
    (clientId : String) (sess : Session) (s : Store) (o : Oracle) (n : Nat)
    (hmode : sess.connection.intervals = [Timer.hybrid])
    (hids : ∀ id ∈ s.patients.map Prod.fst, id ≠ "")
    (hhr : agreesOnHeartRate sess.mirror s) (hsp : agreesOnSpo2 sess.mirror s)
    (sessions2 : List (String × Session)) (s2 : Store) (o2 : Oracle)
    (hrun : runTicks (List.replicate n clientId) [(clientId, sess)] s o
      = .ok (sessions2, s2, o2)) :
    ∃ sess2, sessions2 = [(clientId, sess2)]
      ∧ agreesOnHeartRate sess2.mirror s2 ∧ agreesOnSpo2 sess2.mirror s2 :=
  runTicks_single_hybrid n clientId sess s o sessions2 s2 o2 hmode hids hhr hsp hrun

theorem agreesOnHeartRate_hybridSession :
    agreesOnHeartRate hybridSession.mirror sampleStore := agreesOnHeartRate_sample

theorem agreesOnSpo2_hybridSession :
    agreesOnSpo2 hybridSession.mirror sampleStore := by
  refine ⟨_, rfl, ?_⟩
  intro id p hp
  simp only [sampleStore, propGet] at hp
  split at hp
  · rename_i h
    subst h
    simp only [Option.some.injEq] at hp
    subst hp
    decide
  · split at hp
    · rename_i h
      subst h
      simp only [Option.some.injEq] at hp
      subst hp
      decide
    · split at hp
      · rename_i h
        subst h
        simp only [Option.some.injEq] at hp
        subst hp
        decide
      · simp at hp

set_option maxRecDepth 100000 in
/-- C28 at three ticks of a lone hybrid-mode connection on `sampleStore`: a full cycle, a
critical cycle and a full cycle, in which `P001`'s heart rate and SpO2 move. -/
theorem C28_critical_vitals_in_sync_witness :
    ∃ sessions2 s2 o2,
      runTicks (List.replicate 3 "A") [("A", hybridSession)] sampleStore hybridOracle
        = .ok (sessions2, s2, o2)
      ∧ ∃ sess2, sessions2 = [("A", sess2)]
        ∧ agreesOnHeartRate sess2.mirror s2 ∧ agreesOnSpo2 sess2.mirror s2 :=
  match except_ok_of_isOk
      (runTicks (List.replicate 3 "A") [("A", hybridSession)] sampleStore hybridOracle)
      (by decide!) with
  | ⟨(sessions2, s2, o2), hrun⟩ =>
    ⟨sessions2, s2, o2, hrun,
      C28_critical_vitals_in_sync_in_hybrid_mode "A" hybridSession
        sampleStore hybridOracle 3 rfl (by decide) agreesOnHeartRate_hybridSession
        agreesOnSpo2_hybridSession sessions2 s2 o2 hrun⟩
end DeltaTest
